import Mathlib

/-!
# forgor-server: validation and chain-integrity engine

A shallow embedding of the Go sources under `internal/` (packages `cbe`,
`crypto`, `models`, `apierror`, `storage`, `validation`, `httpapi`) together
with theorems about the validators and the write handlers.

Conventions of the embedding:

* `[]byte` is `Bytes = List (Fin 256)`; `uint64` values are `Nat`, and the
  places where Go arithmetic wraps carry an explicit `% 2 ^ 64`.
* A 16-byte `models.UUID` array is a list of bytes together with the proof
  that it has 16 elements.
* Go strings that reach the code through JSON are Lean `String`s; `len(s)` is
  the UTF-8 byte size.
* SHA-256 is the real function (FIPS 180-4).  ed25519 verification and the
  X25519 function come from libraries outside the repository and are
  parameters (`CryptoLib`).
* The relational store is a record of tables (lists of rows, oldest first).
  Queries are total on such a state; the `err != nil` branches of the
  repositories are kept in the result type (`Except StorageError`).
* `time.Now()` is an explicit argument `now`.
-/

namespace Forgor

/-! ## Bytes -/

abbrev Byte := Fin 256

abbrev Bytes := List Byte

/-- The low eight bits of a natural number, as a byte. -/
def byteOf (n : Nat) : Byte := ⟨n % 256, Nat.mod_lt n (by decide)⟩

/-- Go `make([]byte, n)`: `n` zero bytes. -/
def zeroBytes (n : Nat) : Bytes := List.replicate n 0

/-- Bytes of a Go string (its UTF-8 encoding). -/
def stringBytes (s : String) : Bytes :=
  (s.data.flatMap String.utf8EncodeChar).map (fun u => byteOf u.toNat)

/-- Go `len(s)` for a string: the number of bytes. -/
def goLen (s : String) : Nat := s.utf8ByteSize

/-! ## encoding/hex (Go standard library) -/

/-- Lower-case hexadecimal digit of a value below 16 (`hextable`). -/
def hexDigit (n : Nat) : Char :=
  if n < 10 then Char.ofNat (48 + n) else Char.ofNat (87 + n)

/-- Go `hex.EncodeToString`. -/
def hexEncode (b : Bytes) : String :=
  String.mk (b.flatMap (fun x => [hexDigit (x.val / 16), hexDigit (x.val % 16)]))

/-- Value of a hexadecimal digit; Go's `reverseHexTable` accepts `0-9`, `a-f`
and `A-F`. -/
def hexVal (c : Char) : Option Nat :=
  let n := c.toNat
  if 48 ≤ n ∧ n ≤ 57 then some (n - 48)
  else if 97 ≤ n ∧ n ≤ 102 then some (n - 87)
  else if 65 ≤ n ∧ n ≤ 70 then some (n - 55)
  else none

/-- Go `hex.Decode` on the characters of the string: pairs of digits, an odd
length or a non-digit is an error. -/
def hexDecodeChars : List Char → Option Bytes
  | [] => some []
  | [_] => none
  | p :: q :: rest =>
    match hexVal p, hexVal q with
    | some a, some b =>
      match hexDecodeChars rest with
      | some tl => some (byteOf (a * 16 + b) :: tl)
      | none => none
    | _, _ => none

/-- Go `hex.DecodeString`. -/
def hexDecodeString (s : String) : Except String Bytes :=
  match hexDecodeChars s.data with
  | some b => .ok b
  | none => .error "encoding/hex: invalid byte or odd length hex string"

/-! ## crypto/sha256 (FIPS 180-4) -/

namespace Sha256

/-- Addition modulo 2^32. -/
def add32 (x y : Nat) : Nat := (x + y) % 4294967296

/-- Rotate a 32-bit word right by `n` bits. -/
def rotr (x n : Nat) : Nat := ((x >>> n) ||| (x <<< (32 - n))) % 4294967296

def K : List Nat := [
  0x428a2f98, 0x71374491, 0xb5c0fbcf, 0xe9b5dba5, 0x3956c25b, 0x59f111f1, 0x923f82a4, 0xab1c5ed5,
  0xd807aa98, 0x12835b01, 0x243185be, 0x550c7dc3, 0x72be5d74, 0x80deb1fe, 0x9bdc06a7, 0xc19bf174,
  0xe49b69c1, 0xefbe4786, 0x0fc19dc6, 0x240ca1cc, 0x2de92c6f, 0x4a7484aa, 0x5cb0a9dc, 0x76f988da,
  0x983e5152, 0xa831c66d, 0xb00327c8, 0xbf597fc7, 0xc6e00bf3, 0xd5a79147, 0x06ca6351, 0x14292967,
  0x27b70a85, 0x2e1b2138, 0x4d2c6dfc, 0x53380d13, 0x650a7354, 0x766a0abb, 0x81c2c92e, 0x92722c85,
  0xa2bfe8a1, 0xa81a664b, 0xc24b8b70, 0xc76c51a3, 0xd192e819, 0xd6990624, 0xf40e3585, 0x106aa070,
  0x19a4c116, 0x1e376c08, 0x2748774c, 0x34b0bcb5, 0x391c0cb3, 0x4ed8aa4a, 0x5b9cca4f, 0x682e6ff3,
  0x748f82ee, 0x78a5636f, 0x84c87814, 0x8cc70208, 0x90befffa, 0xa4506ceb, 0xbef9a3f7, 0xc67178f2]

/-- The eight working variables / chaining values. -/
structure State where
  a : Nat
  b : Nat
  c : Nat
  d : Nat
  e : Nat
  f : Nat
  g : Nat
  h : Nat

def init : State :=
  { a := 0x6a09e667, b := 0xbb67ae85, c := 0x3c6ef372, d := 0xa54ff53a,
    e := 0x510e527f, f := 0x9b05688c, g := 0x1f83d9ab, h := 0x5be0cd19 }

/-- Message padding: 0x80, zeros up to 56 mod 64, then the bit length on 8 bytes. -/
def pad (m : List Nat) : List Nat :=
  let l := m.length
  let bits := 8 * l
  m ++ [0x80] ++ List.replicate ((119 - l % 64) % 64) 0 ++
    (List.range 8).reverse.map (fun i => (bits >>> (8 * i)) % 256)

/-- Big-endian value of a list of bytes. -/
def word (b : List Nat) : Nat := b.foldl (fun acc x => acc * 256 + x) 0

/-- The first `k` consecutive chunks of `n` elements. -/
def chunks (n : Nat) : Nat → List Nat → List (List Nat)
  | 0, _ => []
  | k + 1, l => l.take n :: chunks n k (l.drop n)

/-- Message schedule: extends the 16 block words to 64.  The words are kept
newest first while they are computed, so that `w[i-2]`, `w[i-7]`, `w[i-15]` and
`w[i-16]` sit at fixed positions. -/
def schedule (w : List Nat) : List Nat :=
  ((List.range 48).foldl (fun rw _ =>
    let w15 := rw.getD 14 0
    let w2 := rw.getD 1 0
    let s0 := rotr w15 7 ^^^ rotr w15 18 ^^^ (w15 >>> 3)
    let s1 := rotr w2 17 ^^^ rotr w2 19 ^^^ (w2 >>> 10)
    add32 (add32 (rw.getD 15 0) s0) (add32 (rw.getD 6 0) s1) :: rw) w.reverse).reverse

/-- One round of the compression function. -/
def step (st : State) (kw : Nat × Nat) : State :=
  let s1 := rotr st.e 6 ^^^ rotr st.e 11 ^^^ rotr st.e 25
  let ch := (st.e &&& st.f) ^^^ ((4294967295 - st.e) &&& st.g)
  let t1 := add32 (add32 (add32 st.h s1) (add32 ch kw.1)) kw.2
  let s0 := rotr st.a 2 ^^^ rotr st.a 13 ^^^ rotr st.a 22
  let mj := (st.a &&& st.b) ^^^ (st.a &&& st.c) ^^^ (st.b &&& st.c)
  let t2 := add32 s0 mj
  { a := add32 t1 t2, b := st.a, c := st.b, d := st.c,
    e := add32 st.d t1, f := st.e, g := st.f, h := st.g }

/-- Compression of one 64-byte block into the chaining value. -/
def compress (st : State) (block : List Nat) : State :=
  let w := schedule ((chunks 4 16 block).map word)
  let r := (K.zip w).foldl step st
  { a := add32 st.a r.a, b := add32 st.b r.b, c := add32 st.c r.c, d := add32 st.d r.d,
    e := add32 st.e r.e, f := add32 st.f r.f, g := add32 st.g r.g, h := add32 st.h r.h }

/-- Big-endian bytes of a 32-bit word. -/
def be32 (v : Nat) : Bytes :=
  [byteOf (v >>> 24), byteOf (v >>> 16), byteOf (v >>> 8), byteOf v]

/-- Go `sha256.Sum256`. -/
def sum256 (m : Bytes) : Bytes :=
  let p := pad (m.map Fin.val)
  let st := (chunks 64 (p.length / 64) p).foldl compress init
  be32 st.a ++ be32 st.b ++ be32 st.c ++ be32 st.d ++
    be32 st.e ++ be32 st.f ++ be32 st.g ++ be32 st.h

end Sha256

/-! ## crypto/ed25519 (Go standard library) and x/crypto/curve25519 -/

/-- The primitives taken from libraries outside the repository:
`ed25519.Verify(pubkey, message, signature)` of the Go standard library and
`curve25519.X25519(scalar, point)` of `golang.org/x/crypto`, which returns the
product or an error. -/
structure CryptoLib where
  ed25519Verify : Bytes → Bytes → Bytes → Bool
  x25519 : Bytes → Bytes → Except String Bytes

/-! ## internal/models -/

def MaxEventCiphertext : Nat := 65536
def MaxSnapshotCiphertext : Nat := 8388608
def MaxWrappedPayload : Nat := 1024
def MaxMapLength : Nat := 1024
def NonceLength : Nat := 24
def HashLength : Nat := 32
def SignatureLength : Nat := 64
def PublicKeyLength : Nat := 32
def DeviceIDLength : Nat := 64

/-- A `models.UUID`: an array of exactly 16 bytes. -/
abbrev UUID := { b : Bytes // b.length = 16 }

/-- Go `UUID.Bytes`. -/
def UUID.Bytes (u : UUID) : Bytes := u.val

/-- Go `models.ZeroUUID`. -/
def ZeroUUID : UUID := ⟨zeroBytes 16, by decide⟩

/-- Go `models.Zero32`. -/
def Zero32 : Bytes := zeroBytes 32

/-- Go `models.Zero64`. -/
def Zero64 : Bytes := zeroBytes 64

/-- A `models.DeviceID`: a string. -/
abbrev DeviceID := String

/-- Go `DeviceID.Validate`: 64 bytes long and decodable as hexadecimal. -/
def DeviceID.Validate (d : DeviceID) : Except String Unit :=
  if goLen d != 64 then .error "device_id must be 64 hex characters"
  else
    match hexDecodeString d with
    | .ok _ => .ok ()
    | .error err => .error err

structure Event where
  MsgType : String
  EventID : UUID
  VaultID : UUID
  DeviceID : DeviceID
  Counter : Nat
  Lamport : Nat
  KeyEpoch : Nat
  PrevHash : Bytes
  Nonce : Bytes
  Ciphertext : Bytes
  Signature : Bytes
  Seq : Nat
  CreatedAt : String
deriving DecidableEq, Repr

structure MemberEvent where
  MsgType : String
  MemberEventID : UUID
  VaultID : UUID
  MemberSeq : Nat
  PrevHash : Bytes
  ActorDeviceID : DeviceID
  SubjectDeviceID : DeviceID
  SubjectPubkeySign : Bytes
  SubjectPubkeyBox : Bytes
  SubjectBundleSig : Bytes
  InviteID : UUID
  ClaimSig : Bytes
  Signature : Bytes
  CreatedAt : String
deriving DecidableEq, Repr

structure Invite where
  MsgType : String
  InviteID : UUID
  VaultID : UUID
  TargetDeviceID : DeviceID
  TargetDevicePubkeySign : Bytes
  TargetDevicePubkeyBox : Bytes
  TargetDeviceBundleSig : Bytes
  Nonce : Bytes
  WrappedPayload : Bytes
  CreatedByDeviceID : DeviceID
  SingleUse : Bool
  Signature : Bytes
  CreatedAt : String
deriving DecidableEq, Repr

structure KeyUpdate where
  MsgType : String
  KeyUpdateID : UUID
  VaultID : UUID
  MemberSeq : Nat
  MemberHeadHash : Bytes
  TargetDeviceID : DeviceID
  KeyEpoch : Nat
  Nonce : Bytes
  WrappedPayload : Bytes
  CreatedByDeviceID : DeviceID
  Signature : Bytes
  CreatedAt : String
deriving DecidableEq, Repr

structure Snapshot where
  MsgType : String
  SnapshotID : UUID
  VaultID : UUID
  BaseSeq : Nat
  MemberSeq : Nat
  MemberHeadHash : Bytes
  BaseCounterMap : Bytes
  HeadHashMap : Bytes
  LamportAtSnapshot : Nat
  KeyEpoch : Nat
  Nonce : Bytes
  Ciphertext : Bytes
  Signature : Bytes
  CreatedByDeviceID : DeviceID
  CreatedAt : String
deriving DecidableEq, Repr

structure EventResponse where
  Seq : Nat
deriving DecidableEq, Repr

structure DeviceBundle where
  DeviceID : DeviceID
  DevicePubkeySign : Bytes
  DevicePubkeyBox : Bytes
  DeviceBundleSig : Bytes
deriving DecidableEq, Repr

structure InviteClaim where
  MsgType : String
  InviteID : UUID
  VaultID : UUID
  DeviceID : DeviceID
  Signature : Bytes
  CreatedAt : String
deriving DecidableEq, Repr

structure KeyUpdateAck where
  MsgType : String
  VaultID : UUID
  DeviceID : DeviceID
  KeyEpoch : Nat
  MemberSeq : Nat
  MemberHeadHash : Bytes
  Signature : Bytes
  CreatedAt : String
deriving DecidableEq, Repr

/-! ## internal/apierror -/

structure APIError where
  StatusCode : Nat
  Code : String
  Message : String
deriving DecidableEq, Repr

def BadRequest (code message : String) : APIError :=
  { StatusCode := 400, Code := code, Message := message }

def Forbidden (message : String) : APIError :=
  { StatusCode := 403, Code := "forbidden", Message := message }

def NotFound (resource : String) : APIError :=
  { StatusCode := 404, Code := "not_found", Message := resource ++ " not found" }

def Conflict (message : String) : APIError :=
  { StatusCode := 409, Code := "conflict", Message := message }

def InternalError : APIError :=
  { StatusCode := 500, Code := "internal_error", Message := "An internal error occurred" }

def PayloadTooLarge (message : String) : APIError :=
  { StatusCode := 413, Code := "payload_too_large", Message := message }

def TooManyRequests (message : String) : APIError :=
  { StatusCode := 429, Code := "rate_limit_exceeded", Message := message }

def InvalidDeviceID : APIError :=
  BadRequest "invalid_device_id" "device_id must be 64 lowercase hex characters"

def InvalidSignature : APIError :=
  BadRequest "invalid_signature" "signature verification failed"

def InvalidNonce : APIError :=
  BadRequest "invalid_nonce" "nonce must be 24 bytes"

def InvalidHash : APIError :=
  BadRequest "invalid_hash" "hash must be 32 bytes"

def InvalidPublicKey : APIError :=
  BadRequest "invalid_public_key" "public key must be 32 bytes"

def InvalidUUID (field : String) : APIError :=
  BadRequest "invalid_uuid" ("invalid UUID for field: " ++ field)

def MembershipRequired : APIError :=
  Forbidden "device is not a member of this vault"

def OwnerRequired : APIError :=
  Forbidden "only the vault owner can perform this action"

def InviteAlreadyUsed : APIError :=
  Conflict "invite has already been used"

def DuplicateDevice : APIError :=
  Conflict "device already registered with different keys"

def EventChainBroken : APIError :=
  BadRequest "event_chain_broken" "event counter or prev_hash does not match expected chain"

def MembershipChainBroken : APIError :=
  BadRequest "membership_chain_broken" "member_seq or prev_hash does not match expected chain"

/-! ## internal/cbe: the canonical byte encoder -/

/-- Big-endian bytes of a `uint32` (`binary.BigEndian.PutUint32`). -/
def be32 (v : Nat) : Bytes :=
  [byteOf (v >>> 24), byteOf (v >>> 16), byteOf (v >>> 8), byteOf v]

/-- Big-endian bytes of a `uint64` (`binary.BigEndian.PutUint64`). -/
def be64 (v : Nat) : Bytes :=
  [byteOf (v >>> 56), byteOf (v >>> 48), byteOf (v >>> 40), byteOf (v >>> 32),
   byteOf (v >>> 24), byteOf (v >>> 16), byteOf (v >>> 8), byteOf v]

/-- The encoder: a byte buffer that only grows. -/
structure Encoder where
  buf : List Byte
deriving DecidableEq, Repr

def NewEncoder : Encoder := { buf := [] }

def Encoder.WriteU8 (e : Encoder) (v : Nat) : Encoder :=
  { buf := e.buf ++ [byteOf v] }

def Encoder.WriteU32 (e : Encoder) (v : Nat) : Encoder :=
  { buf := e.buf ++ be32 v }

def Encoder.WriteU64 (e : Encoder) (v : Nat) : Encoder :=
  { buf := e.buf ++ be64 v }

def Encoder.WriteFixedBytes (e : Encoder) (b : List Byte) (expectedLen : Nat) :
    Except String Encoder :=
  if b.length != expectedLen then
    .error ("expected " ++ toString expectedLen ++ " bytes, got " ++ toString b.length)
  else .ok { buf := e.buf ++ b }

def Encoder.WriteBytes (e : Encoder) (b : List Byte) : Encoder :=
  { buf := (e.WriteU32 b.length).buf ++ b }

def Encoder.WriteString (e : Encoder) (s : String) : Encoder :=
  { buf := (e.WriteU32 (goLen s)).buf ++ stringBytes s }

def Encoder.WriteBool (e : Encoder) (v : Bool) : Encoder :=
  if v then { buf := e.buf ++ [1] } else { buf := e.buf ++ [0] }

def Encoder.WriteUUID (e : Encoder) (uuid : List Byte) : Except String Encoder :=
  e.WriteFixedBytes uuid 16

def Encoder.WriteDeviceID (e : Encoder) (deviceID : List Byte) : Except String Encoder :=
  e.WriteFixedBytes deviceID 32

def Encoder.WriteHash (e : Encoder) (hash : List Byte) : Except String Encoder :=
  e.WriteFixedBytes hash 32

def Encoder.WriteSignature (e : Encoder) (sig : List Byte) : Except String Encoder :=
  e.WriteFixedBytes sig 64

def Encoder.WriteNonce (e : Encoder) (nonce : List Byte) : Except String Encoder :=
  e.WriteFixedBytes nonce 24

def Encoder.WritePublicKey (e : Encoder) (key : List Byte) : Except String Encoder :=
  e.WriteFixedBytes key 32

def Encoder.Bytes (e : Encoder) : List Byte := e.buf

/-- Go `fmt.Errorf("<field>: %w", err)` around a fallible write. -/
def wrapField (field : String) (r : Except String Encoder) : Except String Encoder :=
  match r with
  | .ok e => .ok e
  | .error msg => .error (field ++ ": " ++ msg)

def SignPrefix : String := "forgor-sync-v1"

def SignBytesDeviceBundle (deviceID pubkeySign pubkeyBox : Bytes) : Except String Bytes := do
  let e := NewEncoder
  let e := e.WriteString SignPrefix
  let e := e.WriteString "device_bundle"
  let e ← wrapField "device_id" (e.WriteDeviceID deviceID)
  let e ← wrapField "pubkey_sign" (e.WritePublicKey pubkeySign)
  let e ← wrapField "pubkey_box" (e.WritePublicKey pubkeyBox)
  pure e.Bytes

def SignBytesEvent (eventID vaultID deviceID : Bytes) (counter lamport keyEpoch : Nat)
    (prevHash nonce ciphertext : Bytes) : Except String Bytes := do
  let e := NewEncoder
  let e := e.WriteString SignPrefix
  let e := e.WriteString "event"
  let e ← wrapField "event_id" (e.WriteUUID eventID)
  let e ← wrapField "vault_id" (e.WriteUUID vaultID)
  let e ← wrapField "device_id" (e.WriteDeviceID deviceID)
  let e := e.WriteU64 counter
  let e := e.WriteU64 lamport
  let e := e.WriteU64 keyEpoch
  let e ← wrapField "prev_hash" (e.WriteHash prevHash)
  let e ← wrapField "nonce" (e.WriteNonce nonce)
  let e := e.WriteBytes ciphertext
  pure e.Bytes

def SignBytesMemberAdd (memberEventID vaultID : Bytes) (memberSeq : Nat)
    (prevHash actorDeviceID subjectDeviceID inviteID claimSig subjectBundleSig
      subjectPubkeySign subjectPubkeyBox : Bytes) : Except String Bytes := do
  let e := NewEncoder
  let e := e.WriteString SignPrefix
  let e := e.WriteString "member_add"
  let e ← wrapField "member_event_id" (e.WriteUUID memberEventID)
  let e ← wrapField "vault_id" (e.WriteUUID vaultID)
  let e := e.WriteU64 memberSeq
  let e ← wrapField "prev_hash" (e.WriteHash prevHash)
  let e ← wrapField "actor_device_id" (e.WriteDeviceID actorDeviceID)
  let e ← wrapField "subject_device_id" (e.WriteDeviceID subjectDeviceID)
  let e ← wrapField "invite_id" (e.WriteUUID inviteID)
  let e ← wrapField "claim_sig" (e.WriteSignature claimSig)
  let e ← wrapField "subject_bundle_sig" (e.WriteSignature subjectBundleSig)
  let e ← wrapField "subject_pubkey_sign" (e.WritePublicKey subjectPubkeySign)
  let e ← wrapField "subject_pubkey_box" (e.WritePublicKey subjectPubkeyBox)
  pure e.Bytes

def SignBytesMemberRemove (memberEventID vaultID : Bytes) (memberSeq : Nat)
    (prevHash actorDeviceID subjectDeviceID : Bytes) : Except String Bytes := do
  let zero16 := zeroBytes 16
  let zero32 := zeroBytes 32
  let zero64 := zeroBytes 64
  let e := NewEncoder
  let e := e.WriteString SignPrefix
  let e := e.WriteString "member_remove"
  let e ← wrapField "member_event_id" (e.WriteUUID memberEventID)
  let e ← wrapField "vault_id" (e.WriteUUID vaultID)
  let e := e.WriteU64 memberSeq
  let e ← wrapField "prev_hash" (e.WriteHash prevHash)
  let e ← wrapField "actor_device_id" (e.WriteDeviceID actorDeviceID)
  let e ← wrapField "subject_device_id" (e.WriteDeviceID subjectDeviceID)
  let e ← wrapField "zero_uuid" (e.WriteUUID zero16)
  let e ← wrapField "zero_claim_sig" (e.WriteSignature zero64)
  let e ← wrapField "zero_bundle_sig" (e.WriteSignature zero64)
  let e ← wrapField "zero_pubkey_sign" (e.WritePublicKey zero32)
  let e ← wrapField "zero_pubkey_box" (e.WritePublicKey zero32)
  pure e.Bytes

def SignBytesInvite (inviteID vaultID targetDeviceID targetPubkeySign targetPubkeyBox
    targetBundleSig nonce wrappedPayload createdByDeviceID : Bytes) (singleUse : Bool) :
    Except String Bytes := do
  let e := NewEncoder
  let e := e.WriteString SignPrefix
  let e := e.WriteString "invite"
  let e ← wrapField "invite_id" (e.WriteUUID inviteID)
  let e ← wrapField "vault_id" (e.WriteUUID vaultID)
  let e ← wrapField "target_device_id" (e.WriteDeviceID targetDeviceID)
  let e ← wrapField "target_pubkey_sign" (e.WritePublicKey targetPubkeySign)
  let e ← wrapField "target_pubkey_box" (e.WritePublicKey targetPubkeyBox)
  let e ← wrapField "target_bundle_sig" (e.WriteSignature targetBundleSig)
  let e ← wrapField "nonce" (e.WriteNonce nonce)
  let e := e.WriteBytes wrappedPayload
  let e ← wrapField "created_by_device_id" (e.WriteDeviceID createdByDeviceID)
  let e := e.WriteBool singleUse
  pure e.Bytes

def SignBytesInviteClaim (inviteID vaultID deviceID : Bytes) : Except String Bytes := do
  let e := NewEncoder
  let e := e.WriteString SignPrefix
  let e := e.WriteString "invite_claim"
  let e ← wrapField "invite_id" (e.WriteUUID inviteID)
  let e ← wrapField "vault_id" (e.WriteUUID vaultID)
  let e ← wrapField "device_id" (e.WriteDeviceID deviceID)
  pure e.Bytes

def SignBytesKeyUpdate (keyUpdateID vaultID : Bytes) (memberSeq : Nat)
    (memberHeadHash targetDeviceID : Bytes) (keyEpoch : Nat)
    (nonce wrappedPayload createdByDeviceID : Bytes) : Except String Bytes := do
  let e := NewEncoder
  let e := e.WriteString SignPrefix
  let e := e.WriteString "key_update"
  let e ← wrapField "key_update_id" (e.WriteUUID keyUpdateID)
  let e ← wrapField "vault_id" (e.WriteUUID vaultID)
  let e := e.WriteU64 memberSeq
  let e ← wrapField "member_head_hash" (e.WriteHash memberHeadHash)
  let e ← wrapField "target_device_id" (e.WriteDeviceID targetDeviceID)
  let e := e.WriteU64 keyEpoch
  let e ← wrapField "nonce" (e.WriteNonce nonce)
  let e := e.WriteBytes wrappedPayload
  let e ← wrapField "created_by_device_id" (e.WriteDeviceID createdByDeviceID)
  pure e.Bytes

def SignBytesKeyUpdateAck (vaultID deviceID : Bytes) (keyEpoch memberSeq : Nat)
    (memberHeadHash : Bytes) : Except String Bytes := do
  let e := NewEncoder
  let e := e.WriteString SignPrefix
  let e := e.WriteString "key_update_ack"
  let e ← wrapField "vault_id" (e.WriteUUID vaultID)
  let e ← wrapField "device_id" (e.WriteDeviceID deviceID)
  let e := e.WriteU64 keyEpoch
  let e := e.WriteU64 memberSeq
  let e ← wrapField "member_head_hash" (e.WriteHash memberHeadHash)
  pure e.Bytes

def SignBytesSnapshot (snapshotID vaultID : Bytes) (baseSeq memberSeq : Nat)
    (memberHeadHash baseCounterMap headHashMap : Bytes) (lamportAtSnapshot keyEpoch : Nat)
    (nonce ciphertext createdByDeviceID : Bytes) : Except String Bytes := do
  let e := NewEncoder
  let e := e.WriteString SignPrefix
  let e := e.WriteString "snapshot"
  let e ← wrapField "snapshot_id" (e.WriteUUID snapshotID)
  let e ← wrapField "vault_id" (e.WriteUUID vaultID)
  let e := e.WriteU64 baseSeq
  let e := e.WriteU64 memberSeq
  let e ← wrapField "member_head_hash" (e.WriteHash memberHeadHash)
  let e := e.WriteBytes baseCounterMap
  let e := e.WriteBytes headHashMap
  let e := e.WriteU64 lamportAtSnapshot
  let e := e.WriteU64 keyEpoch
  let e ← wrapField "nonce" (e.WriteNonce nonce)
  let e := e.WriteBytes ciphertext
  let e ← wrapField "created_by_device_id" (e.WriteDeviceID createdByDeviceID)
  pure e.Bytes

/-! ## internal/crypto -/

/-- Go `ed25519.PublicKeySize`. -/
def ed25519PublicKeySize : Nat := 32

/-- Go `ed25519.SignatureSize`. -/
def ed25519SignatureSize : Nat := 64

def SHA256Hash (data : Bytes) : Bytes := Sha256.sum256 data

def ComputeDeviceID (pubkeySign : Bytes) : Except String String :=
  if pubkeySign.length != ed25519PublicKeySize then
    .error ("pubkey_sign must be " ++ toString ed25519PublicKeySize ++ " bytes")
  else .ok (hexEncode (Sha256.sum256 pubkeySign))

def ComputeDeviceIDBytes (pubkeySign : Bytes) : Except String Bytes :=
  if pubkeySign.length != ed25519PublicKeySize then
    .error ("pubkey_sign must be " ++ toString ed25519PublicKeySize ++ " bytes")
  else .ok (Sha256.sum256 pubkeySign)

/-- Go `crypto.VerifyDeviceID`.  `subtle.ConstantTimeCompare` of the bytes of
two strings is 1 exactly when the strings are equal. -/
def VerifyDeviceID (deviceIDHex : String) (pubkeySign : Bytes) : Except String Unit :=
  match ComputeDeviceID pubkeySign with
  | .error err => .error err
  | .ok expected =>
    if deviceIDHex != expected then .error "device_id does not match pubkey_sign hash"
    else .ok ()

def VerifySignature (lib : CryptoLib) (pubkey message signature : Bytes) : Except String Unit :=
  if pubkey.length != ed25519PublicKeySize then
    .error ("public key must be " ++ toString ed25519PublicKeySize ++ " bytes")
  else if signature.length != ed25519SignatureSize then
    .error ("signature must be " ++ toString ed25519SignatureSize ++ " bytes")
  else if !lib.ed25519Verify pubkey message signature then
    .error "signature verification failed"
  else .ok ()

def DeviceIDToBytes (deviceIDHex : String) : Except String Bytes :=
  if goLen deviceIDHex != 64 then .error "device_id must be 64 hex characters"
  else hexDecodeString deviceIDHex

/-- The table `smallOrderPoints` of `ValidateX25519PublicKey`: seven points of
32 bytes, each written here as four groups of eight bytes. -/
def smallOrderPoints : List Bytes := [
  [0, 0, 0, 0, 0, 0, 0, 0] ++ [0, 0, 0, 0, 0, 0, 0, 0] ++
    [0, 0, 0, 0, 0, 0, 0, 0] ++ [0, 0, 0, 0, 0, 0, 0, 0],
  [1, 0, 0, 0, 0, 0, 0, 0] ++ [0, 0, 0, 0, 0, 0, 0, 0] ++
    [0, 0, 0, 0, 0, 0, 0, 0] ++ [0, 0, 0, 0, 0, 0, 0, 0],
  [0xe0, 0xeb, 0x7a, 0x7c, 0x3b, 0x41, 0xb8, 0xae] ++
    [0x16, 0x56, 0xe3, 0xfa, 0xf1, 0x9f, 0xc4, 0x6a] ++
    [0xda, 0x09, 0x8d, 0xeb, 0x9c, 0x32, 0xb1, 0xfd] ++
    [0x86, 0x62, 0x05, 0x16, 0x5f, 0x49, 0xb8, 0x00],
  [0x5f, 0x9c, 0x95, 0xbc, 0xa3, 0x50, 0x8c, 0x24] ++
    [0xb1, 0xd0, 0xb1, 0x55, 0x9c, 0x83, 0xef, 0x5b] ++
    [0x04, 0x44, 0x5c, 0xc4, 0x58, 0x1c, 0x8e, 0x86] ++
    [0xd8, 0x22, 0x4e, 0xdd, 0xd0, 0x9f, 0x11, 0x57],
  [0xec, 0xff, 0xff, 0xff, 0xff, 0xff, 0xff, 0xff] ++
    [0xff, 0xff, 0xff, 0xff, 0xff, 0xff, 0xff, 0xff] ++
    [0xff, 0xff, 0xff, 0xff, 0xff, 0xff, 0xff, 0xff] ++
    [0xff, 0xff, 0xff, 0xff, 0xff, 0xff, 0xff, 0x7f],
  [0xed, 0xff, 0xff, 0xff, 0xff, 0xff, 0xff, 0xff] ++
    [0xff, 0xff, 0xff, 0xff, 0xff, 0xff, 0xff, 0xff] ++
    [0xff, 0xff, 0xff, 0xff, 0xff, 0xff, 0xff, 0xff] ++
    [0xff, 0xff, 0xff, 0xff, 0xff, 0xff, 0xff, 0x7f],
  [0xee, 0xff, 0xff, 0xff, 0xff, 0xff, 0xff, 0xff] ++
    [0xff, 0xff, 0xff, 0xff, 0xff, 0xff, 0xff, 0xff] ++
    [0xff, 0xff, 0xff, 0xff, 0xff, 0xff, 0xff, 0xff] ++
    [0xff, 0xff, 0xff, 0xff, 0xff, 0xff, 0xff, 0x7f]]

/-- Go `crypto.ValidateX25519PublicKey`.  `subtle.ConstantTimeCompare(x, y)`
is 1 exactly when the two slices are equal; the loop over the table returns at
the first point equal to the key.  `testScalar` is the byte 1 followed by 31
zero bytes. -/
def ValidateX25519PublicKey (lib : CryptoLib) (pubkey : Bytes) : Except String Unit :=
  if pubkey.length != 32 then .error "X25519 public key must be 32 bytes"
  else if smallOrderPoints.any (fun point => pubkey == point) then
    .error "X25519 public key is a small-order point"
  else
    let testScalar : Bytes := 1 :: zeroBytes 31
    match lib.x25519 testScalar pubkey with
    | .error err => .error ("X25519 computation failed: " ++ err)
    | .ok result =>
      if result.all (fun b => b == 0) then
        .error "X25519 public key produces all-zero shared secret"
      else .ok ()

/-! ## internal/storage: rows and the store -/

structure DeviceRow where
  DeviceID : String
  DevicePubkeySign : Bytes
  DevicePubkeyBox : Bytes
  DeviceBundleSig : Bytes
  CreatedAt : String
deriving DecidableEq, Repr

structure VaultRow where
  VaultID : Bytes
  OwnerDeviceID : String
  CreatedAt : String
  UpdatedAt : String
deriving DecidableEq, Repr

structure VaultMembershipHead where
  VaultID : Bytes
  MemberSeq : Nat
  MemberHeadHash : Bytes
deriving DecidableEq, Repr

structure VaultMemberRow where
  VaultID : Bytes
  DeviceID : String
  DevicePubkeySign : Bytes
  DevicePubkeyBox : Bytes
  SubjectBundleSig : Bytes
  IsMember : Bool
  KeyEpoch : Nat
deriving DecidableEq, Repr

structure MemberEventRow where
  MemberEventID : Bytes
  VaultID : Bytes
  MemberSeq : Nat
  PrevHash : Bytes
  ActorDeviceID : String
  SubjectDeviceID : String
  MsgType : String
  SubjectPubkeySign : Bytes
  SubjectPubkeyBox : Bytes
  SubjectBundleSig : Bytes
  InviteID : Bytes
  ClaimSig : Bytes
  Signature : Bytes
  MemberHash : Bytes
  CreatedAt : String
deriving DecidableEq, Repr

structure EventRow where
  Seq : Nat
  EventID : Bytes
  EventHash : Bytes
  VaultID : Bytes
  DeviceID : String
  Counter : Nat
  Lamport : Nat
  KeyEpoch : Nat
  PrevHash : Bytes
  Nonce : Bytes
  Ciphertext : Bytes
  Signature : Bytes
  CreatedAt : String
deriving DecidableEq, Repr

structure EventHead where
  VaultID : Bytes
  DeviceID : String
  LastCounter : Nat
  LastHash : Bytes
deriving DecidableEq, Repr

structure InviteRow where
  InviteID : Bytes
  VaultID : Bytes
  TargetDeviceID : String
  TargetDevicePubkeySign : Bytes
  TargetDevicePubkeyBox : Bytes
  TargetDeviceBundleSig : Bytes
  Nonce : Bytes
  WrappedPayload : Bytes
  CreatedByDeviceID : String
  SingleUse : Bool
  Used : Bool
  Signature : Bytes
  CreatedAt : String
deriving DecidableEq, Repr

structure InviteClaimRow where
  InviteID : Bytes
  VaultID : Bytes
  DeviceID : String
  ClaimSig : Bytes
  CreatedAt : String
deriving DecidableEq, Repr

/-- A row of `used_nonces`, with the columns of the INSERT in
`RecordNonceUsed`. -/
structure UsedNonceRow where
  NonceType : String
  VaultID : Bytes
  DeviceID : String
  Nonce : Bytes
  CreatedAt : String
deriving DecidableEq, Repr

structure KeyUpdateRow where
  KeyUpdateID : Bytes
  VaultID : Bytes
  MemberSeq : Nat
  MemberHeadHash : Bytes
  TargetDeviceID : String
  KeyEpoch : Nat
  Nonce : Bytes
  WrappedPayload : Bytes
  CreatedByDeviceID : String
  Signature : Bytes
  CreatedAt : String
deriving DecidableEq, Repr

structure KeyUpdateAckRow where
  VaultID : Bytes
  KeyEpoch : Nat
  DeviceID : String
  MemberSeq : Nat
  MemberHeadHash : Bytes
  Signature : Bytes
  CreatedAt : String
deriving DecidableEq, Repr

structure SnapshotRow where
  SnapshotID : Bytes
  VaultID : Bytes
  BaseSeq : Nat
  MemberSeq : Nat
  MemberHeadHash : Bytes
  BaseCounterMap : Bytes
  HeadHashMap : Bytes
  LamportAtSnapshot : Nat
  KeyEpoch : Nat
  Nonce : Bytes
  Ciphertext : Bytes
  Signature : Bytes
  CreatedByDeviceID : String
  CreatedAt : String
deriving DecidableEq, Repr

/-- The database: one list of rows per table, in insertion order. -/
structure Store where
  devices : List DeviceRow
  vaults : List VaultRow
  vaultMembershipHeads : List VaultMembershipHead
  vaultMembers : List VaultMemberRow
  memberEvents : List MemberEventRow
  events : List EventRow
  eventHeads : List EventHead
  invites : List InviteRow
  inviteClaims : List InviteClaimRow
  usedNonces : List UsedNonceRow
  keyUpdates : List KeyUpdateRow
  keyUpdateAcks : List KeyUpdateAckRow
  snapshots : List SnapshotRow
deriving DecidableEq, Repr

/-- The database right after the migrations: every table empty. -/
def Store.empty : Store :=
  { devices := [], vaults := [], vaultMembershipHeads := [], vaultMembers := [],
    memberEvents := [], events := [], eventHeads := [], invites := [], inviteClaims := [],
    usedNonces := [], keyUpdates := [], keyUpdateAcks := [], snapshots := [] }

/-- A failed storage call (`err != nil` in the repositories). -/
inductive StorageError where
  | uniqueViolation
  | other
deriving DecidableEq, Repr

/-! ### storage/devices.go -/

def DevicesRepository.Get (s : Store) (deviceID : String) :
    Except StorageError (Option DeviceRow) :=
  .ok (s.devices.find? (fun d => d.DeviceID == deviceID))

/-- Go `DevicesRepository.Create`: inserts the bundle with `created_at` set to
the current time.

Modelled from the spec: the key of the `devices` table (declared in the SQL
migrations, which are not among the sources).  The spec identifies a device by
its `device_id` and lists `devices` among the inserts that may fail with a
unique violation; an INSERT of a second row with the same `device_id` is the
storage error. -/
def DevicesRepository.Create (now : String) (s : Store) (bundle : DeviceBundle) :
    Except StorageError Store :=
  if s.devices.any (fun r => r.DeviceID == bundle.DeviceID) then .error .uniqueViolation
  else .ok { s with devices := s.devices ++
    [{ DeviceID := bundle.DeviceID, DevicePubkeySign := bundle.DevicePubkeySign,
       DevicePubkeyBox := bundle.DevicePubkeyBox, DeviceBundleSig := bundle.DeviceBundleSig,
       CreatedAt := now }] }

/-! ### storage/vaults.go -/

def VaultsRepository.Get (s : Store) (vaultID : Bytes) :
    Except StorageError (Option VaultRow) :=
  .ok (s.vaults.find? (fun v => v.VaultID == vaultID))

def VaultsRepository.GetMembershipHead (s : Store) (vaultID : Bytes) :
    Except StorageError (Option VaultMembershipHead) :=
  .ok (s.vaultMembershipHeads.find? (fun h => h.VaultID == vaultID))

def VaultsRepository.GetMember (s : Store) (vaultID : Bytes) (deviceID : String) :
    Except StorageError (Option VaultMemberRow) :=
  .ok (s.vaultMembers.find? (fun m => m.VaultID == vaultID && m.DeviceID == deviceID))

def VaultsRepository.IsMember (s : Store) (vaultID : Bytes) (deviceID : String) :
    Except StorageError Bool :=
  match s.vaultMembers.find? (fun m => m.VaultID == vaultID && m.DeviceID == deviceID) with
  | none => .ok false
  | some m => .ok m.IsMember

/-- Go `VaultsRepository.UpdateMemberKeyEpoch`: `UPDATE vault_members SET
key_epoch = ? WHERE vault_id = ? AND device_id = ?`. -/
def VaultsRepository.UpdateMemberKeyEpoch (s : Store) (vaultID : Bytes) (deviceID : String)
    (keyEpoch : Nat) : Except StorageError Store :=
  .ok { s with vaultMembers := s.vaultMembers.map (fun m =>
    if m.VaultID == vaultID && m.DeviceID == deviceID then { m with KeyEpoch := keyEpoch }
    else m) }

/-! ### storage/events.go -/

def EventsRepository.GetEventHead (s : Store) (vaultID : Bytes) (deviceID : String) :
    Except StorageError (Option EventHead) :=
  .ok (s.eventHeads.find? (fun h => h.VaultID == vaultID && h.DeviceID == deviceID))

def EventsRepository.CheckEventIDExists (s : Store) (vaultID : Bytes) (deviceID : String)
    (eventID : Bytes) : Except StorageError Bool :=
  .ok (decide (0 < (s.events.filter (fun e =>
    e.VaultID == vaultID && e.DeviceID == deviceID && e.EventID == eventID)).length))

/-- Modelled from the spec: the `seq` column of the `events` table, whose
declaration (the SQL migrations) is not among the sources.  The spec calls it a
monotonically increasing server-assigned integer; this is the next row id, one
more than the largest `seq` present. -/
def nextSeq (events : List EventRow) : Nat :=
  (events.foldl (fun m e => max m e.Seq) 0) + 1

/-- Go `EventsRepository.Create`: fills `created_at` when empty, inserts the
row and returns the `seq` assigned to it.

Modelled from the spec: the unique key of the `events` table (declared in the
SQL migrations, which are not among the sources).  The spec states that
`event_id` is unique within `(vault_id, device_id)` and enforced by the row's
unique key; an INSERT that breaks it is the storage error. -/
def EventsRepository.Create (now : String) (s : Store) (e : EventRow) :
    Except StorageError (Nat × Store) :=
  let createdAt := if e.CreatedAt == "" then now else e.CreatedAt
  if s.events.any (fun r =>
      r.VaultID == e.VaultID && r.DeviceID == e.DeviceID && r.EventID == e.EventID) then
    .error .uniqueViolation
  else
    let seq := nextSeq s.events
    .ok (seq, { s with events := s.events ++ [{ e with Seq := seq, CreatedAt := createdAt }] })

/-- Go `EventsRepository.UpsertEventHead`: INSERT, or on a conflict on
`(vault_id, device_id)` update `last_counter` and `last_hash` of that row. -/
def EventsRepository.UpsertEventHead (s : Store) (h : EventHead) :
    Except StorageError Store :=
  if s.eventHeads.any (fun r => r.VaultID == h.VaultID && r.DeviceID == h.DeviceID) then
    .ok { s with eventHeads := s.eventHeads.map (fun r =>
      if r.VaultID == h.VaultID && r.DeviceID == h.DeviceID then
        { r with LastCounter := h.LastCounter, LastHash := h.LastHash }
      else r) }
  else .ok { s with eventHeads := s.eventHeads ++ [h] }

/-! ### storage/invites.go -/

def InvitesRepository.Get (s : Store) (inviteID : Bytes) :
    Except StorageError (Option InviteRow) :=
  .ok (s.invites.find? (fun i => i.InviteID == inviteID))

/-- Go `InvitesRepository.Create`: fills `created_at` when empty and inserts
the row.

Modelled from the spec: the key of the `invites` table (declared in the SQL
migrations, which are not among the sources).  The spec identifies an invite
by its `invite_id`; an INSERT of a second row with the same `invite_id` is the
storage error. -/
def InvitesRepository.Create (now : String) (s : Store) (inv : InviteRow) :
    Except StorageError Store :=
  let createdAt := if inv.CreatedAt == "" then now else inv.CreatedAt
  if s.invites.any (fun r => r.InviteID == inv.InviteID) then .error .uniqueViolation
  else .ok { s with invites := s.invites ++ [{ inv with CreatedAt := createdAt }] }

/-- Go `InvitesRepository.CreateClaim`: fills `created_at` when empty, then
`INSERT ... ON CONFLICT(invite_id, device_id) DO NOTHING`: a row with the same
`(invite_id, device_id)` makes the INSERT a no-op. -/
def InvitesRepository.CreateClaim (now : String) (s : Store) (claim : InviteClaimRow) :
    Except StorageError Store :=
  let createdAt := if claim.CreatedAt == "" then now else claim.CreatedAt
  if s.inviteClaims.any (fun r =>
      r.InviteID == claim.InviteID && r.DeviceID == claim.DeviceID) then .ok s
  else .ok { s with inviteClaims := s.inviteClaims ++ [{ claim with CreatedAt := createdAt }] }

def InvitesRepository.GetClaim (s : Store) (inviteID : Bytes) (deviceID : String) :
    Except StorageError (Option InviteClaimRow) :=
  .ok (s.inviteClaims.find? (fun c => c.InviteID == inviteID && c.DeviceID == deviceID))

def InvitesRepository.CheckNonceUsed (s : Store) (nonceType : String) (vaultID : Bytes)
    (deviceID : String) (nonce : Bytes) : Except StorageError Bool :=
  .ok (decide (0 < (s.usedNonces.filter (fun n =>
    n.NonceType == nonceType && n.VaultID == vaultID && n.DeviceID == deviceID &&
      n.Nonce == nonce)).length))

/-- Go `InvitesRepository.RecordNonceUsed`: `INSERT ... ON CONFLICT DO
NOTHING`.

Modelled from the spec: the unique index of `used_nonces` (declared in the SQL
migrations, which are not among the sources); the spec keys the set by
`(nonce_type, vault_id, device_id, nonce)`.  A row with the same key makes the
INSERT a no-op. -/
def InvitesRepository.RecordNonceUsed (now : String) (s : Store) (nonceType : String)
    (vaultID : Bytes) (deviceID : String) (nonce : Bytes) : Except StorageError Store :=
  if s.usedNonces.any (fun n =>
      n.NonceType == nonceType && n.VaultID == vaultID && n.DeviceID == deviceID &&
        n.Nonce == nonce) then .ok s
  else .ok { s with usedNonces := s.usedNonces ++
    [{ NonceType := nonceType, VaultID := vaultID, DeviceID := deviceID, Nonce := nonce,
       CreatedAt := now }] }

/-! ### storage/key_updates.go -/

def KeyUpdatesRepository.CheckExists (s : Store) (vaultID : Bytes) (keyEpoch : Nat)
    (targetDeviceID : String) : Except StorageError Bool :=
  .ok (decide (0 < (s.keyUpdates.filter (fun k =>
    k.VaultID == vaultID && k.KeyEpoch == keyEpoch && k.TargetDeviceID == targetDeviceID)).length))

/-- Go `KeyUpdatesRepository.Create`: fills `created_at` when empty and
inserts the row.

Modelled from the spec: the unique key of the `key_updates` table (declared in
the SQL migrations, which are not among the sources); the spec keys a key
update by `(vault_id, key_epoch, target_device_id)`. -/
def KeyUpdatesRepository.Create (now : String) (s : Store) (ku : KeyUpdateRow) :
    Except StorageError Store :=
  let createdAt := if ku.CreatedAt == "" then now else ku.CreatedAt
  if s.keyUpdates.any (fun r =>
      r.VaultID == ku.VaultID && r.KeyEpoch == ku.KeyEpoch &&
        r.TargetDeviceID == ku.TargetDeviceID) then .error .uniqueViolation
  else .ok { s with keyUpdates := s.keyUpdates ++ [{ ku with CreatedAt := createdAt }] }

/-- Go `KeyUpdatesRepository.CreateAck`: fills `created_at` when empty, then
`INSERT ... ON CONFLICT(vault_id, key_epoch, device_id) DO NOTHING`: a row with
the same `(vault_id, key_epoch, device_id)` makes the INSERT a no-op. -/
def KeyUpdatesRepository.CreateAck (now : String) (s : Store) (ack : KeyUpdateAckRow) :
    Except StorageError Store :=
  let createdAt := if ack.CreatedAt == "" then now else ack.CreatedAt
  if s.keyUpdateAcks.any (fun r =>
      r.VaultID == ack.VaultID && r.KeyEpoch == ack.KeyEpoch && r.DeviceID == ack.DeviceID) then
    .ok s
  else .ok { s with keyUpdateAcks := s.keyUpdateAcks ++ [{ ack with CreatedAt := createdAt }] }

/-! ### storage/snapshots.go -/

/-- Go `SnapshotsRepository.Create`: fills `created_at` when empty and inserts
the row.

Modelled from the spec: the key of the `snapshots` table (declared in the SQL
migrations, which are not among the sources).  The spec lists `snapshots` among
the inserts that may fail with a unique violation, and the repository uses
`snapshot_id` as the identity of a row; a second row with the same
`snapshot_id` is the storage error. -/
def SnapshotsRepository.Create (now : String) (s : Store) (row : SnapshotRow) :
    Except StorageError Store :=
  let createdAt := if row.CreatedAt == "" then now else row.CreatedAt
  if s.snapshots.any (fun r => r.SnapshotID == row.SnapshotID) then .error .uniqueViolation
  else .ok { s with snapshots := s.snapshots ++ [{ row with CreatedAt := createdAt }] }

/-! ## internal/validation/device.go -/

/-- Go `bytesEqual`: equal lengths and equal bytes at every index. -/
def bytesEqual (a b : Bytes) : Bool :=
  if a.length != b.length then false
  else (a.zip b).all (fun p => p.1 == p.2)

/-- Go `DeviceValidator.ValidateBundle`; `.ok ()` is the `nil` result. -/
def ValidateBundle (lib : CryptoLib) (bundle : DeviceBundle) : Except APIError Unit :=
  match DeviceID.Validate bundle.DeviceID with
  | .error _ => .error InvalidDeviceID
  | .ok _ =>
  if bundle.DevicePubkeySign.length != PublicKeyLength then .error InvalidPublicKey
  else if bundle.DevicePubkeyBox.length != PublicKeyLength then .error InvalidPublicKey
  else if bundle.DeviceBundleSig.length != SignatureLength then .error InvalidSignature
  else
  match VerifyDeviceID bundle.DeviceID bundle.DevicePubkeySign with
  | .error _ =>
    .error (BadRequest "device_id_mismatch"
      "device_id does not match sha256(device_pubkey_sign)")
  | .ok _ =>
  match ValidateX25519PublicKey lib bundle.DevicePubkeyBox with
  | .error err => .error (BadRequest "invalid_x25519_key" err)
  | .ok _ =>
  match DeviceIDToBytes bundle.DeviceID with
  | .error _ => .error InvalidDeviceID
  | .ok deviceIDBytes =>
  match SignBytesDeviceBundle deviceIDBytes bundle.DevicePubkeySign bundle.DevicePubkeyBox with
  | .error err => .error (BadRequest "sign_bytes_error" err)
  | .ok signBytes =>
  match VerifySignature lib bundle.DevicePubkeySign signBytes bundle.DeviceBundleSig with
  | .error _ => .error InvalidSignature
  | .ok _ => .ok ()

/-- Go `DeviceValidator.CheckImmutability`; `.ok ()` is the `nil` result. -/
def CheckImmutability (s : Store) (bundle : DeviceBundle) : Except APIError Unit :=
  match DevicesRepository.Get s bundle.DeviceID with
  | .error _ => .error InternalError
  | .ok none => .ok ()
  | .ok (some existing) =>
    if !bytesEqual existing.DevicePubkeySign bundle.DevicePubkeySign ||
        !bytesEqual existing.DevicePubkeyBox bundle.DevicePubkeyBox ||
        !bytesEqual existing.DeviceBundleSig bundle.DeviceBundleSig then
      .error DuplicateDevice
    else .ok ()

/-! ## internal/validation/events.go -/

/-- The chain check of `ValidateEvent` (the `if head == nil ... else ...`
block): `counter` and `prev_hash` against the head of the author's chain.
`head.LastCounter+1` is a `uint64` addition. -/
def checkEventChain (head : Option EventHead) (counter : Nat) (prevHash : Bytes) :
    Except APIError Unit :=
  match head with
  | none =>
    if counter != 1 then .error EventChainBroken
    else if prevHash != Zero32 then .error EventChainBroken
    else .ok ()
  | some head =>
    if counter != (head.LastCounter + 1) % 2 ^ 64 then .error EventChainBroken
    else if prevHash != head.LastHash then .error EventChainBroken
    else .ok ()

def ValidateEvent (lib : CryptoLib) (s : Store) (event : Event) : Except APIError EventRow :=
  if event.MsgType != "event" then .error (BadRequest "invalid_msg_type" "expected 'event'")
  else if event.PrevHash.length != HashLength then .error InvalidHash
  else if event.Nonce.length != NonceLength then .error InvalidNonce
  else if event.Signature.length != SignatureLength then .error InvalidSignature
  else if event.Ciphertext.length > MaxEventCiphertext then
    .error (PayloadTooLarge "event ciphertext exceeds maximum size")
  else
  match DeviceID.Validate event.DeviceID with
  | .error _ => .error InvalidDeviceID
  | .ok _ =>
  let vaultID := event.VaultID.Bytes
  match VaultsRepository.Get s vaultID with
  | .error _ => .error InternalError
  | .ok none => .error (NotFound "vault")
  | .ok (some _) =>
  match VaultsRepository.GetMember s vaultID event.DeviceID with
  | .error _ => .error InternalError
  | .ok none => .error MembershipRequired
  | .ok (some member) =>
  if !member.IsMember then .error MembershipRequired
  else
  let counter := event.Counter
  match EventsRepository.GetEventHead s vaultID event.DeviceID with
  | .error _ => .error InternalError
  | .ok head =>
  match checkEventChain head counter event.PrevHash with
  | .error apiErr => .error apiErr
  | .ok _ =>
  match EventsRepository.CheckEventIDExists s vaultID event.DeviceID event.EventID.Bytes with
  | .error _ => .error InternalError
  | .ok exists_ =>
  if exists_ then .error (Conflict "event_id already exists")
  else
  match DeviceIDToBytes event.DeviceID with
  | .error _ => .error InvalidDeviceID
  | .ok deviceIDBytes =>
  match SignBytesEvent event.EventID.Bytes vaultID deviceIDBytes counter event.Lamport
      event.KeyEpoch event.PrevHash event.Nonce event.Ciphertext with
  | .error err => .error (BadRequest "sign_bytes_error" err)
  | .ok signBytes =>
  match VerifySignature lib member.DevicePubkeySign signBytes event.Signature with
  | .error _ => .error InvalidSignature
  | .ok _ =>
  let eventHash := SHA256Hash signBytes
  .ok { Seq := 0
        EventID := event.EventID.Bytes
        EventHash := eventHash
        VaultID := vaultID
        DeviceID := event.DeviceID
        Counter := counter
        Lamport := event.Lamport
        KeyEpoch := event.KeyEpoch
        PrevHash := event.PrevHash
        Nonce := event.Nonce
        Ciphertext := event.Ciphertext
        Signature := event.Signature
        CreatedAt := event.CreatedAt }

/-! ## internal/validation/membership.go -/

/-- The `if isGenesis` branch of `ValidateMemberAdd`. -/
def memberAddGenesisChecks (vault : Option VaultRow) (event : MemberEvent) :
    Except APIError Unit :=
  if vault.isSome then .error (Conflict "vault already exists")
  else if event.ActorDeviceID != event.SubjectDeviceID then
    .error (BadRequest "genesis_actor_mismatch"
      "genesis member_add must have actor_device_id == subject_device_id")
  else if event.PrevHash != Zero32 then
    .error (BadRequest "genesis_prev_hash" "genesis member_add must have prev_hash = zero")
  else .ok ()

/-- The `else` branch (member_seq other than 1) of `ValidateMemberAdd`: owner,
membership chain, invite and invite claim.  `head.MemberSeq+1` is a `uint64`
addition. -/
def memberAddInvitedChecks (lib : CryptoLib) (s : Store) (vault : Option VaultRow)
    (event : MemberEvent) (vaultID : Bytes) (memberSeq : Nat) (subjectDeviceIDBytes : Bytes) :
    Except APIError Unit :=
  match vault with
  | none => .error (NotFound "vault")
  | some vault =>
  if event.ActorDeviceID != vault.OwnerDeviceID then .error OwnerRequired
  else
  match VaultsRepository.GetMembershipHead s vaultID with
  | .error _ => .error InternalError
  | .ok none =>
    .error (BadRequest "missing_membership_head" "vault exists but membership head is missing")
  | .ok (some head) =>
  if memberSeq != (head.MemberSeq + 1) % 2 ^ 64 then .error MembershipChainBroken
  else if event.PrevHash != head.MemberHeadHash then .error MembershipChainBroken
  else
  match InvitesRepository.Get s event.InviteID.Bytes with
  | .error _ => .error InternalError
  | .ok none => .error (NotFound "invite")
  | .ok (some invite) =>
  if invite.VaultID != vaultID then
    .error (BadRequest "invite_vault_mismatch" "invite is for a different vault")
  else if invite.TargetDeviceID != event.SubjectDeviceID then
    .error (BadRequest "invite_target_mismatch" "invite is for a different device")
  else if invite.SingleUse && invite.Used then .error InviteAlreadyUsed
  else
  match InvitesRepository.GetClaim s invite.InviteID event.SubjectDeviceID with
  | .error _ => .error InternalError
  | .ok none => .error (BadRequest "missing_invite_claim" "invite has not been claimed")
  | .ok (some claim) =>
  if claim.ClaimSig != event.ClaimSig then
    .error (BadRequest "claim_sig_mismatch" "claim_sig does not match stored claim")
  else
  match SignBytesInviteClaim invite.InviteID vaultID subjectDeviceIDBytes with
  | .error err => .error (BadRequest "sign_bytes_error" err)
  | .ok claimSignBytes =>
  match VerifySignature lib event.SubjectPubkeySign claimSignBytes event.ClaimSig with
  | .error _ =>
    .error (BadRequest "invalid_claim_sig" "claim signature verification failed")
  | .ok _ => .ok ()

/-- The `var signerPubkey []byte` block of `ValidateMemberAdd`: the key the
event signature is verified with. -/
def memberAddSignerPubkey (s : Store) (event : MemberEvent) (vaultID : Bytes)
    (isGenesis : Bool) : Except APIError Bytes :=
  if isGenesis then .ok event.SubjectPubkeySign
  else
    match VaultsRepository.GetMember s vaultID event.ActorDeviceID with
    | .error _ => .error InternalError
    | .ok none => .error MembershipRequired
    | .ok (some actor) =>
      if !actor.IsMember then .error MembershipRequired
      else .ok actor.DevicePubkeySign

def ValidateMemberAdd (lib : CryptoLib) (s : Store) (event : MemberEvent) :
    Except APIError MemberEventRow :=
  if event.MsgType != "member_add" then
    .error (BadRequest "invalid_msg_type" "expected member_add")
  else if event.PrevHash.length != HashLength then .error InvalidHash
  else if event.Signature.length != SignatureLength then .error InvalidSignature
  else if event.SubjectPubkeySign.length != PublicKeyLength then .error InvalidPublicKey
  else if event.SubjectPubkeyBox.length != PublicKeyLength then .error InvalidPublicKey
  else if event.SubjectBundleSig.length != SignatureLength then .error InvalidSignature
  else if event.ClaimSig.length != SignatureLength then .error InvalidSignature
  else
  match DeviceID.Validate event.ActorDeviceID with
  | .error _ => .error InvalidDeviceID
  | .ok _ =>
  match DeviceID.Validate event.SubjectDeviceID with
  | .error _ => .error InvalidDeviceID
  | .ok _ =>
  match VerifyDeviceID event.SubjectDeviceID event.SubjectPubkeySign with
  | .error _ =>
    .error (BadRequest "subject_device_id_mismatch"
      "subject_device_id does not match sha256(subject_pubkey_sign)")
  | .ok _ =>
  match DeviceIDToBytes event.SubjectDeviceID with
  | .error _ => .error InvalidDeviceID
  | .ok subjectDeviceIDBytes =>
  match SignBytesDeviceBundle subjectDeviceIDBytes event.SubjectPubkeySign
      event.SubjectPubkeyBox with
  | .error err => .error (BadRequest "sign_bytes_error" err)
  | .ok subjectBundleSignBytes =>
  match VerifySignature lib event.SubjectPubkeySign subjectBundleSignBytes
      event.SubjectBundleSig with
  | .error _ =>
    .error (BadRequest "invalid_subject_bundle_sig"
      "subject bundle signature verification failed")
  | .ok _ =>
  let vaultID := event.VaultID.Bytes
  match VaultsRepository.Get s vaultID with
  | .error _ => .error InternalError
  | .ok vault =>
  let memberSeq := event.MemberSeq
  let isGenesis := memberSeq == 1
  match (if isGenesis then memberAddGenesisChecks vault event
         else memberAddInvitedChecks lib s vault event vaultID memberSeq
           subjectDeviceIDBytes) with
  | .error apiErr => .error apiErr
  | .ok _ =>
  match DeviceIDToBytes event.ActorDeviceID with
  | .error _ => .error InvalidDeviceID
  | .ok actorDeviceIDBytes =>
  let inviteIDBytes := if isGenesis then zeroBytes 16 else event.InviteID.Bytes
  let claimSig := if isGenesis then zeroBytes 64 else event.ClaimSig
  match SignBytesMemberAdd event.MemberEventID.Bytes vaultID memberSeq event.PrevHash
      actorDeviceIDBytes subjectDeviceIDBytes inviteIDBytes claimSig event.SubjectBundleSig
      event.SubjectPubkeySign event.SubjectPubkeyBox with
  | .error err => .error (BadRequest "sign_bytes_error" err)
  | .ok signBytes =>
  match memberAddSignerPubkey s event vaultID isGenesis with
  | .error apiErr => .error apiErr
  | .ok signerPubkey =>
  match VerifySignature lib signerPubkey signBytes event.Signature with
  | .error _ => .error InvalidSignature
  | .ok _ =>
  let memberHash := SHA256Hash signBytes
  .ok { MemberEventID := event.MemberEventID.Bytes
        VaultID := vaultID
        MemberSeq := memberSeq
        PrevHash := event.PrevHash
        ActorDeviceID := event.ActorDeviceID
        SubjectDeviceID := event.SubjectDeviceID
        MsgType := "member_add"
        SubjectPubkeySign := event.SubjectPubkeySign
        SubjectPubkeyBox := event.SubjectPubkeyBox
        SubjectBundleSig := event.SubjectBundleSig
        InviteID := event.InviteID.Bytes
        ClaimSig := event.ClaimSig
        Signature := event.Signature
        MemberHash := memberHash
        CreatedAt := event.CreatedAt }

/-- Go `ValidateMemberRemove`.  The fields the Go row literal leaves out
(`SubjectPubkeySign`, `SubjectPubkeyBox`, `SubjectBundleSig`, `InviteID`,
`ClaimSig`) are nil slices, here the empty list. -/
def ValidateMemberRemove (lib : CryptoLib) (s : Store) (event : MemberEvent) :
    Except APIError MemberEventRow :=
  if event.MsgType != "member_remove" then
    .error (BadRequest "invalid_msg_type" "expected member_remove")
  else if event.PrevHash.length != HashLength then .error InvalidHash
  else if event.Signature.length != SignatureLength then .error InvalidSignature
  else
  match DeviceID.Validate event.ActorDeviceID with
  | .error _ => .error InvalidDeviceID
  | .ok _ =>
  match DeviceID.Validate event.SubjectDeviceID with
  | .error _ => .error InvalidDeviceID
  | .ok _ =>
  let vaultID := event.VaultID.Bytes
  match VaultsRepository.Get s vaultID with
  | .error _ => .error InternalError
  | .ok none => .error (NotFound "vault")
  | .ok (some vault) =>
  if event.ActorDeviceID != vault.OwnerDeviceID then .error OwnerRequired
  else
  match VaultsRepository.GetMembershipHead s vaultID with
  | .error _ => .error InternalError
  | .ok none =>
    .error (BadRequest "missing_membership_head" "vault membership head is missing")
  | .ok (some head) =>
  let memberSeq := event.MemberSeq
  if memberSeq != (head.MemberSeq + 1) % 2 ^ 64 then .error MembershipChainBroken
  else if event.PrevHash != head.MemberHeadHash then .error MembershipChainBroken
  else
  match VaultsRepository.IsMember s vaultID event.SubjectDeviceID with
  | .error _ => .error InternalError
  | .ok isMember =>
  if !isMember then
    .error (BadRequest "subject_not_member" "subject_device_id is not a current member")
  else
  match DeviceIDToBytes event.ActorDeviceID with
  | .error _ => .error InvalidDeviceID
  | .ok actorDeviceIDBytes =>
  match DeviceIDToBytes event.SubjectDeviceID with
  | .error _ => .error InvalidDeviceID
  | .ok subjectDeviceIDBytes =>
  match SignBytesMemberRemove event.MemberEventID.Bytes vaultID memberSeq event.PrevHash
      actorDeviceIDBytes subjectDeviceIDBytes with
  | .error err => .error (BadRequest "sign_bytes_error" err)
  | .ok signBytes =>
  match VaultsRepository.GetMember s vaultID event.ActorDeviceID with
  | .error _ => .error InternalError
  | .ok none => .error MembershipRequired
  | .ok (some actor) =>
  if !actor.IsMember then .error MembershipRequired
  else
  match VerifySignature lib actor.DevicePubkeySign signBytes event.Signature with
  | .error _ => .error InvalidSignature
  | .ok _ =>
  let memberHash := SHA256Hash signBytes
  .ok { MemberEventID := event.MemberEventID.Bytes
        VaultID := vaultID
        MemberSeq := memberSeq
        PrevHash := event.PrevHash
        ActorDeviceID := event.ActorDeviceID
        SubjectDeviceID := event.SubjectDeviceID
        MsgType := "member_remove"
        SubjectPubkeySign := []
        SubjectPubkeyBox := []
        SubjectBundleSig := []
        InviteID := []
        ClaimSig := []
        Signature := event.Signature
        MemberHash := memberHash
        CreatedAt := event.CreatedAt }

/-! ## internal/validation/invites.go -/

def ValidateInvite (lib : CryptoLib) (s : Store) (invite : Invite) :
    Except APIError InviteRow :=
  if invite.MsgType != "invite" then .error (BadRequest "invalid_msg_type" "expected 'invite'")
  else if invite.Nonce.length != NonceLength then .error InvalidNonce
  else if invite.Signature.length != SignatureLength then .error InvalidSignature
  else if invite.WrappedPayload.length > MaxWrappedPayload then
    .error (PayloadTooLarge "wrapped_payload exceeds maximum size")
  else if invite.TargetDevicePubkeySign.length != PublicKeyLength then .error InvalidPublicKey
  else if invite.TargetDevicePubkeyBox.length != PublicKeyLength then .error InvalidPublicKey
  else if invite.TargetDeviceBundleSig.length != SignatureLength then .error InvalidSignature
  else
  match DeviceID.Validate invite.TargetDeviceID with
  | .error _ => .error InvalidDeviceID
  | .ok _ =>
  match DeviceID.Validate invite.CreatedByDeviceID with
  | .error _ => .error InvalidDeviceID
  | .ok _ =>
  let vaultID := invite.VaultID.Bytes
  match VaultsRepository.Get s vaultID with
  | .error _ => .error InternalError
  | .ok none => .error (NotFound "vault")
  | .ok (some _) =>
  match VaultsRepository.GetMember s vaultID invite.CreatedByDeviceID with
  | .error _ => .error InternalError
  | .ok none => .error MembershipRequired
  | .ok (some creator) =>
  if !creator.IsMember then .error MembershipRequired
  else
  match VerifyDeviceID invite.TargetDeviceID invite.TargetDevicePubkeySign with
  | .error _ =>
    .error (BadRequest "target_device_id_mismatch"
      "target_device_id does not match sha256(target_device_pubkey_sign)")
  | .ok _ =>
  match DeviceIDToBytes invite.TargetDeviceID with
  | .error _ => .error InvalidDeviceID
  | .ok targetDeviceIDBytes =>
  match SignBytesDeviceBundle targetDeviceIDBytes invite.TargetDevicePubkeySign
      invite.TargetDevicePubkeyBox with
  | .error err => .error (BadRequest "sign_bytes_error" err)
  | .ok targetBundleSignBytes =>
  match VerifySignature lib invite.TargetDevicePubkeySign targetBundleSignBytes
      invite.TargetDeviceBundleSig with
  | .error _ =>
    .error (BadRequest "invalid_target_bundle_sig" "target bundle signature verification failed")
  | .ok _ =>
  match InvitesRepository.CheckNonceUsed s "invite" vaultID invite.CreatedByDeviceID
      invite.Nonce with
  | .error _ => .error InternalError
  | .ok used =>
  if used then .error (BadRequest "nonce_reused" "nonce has already been used")
  else
  match DeviceIDToBytes invite.CreatedByDeviceID with
  | .error _ => .error InvalidDeviceID
  | .ok creatorDeviceIDBytes =>
  match SignBytesInvite invite.InviteID.Bytes vaultID targetDeviceIDBytes
      invite.TargetDevicePubkeySign invite.TargetDevicePubkeyBox invite.TargetDeviceBundleSig
      invite.Nonce invite.WrappedPayload creatorDeviceIDBytes invite.SingleUse with
  | .error err => .error (BadRequest "sign_bytes_error" err)
  | .ok signBytes =>
  match VerifySignature lib creator.DevicePubkeySign signBytes invite.Signature with
  | .error _ => .error InvalidSignature
  | .ok _ =>
  .ok { InviteID := invite.InviteID.Bytes
        VaultID := vaultID
        TargetDeviceID := invite.TargetDeviceID
        TargetDevicePubkeySign := invite.TargetDevicePubkeySign
        TargetDevicePubkeyBox := invite.TargetDevicePubkeyBox
        TargetDeviceBundleSig := invite.TargetDeviceBundleSig
        Nonce := invite.Nonce
        WrappedPayload := invite.WrappedPayload
        CreatedByDeviceID := invite.CreatedByDeviceID
        SingleUse := invite.SingleUse
        Used := false
        Signature := invite.Signature
        CreatedAt := invite.CreatedAt }

def ValidateInviteClaim (lib : CryptoLib) (s : Store) (claim : InviteClaim) :
    Except APIError InviteClaimRow :=
  if claim.MsgType != "invite_claim" then
    .error (BadRequest "invalid_msg_type" "expected 'invite_claim'")
  else if claim.Signature.length != SignatureLength then .error InvalidSignature
  else
  match DeviceID.Validate claim.DeviceID with
  | .error _ => .error InvalidDeviceID
  | .ok _ =>
  match InvitesRepository.Get s claim.InviteID.Bytes with
  | .error _ => .error InternalError
  | .ok none => .error (NotFound "invite")
  | .ok (some invite) =>
  if invite.VaultID != claim.VaultID.Bytes then
    .error (BadRequest "vault_mismatch" "vault_id does not match invite")
  else if invite.TargetDeviceID != claim.DeviceID then
    .error (BadRequest "device_mismatch" "device_id does not match invite target")
  else
  match DevicesRepository.Get s claim.DeviceID with
  | .error _ => .error InternalError
  | .ok none => .error (NotFound "device")
  | .ok (some device) =>
  match DeviceIDToBytes claim.DeviceID with
  | .error _ => .error InvalidDeviceID
  | .ok deviceIDBytes =>
  match SignBytesInviteClaim claim.InviteID.Bytes claim.VaultID.Bytes deviceIDBytes with
  | .error err => .error (BadRequest "sign_bytes_error" err)
  | .ok signBytes =>
  match VerifySignature lib device.DevicePubkeySign signBytes claim.Signature with
  | .error _ => .error InvalidSignature
  | .ok _ =>
  .ok { InviteID := claim.InviteID.Bytes
        VaultID := claim.VaultID.Bytes
        DeviceID := claim.DeviceID
        ClaimSig := claim.Signature
        CreatedAt := claim.CreatedAt }

/-! ## internal/validation/key_updates.go -/

def ValidateKeyUpdate (lib : CryptoLib) (s : Store) (ku : KeyUpdate) :
    Except APIError KeyUpdateRow :=
  if ku.MsgType != "key_update" then
    .error (BadRequest "invalid_msg_type" "expected 'key_update'")
  else if ku.Nonce.length != NonceLength then .error InvalidNonce
  else if ku.Signature.length != SignatureLength then .error InvalidSignature
  else if ku.MemberHeadHash.length != HashLength then .error InvalidHash
  else if ku.WrappedPayload.length > MaxWrappedPayload then
    .error (PayloadTooLarge "wrapped_payload exceeds maximum size")
  else
  match DeviceID.Validate ku.TargetDeviceID with
  | .error _ => .error InvalidDeviceID
  | .ok _ =>
  match DeviceID.Validate ku.CreatedByDeviceID with
  | .error _ => .error InvalidDeviceID
  | .ok _ =>
  let vaultID := ku.VaultID.Bytes
  match VaultsRepository.Get s vaultID with
  | .error _ => .error InternalError
  | .ok none => .error (NotFound "vault")
  | .ok (some vault) =>
  if ku.CreatedByDeviceID != vault.OwnerDeviceID then .error OwnerRequired
  else
  match VaultsRepository.GetMember s vaultID ku.CreatedByDeviceID with
  | .error _ => .error InternalError
  | .ok none => .error MembershipRequired
  | .ok (some creator) =>
  if !creator.IsMember then .error MembershipRequired
  else
  match VaultsRepository.IsMember s vaultID ku.TargetDeviceID with
  | .error _ => .error InternalError
  | .ok isMember =>
  if !isMember then
    .error (BadRequest "target_not_member" "target_device_id is not a current member")
  else
  match VaultsRepository.GetMembershipHead s vaultID with
  | .error _ => .error InternalError
  | .ok none =>
    .error (BadRequest "missing_membership_head" "vault membership head is missing")
  | .ok (some head) =>
  if ku.MemberSeq != head.MemberSeq then
    .error (BadRequest "member_seq_mismatch" "member_seq does not match current membership head")
  else if ku.MemberHeadHash != head.MemberHeadHash then
    .error (BadRequest "member_head_hash_mismatch"
      "member_head_hash does not match current membership head")
  else
  match KeyUpdatesRepository.CheckExists s vaultID ku.KeyEpoch ku.TargetDeviceID with
  | .error _ => .error InternalError
  | .ok exists_ =>
  if exists_ then .error (Conflict "key update for this epoch and target already exists")
  else
  match InvitesRepository.CheckNonceUsed s "key_update" vaultID ku.CreatedByDeviceID
      ku.Nonce with
  | .error _ => .error InternalError
  | .ok used =>
  if used then .error (BadRequest "nonce_reused" "nonce has already been used")
  else
  match DeviceIDToBytes ku.TargetDeviceID with
  | .error _ => .error InvalidDeviceID
  | .ok targetDeviceIDBytes =>
  match DeviceIDToBytes ku.CreatedByDeviceID with
  | .error _ => .error InvalidDeviceID
  | .ok creatorDeviceIDBytes =>
  match SignBytesKeyUpdate ku.KeyUpdateID.Bytes vaultID ku.MemberSeq ku.MemberHeadHash
      targetDeviceIDBytes ku.KeyEpoch ku.Nonce ku.WrappedPayload creatorDeviceIDBytes with
  | .error err => .error (BadRequest "sign_bytes_error" err)
  | .ok signBytes =>
  match VerifySignature lib creator.DevicePubkeySign signBytes ku.Signature with
  | .error _ => .error InvalidSignature
  | .ok _ =>
  .ok { KeyUpdateID := ku.KeyUpdateID.Bytes
        VaultID := vaultID
        MemberSeq := ku.MemberSeq
        MemberHeadHash := ku.MemberHeadHash
        TargetDeviceID := ku.TargetDeviceID
        KeyEpoch := ku.KeyEpoch
        Nonce := ku.Nonce
        WrappedPayload := ku.WrappedPayload
        CreatedByDeviceID := ku.CreatedByDeviceID
        Signature := ku.Signature
        CreatedAt := ku.CreatedAt }

def ValidateKeyUpdateAck (lib : CryptoLib) (s : Store) (ack : KeyUpdateAck) :
    Except APIError KeyUpdateAckRow :=
  if ack.MsgType != "key_update_ack" then
    .error (BadRequest "invalid_msg_type" "expected 'key_update_ack'")
  else if ack.Signature.length != SignatureLength then .error InvalidSignature
  else if ack.MemberHeadHash.length != HashLength then .error InvalidHash
  else
  match DeviceID.Validate ack.DeviceID with
  | .error _ => .error InvalidDeviceID
  | .ok _ =>
  let vaultID := ack.VaultID.Bytes
  match VaultsRepository.GetMember s vaultID ack.DeviceID with
  | .error _ => .error InternalError
  | .ok none => .error MembershipRequired
  | .ok (some member) =>
  if !member.IsMember then .error MembershipRequired
  else
  match VaultsRepository.GetMembershipHead s vaultID with
  | .error _ => .error InternalError
  | .ok none =>
    .error (BadRequest "missing_membership_head" "vault membership head is missing")
  | .ok (some head) =>
  if ack.MemberSeq != head.MemberSeq then
    .error (BadRequest "member_seq_mismatch" "member_seq does not match current membership head")
  else if ack.MemberHeadHash != head.MemberHeadHash then
    .error (BadRequest "member_head_hash_mismatch"
      "member_head_hash does not match current membership head")
  else
  match DeviceIDToBytes ack.DeviceID with
  | .error _ => .error InvalidDeviceID
  | .ok deviceIDBytes =>
  match SignBytesKeyUpdateAck vaultID deviceIDBytes ack.KeyEpoch ack.MemberSeq
      ack.MemberHeadHash with
  | .error err => .error (BadRequest "sign_bytes_error" err)
  | .ok signBytes =>
  match VerifySignature lib member.DevicePubkeySign signBytes ack.Signature with
  | .error _ => .error InvalidSignature
  | .ok _ =>
  .ok { VaultID := vaultID
        KeyEpoch := ack.KeyEpoch
        DeviceID := ack.DeviceID
        MemberSeq := ack.MemberSeq
        MemberHeadHash := ack.MemberHeadHash
        Signature := ack.Signature
        CreatedAt := ack.CreatedAt }

/-! ## internal/validation/snapshots.go -/

def ValidateSnapshot (lib : CryptoLib) (s : Store) (snap : Snapshot) :
    Except APIError SnapshotRow :=
  if snap.MsgType != "snapshot" then
    .error (BadRequest "invalid_msg_type" "expected 'snapshot'")
  else if snap.Nonce.length != NonceLength then .error InvalidNonce
  else if snap.Signature.length != SignatureLength then .error InvalidSignature
  else if snap.MemberHeadHash.length != HashLength then .error InvalidHash
  else if snap.Ciphertext.length > MaxSnapshotCiphertext then
    .error (PayloadTooLarge "snapshot ciphertext exceeds maximum size")
  else if snap.BaseCounterMap.length > MaxMapLength * 40 then
    .error (PayloadTooLarge "base_counter_map exceeds maximum size")
  else if snap.HeadHashMap.length > MaxMapLength * 64 then
    .error (PayloadTooLarge "head_hash_map exceeds maximum size")
  else
  match DeviceID.Validate snap.CreatedByDeviceID with
  | .error _ => .error InvalidDeviceID
  | .ok _ =>
  let vaultID := snap.VaultID.Bytes
  match VaultsRepository.Get s vaultID with
  | .error _ => .error InternalError
  | .ok none => .error (NotFound "vault")
  | .ok (some vault) =>
  if snap.CreatedByDeviceID != vault.OwnerDeviceID then .error OwnerRequired
  else
  match VaultsRepository.GetMember s vaultID snap.CreatedByDeviceID with
  | .error _ => .error InternalError
  | .ok none => .error MembershipRequired
  | .ok (some creator) =>
  if !creator.IsMember then .error MembershipRequired
  else
  match VaultsRepository.GetMembershipHead s vaultID with
  | .error _ => .error InternalError
  | .ok none =>
    .error (BadRequest "missing_membership_head" "vault membership head is missing")
  | .ok (some head) =>
  if snap.MemberSeq != head.MemberSeq then
    .error (BadRequest "member_seq_mismatch" "member_seq does not match current membership head")
  else if snap.MemberHeadHash != head.MemberHeadHash then
    .error (BadRequest "member_head_hash_mismatch"
      "member_head_hash does not match current membership head")
  else
  match InvitesRepository.CheckNonceUsed s "snapshot" vaultID snap.CreatedByDeviceID
      snap.Nonce with
  | .error _ => .error InternalError
  | .ok used =>
  if used then .error (BadRequest "nonce_reused" "nonce has already been used")
  else
  match DeviceIDToBytes snap.CreatedByDeviceID with
  | .error _ => .error InvalidDeviceID
  | .ok creatorDeviceIDBytes =>
  match SignBytesSnapshot snap.SnapshotID.Bytes vaultID snap.BaseSeq snap.MemberSeq
      snap.MemberHeadHash snap.BaseCounterMap snap.HeadHashMap snap.LamportAtSnapshot
      snap.KeyEpoch snap.Nonce snap.Ciphertext creatorDeviceIDBytes with
  | .error err => .error (BadRequest "sign_bytes_error" err)
  | .ok signBytes =>
  match VerifySignature lib creator.DevicePubkeySign signBytes snap.Signature with
  | .error _ => .error InvalidSignature
  | .ok _ =>
  .ok { SnapshotID := snap.SnapshotID.Bytes
        VaultID := vaultID
        BaseSeq := snap.BaseSeq
        MemberSeq := snap.MemberSeq
        MemberHeadHash := snap.MemberHeadHash
        BaseCounterMap := snap.BaseCounterMap
        HeadHashMap := snap.HeadHashMap
        LamportAtSnapshot := snap.LamportAtSnapshot
        KeyEpoch := snap.KeyEpoch
        Nonce := snap.Nonce
        Ciphertext := snap.Ciphertext
        Signature := snap.Signature
        CreatedByDeviceID := snap.CreatedByDeviceID
        CreatedAt := snap.CreatedAt }

/-! ## internal/httpapi -/

/-- What a handler receives once the router and the JSON decoder have run:
`pathVaultID` is the result of `extractVaultID` (`none` when the path
parameter is not a UUID) and `body` the result of `parseJSON`. -/
structure Request (β : Type) where
  pathVaultID : Option UUID
  body : Except String β

/-- What a handler writes: `writeJSON(w, status, body)` or
`apiErr.WriteJSON(w)`. -/
inductive Reply (β : Type) where
  | json (status : Nat) (body : β)
  | apiError (err : APIError)
deriving DecidableEq, Repr

def handleEventCreate (lib : CryptoLib) (now : String) (s : Store) (r : Request Event) :
    Reply EventResponse × Store :=
  match r.pathVaultID with
  | none => (.apiError (InvalidUUID "vault_id"), s)
  | some vaultID =>
  match r.body with
  | .error err => (.apiError (BadRequest "invalid_json" ("failed to parse JSON: " ++ err)), s)
  | .ok event =>
  if vaultID.Bytes != event.VaultID.Bytes then
    (.apiError (BadRequest "vault_id_mismatch" "vault_id in path does not match body"), s)
  else
  match ValidateEvent lib s event with
  | .error apiErr => (.apiError apiErr, s)
  | .ok row =>
  match EventsRepository.Create now s row with
  | .error _ => (.apiError InternalError, s)
  | .ok (seq, s1) =>
  let head : EventHead :=
    { VaultID := vaultID.Bytes, DeviceID := row.DeviceID,
      LastCounter := row.Counter, LastHash := row.EventHash }
  match EventsRepository.UpsertEventHead s1 head with
  | .error _ => (.apiError InternalError, s1)
  | .ok s2 => (.json 201 { Seq := seq }, s2)

def handleInviteCreate (lib : CryptoLib) (now : String) (s : Store) (r : Request Invite) :
    Reply Invite × Store :=
  match r.pathVaultID with
  | none => (.apiError (InvalidUUID "vault_id"), s)
  | some vaultID =>
  match r.body with
  | .error err => (.apiError (BadRequest "invalid_json" ("failed to parse JSON: " ++ err)), s)
  | .ok invite =>
  if vaultID.Bytes != invite.VaultID.Bytes then
    (.apiError (BadRequest "vault_id_mismatch" "vault_id in path does not match body"), s)
  else
  match ValidateInvite lib s invite with
  | .error apiErr => (.apiError apiErr, s)
  | .ok row =>
  match InvitesRepository.RecordNonceUsed now s "invite" vaultID.Bytes
      invite.CreatedByDeviceID invite.Nonce with
  | .error _ => (.apiError InternalError, s)
  | .ok s1 =>
  match InvitesRepository.Create now s1 row with
  | .error _ => (.apiError InternalError, s1)
  | .ok s2 => (.json 201 invite, s2)

def handleKeyUpdateCreate (lib : CryptoLib) (now : String) (s : Store)
    (r : Request KeyUpdate) : Reply KeyUpdate × Store :=
  match r.pathVaultID with
  | none => (.apiError (InvalidUUID "vault_id"), s)
  | some vaultID =>
  match r.body with
  | .error err => (.apiError (BadRequest "invalid_json" ("failed to parse JSON: " ++ err)), s)
  | .ok ku =>
  if vaultID.Bytes != ku.VaultID.Bytes then
    (.apiError (BadRequest "vault_id_mismatch" "vault_id in path does not match body"), s)
  else
  match ValidateKeyUpdate lib s ku with
  | .error apiErr => (.apiError apiErr, s)
  | .ok row =>
  match InvitesRepository.RecordNonceUsed now s "key_update" vaultID.Bytes
      ku.CreatedByDeviceID ku.Nonce with
  | .error _ => (.apiError InternalError, s)
  | .ok s1 =>
  match KeyUpdatesRepository.Create now s1 row with
  | .error _ => (.apiError InternalError, s1)
  | .ok s2 => (.json 201 ku, s2)

/-- Go `handleSnapshotCreate`, up to the response.  The handler also starts a
goroutine running `PruneOld(vaultID, 3)`; that deletion happens outside the
request and touches the `snapshots` table only, so it is not part of this
step. -/
def handleSnapshotCreate (lib : CryptoLib) (now : String) (s : Store)
    (r : Request Snapshot) : Reply Snapshot × Store :=
  match r.pathVaultID with
  | none => (.apiError (InvalidUUID "vault_id"), s)
  | some vaultID =>
  match r.body with
  | .error err => (.apiError (BadRequest "invalid_json" ("failed to parse JSON: " ++ err)), s)
  | .ok snapshot =>
  if vaultID.Bytes != snapshot.VaultID.Bytes then
    (.apiError (BadRequest "vault_id_mismatch" "vault_id in path does not match body"), s)
  else
  match ValidateSnapshot lib s snapshot with
  | .error apiErr => (.apiError apiErr, s)
  | .ok row =>
  match InvitesRepository.RecordNonceUsed now s "snapshot" vaultID.Bytes
      snapshot.CreatedByDeviceID snapshot.Nonce with
  | .error _ => (.apiError InternalError, s)
  | .ok s1 =>
  match SnapshotsRepository.Create now s1 row with
  | .error _ => (.apiError InternalError, s1)
  | .ok s2 => (.json 201 snapshot, s2)

/-- Go `handleDeviceRegister`; `body` is the result of `parseJSON`. -/
def handleDeviceRegister (lib : CryptoLib) (now : String) (s : Store)
    (body : Except String DeviceBundle) : Reply DeviceBundle × Store :=
  match body with
  | .error err => (.apiError (BadRequest "invalid_json" ("failed to parse JSON: " ++ err)), s)
  | .ok bundle =>
  match ValidateBundle lib bundle with
  | .error apiErr => (.apiError apiErr, s)
  | .ok _ =>
  match CheckImmutability s bundle with
  | .error apiErr => (.apiError apiErr, s)
  | .ok _ =>
  match DevicesRepository.Get s bundle.DeviceID with
  | .error _ => (.apiError InternalError, s)
  | .ok (some _) => (.json 200 bundle, s)
  | .ok none =>
  match DevicesRepository.Create now s bundle with
  | .error _ => (.apiError InternalError, s)
  | .ok s1 => (.json 201 bundle, s1)

/-- Go `handleInviteClaim`; `pathInviteID` is the result of `parseUUID` on the
path parameter (`none` when it is not a UUID) and `body` the result of
`parseJSON`. -/
def handleInviteClaim (lib : CryptoLib) (now : String) (s : Store)
    (pathInviteID : Option UUID) (body : Except String InviteClaim) :
    Reply InviteClaim × Store :=
  match pathInviteID with
  | none => (.apiError (InvalidUUID "invite_id"), s)
  | some inviteUUID =>
  match body with
  | .error err => (.apiError (BadRequest "invalid_json" ("failed to parse JSON: " ++ err)), s)
  | .ok claim =>
  if inviteUUID.Bytes != claim.InviteID.Bytes then
    (.apiError (BadRequest "invite_id_mismatch" "invite_id in path does not match body"), s)
  else
  match ValidateInviteClaim lib s claim with
  | .error apiErr => (.apiError apiErr, s)
  | .ok row =>
  match InvitesRepository.CreateClaim now s row with
  | .error _ => (.apiError InternalError, s)
  | .ok s1 => (.json 201 claim, s1)

def handleKeyUpdateAck (lib : CryptoLib) (now : String) (s : Store)
    (r : Request KeyUpdateAck) : Reply KeyUpdateAck × Store :=
  match r.pathVaultID with
  | none => (.apiError (InvalidUUID "vault_id"), s)
  | some vaultID =>
  match r.body with
  | .error err => (.apiError (BadRequest "invalid_json" ("failed to parse JSON: " ++ err)), s)
  | .ok ack =>
  if vaultID.Bytes != ack.VaultID.Bytes then
    (.apiError (BadRequest "vault_id_mismatch" "vault_id in path does not match body"), s)
  else
  match ValidateKeyUpdateAck lib s ack with
  | .error apiErr => (.apiError apiErr, s)
  | .ok row =>
  match KeyUpdatesRepository.CreateAck now s row with
  | .error _ => (.apiError InternalError, s)
  | .ok s1 =>
  match VaultsRepository.UpdateMemberKeyEpoch s1 vaultID.Bytes ack.DeviceID ack.KeyEpoch with
  | .error _ => (.apiError InternalError, s1)
  | .ok s2 => (.json 201 ack, s2)

/-! ## Sequences of writes that consume a nonce -/

/-- The scope key of the used-nonce set: `(nonce_type, vault_id, device_id,
nonce)`. -/
abbrev NonceKey := String × Bytes × String × Bytes

/-- One request to `handleInviteCreate`, `handleKeyUpdateCreate` or
`handleSnapshotCreate`, with the clock reading of that request. -/
inductive NonceWrite where
  | invite (now : String) (r : Request Invite)
  | keyUpdate (now : String) (r : Request KeyUpdate)
  | snapshot (now : String) (r : Request Snapshot)

/-- Runs the handler of the request: whether it answered 201, and the store it
leaves. -/
def NonceWrite.run (lib : CryptoLib) (s : Store) : NonceWrite → Bool × Store
  | .invite now r =>
    match handleInviteCreate lib now s r with
    | (.json status _, s1) => (status == 201, s1)
    | (.apiError _, s1) => (false, s1)
  | .keyUpdate now r =>
    match handleKeyUpdateCreate lib now s r with
    | (.json status _, s1) => (status == 201, s1)
    | (.apiError _, s1) => (false, s1)
  | .snapshot now r =>
    match handleSnapshotCreate lib now s r with
    | (.json status _, s1) => (status == 201, s1)
    | (.apiError _, s1) => (false, s1)

/-- The nonce scope of the record carried by the request (none when the body
did not parse). -/
def NonceWrite.key : NonceWrite → Option NonceKey
  | .invite _ r =>
    match r.body with
    | .ok inv => some ("invite", inv.VaultID.Bytes, inv.CreatedByDeviceID, inv.Nonce)
    | .error _ => none
  | .keyUpdate _ r =>
    match r.body with
    | .ok ku => some ("key_update", ku.VaultID.Bytes, ku.CreatedByDeviceID, ku.Nonce)
    | .error _ => none
  | .snapshot _ r =>
    match r.body with
    | .ok sn => some ("snapshot", sn.VaultID.Bytes, sn.CreatedByDeviceID, sn.Nonce)
    | .error _ => none

/-- The store after a sequence of requests. -/
def runWrites (lib : CryptoLib) (s : Store) : List NonceWrite → Store
  | [] => s
  | w :: ws => runWrites lib (w.run lib s).2 ws

/-- The nonce scopes of the records accepted (201) along a sequence of
requests, in order. -/
def acceptedKeys (lib : CryptoLib) (s : Store) : List NonceWrite → List NonceKey
  | [] => []
  | w :: ws =>
    match (w.run lib s).1, w.key with
    | true, some k => k :: acceptedKeys lib (w.run lib s).2 ws
    | _, _ => acceptedKeys lib (w.run lib s).2 ws

/-- Whether the used-nonce set of the store holds the key: the test
`COUNT(*) > 0` of `CheckNonceUsed`. -/
def Store.hasNonce (s : Store) (k : NonceKey) : Bool :=
  s.usedNonces.any (fun n =>
    n.NonceType == k.1 && n.VaultID == k.2.1 && n.DeviceID == k.2.2.1 && n.Nonce == k.2.2.2)

/-- The API error the handler answers to the request; none when it writes a
JSON body. -/
def NonceWrite.rejection (lib : CryptoLib) (s : Store) : NonceWrite → Option APIError
  | .invite now r =>
    match (handleInviteCreate lib now s r).1 with
    | .json _ _ => none
    | .apiError e => some e
  | .keyUpdate now r =>
    match (handleKeyUpdateCreate lib now s r).1 with
    | .json _ _ => none
    | .apiError e => some e
  | .snapshot now r =>
    match (handleSnapshotCreate lib now s r).1 with
    | .json _ _ => none
    | .apiError e => some e

/-! ## Concrete inputs

Values on which the definitions above are evaluated.  `testLib` stands in for
ed25519: the only signature of `msg` that verifies under `pk` is
`toySign pk msg`. -/

instance instDecidableEqExcept {ε α : Type} [DecidableEq ε] [DecidableEq α] :
    DecidableEq (Except ε α) := fun x y =>
  match x, y with
  | .ok a, .ok b =>
    if h : a = b then isTrue (congrArg Except.ok h)
    else isFalse (fun h2 => h (Except.ok.inj h2))
  | .error a, .error b =>
    if h : a = b then isTrue (congrArg Except.error h)
    else isFalse (fun h2 => h (Except.error.inj h2))
  | .ok _, .error _ => isFalse (fun h2 => Except.noConfusion h2)
  | .error _, .ok _ => isFalse (fun h2 => Except.noConfusion h2)

/-- The stand-in signature of `msg` under the key `pk`: the SHA-256 of
`pk ‖ msg`, followed by `pk` (64 bytes for a 32-byte key). -/
def toySign (pk msg : Bytes) : Bytes :=
  SHA256Hash (pk ++ msg) ++ pk

/-- The stand-in for the libraries: a signature verifies exactly when it is
`toySign pk msg`, and the stand-in for `X25519` returns its 32-byte point
argument. -/
def testLib : CryptoLib :=
  { ed25519Verify := fun pk msg sig => decide (sig = toySign pk msg)
    x25519 := fun _ point =>
      if point.length != 32 then .error "bad point length" else .ok point }

/-- The bytes of a successful encoding (empty on an error). -/
def bytesOf (r : Except String Bytes) : Bytes :=
  match r with
  | .ok b => b
  | .error _ => []

def vaultA : UUID := ⟨List.replicate 16 0xA1, by decide⟩

def vaultB : UUID := ⟨List.replicate 16 0xB2, by decide⟩

def keyOwner : Bytes := List.replicate 32 1

/-- The device id of `keyOwner`: hex of its SHA-256. -/
def devOwner : String := "72cd6e8422c407fb6d098690f1130b7ded7ec2f7f5e1d30bd9d521f015363793"

def keyJoiner : Bytes := List.replicate 32 2

/-- The device id of `keyJoiner`: hex of its SHA-256. -/
def devJoiner : String := "75877bb41d393b5fb8455ce60ecd8dda001d06316496b14dfa7f895656eeca4a"

def boxKey : Bytes := List.replicate 32 9

def headHashA : Bytes := List.replicate 32 0x11

/-- A store holding vault A after its genesis: owner `devOwner`, membership
head `(1, headHashA)`, the owner as only member. -/
def storeA : Store :=
  { Store.empty with
    vaults := [{ VaultID := vaultA.Bytes, OwnerDeviceID := devOwner,
                 CreatedAt := "2024-01-01T00:00:00Z", UpdatedAt := "2024-01-01T00:00:00Z" }]
    vaultMembershipHeads := [{ VaultID := vaultA.Bytes, MemberSeq := 1,
                               MemberHeadHash := headHashA }]
    vaultMembers := [{ VaultID := vaultA.Bytes, DeviceID := devOwner,
                       DevicePubkeySign := keyOwner, DevicePubkeyBox := boxKey,
                       SubjectBundleSig := Zero64, IsMember := true, KeyEpoch := 1 }] }

/-- The sign-bytes of an event request, as `ValidateEvent` builds them. -/
def eventSignBytes (e : Event) : Bytes :=
  bytesOf (SignBytesEvent e.EventID.Bytes e.VaultID.Bytes (bytesOf (DeviceIDToBytes e.DeviceID))
    e.Counter e.Lamport e.KeyEpoch e.PrevHash e.Nonce e.Ciphertext)

def event1Unsigned : Event :=
  { MsgType := "event", EventID := ⟨List.replicate 16 0xE1, by decide⟩, VaultID := vaultA,
    DeviceID := devOwner, Counter := 1, Lamport := 1, KeyEpoch := 1, PrevHash := Zero32,
    Nonce := List.replicate 24 7, Ciphertext := [1, 2, 3], Signature := [], Seq := 0,
    CreatedAt := "" }

/-- The first event of the owner in vault A, signed by the owner. -/
def event1 : Event :=
  { event1Unsigned with Signature := toySign keyOwner (eventSignBytes event1Unsigned) }

/-- The same event with the `seq` field set by the client. -/
def event1WithSeq : Event := { event1 with Seq := 7 }

/-- An event with `counter = 2` although the author has no head yet. -/
def eventGap : Event := { event1 with Counter := 2 }

def requestEvent1 : Request Event := { pathVaultID := some vaultA, body := .ok event1 }

/-- The row `ValidateEvent` returns for `event1`. -/
def event1Row : EventRow :=
  { Seq := 0, EventID := event1.EventID.Bytes,
    EventHash := SHA256Hash (eventSignBytes event1Unsigned),
    VaultID := vaultA.Bytes, DeviceID := devOwner, Counter := 1, Lamport := 1, KeyEpoch := 1,
    PrevHash := Zero32, Nonce := List.replicate 24 7, Ciphertext := [1, 2, 3],
    Signature := event1.Signature, CreatedAt := "" }

/-- The store after `handleEventCreate` has accepted `event1` on `storeA`. -/
def storeA1 : Store :=
  (handleEventCreate testLib "2024-01-02T00:00:00Z" storeA requestEvent1).2

def requestEventGap : Request Event := { pathVaultID := some vaultA, body := .ok eventGap }

/-- The sign-bytes of a device bundle, as the validators build them. -/
def bundleSignBytes (dev : String) (pubkeySign pubkeyBox : Bytes) : Bytes :=
  bytesOf (SignBytesDeviceBundle (bytesOf (DeviceIDToBytes dev)) pubkeySign pubkeyBox)

/-- The sign-bytes `ValidateMemberAdd` builds for a member_add request. -/
def memberAddSignBytes (e : MemberEvent) : Bytes :=
  bytesOf (SignBytesMemberAdd e.MemberEventID.Bytes e.VaultID.Bytes e.MemberSeq e.PrevHash
    (bytesOf (DeviceIDToBytes e.ActorDeviceID)) (bytesOf (DeviceIDToBytes e.SubjectDeviceID))
    (if e.MemberSeq == 1 then zeroBytes 16 else e.InviteID.Bytes)
    (if e.MemberSeq == 1 then zeroBytes 64 else e.ClaimSig)
    e.SubjectBundleSig e.SubjectPubkeySign e.SubjectPubkeyBox)

/-- The sign-bytes `ValidateMemberRemove` builds for a member_remove request. -/
def memberRemoveSignBytes (e : MemberEvent) : Bytes :=
  bytesOf (SignBytesMemberRemove e.MemberEventID.Bytes e.VaultID.Bytes e.MemberSeq e.PrevHash
    (bytesOf (DeviceIDToBytes e.ActorDeviceID)) (bytesOf (DeviceIDToBytes e.SubjectDeviceID)))

def genesisUnsigned : MemberEvent :=
  { MsgType := "member_add", MemberEventID := ⟨List.replicate 16 0x01, by decide⟩,
    VaultID := vaultB, MemberSeq := 1, PrevHash := Zero32, ActorDeviceID := devOwner,
    SubjectDeviceID := devOwner, SubjectPubkeySign := keyOwner, SubjectPubkeyBox := boxKey,
    SubjectBundleSig := toySign keyOwner (bundleSignBytes devOwner keyOwner boxKey),
    InviteID := ZeroUUID, ClaimSig := Zero64, Signature := [], CreatedAt := "" }

/-- The genesis member_add of vault B, signed by its subject. -/
def genesisEvent : MemberEvent :=
  { genesisUnsigned with Signature := toySign keyOwner (memberAddSignBytes genesisUnsigned) }

/-- The same genesis request with 64 non-zero bytes in the `claim_sig` field. -/
def genesisEventWithClaimSig : MemberEvent :=
  { genesisEvent with ClaimSig := List.replicate 64 1 }

/-- The row `ValidateMemberAdd` returns for `genesisEventWithClaimSig`. -/
def genesisRowWithClaimSig : MemberEventRow :=
  { MemberEventID := List.replicate 16 0x01, VaultID := vaultB.Bytes, MemberSeq := 1,
    PrevHash := Zero32, ActorDeviceID := devOwner, SubjectDeviceID := devOwner,
    MsgType := "member_add", SubjectPubkeySign := keyOwner, SubjectPubkeyBox := boxKey,
    SubjectBundleSig := genesisEvent.SubjectBundleSig, InviteID := zeroBytes 16,
    ClaimSig := List.replicate 64 1, Signature := genesisEvent.Signature,
    MemberHash := SHA256Hash (memberAddSignBytes genesisUnsigned), CreatedAt := "" }

/-- The row `ValidateMemberAdd` returns for `genesisEvent`. -/
def genesisRow : MemberEventRow := { genesisRowWithClaimSig with ClaimSig := Zero64 }

/-- A member_add with `member_seq = 1` sent by the owner for vault A, which
already exists. -/
def genesisOnVaultA : MemberEvent := { genesisEvent with VaultID := vaultA }

def inviteX : UUID := ⟨List.replicate 16 0x1A, by decide⟩

/-- The claim signature of the joiner for invite X. -/
def claimSigJoiner : Bytes :=
  toySign keyJoiner (bytesOf (SignBytesInviteClaim inviteX.Bytes vaultA.Bytes
    (bytesOf (DeviceIDToBytes devJoiner))))

/-- The sign-bytes `ValidateInvite` builds for an invite request. -/
def inviteSignBytes (i : Invite) : Bytes :=
  bytesOf (SignBytesInvite i.InviteID.Bytes i.VaultID.Bytes
    (bytesOf (DeviceIDToBytes i.TargetDeviceID)) i.TargetDevicePubkeySign
    i.TargetDevicePubkeyBox i.TargetDeviceBundleSig i.Nonce i.WrappedPayload
    (bytesOf (DeviceIDToBytes i.CreatedByDeviceID)) i.SingleUse)

def nonceN : Bytes := List.replicate 24 3

def inviteUnsigned : Invite :=
  { MsgType := "invite", InviteID := inviteX, VaultID := vaultA, TargetDeviceID := devJoiner,
    TargetDevicePubkeySign := keyJoiner, TargetDevicePubkeyBox := boxKey,
    TargetDeviceBundleSig := toySign keyJoiner (bundleSignBytes devJoiner keyJoiner boxKey),
    Nonce := nonceN, WrappedPayload := [4, 5, 6], CreatedByDeviceID := devOwner,
    SingleUse := true, Signature := [], CreatedAt := "" }

/-- Invite X: the owner of vault A invites the joiner, with nonce `nonceN`. -/
def invite1 : Invite :=
  { inviteUnsigned with Signature := toySign keyOwner (inviteSignBytes inviteUnsigned) }

/-- The invite row of invite X, as `handleInviteCreate` stores it. -/
def inviteRowX : InviteRow :=
  { InviteID := inviteX.Bytes, VaultID := vaultA.Bytes, TargetDeviceID := devJoiner,
    TargetDevicePubkeySign := keyJoiner, TargetDevicePubkeyBox := boxKey,
    TargetDeviceBundleSig := invite1.TargetDeviceBundleSig,
    Nonce := nonceN, WrappedPayload := [4, 5, 6], CreatedByDeviceID := devOwner,
    SingleUse := true, Used := false, Signature := invite1.Signature,
    CreatedAt := "2024-01-03T00:00:00Z" }

def claimRowX : InviteClaimRow :=
  { InviteID := inviteX.Bytes, VaultID := vaultA.Bytes, DeviceID := devJoiner,
    ClaimSig := claimSigJoiner, CreatedAt := "2024-01-04T00:00:00Z" }

/-- Vault A with invite X issued to the joiner and claimed by it. -/
def storeInvited : Store :=
  { storeA with invites := [inviteRowX], inviteClaims := [claimRowX] }

def memberAddUnsigned : MemberEvent :=
  { MsgType := "member_add", MemberEventID := ⟨List.replicate 16 0x02, by decide⟩,
    VaultID := vaultA, MemberSeq := 2, PrevHash := headHashA, ActorDeviceID := devOwner,
    SubjectDeviceID := devJoiner, SubjectPubkeySign := keyJoiner, SubjectPubkeyBox := boxKey,
    SubjectBundleSig := toySign keyJoiner (bundleSignBytes devJoiner keyJoiner boxKey),
    InviteID := inviteX, ClaimSig := claimSigJoiner, Signature := [], CreatedAt := "" }

/-- The owner admits the joiner into vault A (member_seq 2). -/
def memberAddEvent : MemberEvent :=
  { memberAddUnsigned with Signature := toySign keyOwner (memberAddSignBytes memberAddUnsigned) }

/-- The row `ValidateMemberAdd` returns for `memberAddEvent`. -/
def memberAddRow : MemberEventRow :=
  { MemberEventID := List.replicate 16 0x02, VaultID := vaultA.Bytes, MemberSeq := 2,
    PrevHash := headHashA, ActorDeviceID := devOwner, SubjectDeviceID := devJoiner,
    MsgType := "member_add", SubjectPubkeySign := keyJoiner, SubjectPubkeyBox := boxKey,
    SubjectBundleSig := memberAddEvent.SubjectBundleSig, InviteID := inviteX.Bytes,
    ClaimSig := claimSigJoiner, Signature := memberAddEvent.Signature,
    MemberHash := SHA256Hash (memberAddSignBytes memberAddUnsigned), CreatedAt := "" }

/-- The same request with a `member_seq` that skips one. -/
def memberAddGap : MemberEvent := { memberAddEvent with MemberSeq := 3 }

def memberRemoveUnsigned : MemberEvent :=
  { MsgType := "member_remove", MemberEventID := ⟨List.replicate 16 0x03, by decide⟩,
    VaultID := vaultA, MemberSeq := 2, PrevHash := headHashA, ActorDeviceID := devOwner,
    SubjectDeviceID := devOwner, SubjectPubkeySign := [], SubjectPubkeyBox := [],
    SubjectBundleSig := [], InviteID := ZeroUUID, ClaimSig := [], Signature := [],
    CreatedAt := "" }

/-- The owner of vault A removes a current member (itself), member_seq 2. -/
def memberRemoveEvent : MemberEvent :=
  { memberRemoveUnsigned with
    Signature := toySign keyOwner (memberRemoveSignBytes memberRemoveUnsigned) }

/-- The row `ValidateMemberRemove` returns for `memberRemoveEvent`. -/
def memberRemoveRow : MemberEventRow :=
  { MemberEventID := List.replicate 16 0x03, VaultID := vaultA.Bytes, MemberSeq := 2,
    PrevHash := headHashA, ActorDeviceID := devOwner, SubjectDeviceID := devOwner,
    MsgType := "member_remove", SubjectPubkeySign := [], SubjectPubkeyBox := [],
    SubjectBundleSig := [], InviteID := [], ClaimSig := [],
    Signature := memberRemoveEvent.Signature,
    MemberHash := SHA256Hash (memberRemoveSignBytes memberRemoveUnsigned), CreatedAt := "" }

/-- The same request with a `prev_hash` that is not the head hash. -/
def memberRemoveBadPrev : MemberEvent := { memberRemoveEvent with PrevHash := Zero32 }

def inviteY : UUID := ⟨List.replicate 16 0x1B, by decide⟩

/-- A second invite of the owner in vault A carrying the nonce of invite X. -/
def invite2 : Invite :=
  { inviteUnsigned with
    InviteID := inviteY
    Signature := toySign keyOwner (inviteSignBytes { inviteUnsigned with InviteID := inviteY }) }

def requestInvite1 : Request Invite := { pathVaultID := some vaultA, body := .ok invite1 }

def requestInvite2 : Request Invite := { pathVaultID := some vaultA, body := .ok invite2 }

/-- The store after `handleInviteCreate` has accepted invite X on `storeA`:
the nonce recorded, the invite row inserted. -/
def storeAfterInvite : Store :=
  { storeA with
    invites := [inviteRowX]
    usedNonces := [{ NonceType := "invite", VaultID := vaultA.Bytes, DeviceID := devOwner,
                     Nonce := nonceN, CreatedAt := "2024-01-03T00:00:00Z" }] }

/-- The sign-bytes `ValidateKeyUpdate` builds for a key_update request. -/
def keyUpdateSignBytes (k : KeyUpdate) : Bytes :=
  bytesOf (SignBytesKeyUpdate k.KeyUpdateID.Bytes k.VaultID.Bytes k.MemberSeq k.MemberHeadHash
    (bytesOf (DeviceIDToBytes k.TargetDeviceID)) k.KeyEpoch k.Nonce k.WrappedPayload
    (bytesOf (DeviceIDToBytes k.CreatedByDeviceID)))

def keyUpdateUnsigned : KeyUpdate :=
  { MsgType := "key_update", KeyUpdateID := ⟨List.replicate 16 0x4B, by decide⟩,
    VaultID := vaultA, MemberSeq := 1, MemberHeadHash := headHashA, TargetDeviceID := devOwner,
    KeyEpoch := 2, Nonce := nonceN, WrappedPayload := [7, 8], CreatedByDeviceID := devOwner,
    Signature := [], CreatedAt := "" }

/-- A key update of the owner of vault A, bound to the head `(1, headHashA)`,
carrying the same 24 nonce bytes as invite X. -/
def keyUpdate1 : KeyUpdate :=
  { keyUpdateUnsigned with
    Signature := toySign keyOwner (keyUpdateSignBytes keyUpdateUnsigned) }

/-- The row `ValidateKeyUpdate` returns for `keyUpdate1`. -/
def keyUpdateRow1 : KeyUpdateRow :=
  { KeyUpdateID := List.replicate 16 0x4B, VaultID := vaultA.Bytes, MemberSeq := 1,
    MemberHeadHash := headHashA, TargetDeviceID := devOwner, KeyEpoch := 2, Nonce := nonceN,
    WrappedPayload := [7, 8], CreatedByDeviceID := devOwner,
    Signature := keyUpdate1.Signature, CreatedAt := "" }

def requestKeyUpdate1 : Request KeyUpdate :=
  { pathVaultID := some vaultA, body := .ok keyUpdate1 }

/-- The sign-bytes `ValidateSnapshot` builds for a snapshot request. -/
def snapshotSignBytes (n : Snapshot) : Bytes :=
  bytesOf (SignBytesSnapshot n.SnapshotID.Bytes n.VaultID.Bytes n.BaseSeq n.MemberSeq
    n.MemberHeadHash n.BaseCounterMap n.HeadHashMap n.LamportAtSnapshot n.KeyEpoch n.Nonce
    n.Ciphertext (bytesOf (DeviceIDToBytes n.CreatedByDeviceID)))

def snapshotUnsigned : Snapshot :=
  { MsgType := "snapshot", SnapshotID := ⟨List.replicate 16 0x5C, by decide⟩,
    VaultID := vaultA, BaseSeq := 1, MemberSeq := 1, MemberHeadHash := headHashA,
    BaseCounterMap := [0, 0, 0, 0], HeadHashMap := [0, 0, 0, 0], LamportAtSnapshot := 1,
    KeyEpoch := 1, Nonce := nonceN, Ciphertext := [9, 9], Signature := [],
    CreatedByDeviceID := devOwner, CreatedAt := "" }

/-- A snapshot of the owner of vault A, bound to the head `(1, headHashA)`. -/
def snapshot1 : Snapshot :=
  { snapshotUnsigned with Signature := toySign keyOwner (snapshotSignBytes snapshotUnsigned) }

/-- The row `ValidateSnapshot` returns for `snapshot1`. -/
def snapshotRow1 : SnapshotRow :=
  { SnapshotID := List.replicate 16 0x5C, VaultID := vaultA.Bytes, BaseSeq := 1,
    MemberSeq := 1, MemberHeadHash := headHashA, BaseCounterMap := [0, 0, 0, 0],
    HeadHashMap := [0, 0, 0, 0], LamportAtSnapshot := 1, KeyEpoch := 1, Nonce := nonceN,
    Ciphertext := [9, 9], Signature := snapshot1.Signature, CreatedByDeviceID := devOwner,
    CreatedAt := "" }

/-- The self-signed bundle of the joiner device. -/
def bundleJoiner : DeviceBundle :=
  { DeviceID := devJoiner, DevicePubkeySign := keyJoiner, DevicePubkeyBox := boxKey,
    DeviceBundleSig := toySign keyJoiner (bundleSignBytes devJoiner keyJoiner boxKey) }

/-- The `devices` row `handleDeviceRegister` stores for `bundleJoiner`. -/
def deviceRowJoiner : DeviceRow :=
  { DeviceID := devJoiner, DevicePubkeySign := keyJoiner, DevicePubkeyBox := boxKey,
    DeviceBundleSig := bundleJoiner.DeviceBundleSig, CreatedAt := "2024-01-01T00:00:00Z" }

/-- Vault A with the joiner device registered. -/
def storeRegistered : Store := { storeA with devices := [deviceRowJoiner] }

def boxKey2 : Bytes := List.replicate 32 8

/-- A second self-signed bundle of the joiner device, with another box key. -/
def bundleJoinerRekeyed : DeviceBundle :=
  { DeviceID := devJoiner, DevicePubkeySign := keyJoiner, DevicePubkeyBox := boxKey2,
    DeviceBundleSig := toySign keyJoiner (bundleSignBytes devJoiner keyJoiner boxKey2) }

/-- A bundle of the owner device whose box key is 32 zero bytes and whose
bundle signature is 64 zero bytes. -/
def bundleZeroBox : DeviceBundle :=
  { DeviceID := devOwner, DevicePubkeySign := keyOwner, DevicePubkeyBox := zeroBytes 32,
    DeviceBundleSig := zeroBytes 64 }

/-- The `vaults` row of vault A. -/
def vaultRowA : VaultRow :=
  { VaultID := vaultA.Bytes, OwnerDeviceID := devOwner,
    CreatedAt := "2024-01-01T00:00:00Z", UpdatedAt := "2024-01-01T00:00:00Z" }

/-- The `vault_members` row of the joiner in vault A. -/
def memberRowJoiner : VaultMemberRow :=
  { VaultID := vaultA.Bytes, DeviceID := devJoiner, DevicePubkeySign := keyJoiner,
    DevicePubkeyBox := boxKey, SubjectBundleSig := Zero64, IsMember := true, KeyEpoch := 1 }

/-- Vault A with two current members: the owner and the joiner. -/
def storeJoined : Store :=
  { storeA with vaultMembers := storeA.vaultMembers ++ [memberRowJoiner] }

/-- A key update for vault A created and signed by the joiner, a current
member that is not the owner. -/
def keyUpdateByJoiner : KeyUpdate :=
  { keyUpdateUnsigned with
    CreatedByDeviceID := devJoiner
    Signature := toySign keyJoiner
      (keyUpdateSignBytes { keyUpdateUnsigned with CreatedByDeviceID := devJoiner }) }

/-- The `vault_members` row of the owner in vault A. -/
def memberRowOwner : VaultMemberRow :=
  { VaultID := vaultA.Bytes, DeviceID := devOwner, DevicePubkeySign := keyOwner,
    DevicePubkeyBox := boxKey, SubjectBundleSig := Zero64, IsMember := true, KeyEpoch := 1 }

/-- The membership head of vault A. -/
def headA : VaultMembershipHead :=
  { VaultID := vaultA.Bytes, MemberSeq := 1, MemberHeadHash := headHashA }

/-- The key update `keyUpdate1` bound to `member_seq` 2 while the head of vault
A is at 1. -/
def keyUpdateStale : KeyUpdate := { keyUpdate1 with MemberSeq := 2 }

/-- The sign-bytes `ValidateKeyUpdateAck` builds for an acknowledgement. -/
def keyUpdateAckSignBytes (a : KeyUpdateAck) : Bytes :=
  bytesOf (SignBytesKeyUpdateAck a.VaultID.Bytes (bytesOf (DeviceIDToBytes a.DeviceID))
    a.KeyEpoch a.MemberSeq a.MemberHeadHash)

def ackUnsigned : KeyUpdateAck :=
  { MsgType := "key_update_ack", VaultID := vaultA, DeviceID := devJoiner, KeyEpoch := 5,
    MemberSeq := 1, MemberHeadHash := headHashA, Signature := [], CreatedAt := "" }

/-- The joiner acknowledges key epoch 5 of vault A at the head `(1, headHashA)`. -/
def ack1 : KeyUpdateAck :=
  { ackUnsigned with Signature := toySign keyJoiner (keyUpdateAckSignBytes ackUnsigned) }

def requestAck1 : Request KeyUpdateAck := { pathVaultID := some vaultA, body := .ok ack1 }

/-- The store after `handleKeyUpdateAck` has accepted `ack1` on `storeJoined`:
the ack row inserted, the joiner's `key_epoch` set to 5, the owner's row as it
was. -/
def storeAcked : Store :=
  { storeA with
    vaultMembers := storeA.vaultMembers ++ [{ memberRowJoiner with KeyEpoch := 5 }]
    keyUpdateAcks := [{ VaultID := vaultA.Bytes, KeyEpoch := 5, DeviceID := devJoiner,
                        MemberSeq := 1, MemberHeadHash := headHashA,
                        Signature := ack1.Signature, CreatedAt := "2024-01-05T00:00:00Z" }] }

/-- The snapshot `snapshot1` with its three variable-length fields exactly at
their bounds: 8 MiB of ciphertext, 40 KiB and 64 KiB of maps. -/
def snapshotAtBounds : Snapshot :=
  { snapshot1 with
    Ciphertext := List.replicate 8388608 0
    BaseCounterMap := List.replicate 40960 0
    HeadHashMap := List.replicate 65536 0 }

/-- The snapshot `snapshot1` with one byte more than 40 KiB of
`base_counter_map`. -/
def snapshotBigMap : Snapshot := { snapshot1 with BaseCounterMap := List.replicate 40961 0 }

/-- Vault A with invite X issued to the joiner and the joiner device
registered; no claim yet. -/
def storeClaimable : Store :=
  { storeA with invites := [inviteRowX], devices := [deviceRowJoiner] }

/-- The claim of the joiner for invite X. -/
def claim1 : InviteClaim :=
  { MsgType := "invite_claim", InviteID := inviteX, VaultID := vaultA, DeviceID := devJoiner,
    Signature := claimSigJoiner, CreatedAt := "" }

/-- The row `ValidateInviteClaim` returns for `claim1`. -/
def claimRow1 : InviteClaimRow :=
  { InviteID := inviteX.Bytes, VaultID := vaultA.Bytes, DeviceID := devJoiner,
    ClaimSig := claimSigJoiner, CreatedAt := "" }

/-- The store after `handleInviteClaim` has accepted `claim1` on
`storeClaimable` at "2024-01-04T00:00:00Z". -/
def storeClaimed : Store := { storeClaimable with inviteClaims := [claimRowX] }

/-- A claim for an invite id that no invite row carries. -/
def claimUnknownInvite : InviteClaim := { claim1 with InviteID := inviteY }

/-- The length-prefixed string "forgor-sync-v1" followed by the
length-prefixed domain tag: the 4-byte big-endian length 14, the 14 bytes of
the prefix, the 4-byte big-endian length of `tag`, the bytes of `tag`. -/
def signHeader (tag : String) : Bytes :=
  be32 14 ++ stringBytes "forgor-sync-v1" ++ (be32 (goLen tag) ++ stringBytes tag)

/-! ## internal/cbe: sorted maps -/

/-- Go `bytes.Compare` of the standard library: -1, 0 or 1 as the first slice
is lexicographically less than, equal to or greater than the second. -/
def bytesCompare : Bytes → Bytes → Int
  | [], [] => 0
  | [], _ :: _ => -1
  | _ :: _, [] => 1
  | x :: xs, y :: ys =>
    if x < y then -1 else if y < x then 1 else bytesCompare xs ys

structure DeviceIDCounterEntry where
  DeviceID : Bytes
  Counter : Nat
deriving DecidableEq, Repr

structure DeviceIDHashEntry where
  DeviceID : Bytes
  Hash : Bytes
deriving DecidableEq, Repr

/-- The `less` closure `WriteDeviceIDCounterMap` hands to `sort.Slice`. -/
def counterEntryLess (a b : DeviceIDCounterEntry) : Bool :=
  decide (bytesCompare a.DeviceID b.DeviceID < 0)

/-- The `less` closure `WriteDeviceIDHashMap` hands to `sort.Slice`. -/
def hashEntryLess (a b : DeviceIDHashEntry) : Bool :=
  decide (bytesCompare a.DeviceID b.DeviceID < 0)

/-- The loop of `WriteDeviceIDCounterMap` over the sorted entries; the first
failing `WriteDeviceID` is returned. -/
def writeCounterEntries (e : Encoder) : List DeviceIDCounterEntry → Except String Encoder
  | [] => .ok e
  | entry :: rest =>
    match e.WriteDeviceID entry.DeviceID with
    | .error err => .error err
    | .ok e1 => writeCounterEntries (e1.WriteU64 entry.Counter) rest

/-- Go `Encoder.WriteDeviceIDCounterMap`.  `sortSlice` is `sort.Slice` of the
Go standard library (an unstable sort), applied to the entries with the
closure `counterEntryLess`; `uint32(len(entries))` is written by `WriteU32`. -/
def Encoder.WriteDeviceIDCounterMap
    (sortSlice : List DeviceIDCounterEntry →
      (DeviceIDCounterEntry → DeviceIDCounterEntry → Bool) → List DeviceIDCounterEntry)
    (e : Encoder) (entries : List DeviceIDCounterEntry) : Except String Encoder :=
  let entries := sortSlice entries counterEntryLess
  let e := e.WriteU32 entries.length
  writeCounterEntries e entries

/-- The loop of `WriteDeviceIDHashMap` over the sorted entries; the first
failing `WriteDeviceID` or `WriteHash` is returned. -/
def writeHashEntries (e : Encoder) : List DeviceIDHashEntry → Except String Encoder
  | [] => .ok e
  | entry :: rest =>
    match e.WriteDeviceID entry.DeviceID with
    | .error err => .error err
    | .ok e1 =>
      match e1.WriteHash entry.Hash with
      | .error err => .error err
      | .ok e2 => writeHashEntries e2 rest

/-- Go `Encoder.WriteDeviceIDHashMap`, with `sort.Slice` as for the counter
map. -/
def Encoder.WriteDeviceIDHashMap
    (sortSlice : List DeviceIDHashEntry →
      (DeviceIDHashEntry → DeviceIDHashEntry → Bool) → List DeviceIDHashEntry)
    (e : Encoder) (entries : List DeviceIDHashEntry) : Except String Encoder :=
  let entries := sortSlice entries hashEntryLess
  let e := e.WriteU32 entries.length
  writeHashEntries e entries

/-! ## internal/storage: the writes of the membership handler and pruning -/

/-- Go `VaultsRepository.Create`: inserts the vault row with both timestamps
set to the current time.

Modelled from the spec: the key of the `vaults` table (declared in the SQL
migrations, which are not among the sources).  The spec identifies a vault by
its 16-byte id and lists `vaults` among the inserts that may fail with a
unique violation; an INSERT of a second row with the same `vault_id` is the
storage error. -/
def VaultsRepository.Create (now : String) (s : Store) (vaultID : Bytes)
    (ownerDeviceID : String) : Except StorageError Store :=
  if s.vaults.any (fun v => v.VaultID == vaultID) then .error .uniqueViolation
  else .ok { s with vaults := s.vaults ++
    [{ VaultID := vaultID, OwnerDeviceID := ownerDeviceID, CreatedAt := now,
       UpdatedAt := now }] }

/-- Go `VaultsRepository.UpsertMembershipHead`: INSERT, or on a conflict on
`vault_id` update `member_seq` and `member_head_hash` of that row. -/
def VaultsRepository.UpsertMembershipHead (s : Store) (vaultID : Bytes) (memberSeq : Nat)
    (memberHeadHash : Bytes) : Except StorageError Store :=
  if s.vaultMembershipHeads.any (fun h => h.VaultID == vaultID) then
    .ok { s with vaultMembershipHeads := s.vaultMembershipHeads.map (fun h =>
      if h.VaultID == vaultID then
        { h with MemberSeq := memberSeq, MemberHeadHash := memberHeadHash }
      else h) }
  else .ok { s with vaultMembershipHeads := s.vaultMembershipHeads ++
    [{ VaultID := vaultID, MemberSeq := memberSeq, MemberHeadHash := memberHeadHash }] }

/-- Go `VaultsRepository.UpsertMember`: INSERT, or on a conflict on
`(vault_id, device_id)` update the two keys, the bundle signature, `is_member`
and `key_epoch` of that row with the values of the new one. -/
def VaultsRepository.UpsertMember (s : Store) (m : VaultMemberRow) :
    Except StorageError Store :=
  if s.vaultMembers.any (fun r => r.VaultID == m.VaultID && r.DeviceID == m.DeviceID) then
    .ok { s with vaultMembers := s.vaultMembers.map (fun r =>
      if r.VaultID == m.VaultID && r.DeviceID == m.DeviceID then
        { r with DevicePubkeySign := m.DevicePubkeySign, DevicePubkeyBox := m.DevicePubkeyBox,
                 SubjectBundleSig := m.SubjectBundleSig, IsMember := m.IsMember,
                 KeyEpoch := m.KeyEpoch }
      else r) }
  else .ok { s with vaultMembers := s.vaultMembers ++ [m] }

/-- Go `VaultsRepository.SetMemberRemoved`: `UPDATE vault_members SET
is_member = 0 WHERE vault_id = ? AND device_id = ?`. -/
def VaultsRepository.SetMemberRemoved (s : Store) (vaultID : Bytes) (deviceID : String) :
    Except StorageError Store :=
  .ok { s with vaultMembers := s.vaultMembers.map (fun m =>
    if m.VaultID == vaultID && m.DeviceID == deviceID then { m with IsMember := false }
    else m) }

/-- Go `MemberEventsRepository.Create`: fills `created_at` when empty and
inserts the row.

Modelled from the spec: the key of the `member_events` table (declared in the
SQL migrations, which are not among the sources).  The spec lists
`member_events` among the inserts that may fail with a unique violation, and
the repository looks a row up by `member_event_id` alone; a second row with the
same `member_event_id` is the storage error. -/
def MemberEventsRepository.Create (now : String) (s : Store) (e : MemberEventRow) :
    Except StorageError Store :=
  let createdAt := if e.CreatedAt == "" then now else e.CreatedAt
  if s.memberEvents.any (fun r => r.MemberEventID == e.MemberEventID) then
    .error .uniqueViolation
  else .ok { s with memberEvents := s.memberEvents ++ [{ e with CreatedAt := createdAt }] }

/-- Go `InvitesRepository.MarkUsed`: `UPDATE invites SET used = 1 WHERE
invite_id = ?`. -/
def InvitesRepository.MarkUsed (s : Store) (inviteID : Bytes) : Except StorageError Store :=
  .ok { s with invites := s.invites.map (fun i =>
    if i.InviteID == inviteID then { i with Used := true } else i) }

/-- The subquery of `PruneOld`: `SELECT snapshot_id FROM snapshots WHERE
vault_id = ? ORDER BY base_seq DESC LIMIT ?`.  Rows with equal `base_seq` come
out in insertion order (the query itself leaves their order to the engine). -/
def snapshotsToKeep (s : Store) (vaultID : Bytes) (keepCount : Nat) : List Bytes :=
  (((s.snapshots.filter (fun r => r.VaultID == vaultID)).insertionSort
    (fun a b => b.BaseSeq ≤ a.BaseSeq)).take keepCount).map (fun r => r.SnapshotID)

/-- Go `SnapshotsRepository.PruneOld`: `DELETE FROM snapshots WHERE vault_id
= ? AND snapshot_id NOT IN (...)`, the subquery being `snapshotsToKeep`. -/
def SnapshotsRepository.PruneOld (s : Store) (vaultID : Bytes) (keepCount : Nat) :
    Except StorageError Store :=
  let keep := snapshotsToKeep s vaultID keepCount
  .ok { s with snapshots := s.snapshots.filter (fun r =>
    !(r.VaultID == vaultID && !keep.contains r.SnapshotID)) }

/-! ## internal/httpapi: member events, body size -/

/-- What `handleMemberEventCreate` receives: the result of `extractVaultID`,
of decoding the body into a raw JSON message, of unmarshalling its `msg_type`,
and of unmarshalling it into a `MemberEvent`. -/
structure MemberEventRequest where
  pathVaultID : Option UUID
  raw : Except String Unit
  msgTypeCheck : Except String String
  event : Except String MemberEvent

/-- The `switch msgTypeCheck.MsgType` of `handleMemberEventCreate`: the event
is unmarshalled, its vault id compared with the path, and the validator of the
message type gives the row. -/
def memberEventSwitch (lib : CryptoLib) (s : Store) (vaultID : UUID) (msgType : String)
    (body : Except String MemberEvent) : Except APIError (MemberEventRow × MemberEvent) :=
  if msgType == "member_add" then
    match body with
    | .error _ => .error (BadRequest "invalid_json" "failed to parse member_add")
    | .ok event =>
      if vaultID.Bytes != event.VaultID.Bytes then
        .error (BadRequest "vault_id_mismatch" "vault_id in path does not match body")
      else
        match ValidateMemberAdd lib s event with
        | .error apiErr => .error apiErr
        | .ok row => .ok (row, event)
  else if msgType == "member_remove" then
    match body with
    | .error _ => .error (BadRequest "invalid_json" "failed to parse member_remove")
    | .ok event =>
      if vaultID.Bytes != event.VaultID.Bytes then
        .error (BadRequest "vault_id_mismatch" "vault_id in path does not match body")
      else
        match ValidateMemberRemove lib s event with
        | .error apiErr => .error apiErr
        | .ok row => .ok (row, event)
  else
    .error (BadRequest "invalid_msg_type" "msg_type must be 'member_add' or 'member_remove'")

/-- Go `handleMemberEventCreate`.  The five storage calls run one after the
other on the connection, outside any transaction: a call that fails leaves the
writes made before it.  The error of `MarkUsed` is discarded.  `row.InviteID
!= nil` is the test for a non-empty list, the nil slice being the empty
list. -/
def handleMemberEventCreate (lib : CryptoLib) (now : String) (s : Store)
    (r : MemberEventRequest) : Reply MemberEvent × Store :=
  match r.pathVaultID with
  | none => (.apiError (InvalidUUID "vault_id"), s)
  | some vaultID =>
  match r.raw with
  | .error _ => (.apiError (BadRequest "invalid_json" "failed to parse JSON"), s)
  | .ok _ =>
  match r.msgTypeCheck with
  | .error _ => (.apiError (BadRequest "invalid_json" "failed to parse msg_type"), s)
  | .ok msgType =>
  match memberEventSwitch lib s vaultID msgType r.event with
  | .error apiErr => (.apiError apiErr, s)
  | .ok (row, event) =>
  let isGenesis := row.MemberSeq == 1
  match (if isGenesis then VaultsRepository.Create now s vaultID.Bytes row.ActorDeviceID
         else .ok s) with
  | .error _ => (.apiError InternalError, s)
  | .ok s1 =>
  match MemberEventsRepository.Create now s1 row with
  | .error _ => (.apiError InternalError, s1)
  | .ok s2 =>
  match VaultsRepository.UpsertMembershipHead s2 vaultID.Bytes row.MemberSeq row.MemberHash with
  | .error _ => (.apiError InternalError, s2)
  | .ok s3 =>
  if msgType == "member_add" then
    let member : VaultMemberRow :=
      { VaultID := vaultID.Bytes, DeviceID := row.SubjectDeviceID,
        DevicePubkeySign := row.SubjectPubkeySign, DevicePubkeyBox := row.SubjectPubkeyBox,
        SubjectBundleSig := row.SubjectBundleSig, IsMember := true, KeyEpoch := 1 }
    match VaultsRepository.UpsertMember s3 member with
    | .error _ => (.apiError InternalError, s3)
    | .ok s4 =>
      if !isGenesis && row.InviteID != [] then
        match InvitesRepository.MarkUsed s4 row.InviteID with
        | .error _ => (.json 201 event, s4)
        | .ok s5 => (.json 201 event, s5)
      else (.json 201 event, s4)
  else
    match VaultsRepository.SetMemberRemoved s3 vaultID.Bytes row.SubjectDeviceID with
    | .error _ => (.apiError InternalError, s3)
    | .ok s4 => (.json 201 event, s4)

/-- The default of `MaxRequestBodySize` in `config.Load`, used when
`FORGOR_MAX_BODY_SIZE` is not set: `10*1024*1024`. -/
def DefaultMaxRequestBodySize : Nat := 10 * 1024 * 1024

/-- Go `base64.StdEncoding.EncodedLen(n)` of the standard library: the length
of the padded base64 encoding of `n` bytes, `(n + 2) / 3 * 4`. -/
def base64EncodedLen (n : Nat) : Nat := (n + 2) / 3 * 4

/-- The entry `v` of the alphabet of Go `base64.StdEncoding`,
`ABCDEFGHIJKLMNOPQRSTUVWXYZabcdefghijklmnopqrstuvwxyz0123456789+/`, as a
byte. -/
def base64Digit (v : Nat) : Byte :=
  if v < 26 then byteOf (65 + v)
  else if v < 52 then byteOf (97 + (v - 26))
  else if v < 62 then byteOf (48 + (v - 52))
  else if v = 62 then byteOf 43
  else byteOf 47

/-- Go `base64.StdEncoding.EncodeToString` of the standard library, as the
bytes of the string it returns: each group of three bytes gives four digits,
and a last group of one or two bytes is padded with `=`. -/
def StdEncoding.EncodeToString : Bytes → Bytes
  | [] => []
  | [a] =>
    let val := a.val * 65536
    [base64Digit (val / 262144 % 64), base64Digit (val / 4096 % 64), 61, 61]
  | [a, b] =>
    let val := a.val * 65536 + b.val * 256
    [base64Digit (val / 262144 % 64), base64Digit (val / 4096 % 64),
     base64Digit (val / 64 % 64), 61]
  | a :: b :: c :: rest =>
    let val := a.val * 65536 + b.val * 256 + c.val
    base64Digit (val / 262144 % 64) :: base64Digit (val / 4096 % 64) ::
      base64Digit (val / 64 % 64) :: base64Digit (val % 64) ::
      StdEncoding.EncodeToString rest

/-- Go `Base64Bytes.MarshalJSON`: `json.Marshal` of the base64 string, which
is the string between two double quotes (no base64 digit is escaped). -/
def Base64Bytes.MarshalJSON (b : Bytes) : Bytes :=
  [0x22] ++ StdEncoding.EncodeToString b ++ [0x22]

/-- Go `io.ReadCloser` of a request body, read to its end: the bytes it
delivers and the error that ends the stream, `none` for `io.EOF`. -/
structure BodyReader where
  data : Bytes
  err : Option String
deriving DecidableEq, Repr

/-- The fields of Go `http.Request` that `MaxBodySizeMiddleware` and
`parseJSON` read.  `ContentLength` is the declared length of the body, and -1
when none is declared (a chunked body). -/
structure HTTPRequest where
  ContentLength : Int
  Body : BodyReader
deriving DecidableEq, Repr

/-- Go `http.MaxBytesReader(w, body, n)` of the standard library: a body of
at most `n` bytes is read as it is; of a longer body the first `n` bytes are
delivered and the read ends with the error `http: request body too large`.  A
negative `n` counts as 0. -/
def MaxBytesReader (body : BodyReader) (n : Int) : BodyReader :=
  if body.data.length > n.toNat then
    { data := body.data.take n.toNat, err := some "http: request body too large" }
  else body

/-- Go `MaxBodySizeMiddleware(maxSize)(next)` serving the request `r` on the
store `s`: a declared `Content-Length` above `maxSize` is answered 413 and
`next` is not called; otherwise `next` serves the request with its body behind
`http.MaxBytesReader`. -/
def MaxBodySizeMiddleware {β : Type} (maxSize : Int)
    (next : Store → HTTPRequest → Reply β × Store) (s : Store) (r : HTTPRequest) :
    Reply β × Store :=
  if r.ContentLength > maxSize then
    (.apiError (PayloadTooLarge "request body too large"), s)
  else next s { r with Body := MaxBytesReader r.Body maxSize }

/-- Go `RateLimitMiddleware(limiter)(next)`; `allow` is the answer of
`limiter.getLimiter(ip).Allow()` for the client of the request. -/
def RateLimitMiddleware {β : Type} (allow : Bool)
    (next : Store → HTTPRequest → Reply β × Store) (s : Store) (r : HTTPRequest) :
    Reply β × Store :=
  if !allow then (.apiError (TooManyRequests "rate limit exceeded"), s)
  else next s r

/-- The route `POST /v1/vaults/{vault_id}/snapshots` as `Server.Handler`
serves it, from `MaxBodySizeMiddleware` inwards: the body-size middleware, the
rate limiter, and `handleSnapshotCreate` (`TimeoutMiddleware` between them only
sets a deadline on the context).  `decode` is the `json.Decoder` that
`parseJSON` runs on `r.Body`; the handler turns its error into 400
`invalid_json`. -/
def serveSnapshotCreate (decode : BodyReader → Except String Snapshot) (maxSize : Int)
    (allow : Bool) (lib : CryptoLib) (now : String) (pathVaultID : Option UUID) (s : Store)
    (r : HTTPRequest) : Reply Snapshot × Store :=
  MaxBodySizeMiddleware maxSize
    (RateLimitMiddleware allow (fun s1 r1 => handleSnapshotCreate lib now s1
      { pathVaultID := pathVaultID, body := decode r1.Body })) s r

/-- The route `POST /v1/vaults/{vault_id}/events` as `Server.Handler` serves
it, from `MaxBodySizeMiddleware` inwards; `decode` is the `json.Decoder` of
`parseJSON`. -/
def serveEventCreate (decode : BodyReader → Except String Event) (maxSize : Int)
    (allow : Bool) (lib : CryptoLib) (now : String) (pathVaultID : Option UUID) (s : Store)
    (r : HTTPRequest) : Reply EventResponse × Store :=
  MaxBodySizeMiddleware maxSize
    (RateLimitMiddleware allow (fun s1 r1 => handleEventCreate lib now s1
      { pathVaultID := pathVaultID, body := decode r1.Body })) s r

/-! ## Sequences of handler calls -/

/-- One state-changing step of the server: a request to one of the eight POST
handlers with the clock reading of that request, or one run of the goroutine
`PruneOld(vaultID, 3)` started by `handleSnapshotCreate`. -/
inductive HandlerCall where
  | deviceRegister (now : String) (body : Except String DeviceBundle)
  | inviteCreate (now : String) (r : Request Invite)
  | inviteClaim (now : String) (pathInviteID : Option UUID) (body : Except String InviteClaim)
  | memberEventCreate (now : String) (r : MemberEventRequest)
  | eventCreate (now : String) (r : Request Event)
  | keyUpdateCreate (now : String) (r : Request KeyUpdate)
  | keyUpdateAck (now : String) (r : Request KeyUpdateAck)
  | snapshotCreate (now : String) (r : Request Snapshot)
  | pruneOld (vaultID : Bytes)

/-- The store the step leaves. -/
def HandlerCall.run (lib : CryptoLib) (s : Store) : HandlerCall → Store
  | .deviceRegister now body => (handleDeviceRegister lib now s body).2
  | .inviteCreate now r => (handleInviteCreate lib now s r).2
  | .inviteClaim now pathInviteID body => (handleInviteClaim lib now s pathInviteID body).2
  | .memberEventCreate now r => (handleMemberEventCreate lib now s r).2
  | .eventCreate now r => (handleEventCreate lib now s r).2
  | .keyUpdateCreate now r => (handleKeyUpdateCreate lib now s r).2
  | .keyUpdateAck now r => (handleKeyUpdateAck lib now s r).2
  | .snapshotCreate now r => (handleSnapshotCreate lib now s r).2
  | .pruneOld vaultID =>
    match SnapshotsRepository.PruneOld s vaultID 3 with
    | .ok s1 => s1
    | .error _ => s

/-- The store after a sequence of steps. -/
def runCalls (lib : CryptoLib) (s : Store) : List HandlerCall → Store
  | [] => s
  | c :: cs => runCalls lib (c.run lib s) cs

/-- The rows of `events` written by one device in one vault, oldest first. -/
def Store.eventChain (s : Store) (vaultID : Bytes) (deviceID : String) : List EventRow :=
  s.events.filter (fun e => e.VaultID == vaultID && e.DeviceID == deviceID)

/-- The request that posts the genesis member_add of vault B. -/
def requestGenesis : MemberEventRequest :=
  { pathVaultID := some vaultB, raw := .ok (), msgTypeCheck := .ok "member_add",
    event := .ok genesisEvent }

/-- The request that posts `memberAddEvent` to vault A. -/
def requestMemberAdd : MemberEventRequest :=
  { pathVaultID := some vaultA, raw := .ok (), msgTypeCheck := .ok "member_add",
    event := .ok memberAddEvent }

/-- The request that posts `memberRemoveEvent` to vault A. -/
def requestMemberRemove : MemberEventRequest :=
  { pathVaultID := some vaultA, raw := .ok (), msgTypeCheck := .ok "member_remove",
    event := .ok memberRemoveEvent }

/-- An insertion sort by the closure `less`: one function that meets what
`sort.Slice` promises (a permutation in which no element is `less` than one
before it). -/
def insertionSortSlice {α : Type} (x : List α) (less : α → α → Bool) : List α :=
  x.insertionSort (fun a b => less b a = false)

/-- Three counter-map entries, out of order. -/
def counterEntries3 : List DeviceIDCounterEntry :=
  [{ DeviceID := List.replicate 32 7, Counter := 70 },
   { DeviceID := List.replicate 32 2, Counter := 20 },
   { DeviceID := List.replicate 31 2 ++ [1], Counter := 21 }]

/-- Two hash-map entries, out of order. -/
def hashEntries2 : List DeviceIDHashEntry :=
  [{ DeviceID := List.replicate 32 7, Hash := List.replicate 32 0x70 },
   { DeviceID := List.replicate 32 2, Hash := List.replicate 32 0x20 }]

/-- 1024 counter-map entries with pairwise distinct 32-byte device ids. -/
def counterEntries1024 : List DeviceIDCounterEntry :=
  (List.range 1024).map (fun i =>
    { DeviceID := zeroBytes 30 ++ [byteOf (i / 256), byteOf i], Counter := i })

/-- The bytes `WriteDeviceIDCounterMap` appends for `counterEntries1024`. -/
def counterMap1024 : Bytes :=
  ((NewEncoder.WriteDeviceIDCounterMap insertionSortSlice counterEntries1024).toOption.map
    Encoder.Bytes).getD []

/-- The snapshot `snapshot1` carrying the counter map of 1024 entries. -/
def snapshotMap1024 : Snapshot := { snapshot1 with BaseCounterMap := counterMap1024 }

/-- A lowercase hexadecimal digit: `0-9` or `a-f`. -/
def isLowerHex (c : Char) : Bool :=
  (48 ≤ c.toNat && c.toNat ≤ 57) || (97 ≤ c.toNat && c.toNat ≤ 102)

/-- A hexadecimal digit of either case: `0-9`, `a-f` or `A-F`. -/
def isHex (c : Char) : Bool :=
  isLowerHex c || (65 ≤ c.toNat && c.toNat ≤ 70)

/-- The device id of `keyOwner` written with uppercase hexadecimal digits. -/
def devOwnerUpper : String :=
  "72CD6E8422C407FB6D098690F1130B7DED7EC2F7F5E1D30BD9D521F015363793"

/-- The event `event1` with the author's device id in uppercase. -/
def event1Upper : Event := { event1 with DeviceID := devOwnerUpper }

/-- The owner's bundle with its device id in uppercase. -/
def bundleOwnerUpper : DeviceBundle :=
  { DeviceID := devOwnerUpper, DevicePubkeySign := keyOwner, DevicePubkeyBox := boxKey,
    DeviceBundleSig := toySign keyOwner (bundleSignBytes devOwner keyOwner boxKey) }

def genesisZeroBoxUnsigned : MemberEvent :=
  { genesisUnsigned with
    SubjectPubkeyBox := zeroBytes 32
    SubjectBundleSig := toySign keyOwner (bundleSignBytes devOwner keyOwner (zeroBytes 32)) }

/-- The genesis member_add of vault B whose subject carries a box key of 32
zero bytes; bundle signature and event signature are those of the subject. -/
def genesisZeroBox : MemberEvent :=
  { genesisZeroBoxUnsigned with
    Signature := toySign keyOwner (memberAddSignBytes genesisZeroBoxUnsigned) }

def requestGenesisZeroBox : MemberEventRequest :=
  { pathVaultID := some vaultB, raw := .ok (), msgTypeCheck := .ok "member_add",
    event := .ok genesisZeroBox }

/-! ## The nine sign-bytes constructors as one function -/

/-- The arguments of one call of a sign-bytes constructor: one case per
`SignBytes*` function, with its arguments in order. -/
inductive SignInput where
  | deviceBundle (deviceID pubkeySign pubkeyBox : Bytes)
  | event (eventID vaultID deviceID : Bytes) (counter lamport keyEpoch : Nat)
      (prevHash nonce ciphertext : Bytes)
  | memberAdd (memberEventID vaultID : Bytes) (memberSeq : Nat)
      (prevHash actorDeviceID subjectDeviceID inviteID claimSig : Bytes)
      (subjectBundleSig subjectPubkeySign subjectPubkeyBox : Bytes)
  | memberRemove (memberEventID vaultID : Bytes) (memberSeq : Nat)
      (prevHash actorDeviceID subjectDeviceID : Bytes)
  | invite (inviteID vaultID targetDeviceID targetPubkeySign targetPubkeyBox : Bytes)
      (targetBundleSig nonce wrappedPayload createdByDeviceID : Bytes) (singleUse : Bool)
  | inviteClaim (inviteID vaultID deviceID : Bytes)
  | keyUpdate (keyUpdateID vaultID : Bytes) (memberSeq : Nat)
      (memberHeadHash targetDeviceID : Bytes) (keyEpoch : Nat)
      (nonce wrappedPayload createdByDeviceID : Bytes)
  | keyUpdateAck (vaultID deviceID : Bytes) (keyEpoch memberSeq : Nat) (memberHeadHash : Bytes)
  | snapshot (snapshotID vaultID : Bytes) (baseSeq memberSeq : Nat)
      (memberHeadHash baseCounterMap headHashMap : Bytes) (lamportAtSnapshot keyEpoch : Nat)
      (nonce ciphertext createdByDeviceID : Bytes)
deriving DecidableEq

/-- The constructor the input belongs to, numbered in the order of
`signbytes.go`. -/
def SignInput.kind : SignInput → Nat
  | .deviceBundle .. => 0
  | .event .. => 1
  | .memberAdd .. => 2
  | .memberRemove .. => 3
  | .invite .. => 4
  | .inviteClaim .. => 5
  | .keyUpdate .. => 6
  | .keyUpdateAck .. => 7
  | .snapshot .. => 8

/-- The domain tag the constructor writes after the prefix. -/
def SignInput.tag : SignInput → String
  | .deviceBundle .. => "device_bundle"
  | .event .. => "event"
  | .memberAdd .. => "member_add"
  | .memberRemove .. => "member_remove"
  | .invite .. => "invite"
  | .inviteClaim .. => "invite_claim"
  | .keyUpdate .. => "key_update"
  | .keyUpdateAck .. => "key_update_ack"
  | .snapshot .. => "snapshot"

/-- The call of the constructor on its arguments. -/
def SignInput.signBytes : SignInput → Except String Bytes
  | .deviceBundle deviceID pubkeySign pubkeyBox =>
    SignBytesDeviceBundle deviceID pubkeySign pubkeyBox
  | .event eventID vaultID deviceID counter lamport keyEpoch prevHash nonce ciphertext =>
    SignBytesEvent eventID vaultID deviceID counter lamport keyEpoch prevHash nonce ciphertext
  | .memberAdd memberEventID vaultID memberSeq prevHash actorDeviceID subjectDeviceID inviteID
      claimSig subjectBundleSig subjectPubkeySign subjectPubkeyBox =>
    SignBytesMemberAdd memberEventID vaultID memberSeq prevHash actorDeviceID subjectDeviceID
      inviteID claimSig subjectBundleSig subjectPubkeySign subjectPubkeyBox
  | .memberRemove memberEventID vaultID memberSeq prevHash actorDeviceID subjectDeviceID =>
    SignBytesMemberRemove memberEventID vaultID memberSeq prevHash actorDeviceID subjectDeviceID
  | .invite inviteID vaultID targetDeviceID targetPubkeySign targetPubkeyBox targetBundleSig
      nonce wrappedPayload createdByDeviceID singleUse =>
    SignBytesInvite inviteID vaultID targetDeviceID targetPubkeySign targetPubkeyBox
      targetBundleSig nonce wrappedPayload createdByDeviceID singleUse
  | .inviteClaim inviteID vaultID deviceID =>
    SignBytesInviteClaim inviteID vaultID deviceID
  | .keyUpdate keyUpdateID vaultID memberSeq memberHeadHash targetDeviceID keyEpoch nonce
      wrappedPayload createdByDeviceID =>
    SignBytesKeyUpdate keyUpdateID vaultID memberSeq memberHeadHash targetDeviceID keyEpoch
      nonce wrappedPayload createdByDeviceID
  | .keyUpdateAck vaultID deviceID keyEpoch memberSeq memberHeadHash =>
    SignBytesKeyUpdateAck vaultID deviceID keyEpoch memberSeq memberHeadHash
  | .snapshot snapshotID vaultID baseSeq memberSeq memberHeadHash baseCounterMap headHashMap
      lamportAtSnapshot keyEpoch nonce ciphertext createdByDeviceID =>
    SignBytesSnapshot snapshotID vaultID baseSeq memberSeq memberHeadHash baseCounterMap
      headHashMap lamportAtSnapshot keyEpoch nonce ciphertext createdByDeviceID

/-- The arguments are in the range of their Go types: every integer is a
`uint64`, and every variable-length field is shorter than 2^32 bytes, so that
`uint32(len(b))` is its length. -/
def SignInput.inRange : SignInput → Prop
  | .deviceBundle _ _ _ =>
    True
  | .event _ _ _ counter lamport keyEpoch _ _ ciphertext =>
    counter < 2 ^ 64 ∧ lamport < 2 ^ 64 ∧ keyEpoch < 2 ^ 64 ∧ ciphertext.length < 2 ^ 32
  | .memberAdd _ _ memberSeq _ _ _ _ _ _ _ _ =>
    memberSeq < 2 ^ 64
  | .memberRemove _ _ memberSeq _ _ _ =>
    memberSeq < 2 ^ 64
  | .invite _ _ _ _ _ _ _ wrappedPayload _ _ =>
    wrappedPayload.length < 2 ^ 32
  | .inviteClaim _ _ _ =>
    True
  | .keyUpdate _ _ memberSeq _ _ keyEpoch _ wrappedPayload _ =>
    memberSeq < 2 ^ 64 ∧ keyEpoch < 2 ^ 64 ∧ wrappedPayload.length < 2 ^ 32
  | .keyUpdateAck _ _ keyEpoch memberSeq _ =>
    keyEpoch < 2 ^ 64 ∧ memberSeq < 2 ^ 64
  | .snapshot _ _ baseSeq memberSeq _ baseCounterMap headHashMap lamportAtSnapshot keyEpoch _
      ciphertext _ =>
    baseSeq < 2 ^ 64 ∧ memberSeq < 2 ^ 64 ∧ lamportAtSnapshot < 2 ^ 64 ∧ keyEpoch < 2 ^ 64 ∧
      baseCounterMap.length < 2 ^ 32 ∧ headHashMap.length < 2 ^ 32 ∧ ciphertext.length < 2 ^ 32

/-- A snapshot input whose three variable-length fields are `[1]`, `[2, 3]`
and `[4]`. -/
def snapshotSplitA : SignInput :=
  .snapshot (zeroBytes 16) (zeroBytes 16) 1 1 (zeroBytes 32) [1] [2, 3] 1 1 (zeroBytes 24) [4]
    (zeroBytes 32)

/-- The same bytes split differently among the two maps: `[1, 2]` and `[3]`. -/
def snapshotSplitB : SignInput :=
  .snapshot (zeroBytes 16) (zeroBytes 16) 1 1 (zeroBytes 32) [1, 2] [3] 1 1 (zeroBytes 24) [4]
    (zeroBytes 32)

/-- The arguments of `SignBytesMemberAdd` for a genesis with zero
placeholders. -/
def memberAddInput : SignInput :=
  .memberAdd (zeroBytes 16) (zeroBytes 16) 1 (zeroBytes 32) (zeroBytes 32) (zeroBytes 32)
    (zeroBytes 16) (zeroBytes 64) (zeroBytes 64) (zeroBytes 32) (zeroBytes 32)

/-- The arguments of `SignBytesMemberRemove` with the same leading fields. -/
def memberRemoveInput : SignInput :=
  .memberRemove (zeroBytes 16) (zeroBytes 16) 1 (zeroBytes 32) (zeroBytes 32) (zeroBytes 32)

/-- The value of a big-endian byte string. -/
def beValue (b : Bytes) : Nat := b.foldl (fun acc x => acc * 256 + x.val) 0

/-- The five tables the two hash chains live in are the same in both
stores: `vaults`, `vault_membership_heads`, `vault_members`, `events` and
`event_heads`. -/
def Store.sameChains (s1 s : Store) : Prop :=
  s1.vaults = s.vaults ∧ s1.vaultMembershipHeads = s.vaultMembershipHeads ∧
  s1.vaultMembers = s.vaultMembers ∧ s1.events = s.events ∧ s1.eventHeads = s.eventHeads

/-- The chain invariant of one `(vault_id, device_id)`: the persisted events
have counters 1, 2, ..., n; the first has `prev_hash` = 32 zero bytes and each
later one the `event_hash` of its predecessor; the event ids are pairwise
distinct; the event head is absent when there is no event and otherwise is
`(n, event_hash of the last event)`. -/
def Store.eventChainOk (s : Store) (v : Bytes) (d : String) : Prop :=
  (s.eventChain v d).map (fun e => e.Counter) = List.range' 1 (s.eventChain v d).length ∧
  (∀ e, (s.eventChain v d).head? = some e → e.PrevHash = zeroBytes 32) ∧
  (s.eventChain v d).Chain' (fun a b => b.PrevHash = a.EventHash) ∧
  ((s.eventChain v d).map (fun e => e.EventID)).Nodup ∧
  (s.eventChain v d = [] → EventsRepository.GetEventHead s v d = .ok none) ∧
  (∀ e, (s.eventChain v d).getLast? = some e →
    ∃ h, EventsRepository.GetEventHead s v d = .ok (some h) ∧
      h.LastCounter = (s.eventChain v d).length ∧ h.LastHash = e.EventHash)
/-- The first event of the owner in vault B. -/
def eventBUnsigned : Event := { event1Unsigned with VaultID := vaultB }

def eventB : Event :=
  { eventBUnsigned with Signature := toySign keyOwner (eventSignBytes eventBUnsigned) }

/-- Two steps from the empty store: the genesis of vault B, then the first
event of its owner. -/
def callsGenesisThenEvent : List HandlerCall :=
  [.memberEventCreate "2024-01-01T00:00:00Z"
      { pathVaultID := some vaultB, raw := .ok (), msgTypeCheck := .ok "member_add",
        event := .ok genesisEvent },
   .eventCreate "2024-01-02T00:00:00Z" { pathVaultID := some vaultB, body := .ok eventB }]

/-- The vault exists and its owner is not a current member: any
`vault_members` row found for `(vault, owner)` has `is_member = false`. -/
def Store.ownerRemoved (s : Store) (vaultID : Bytes) : Prop :=
  ∃ vault, VaultsRepository.Get s vaultID = .ok (some vault) ∧
    ∀ m, VaultsRepository.GetMember s vaultID vault.OwnerDeviceID = .ok (some m) →
      m.IsMember = false

/-- Vault A in which the joiner is a member with `key_epoch` 5, and in which
invite X for the joiner has been issued and claimed. -/
def storeReinvited : Store :=
  { storeAcked with invites := [inviteRowX], inviteClaims := [claimRowX] }

/-- Vault A after its genesis, with the genesis member event of vault A
stored; its `member_event_id` is the one `genesisEvent` carries. -/
def storeGenesisStored : Store :=
  { storeA with memberEvents := [{ genesisRow with VaultID := vaultA.Bytes }] }

/-- The store `storeGenesisStored` with a row for vault B added by
`VaultsRepository.Create`. -/
def storeGenesisFailed : Store :=
  { storeGenesisStored with vaults := storeGenesisStored.vaults ++
      [{ VaultID := vaultB.Bytes, OwnerDeviceID := devOwner,
         CreatedAt := "2024-01-07T00:00:00Z", UpdatedAt := "2024-01-07T00:00:00Z" }] }

def nonceM : Bytes := List.replicate 24 4

/-- A second invite of the owner in vault A that carries the `invite_id` of
invite X and a fresh nonce. -/
def inviteSameID : Invite :=
  { inviteUnsigned with
    Nonce := nonceM
    Signature := toySign keyOwner (inviteSignBytes { inviteUnsigned with Nonce := nonceM }) }

def requestInviteSameID : Request Invite :=
  { pathVaultID := some vaultA, body := .ok inviteSameID }

/-- The store `storeAfterInvite` with the nonce of `inviteSameID` recorded. -/
def storeNonceLeft : Store :=
  { storeAfterInvite with usedNonces := storeAfterInvite.usedNonces ++
      [{ NonceType := "invite", VaultID := vaultA.Bytes, DeviceID := devOwner,
         Nonce := nonceM, CreatedAt := "2024-01-08T00:00:00Z" }] }

/-- The row `ValidateInvite` returns for `inviteSameID`. -/
def inviteRowSameID : InviteRow :=
  { inviteRowX with Nonce := nonceM, Signature := inviteSameID.Signature, CreatedAt := "" }

/-- Vault A holding three snapshots with `base_seq` 10, 20 and 30, inserted in
that order. -/
def storeThreeSnapshots : Store :=
  { storeA with snapshots :=
      [{ snapshotRow1 with SnapshotID := List.replicate 16 0x51, BaseSeq := 10 },
       { snapshotRow1 with SnapshotID := List.replicate 16 0x52, BaseSeq := 20 },
       { snapshotRow1 with SnapshotID := List.replicate 16 0x53, BaseSeq := 30 }] }

def requestSnapshotOne : Request Snapshot := { pathVaultID := some vaultA, body := .ok snapshot1 }

/-- The store `handleSnapshotCreate` leaves when it has accepted `snapshot1`, whose
`base_seq` is 1, on `storeThreeSnapshots`: the nonce is recorded and the row
is added. -/
def storeFourSnapshots : Store :=
  { storeThreeSnapshots with
    usedNonces := [{ NonceType := "snapshot", VaultID := vaultA.Bytes, DeviceID := devOwner,
                     Nonce := nonceN, CreatedAt := "2024-01-09T00:00:00Z" }]
    snapshots := storeThreeSnapshots.snapshots ++
      [{ snapshotRow1 with CreatedAt := "2024-01-09T00:00:00Z" }] }


/-- The store `storeFourSnapshots` with the snapshots of `storeThreeSnapshots`. -/
def storePruned : Store :=
  { storeFourSnapshots with snapshots := storeThreeSnapshots.snapshots }

/-- A decoder for concrete inputs: it fails with the error of the reader when
the stream ends in one, and otherwise answers `snapshot1` when the stream holds
at least the JSON text of its ciphertext. -/
def decodeSnapshotOne (rd : BodyReader) : Except String Snapshot :=
  match rd.err with
  | some e => .error e
  | none =>
    if (Base64Bytes.MarshalJSON snapshot1.Ciphertext).length ≤ rd.data.length then
      .ok snapshot1
    else .error "unexpected EOF"

/-- A chunked request whose body is the JSON text of the ciphertext of
`snapshot1` between braces. -/
def requestChunkedOne : HTTPRequest :=
  { ContentLength := -1,
    Body := { data := [0x7B] ++ Base64Bytes.MarshalJSON snapshot1.Ciphertext ++ [0x7D],
              err := none } }

/-! # Theorems -/

/-! ## Events -/

theorem checkEventChain_ok {head : Option EventHead} {counter : Nat} {prevHash : Bytes}
    {u : Unit} (h : checkEventChain head counter prevHash = .ok u) :
    (head = none → counter = 1 ∧ prevHash = Zero32) ∧
    (∀ hd, head = some hd →
      counter = (hd.LastCounter + 1) % 2 ^ 64 ∧ prevHash = hd.LastHash) := by
  unfold checkEventChain at h
  cases head with
  | none =>
    simp only at h
    split at h
    · contradiction
    · split at h
      · contradiction
      · simp_all
  | some hd =>
    simp only at h
    split at h
    · contradiction
    · split at h
      · contradiction
      · simp_all

theorem checkEventChain_error {head : Option EventHead} {counter : Nat} {prevHash : Bytes}
    (h : ¬ ((head = none → counter = 1 ∧ prevHash = Zero32) ∧
      (∀ hd, head = some hd →
        counter = (hd.LastCounter + 1) % 2 ^ 64 ∧ prevHash = hd.LastHash))) :
    checkEventChain head counter prevHash = .error EventChainBroken := by
  unfold checkEventChain
  cases head with
  | none =>
    simp only
    split
    · rfl
    · split
      · rfl
      · exfalso
        apply h
        simp_all
  | some hd =>
    simp only
    split
    · rfl
    · split
      · rfl
      · exfalso
        apply h
        simp_all

/-- Everything `ValidateEvent` has checked when it returns a row. -/
theorem ValidateEvent_ok_inv {lib : CryptoLib} {s : Store} {ev : Event} {row : EventRow}
    (h : ValidateEvent lib s ev = .ok row) :
    ev.MsgType = "event" ∧ ev.PrevHash.length = HashLength ∧ ev.Nonce.length = NonceLength ∧
    ev.Signature.length = SignatureLength ∧ ev.Ciphertext.length ≤ MaxEventCiphertext ∧
    DeviceID.Validate ev.DeviceID = .ok () ∧
    ∃ vault member head deviceIDBytes signBytes,
      VaultsRepository.Get s ev.VaultID.Bytes = .ok (some vault) ∧
      VaultsRepository.GetMember s ev.VaultID.Bytes ev.DeviceID = .ok (some member) ∧
      member.IsMember = true ∧
      EventsRepository.GetEventHead s ev.VaultID.Bytes ev.DeviceID = .ok head ∧
      checkEventChain head ev.Counter ev.PrevHash = .ok () ∧
      EventsRepository.CheckEventIDExists s ev.VaultID.Bytes ev.DeviceID ev.EventID.Bytes
        = .ok false ∧
      DeviceIDToBytes ev.DeviceID = .ok deviceIDBytes ∧
      SignBytesEvent ev.EventID.Bytes ev.VaultID.Bytes deviceIDBytes ev.Counter ev.Lamport
        ev.KeyEpoch ev.PrevHash ev.Nonce ev.Ciphertext = .ok signBytes ∧
      VerifySignature lib member.DevicePubkeySign signBytes ev.Signature = .ok () ∧
      row = { Seq := 0, EventID := ev.EventID.Bytes, EventHash := SHA256Hash signBytes,
              VaultID := ev.VaultID.Bytes, DeviceID := ev.DeviceID, Counter := ev.Counter,
              Lamport := ev.Lamport, KeyEpoch := ev.KeyEpoch, PrevHash := ev.PrevHash,
              Nonce := ev.Nonce, Ciphertext := ev.Ciphertext, Signature := ev.Signature,
              CreatedAt := ev.CreatedAt } := by
  unfold ValidateEvent at h
  dsimp only at h
  repeat' (split at h <;> try contradiction)
  injection h with h
  subst h
  refine ⟨by simp_all, by simp_all, by simp_all, by simp_all, by simp_all,
    ‹DeviceID.Validate _ = _›, _, _, _, _, _, ‹VaultsRepository.Get _ _ = _›,
    ‹VaultsRepository.GetMember _ _ _ = _›, by simp_all,
    ‹EventsRepository.GetEventHead _ _ _ = _›, ‹checkEventChain _ _ _ = _›,
    by simp_all, ‹DeviceIDToBytes _ = _›, ‹SignBytesEvent _ _ _ _ _ _ _ _ _ = _›,
    ‹VerifySignature _ _ _ _ = _›, rfl⟩

/-- A structurally valid event of a current member of an existing vault whose
chain check fails is answered with the error of the chain check. -/
theorem ValidateEvent_of_chain_error {lib : CryptoLib} {s : Store} {ev : Event}
    {vault : VaultRow} {member : VaultMemberRow} {head : Option EventHead} {e : APIError}
    (h1 : ev.MsgType = "event") (h2 : ev.PrevHash.length = HashLength)
    (h3 : ev.Nonce.length = NonceLength) (h4 : ev.Signature.length = SignatureLength)
    (h5 : ev.Ciphertext.length ≤ MaxEventCiphertext)
    (h6 : DeviceID.Validate ev.DeviceID = .ok ())
    (h7 : VaultsRepository.Get s ev.VaultID.Bytes = .ok (some vault))
    (h8 : VaultsRepository.GetMember s ev.VaultID.Bytes ev.DeviceID = .ok (some member))
    (h9 : member.IsMember = true)
    (h10 : EventsRepository.GetEventHead s ev.VaultID.Bytes ev.DeviceID = .ok head)
    (h11 : checkEventChain head ev.Counter ev.PrevHash = .error e) :
    ValidateEvent lib s ev = .error e := by
  unfold ValidateEvent
  simp [h1, h2, h3, h4, h6, h7, h8, h9, h10, h11, Nat.not_lt.mpr h5]

theorem VerifySignature_ok {lib : CryptoLib} {pk msg sig : Bytes} {u : Unit}
    (h : VerifySignature lib pk msg sig = .ok u) :
    pk.length = 32 ∧ sig.length = 64 ∧ lib.ed25519Verify pk msg sig = true := by
  unfold VerifySignature at h
  repeat' (split at h <;> try contradiction)
  simp_all [ed25519PublicKeySize, ed25519SignatureSize]

theorem find?_append_of_any_false {α : Type} (p : α → Bool) (l : List α) (a : α)
    (h : l.any p = false) (ha : p a = true) : (l ++ [a]).find? p = some a := by
  induction l with
  | nil => simp [List.find?, ha]
  | cons x xs ih =>
    simp only [List.any_cons, Bool.or_eq_false_iff] at h
    simp [List.find?, h.1, ih h.2]

theorem find?_map_of_any {α : Type} (p : α → Bool) (f : α → α) (l : List α)
    (hf : ∀ x, p (f x) = p x) (h : l.any p = true) :
    ∃ x, x ∈ l ∧ p x = true ∧ (l.map f).find? p = some (f x) := by
  induction l with
  | nil => simp at h
  | cons x xs ih =>
    by_cases hx : p x = true
    · exact ⟨x, by simp, hx, by simp [List.find?, hf, hx]⟩
    · simp only [List.any_cons, Bool.or_eq_true] at h
      rcases h with h | h
      · exact absurd h hx
      · obtain ⟨y, hy, hpy, hfind⟩ := ih h
        refine ⟨y, by simp [hy], hpy, ?_⟩
        simp only [Bool.not_eq_true] at hx
        simp [List.find?, hf, hx, hfind]

theorem EventsRepository.Create_ok {now : String} {s s1 : Store} {e : EventRow} {seq : Nat}
    (h : EventsRepository.Create now s e = .ok (seq, s1)) :
    s1.vaults = s.vaults ∧ s1.vaultMembers = s.vaultMembers ∧ s1.eventHeads = s.eventHeads := by
  unfold EventsRepository.Create at h
  dsimp only at h
  split at h
  · contradiction
  · injection h with h
    injection h with h1 h2
    subst h2
    exact ⟨rfl, rfl, rfl⟩

theorem EventsRepository.UpsertEventHead_ok {s s1 : Store} {h : EventHead}
    (hs : EventsRepository.UpsertEventHead s h = .ok s1) :
    s1.vaults = s.vaults ∧ s1.vaultMembers = s.vaultMembers ∧
    ∃ hd, EventsRepository.GetEventHead s1 h.VaultID h.DeviceID = .ok (some hd) ∧
      hd.LastCounter = h.LastCounter ∧ hd.LastHash = h.LastHash := by
  unfold EventsRepository.UpsertEventHead at hs
  split at hs
  · rename_i hany
    injection hs with hs
    subst hs
    refine ⟨rfl, rfl, ?_⟩
    obtain ⟨x, _, hpx, hfind⟩ := find?_map_of_any
      (fun r : EventHead => r.VaultID == h.VaultID && r.DeviceID == h.DeviceID)
      (fun r => if r.VaultID == h.VaultID && r.DeviceID == h.DeviceID then
        { r with LastCounter := h.LastCounter, LastHash := h.LastHash } else r)
      s.eventHeads (by intro x; dsimp only; split <;> simp_all) hany
    refine ⟨_, by simp only [EventsRepository.GetEventHead]; rw [hfind], ?_, ?_⟩
    · dsimp only; rw [if_pos hpx]
    · dsimp only; rw [if_pos hpx]
  · rename_i hany
    injection hs with hs
    subst hs
    refine ⟨rfl, rfl, h, ?_, rfl, rfl⟩
    simp only [EventsRepository.GetEventHead]
    rw [find?_append_of_any_false _ _ _ (by simpa using hany) (by simp)]

theorem ValidateEvent_event1 : ValidateEvent testLib storeA event1 = .ok event1Row := by
  decide!

/-- C1. An event `ValidateEvent` accepts continues the author's chain: with no
head for `(vault_id, device_id)` it has `counter = 1` and `prev_hash` of 32
zero bytes; with a head it has `counter = head.LastCounter + 1` (the `uint64`
addition of the code, which is the plain successor whenever it does not wrap)
and `prev_hash = head.LastHash`.  Conversely a structurally valid event of a
current member of an existing vault that breaks either equality is answered
400 `event_chain_broken`, whatever its `event_id` and signature. -/
theorem ValidateEvent_chain (lib : CryptoLib) (s : Store) (event : Event) :
    (∀ row, ValidateEvent lib s event = .ok row →
      ∀ head, EventsRepository.GetEventHead s event.VaultID.Bytes event.DeviceID = .ok head →
        (head = none → event.Counter = 1 ∧ event.PrevHash = zeroBytes 32) ∧
        (∀ hd, head = some hd →
          event.Counter = (hd.LastCounter + 1) % 2 ^ 64 ∧ event.PrevHash = hd.LastHash ∧
          (hd.LastCounter + 1 < 2 ^ 64 → event.Counter = hd.LastCounter + 1))) ∧
    (event.MsgType = "event" → event.PrevHash.length = 32 → event.Nonce.length = 24 →
      event.Signature.length = 64 → event.Ciphertext.length ≤ 65536 →
      DeviceID.Validate event.DeviceID = .ok () →
      ∀ vault member head,
        VaultsRepository.Get s event.VaultID.Bytes = .ok (some vault) →
        VaultsRepository.GetMember s event.VaultID.Bytes event.DeviceID = .ok (some member) →
        member.IsMember = true →
        EventsRepository.GetEventHead s event.VaultID.Bytes event.DeviceID = .ok head →
        ¬ ((head = none → event.Counter = 1 ∧ event.PrevHash = zeroBytes 32) ∧
           (∀ hd, head = some hd →
             event.Counter = (hd.LastCounter + 1) % 2 ^ 64 ∧ event.PrevHash = hd.LastHash)) →
        ValidateEvent lib s event = .error EventChainBroken ∧
        EventChainBroken.StatusCode = 400 ∧ EventChainBroken.Code = "event_chain_broken") := by
  constructor
  · intro row hrow head hhead
    obtain ⟨_, _, _, _, _, _, _, _, head2, _, _, _, _, _, hh, hchain, _⟩ :=
      ValidateEvent_ok_inv hrow
    rw [hhead] at hh
    injection hh with hh
    subst hh
    have hc := checkEventChain_ok hchain
    refine ⟨hc.1, fun hd hhd => ?_⟩
    obtain ⟨h1, h2⟩ := hc.2 hd hhd
    exact ⟨h1, h2, fun hlt => by rw [h1, Nat.mod_eq_of_lt hlt]⟩
  · intro h1 h2 h3 h4 h5 h6 vault member head h7 h8 h9 h10 hbad
    exact ⟨ValidateEvent_of_chain_error h1 h2 h3 h4 h5 h6 h7 h8 h9 h10
      (checkEventChain_error hbad), rfl, rfl⟩

/-- C1 on concrete inputs: the owner's first event (counter 1, zero
`prev_hash`, no head) is accepted, and the same event with counter 2 is
answered `event_chain_broken`. -/
theorem ValidateEvent_chain_witness :
    (ValidateEvent testLib storeA event1 = .ok event1Row ∧
      event1.Counter = 1 ∧ event1.PrevHash = zeroBytes 32) ∧
    ValidateEvent testLib storeA eventGap = .error EventChainBroken :=
  ⟨⟨ValidateEvent_event1,
    ((ValidateEvent_chain testLib storeA event1).1 event1Row ValidateEvent_event1
      none (by decide!)).1 rfl⟩,
   ((ValidateEvent_chain testLib storeA eventGap).2 (by decide!) (by decide!) (by decide!)
      (by decide!) (by decide!) (by decide!)
      { VaultID := vaultA.Bytes, OwnerDeviceID := devOwner,
        CreatedAt := "2024-01-01T00:00:00Z", UpdatedAt := "2024-01-01T00:00:00Z" }
      { VaultID := vaultA.Bytes, DeviceID := devOwner, DevicePubkeySign := keyOwner,
        DevicePubkeyBox := boxKey, SubjectBundleSig := Zero64, IsMember := true, KeyEpoch := 1 }
      none (by decide!) (by decide!) (by decide!) (by decide!) (by decide!)).1⟩

theorem counter_ne_succ_mod (c : Nat) : c ≠ (c + 1) % 2 ^ 64 := by
  norm_num
  omega

/-- After `handleEventCreate` has answered with a JSON body, the same request
fails the chain check and leaves the store as it is. -/
theorem handleEventCreate_then_replay {lib : CryptoLib} {now now2 : String} {s s1 : Store}
    {r : Request Event} {status : Nat} {resp : EventResponse}
    (h : handleEventCreate lib now s r = (.json status resp, s1)) :
    handleEventCreate lib now2 s1 r = (.apiError EventChainBroken, s1) := by
  unfold handleEventCreate at h
  split at h
  · simp at h
  rename_i vaultID hpath
  split at h
  · simp at h
  rename_i event hbody
  split at h
  · simp at h
  rename_i hvault
  split at h
  · simp at h
  rename_i row hrow
  split at h
  · simp at h
  rename_i seq sA hcreate
  dsimp only at h
  split at h
  · simp at h
  rename_i sB hupsert
  simp only [Prod.mk.injEq] at h
  obtain ⟨_, hs⟩ := h
  subst hs
  obtain ⟨hm, hp, hn, hsig, hc, hdev, vault, member, head, dib, sb, hget, hmem, hism, _, _, _, _,
    _, _, hrowEq⟩ := ValidateEvent_ok_inv hrow
  obtain ⟨hv1, hv2, _⟩ := EventsRepository.Create_ok hcreate
  obtain ⟨hv3, hv4, hd, hhead, hcnt, _⟩ := EventsRepository.UpsertEventHead_ok hupsert
  have hvid : vaultID.Bytes = event.VaultID.Bytes := by simpa using hvault
  have hget2 : VaultsRepository.Get sB event.VaultID.Bytes = .ok (some vault) := by
    simp only [VaultsRepository.Get, hv3, hv1] at hget ⊢
    exact hget
  have hmem2 : VaultsRepository.GetMember sB event.VaultID.Bytes event.DeviceID
      = .ok (some member) := by
    simp only [VaultsRepository.GetMember, hv4, hv2] at hmem ⊢
    exact hmem
  have hhead2 : EventsRepository.GetEventHead sB event.VaultID.Bytes event.DeviceID
      = .ok (some hd) := by
    simpa [hrowEq, hvid] using hhead
  have hcnt2 : hd.LastCounter = event.Counter := by simpa [hrowEq] using hcnt
  have hchain : checkEventChain (some hd) event.Counter event.PrevHash
      = .error EventChainBroken := by
    apply checkEventChain_error
    intro hgood
    have := (hgood.2 hd rfl).1
    rw [hcnt2] at this
    exact counter_ne_succ_mod _ this
  have hval : ValidateEvent lib sB event = .error EventChainBroken :=
    ValidateEvent_of_chain_error hm hp hn hsig hc hdev hget2 hmem2 hism hhead2 hchain
  unfold handleEventCreate
  simp [hpath, hbody, hvid, hval]

/-- C2 (as stated) fails: on `storeA` the request carrying `event1` is accepted
(201), and the identical request submitted again is answered
`event_chain_broken`, whose code is not `conflict`. -/
theorem handleEventCreate_replay_not_conflict :
    (handleEventCreate testLib "2024-01-02T00:00:00Z" storeA requestEvent1).1
      = .json 201 { Seq := 1 } ∧
    (handleEventCreate testLib "2024-01-02T00:00:01Z" storeA1 requestEvent1).1
      = .apiError EventChainBroken ∧
    EventChainBroken.Code ≠ "conflict" := by
  decide!

/-- C2, amended. When `handleEventCreate` has accepted an event request, the
identical request submitted again is rejected with HTTP 400 and code
`event_chain_broken` (the head has advanced, and the chain check precedes the
`event_id` check), and the store after the second request equals the store
before it. -/
theorem handleEventCreate_replay (lib : CryptoLib) (now now2 : String) (s s1 : Store)
    (r : Request Event) (resp : EventResponse)
    (h : handleEventCreate lib now s r = (.json 201 resp, s1)) :
    (handleEventCreate lib now2 s1 r).1 = .apiError EventChainBroken ∧
    EventChainBroken.StatusCode = 400 ∧ EventChainBroken.Code = "event_chain_broken" ∧
    (handleEventCreate lib now2 s1 r).2 = s1 := by
  rw [handleEventCreate_then_replay h]
  exact ⟨rfl, rfl, rfl, rfl⟩

/-- C2 amended, on concrete inputs: `event1` accepted on `storeA`, then
replayed. -/
theorem handleEventCreate_replay_witness :
    handleEventCreate testLib "2024-01-02T00:00:00Z" storeA requestEvent1
      = (.json 201 { Seq := 1 }, storeA1) ∧
    (handleEventCreate testLib "2024-01-02T00:00:01Z" storeA1 requestEvent1).1
      = .apiError EventChainBroken ∧
    (handleEventCreate testLib "2024-01-02T00:00:01Z" storeA1 requestEvent1).2 = storeA1 :=
  have h : handleEventCreate testLib "2024-01-02T00:00:00Z" storeA requestEvent1
      = (.json 201 { Seq := 1 }, storeA1) := by decide!
  ⟨h, (handleEventCreate_replay testLib _ "2024-01-02T00:00:01Z" storeA storeA1 requestEvent1
      { Seq := 1 } h).1,
    (handleEventCreate_replay testLib _ "2024-01-02T00:00:01Z" storeA storeA1 requestEvent1
      { Seq := 1 } h).2.2.2⟩

theorem find?_some_mem {α : Type} {p : α → Bool} {l : List α} {a : α}
    (h : l.find? p = some a) : a ∈ l ∧ p a = true := by
  induction l with
  | nil => simp at h
  | cons x xs ih =>
    simp only [List.find?] at h
    split at h
    · injection h with h
      subst h
      exact ⟨by simp, by assumption⟩
    · exact ⟨by simp [(ih h).1], (ih h).2⟩

theorem VaultsRepository.GetMember_some {s : Store} {vaultID : Bytes} {deviceID : String}
    {m : VaultMemberRow} (h : VaultsRepository.GetMember s vaultID deviceID = .ok (some m)) :
    m ∈ s.vaultMembers ∧ m.VaultID = vaultID ∧ m.DeviceID = deviceID := by
  unfold VaultsRepository.GetMember at h
  injection h with h
  obtain ⟨h1, h2⟩ := find?_some_mem h
  simp only [Bool.and_eq_true, beq_iff_eq] at h2
  exact ⟨h1, h2.1, h2.2⟩

theorem ValidateEvent_event1WithSeq :
    ValidateEvent testLib storeA event1WithSeq = .ok event1Row := by
  decide!

/-- C7 (as stated) fails on the `Seq` field: `event1WithSeq` carries `seq = 7`
and is accepted, and the returned row has `Seq = 0`. -/
theorem ValidateEvent_row_seq_not_copied :
    ValidateEvent testLib storeA event1WithSeq = .ok event1Row ∧
    event1WithSeq.Seq = 7 ∧ event1Row.Seq = 0 ∧ event1Row.Seq ≠ event1WithSeq.Seq :=
  ⟨ValidateEvent_event1WithSeq, rfl, rfl, by decide⟩

/-- C7, amended. For an event `ValidateEvent` accepts: the author has a
`vault_members` row with `is_member = true`; `ed25519.Verify` succeeded under
that row's stored `pubkey_sign` over exactly `SignBytesEvent(event_id,
vault_id, device_id bytes, counter, lamport, key_epoch, prev_hash, nonce,
ciphertext)` built from the request's own fields; the returned row's
`EventHash` is the SHA-256 of those same bytes; every other field of the
returned row except `Seq` equals the corresponding request field, and `Seq` is
0 whatever the request carries (the store assigns it on insert). -/
theorem ValidateEvent_accepted_row (lib : CryptoLib) (s : Store) (event : Event)
    (row : EventRow) (h : ValidateEvent lib s event = .ok row) :
    ∃ member deviceIDBytes signBytes,
      member ∈ s.vaultMembers ∧ member.VaultID = event.VaultID.Bytes ∧
      member.DeviceID = event.DeviceID ∧ member.IsMember = true ∧
      VaultsRepository.GetMember s event.VaultID.Bytes event.DeviceID = .ok (some member) ∧
      DeviceIDToBytes event.DeviceID = .ok deviceIDBytes ∧
      SignBytesEvent event.EventID.Bytes event.VaultID.Bytes deviceIDBytes event.Counter
        event.Lamport event.KeyEpoch event.PrevHash event.Nonce event.Ciphertext
        = .ok signBytes ∧
      lib.ed25519Verify member.DevicePubkeySign signBytes event.Signature = true ∧
      row.EventHash = SHA256Hash signBytes ∧
      row.EventID = event.EventID.Bytes ∧ row.VaultID = event.VaultID.Bytes ∧
      row.DeviceID = event.DeviceID ∧ row.Counter = event.Counter ∧
      row.Lamport = event.Lamport ∧ row.KeyEpoch = event.KeyEpoch ∧
      row.PrevHash = event.PrevHash ∧ row.Nonce = event.Nonce ∧
      row.Ciphertext = event.Ciphertext ∧ row.Signature = event.Signature ∧
      row.CreatedAt = event.CreatedAt ∧ row.Seq = 0 := by
  obtain ⟨_, _, _, _, _, _, vault, member, head, dib, sb, _, hmem, hism, _, _, _, hdib, hsb,
    hver, hrow⟩ := ValidateEvent_ok_inv h
  obtain ⟨hm1, hm2, hm3⟩ := VaultsRepository.GetMember_some hmem
  subst hrow
  exact ⟨member, dib, sb, hm1, hm2, hm3, hism, hmem, hdib, hsb, (VerifySignature_ok hver).2.2,
    rfl, rfl, rfl, rfl, rfl, rfl, rfl, rfl, rfl, rfl, rfl, rfl, rfl⟩

/-- C7 amended, on concrete inputs: the accepted `event1` on `storeA`. -/
theorem ValidateEvent_accepted_row_witness :
    ValidateEvent testLib storeA event1 = .ok event1Row ∧
    ∃ member deviceIDBytes signBytes,
      member ∈ storeA.vaultMembers ∧ member.VaultID = event1.VaultID.Bytes ∧
      member.DeviceID = event1.DeviceID ∧ member.IsMember = true ∧
      VaultsRepository.GetMember storeA event1.VaultID.Bytes event1.DeviceID
        = .ok (some member) ∧
      DeviceIDToBytes event1.DeviceID = .ok deviceIDBytes ∧
      SignBytesEvent event1.EventID.Bytes event1.VaultID.Bytes deviceIDBytes event1.Counter
        event1.Lamport event1.KeyEpoch event1.PrevHash event1.Nonce event1.Ciphertext
        = .ok signBytes ∧
      testLib.ed25519Verify member.DevicePubkeySign signBytes event1.Signature = true ∧
      event1Row.EventHash = SHA256Hash signBytes ∧
      event1Row.EventID = event1.EventID.Bytes ∧ event1Row.VaultID = event1.VaultID.Bytes ∧
      event1Row.DeviceID = event1.DeviceID ∧ event1Row.Counter = event1.Counter ∧
      event1Row.Lamport = event1.Lamport ∧ event1Row.KeyEpoch = event1.KeyEpoch ∧
      event1Row.PrevHash = event1.PrevHash ∧ event1Row.Nonce = event1.Nonce ∧
      event1Row.Ciphertext = event1.Ciphertext ∧ event1Row.Signature = event1.Signature ∧
      event1Row.CreatedAt = event1.CreatedAt ∧ event1Row.Seq = 0 :=
  ⟨ValidateEvent_event1,
    ValidateEvent_accepted_row testLib storeA event1 event1Row ValidateEvent_event1⟩

/-! ## Membership events -/

theorem memberAddGenesisChecks_ok {vault : Option VaultRow} {ev : MemberEvent} {u : Unit}
    (h : memberAddGenesisChecks vault ev = .ok u) :
    vault = none ∧ ev.ActorDeviceID = ev.SubjectDeviceID ∧ ev.PrevHash = Zero32 := by
  unfold memberAddGenesisChecks at h
  repeat' (split at h <;> try contradiction)
  simp_all

theorem memberAddInvitedChecks_ok {lib : CryptoLib} {s : Store} {vault : Option VaultRow}
    {ev : MemberEvent} {vaultID : Bytes} {memberSeq : Nat} {subjectBytes : Bytes} {u : Unit}
    (h : memberAddInvitedChecks lib s vault ev vaultID memberSeq subjectBytes = .ok u) :
    ∃ v head invite claim claimSignBytes,
      vault = some v ∧ ev.ActorDeviceID = v.OwnerDeviceID ∧
      VaultsRepository.GetMembershipHead s vaultID = .ok (some head) ∧
      memberSeq = (head.MemberSeq + 1) % 2 ^ 64 ∧ ev.PrevHash = head.MemberHeadHash ∧
      InvitesRepository.Get s ev.InviteID.Bytes = .ok (some invite) ∧
      invite.VaultID = vaultID ∧ invite.TargetDeviceID = ev.SubjectDeviceID ∧
      (invite.SingleUse && invite.Used) = false ∧
      InvitesRepository.GetClaim s invite.InviteID ev.SubjectDeviceID = .ok (some claim) ∧
      claim.ClaimSig = ev.ClaimSig ∧
      SignBytesInviteClaim invite.InviteID vaultID subjectBytes = .ok claimSignBytes ∧
      VerifySignature lib ev.SubjectPubkeySign claimSignBytes ev.ClaimSig = .ok () := by
  unfold memberAddInvitedChecks at h
  repeat' (split at h <;> try contradiction)
  refine ⟨_, _, _, _, _, rfl, by simp_all, ‹VaultsRepository.GetMembershipHead _ _ = _›,
    by simp_all, by simp_all, ‹InvitesRepository.Get _ _ = _›, by simp_all, by simp_all,
    by simp_all, ‹InvitesRepository.GetClaim _ _ _ = _›, by simp_all,
    ‹SignBytesInviteClaim _ _ _ = _›, ‹VerifySignature _ _ _ _ = _›⟩

theorem memberAddSignerPubkey_genesis {s : Store} {ev : MemberEvent} {vaultID : Bytes} :
    memberAddSignerPubkey s ev vaultID true = .ok ev.SubjectPubkeySign := by
  simp [memberAddSignerPubkey]

theorem memberAddSignerPubkey_invited {s : Store} {ev : MemberEvent} {vaultID : Bytes}
    {key : Bytes} (h : memberAddSignerPubkey s ev vaultID false = .ok key) :
    ∃ actor, VaultsRepository.GetMember s vaultID ev.ActorDeviceID = .ok (some actor) ∧
      actor.IsMember = true ∧ key = actor.DevicePubkeySign := by
  unfold memberAddSignerPubkey at h
  simp only [Bool.false_eq_true, ↓reduceIte] at h
  repeat' (split at h <;> try contradiction)
  injection h with h
  exact ⟨_, ‹VaultsRepository.GetMember _ _ _ = _›, by simp_all, h.symm⟩

/-- Everything `ValidateMemberAdd` has checked when it returns a row. -/
theorem ValidateMemberAdd_ok_inv {lib : CryptoLib} {s : Store} {ev : MemberEvent}
    {row : MemberEventRow} (h : ValidateMemberAdd lib s ev = .ok row) :
    ev.MsgType = "member_add" ∧ ev.PrevHash.length = HashLength ∧
    ev.Signature.length = SignatureLength ∧ ev.SubjectPubkeySign.length = PublicKeyLength ∧
    ev.SubjectPubkeyBox.length = PublicKeyLength ∧
    ev.SubjectBundleSig.length = SignatureLength ∧ ev.ClaimSig.length = SignatureLength ∧
    DeviceID.Validate ev.ActorDeviceID = .ok () ∧
    DeviceID.Validate ev.SubjectDeviceID = .ok () ∧
    VerifyDeviceID ev.SubjectDeviceID ev.SubjectPubkeySign = .ok () ∧
    ∃ subjectBytes bundleBytes vault actorBytes signBytes signerPubkey,
      DeviceIDToBytes ev.SubjectDeviceID = .ok subjectBytes ∧
      SignBytesDeviceBundle subjectBytes ev.SubjectPubkeySign ev.SubjectPubkeyBox
        = .ok bundleBytes ∧
      VerifySignature lib ev.SubjectPubkeySign bundleBytes ev.SubjectBundleSig = .ok () ∧
      VaultsRepository.Get s ev.VaultID.Bytes = .ok vault ∧
      (if (ev.MemberSeq == 1) = true then memberAddGenesisChecks vault ev
        else memberAddInvitedChecks lib s vault ev ev.VaultID.Bytes ev.MemberSeq subjectBytes)
        = .ok () ∧
      DeviceIDToBytes ev.ActorDeviceID = .ok actorBytes ∧
      SignBytesMemberAdd ev.MemberEventID.Bytes ev.VaultID.Bytes ev.MemberSeq ev.PrevHash
        actorBytes subjectBytes
        (if (ev.MemberSeq == 1) = true then zeroBytes 16 else ev.InviteID.Bytes)
        (if (ev.MemberSeq == 1) = true then zeroBytes 64 else ev.ClaimSig)
        ev.SubjectBundleSig ev.SubjectPubkeySign ev.SubjectPubkeyBox = .ok signBytes ∧
      memberAddSignerPubkey s ev ev.VaultID.Bytes (ev.MemberSeq == 1) = .ok signerPubkey ∧
      VerifySignature lib signerPubkey signBytes ev.Signature = .ok () ∧
      row = { MemberEventID := ev.MemberEventID.Bytes, VaultID := ev.VaultID.Bytes,
              MemberSeq := ev.MemberSeq, PrevHash := ev.PrevHash,
              ActorDeviceID := ev.ActorDeviceID, SubjectDeviceID := ev.SubjectDeviceID,
              MsgType := "member_add", SubjectPubkeySign := ev.SubjectPubkeySign,
              SubjectPubkeyBox := ev.SubjectPubkeyBox,
              SubjectBundleSig := ev.SubjectBundleSig, InviteID := ev.InviteID.Bytes,
              ClaimSig := ev.ClaimSig, Signature := ev.Signature,
              MemberHash := SHA256Hash signBytes, CreatedAt := ev.CreatedAt } := by
  unfold ValidateMemberAdd at h
  dsimp only at h
  cases hg : (ev.MemberSeq == 1) <;>
    simp only [hg, Bool.false_eq_true, ↓reduceIte] at h ⊢ <;>
    (repeat' (split at h <;> try contradiction)) <;>
    (injection h with h; subst h;
     exact ⟨by simp_all, by simp_all, by simp_all, by simp_all, by simp_all, by simp_all,
      by simp_all, ‹DeviceID.Validate ev.ActorDeviceID = _›,
      ‹DeviceID.Validate ev.SubjectDeviceID = _›, ‹VerifyDeviceID _ _ = _›,
      _, _, _, _, _, _, ‹DeviceIDToBytes ev.SubjectDeviceID = _›,
      ‹SignBytesDeviceBundle _ _ _ = _›,
      ‹VerifySignature lib ev.SubjectPubkeySign _ ev.SubjectBundleSig = _›,
      ‹VaultsRepository.Get _ _ = _›, by assumption,
      ‹DeviceIDToBytes ev.ActorDeviceID = _›, ‹SignBytesMemberAdd _ _ _ _ _ _ _ _ _ _ _ = _›,
      by assumption, ‹VerifySignature lib _ _ ev.Signature = _›, rfl⟩)

theorem ite_error_ok {ε α : Type} {c : Prop} [Decidable c] {e : ε} {rest : Except ε α} {r : α}
    (h : (if c then Except.error e else rest) = Except.ok r) : ¬ c ∧ rest = Except.ok r := by
  by_cases hc : c
  · rw [if_pos hc] at h
    contradiction
  · rw [if_neg hc] at h
    exact ⟨hc, h⟩

/-- Everything `ValidateMemberRemove` has checked when it returns a row. -/
theorem ValidateMemberRemove_ok_inv {lib : CryptoLib} {s : Store} {ev : MemberEvent}
    {row : MemberEventRow} (h : ValidateMemberRemove lib s ev = .ok row) :
    ev.MsgType = "member_remove" ∧ ev.PrevHash.length = HashLength ∧
    ev.Signature.length = SignatureLength ∧
    DeviceID.Validate ev.ActorDeviceID = .ok () ∧
    DeviceID.Validate ev.SubjectDeviceID = .ok () ∧
    ∃ vault head actorBytes subjectBytes signBytes actor,
      VaultsRepository.Get s ev.VaultID.Bytes = .ok (some vault) ∧
      ev.ActorDeviceID = vault.OwnerDeviceID ∧
      VaultsRepository.GetMembershipHead s ev.VaultID.Bytes = .ok (some head) ∧
      ev.MemberSeq = (head.MemberSeq + 1) % 2 ^ 64 ∧ ev.PrevHash = head.MemberHeadHash ∧
      VaultsRepository.IsMember s ev.VaultID.Bytes ev.SubjectDeviceID = .ok true ∧
      DeviceIDToBytes ev.ActorDeviceID = .ok actorBytes ∧
      DeviceIDToBytes ev.SubjectDeviceID = .ok subjectBytes ∧
      SignBytesMemberRemove ev.MemberEventID.Bytes ev.VaultID.Bytes ev.MemberSeq ev.PrevHash
        actorBytes subjectBytes = .ok signBytes ∧
      VaultsRepository.GetMember s ev.VaultID.Bytes ev.ActorDeviceID = .ok (some actor) ∧
      actor.IsMember = true ∧
      VerifySignature lib actor.DevicePubkeySign signBytes ev.Signature = .ok () ∧
      row = { MemberEventID := ev.MemberEventID.Bytes, VaultID := ev.VaultID.Bytes,
              MemberSeq := ev.MemberSeq, PrevHash := ev.PrevHash,
              ActorDeviceID := ev.ActorDeviceID, SubjectDeviceID := ev.SubjectDeviceID,
              MsgType := "member_remove", SubjectPubkeySign := [], SubjectPubkeyBox := [],
              SubjectBundleSig := [], InviteID := [], ClaimSig := [],
              Signature := ev.Signature, MemberHash := SHA256Hash signBytes,
              CreatedAt := ev.CreatedAt } := by
  unfold ValidateMemberRemove at h
  dsimp only at h
  repeat' (split at h <;> try contradiction)
  injection h with h
  subst h
  exact ⟨by simp_all, by simp_all, by simp_all, ‹DeviceID.Validate ev.ActorDeviceID = _›,
    ‹DeviceID.Validate ev.SubjectDeviceID = _›, _, _, _, _, _, _,
    ‹VaultsRepository.Get _ _ = _›, by simp_all, ‹VaultsRepository.GetMembershipHead _ _ = _›,
    by simp_all, by simp_all, by simp_all, ‹DeviceIDToBytes ev.ActorDeviceID = _›,
    ‹DeviceIDToBytes ev.SubjectDeviceID = _›, ‹SignBytesMemberRemove _ _ _ _ _ _ = _›,
    ‹VaultsRepository.GetMember _ _ _ = _›, by simp_all, ‹VerifySignature _ _ _ _ = _›, rfl⟩

/-- Everything `ValidateKeyUpdate` has checked when it returns a row. -/
theorem ValidateKeyUpdate_ok_inv {lib : CryptoLib} {s : Store} {ku : KeyUpdate}
    {row : KeyUpdateRow} (h : ValidateKeyUpdate lib s ku = .ok row) :
    ku.MsgType = "key_update" ∧ ku.Nonce.length = NonceLength ∧
    ku.Signature.length = SignatureLength ∧ ku.MemberHeadHash.length = HashLength ∧
    ku.WrappedPayload.length ≤ MaxWrappedPayload ∧
    DeviceID.Validate ku.TargetDeviceID = .ok () ∧
    DeviceID.Validate ku.CreatedByDeviceID = .ok () ∧
    ∃ vault creator head targetBytes creatorBytes signBytes,
      VaultsRepository.Get s ku.VaultID.Bytes = .ok (some vault) ∧
      ku.CreatedByDeviceID = vault.OwnerDeviceID ∧
      VaultsRepository.GetMember s ku.VaultID.Bytes ku.CreatedByDeviceID
        = .ok (some creator) ∧
      creator.IsMember = true ∧
      VaultsRepository.IsMember s ku.VaultID.Bytes ku.TargetDeviceID = .ok true ∧
      VaultsRepository.GetMembershipHead s ku.VaultID.Bytes = .ok (some head) ∧
      ku.MemberSeq = head.MemberSeq ∧ ku.MemberHeadHash = head.MemberHeadHash ∧
      KeyUpdatesRepository.CheckExists s ku.VaultID.Bytes ku.KeyEpoch ku.TargetDeviceID
        = .ok false ∧
      InvitesRepository.CheckNonceUsed s "key_update" ku.VaultID.Bytes ku.CreatedByDeviceID
        ku.Nonce = .ok false ∧
      DeviceIDToBytes ku.TargetDeviceID = .ok targetBytes ∧
      DeviceIDToBytes ku.CreatedByDeviceID = .ok creatorBytes ∧
      SignBytesKeyUpdate ku.KeyUpdateID.Bytes ku.VaultID.Bytes ku.MemberSeq ku.MemberHeadHash
        targetBytes ku.KeyEpoch ku.Nonce ku.WrappedPayload creatorBytes = .ok signBytes ∧
      VerifySignature lib creator.DevicePubkeySign signBytes ku.Signature = .ok () ∧
      row = { KeyUpdateID := ku.KeyUpdateID.Bytes, VaultID := ku.VaultID.Bytes,
              MemberSeq := ku.MemberSeq, MemberHeadHash := ku.MemberHeadHash,
              TargetDeviceID := ku.TargetDeviceID, KeyEpoch := ku.KeyEpoch,
              Nonce := ku.Nonce, WrappedPayload := ku.WrappedPayload,
              CreatedByDeviceID := ku.CreatedByDeviceID, Signature := ku.Signature,
              CreatedAt := ku.CreatedAt } := by
  unfold ValidateKeyUpdate at h
  dsimp only at h
  replace h := ite_error_ok h
  obtain ⟨c1, h⟩ := h
  replace h := ite_error_ok h
  obtain ⟨c2, h⟩ := h
  replace h := ite_error_ok h
  obtain ⟨c3, h⟩ := h
  replace h := ite_error_ok h
  obtain ⟨c4, h⟩ := h
  replace h := ite_error_ok h
  obtain ⟨c5, h⟩ := h
  repeat' (split at h <;> try contradiction)
  injection h with h
  subst h
  exact ⟨by simp_all, by simp_all, by simp_all, by simp_all, by simp_all,
    ‹DeviceID.Validate ku.TargetDeviceID = _›, ‹DeviceID.Validate ku.CreatedByDeviceID = _›,
    _, _, _, _, _, _, ‹VaultsRepository.Get _ _ = _›, by simp_all,
    ‹VaultsRepository.GetMember _ _ _ = _›, by simp_all, by simp_all,
    ‹VaultsRepository.GetMembershipHead _ _ = _›, by simp_all, by simp_all, by simp_all,
    by simp_all, ‹DeviceIDToBytes ku.TargetDeviceID = _›,
    ‹DeviceIDToBytes ku.CreatedByDeviceID = _›, ‹SignBytesKeyUpdate _ _ _ _ _ _ _ _ _ = _›,
    ‹VerifySignature _ _ _ _ = _›, rfl⟩

/-- Everything `ValidateSnapshot` has checked when it returns a row. -/
theorem ValidateSnapshot_ok_inv {lib : CryptoLib} {s : Store} {snap : Snapshot}
    {row : SnapshotRow} (h : ValidateSnapshot lib s snap = .ok row) :
    snap.MsgType = "snapshot" ∧ snap.Nonce.length = NonceLength ∧
    snap.Signature.length = SignatureLength ∧ snap.MemberHeadHash.length = HashLength ∧
    snap.Ciphertext.length ≤ MaxSnapshotCiphertext ∧
    snap.BaseCounterMap.length ≤ MaxMapLength * 40 ∧
    snap.HeadHashMap.length ≤ MaxMapLength * 64 ∧
    DeviceID.Validate snap.CreatedByDeviceID = .ok () ∧
    ∃ vault creator head creatorBytes signBytes,
      VaultsRepository.Get s snap.VaultID.Bytes = .ok (some vault) ∧
      snap.CreatedByDeviceID = vault.OwnerDeviceID ∧
      VaultsRepository.GetMember s snap.VaultID.Bytes snap.CreatedByDeviceID
        = .ok (some creator) ∧
      creator.IsMember = true ∧
      VaultsRepository.GetMembershipHead s snap.VaultID.Bytes = .ok (some head) ∧
      snap.MemberSeq = head.MemberSeq ∧ snap.MemberHeadHash = head.MemberHeadHash ∧
      InvitesRepository.CheckNonceUsed s "snapshot" snap.VaultID.Bytes snap.CreatedByDeviceID
        snap.Nonce = .ok false ∧
      DeviceIDToBytes snap.CreatedByDeviceID = .ok creatorBytes ∧
      SignBytesSnapshot snap.SnapshotID.Bytes snap.VaultID.Bytes snap.BaseSeq snap.MemberSeq
        snap.MemberHeadHash snap.BaseCounterMap snap.HeadHashMap snap.LamportAtSnapshot
        snap.KeyEpoch snap.Nonce snap.Ciphertext creatorBytes = .ok signBytes ∧
      VerifySignature lib creator.DevicePubkeySign signBytes snap.Signature = .ok () ∧
      row = { SnapshotID := snap.SnapshotID.Bytes, VaultID := snap.VaultID.Bytes,
              BaseSeq := snap.BaseSeq, MemberSeq := snap.MemberSeq,
              MemberHeadHash := snap.MemberHeadHash, BaseCounterMap := snap.BaseCounterMap,
              HeadHashMap := snap.HeadHashMap, LamportAtSnapshot := snap.LamportAtSnapshot,
              KeyEpoch := snap.KeyEpoch, Nonce := snap.Nonce, Ciphertext := snap.Ciphertext,
              Signature := snap.Signature, CreatedByDeviceID := snap.CreatedByDeviceID,
              CreatedAt := snap.CreatedAt } := by
  unfold ValidateSnapshot at h
  dsimp only at h
  replace h := ite_error_ok h
  obtain ⟨c1, h⟩ := h
  replace h := ite_error_ok h
  obtain ⟨c2, h⟩ := h
  replace h := ite_error_ok h
  obtain ⟨c3, h⟩ := h
  replace h := ite_error_ok h
  obtain ⟨c4, h⟩ := h
  replace h := ite_error_ok h
  obtain ⟨c5, h⟩ := h
  replace h := ite_error_ok h
  obtain ⟨c6, h⟩ := h
  replace h := ite_error_ok h
  obtain ⟨c7, h⟩ := h
  repeat' (split at h <;> try contradiction)
  injection h with h
  subst h
  exact ⟨by simp_all, by simp_all, by simp_all, by simp_all, by simp_all, by simp_all,
    by simp_all, ‹DeviceID.Validate snap.CreatedByDeviceID = _›,
    _, _, _, _, _, ‹VaultsRepository.Get _ _ = _›, by simp_all,
    ‹VaultsRepository.GetMember _ _ _ = _›, by simp_all,
    ‹VaultsRepository.GetMembershipHead _ _ = _›, by simp_all, by simp_all, by simp_all,
    ‹DeviceIDToBytes snap.CreatedByDeviceID = _›,
    ‹SignBytesSnapshot _ _ _ _ _ _ _ _ _ _ _ _ = _›, ‹VerifySignature _ _ _ _ = _›, rfl⟩

/-- Everything `ValidateInvite` has checked when it returns a row. -/
theorem ValidateInvite_ok_inv {lib : CryptoLib} {s : Store} {inv : Invite}
    {row : InviteRow} (h : ValidateInvite lib s inv = .ok row) :
    inv.MsgType = "invite" ∧ inv.Nonce.length = NonceLength ∧
    inv.Signature.length = SignatureLength ∧
    inv.WrappedPayload.length ≤ MaxWrappedPayload ∧
    inv.TargetDevicePubkeySign.length = PublicKeyLength ∧
    inv.TargetDevicePubkeyBox.length = PublicKeyLength ∧
    inv.TargetDeviceBundleSig.length = SignatureLength ∧
    DeviceID.Validate inv.TargetDeviceID = .ok () ∧
    DeviceID.Validate inv.CreatedByDeviceID = .ok () ∧
    ∃ vault creator targetBytes bundleBytes creatorBytes signBytes,
      VaultsRepository.Get s inv.VaultID.Bytes = .ok (some vault) ∧
      VaultsRepository.GetMember s inv.VaultID.Bytes inv.CreatedByDeviceID
        = .ok (some creator) ∧
      creator.IsMember = true ∧
      VerifyDeviceID inv.TargetDeviceID inv.TargetDevicePubkeySign = .ok () ∧
      DeviceIDToBytes inv.TargetDeviceID = .ok targetBytes ∧
      SignBytesDeviceBundle targetBytes inv.TargetDevicePubkeySign inv.TargetDevicePubkeyBox
        = .ok bundleBytes ∧
      VerifySignature lib inv.TargetDevicePubkeySign bundleBytes inv.TargetDeviceBundleSig
        = .ok () ∧
      InvitesRepository.CheckNonceUsed s "invite" inv.VaultID.Bytes inv.CreatedByDeviceID
        inv.Nonce = .ok false ∧
      DeviceIDToBytes inv.CreatedByDeviceID = .ok creatorBytes ∧
      SignBytesInvite inv.InviteID.Bytes inv.VaultID.Bytes targetBytes
        inv.TargetDevicePubkeySign inv.TargetDevicePubkeyBox inv.TargetDeviceBundleSig
        inv.Nonce inv.WrappedPayload creatorBytes inv.SingleUse = .ok signBytes ∧
      VerifySignature lib creator.DevicePubkeySign signBytes inv.Signature = .ok () ∧
      row = { InviteID := inv.InviteID.Bytes, VaultID := inv.VaultID.Bytes,
              TargetDeviceID := inv.TargetDeviceID,
              TargetDevicePubkeySign := inv.TargetDevicePubkeySign,
              TargetDevicePubkeyBox := inv.TargetDevicePubkeyBox,
              TargetDeviceBundleSig := inv.TargetDeviceBundleSig, Nonce := inv.Nonce,
              WrappedPayload := inv.WrappedPayload,
              CreatedByDeviceID := inv.CreatedByDeviceID, SingleUse := inv.SingleUse,
              Used := false, Signature := inv.Signature, CreatedAt := inv.CreatedAt } := by
  unfold ValidateInvite at h
  dsimp only at h
  replace h := ite_error_ok h
  obtain ⟨c1, h⟩ := h
  replace h := ite_error_ok h
  obtain ⟨c2, h⟩ := h
  replace h := ite_error_ok h
  obtain ⟨c3, h⟩ := h
  replace h := ite_error_ok h
  obtain ⟨c4, h⟩ := h
  replace h := ite_error_ok h
  obtain ⟨c5, h⟩ := h
  replace h := ite_error_ok h
  obtain ⟨c6, h⟩ := h
  replace h := ite_error_ok h
  obtain ⟨c7, h⟩ := h
  repeat' (split at h <;> try contradiction)
  injection h with h
  subst h
  exact ⟨by simp_all, by simp_all, by simp_all, by simp_all, by simp_all, by simp_all,
    by simp_all, ‹DeviceID.Validate inv.TargetDeviceID = _›,
    ‹DeviceID.Validate inv.CreatedByDeviceID = _›, _, _, _, _, _, _,
    ‹VaultsRepository.Get _ _ = _›, ‹VaultsRepository.GetMember _ _ _ = _›, by simp_all,
    ‹VerifyDeviceID _ _ = _›, ‹DeviceIDToBytes inv.TargetDeviceID = _›,
    ‹SignBytesDeviceBundle _ _ _ = _›,
    ‹VerifySignature lib inv.TargetDevicePubkeySign _ inv.TargetDeviceBundleSig = _›,
    by simp_all, ‹DeviceIDToBytes inv.CreatedByDeviceID = _›,
    ‹SignBytesInvite _ _ _ _ _ _ _ _ _ _ = _›, ‹VerifySignature lib _ _ inv.Signature = _›, rfl⟩

theorem ValidateMemberAdd_genesisEvent :
    ValidateMemberAdd testLib storeA genesisEvent = .ok genesisRow := by decide!

theorem ValidateMemberAdd_genesisEventWithClaimSig :
    ValidateMemberAdd testLib storeA genesisEventWithClaimSig = .ok genesisRowWithClaimSig := by
  decide!

theorem ValidateMemberAdd_memberAddEvent :
    ValidateMemberAdd testLib storeInvited memberAddEvent = .ok memberAddRow := by decide!

theorem ValidateMemberRemove_memberRemoveEvent :
    ValidateMemberRemove testLib storeA memberRemoveEvent = .ok memberRemoveRow := by decide!

theorem VerifyDeviceID_ok {d : String} {pk : Bytes} {u : Unit}
    (h : VerifyDeviceID d pk = .ok u) :
    pk.length = 32 ∧ d = hexEncode (SHA256Hash pk) := by
  unfold VerifyDeviceID ComputeDeviceID at h
  by_cases hl : pk.length = 32
  · simp only [ed25519PublicKeySize, hl, bne_self_eq_false, Bool.false_eq_true,
      ↓reduceIte] at h
    split at h
    · contradiction
    · exact ⟨hl, by simp_all [SHA256Hash]⟩
  · simp [ed25519PublicKeySize, hl] at h

theorem VaultsRepository.Get_none {s : Store} {vaultID : Bytes}
    (h : VaultsRepository.Get s vaultID = .ok none) :
    ∀ v ∈ s.vaults, v.VaultID ≠ vaultID := by
  unfold VaultsRepository.Get at h
  injection h with h
  intro v hv
  have := List.find?_eq_none.mp h v hv
  simpa using this

theorem VaultsRepository.Get_some {s : Store} {vaultID : Bytes} {v : VaultRow}
    (h : VaultsRepository.Get s vaultID = .ok (some v)) :
    v ∈ s.vaults ∧ v.VaultID = vaultID := by
  unfold VaultsRepository.Get at h
  injection h with h
  obtain ⟨h1, h2⟩ := find?_some_mem h
  exact ⟨h1, by simpa using h2⟩

/-- A structurally valid member_add with `member_seq` other than 1, whose
subject device id and bundle signature verify, sent by the owner of an existing
vault, and which breaks the membership chain, is answered
`membership_chain_broken`. -/
theorem ValidateMemberAdd_of_chain_error {lib : CryptoLib} {s : Store} {ev : MemberEvent}
    {vault : VaultRow} {head : VaultMembershipHead} {subjectBytes bundleBytes : Bytes}
    (h1 : ev.MsgType = "member_add") (h2 : ev.PrevHash.length = HashLength)
    (h3 : ev.Signature.length = SignatureLength)
    (h4 : ev.SubjectPubkeySign.length = PublicKeyLength)
    (h5 : ev.SubjectPubkeyBox.length = PublicKeyLength)
    (h6 : ev.SubjectBundleSig.length = SignatureLength)
    (h7 : ev.ClaimSig.length = SignatureLength)
    (h8 : DeviceID.Validate ev.ActorDeviceID = .ok ())
    (h9 : DeviceID.Validate ev.SubjectDeviceID = .ok ())
    (h10 : VerifyDeviceID ev.SubjectDeviceID ev.SubjectPubkeySign = .ok ())
    (h11 : DeviceIDToBytes ev.SubjectDeviceID = .ok subjectBytes)
    (h12 : SignBytesDeviceBundle subjectBytes ev.SubjectPubkeySign ev.SubjectPubkeyBox
      = .ok bundleBytes)
    (h13 : VerifySignature lib ev.SubjectPubkeySign bundleBytes ev.SubjectBundleSig = .ok ())
    (h14 : ev.MemberSeq ≠ 1)
    (h15 : VaultsRepository.Get s ev.VaultID.Bytes = .ok (some vault))
    (h16 : ev.ActorDeviceID = vault.OwnerDeviceID)
    (h17 : VaultsRepository.GetMembershipHead s ev.VaultID.Bytes = .ok (some head))
    (h18 : ¬ (ev.MemberSeq = (head.MemberSeq + 1) % 2 ^ 64 ∧
      ev.PrevHash = head.MemberHeadHash)) :
    ValidateMemberAdd lib s ev = .error MembershipChainBroken := by
  have hchk : memberAddInvitedChecks lib s (some vault) ev ev.VaultID.Bytes ev.MemberSeq
      subjectBytes = .error MembershipChainBroken := by
    unfold memberAddInvitedChecks
    simp only [h16, bne_self_eq_false, Bool.false_eq_true, ↓reduceIte, h17]
    by_cases hseq : ev.MemberSeq = (head.MemberSeq + 1) % 2 ^ 64
    · have hp : ev.PrevHash ≠ head.MemberHeadHash := fun hp => h18 ⟨hseq, hp⟩
      rw [if_neg (by simpa using hseq), if_pos (by simpa using hp)]
    · rw [if_pos (by simpa using hseq)]
  unfold ValidateMemberAdd
  simp [h1, h2, h3, h4, h5, h6, h7, h8, h9, h10, h11, h12, h13, h14, h15, hchk]

/-- A structurally valid member_remove sent by the owner of an existing vault
which breaks the membership chain is answered `membership_chain_broken`. -/
theorem ValidateMemberRemove_of_chain_error {lib : CryptoLib} {s : Store} {ev : MemberEvent}
    {vault : VaultRow} {head : VaultMembershipHead}
    (h1 : ev.MsgType = "member_remove") (h2 : ev.PrevHash.length = HashLength)
    (h3 : ev.Signature.length = SignatureLength)
    (h8 : DeviceID.Validate ev.ActorDeviceID = .ok ())
    (h9 : DeviceID.Validate ev.SubjectDeviceID = .ok ())
    (h15 : VaultsRepository.Get s ev.VaultID.Bytes = .ok (some vault))
    (h16 : ev.ActorDeviceID = vault.OwnerDeviceID)
    (h17 : VaultsRepository.GetMembershipHead s ev.VaultID.Bytes = .ok (some head))
    (h18 : ¬ (ev.MemberSeq = (head.MemberSeq + 1) % 2 ^ 64 ∧
      ev.PrevHash = head.MemberHeadHash)) :
    ValidateMemberRemove lib s ev = .error MembershipChainBroken := by
  have h8b : DeviceID.Validate vault.OwnerDeviceID = .ok () := h16 ▸ h8
  unfold ValidateMemberRemove
  simp only [h1, bne_self_eq_false, Bool.false_eq_true, ↓reduceIte, h2, h3, h8b, h9, h15, h16,
    h17]
  by_cases hseq : ev.MemberSeq = (head.MemberSeq + 1) % 2 ^ 64
  · have hp : ev.PrevHash ≠ head.MemberHeadHash := fun hp => h18 ⟨hseq, hp⟩
    rw [if_neg (by simpa using hseq), if_pos (by simpa using hp)]
  · rw [if_pos (by simpa using hseq)]

/-- C3 (as stated) fails for a member_add with `member_seq = 1`: the owner of
vault A, which has the head `(1, headHashA)`, sends a structurally valid
member_add whose subject device id and bundle signature verify and whose
`member_seq` is 1, not `head.MemberSeq + 1 = 2`; the answer is 409 `conflict`,
not 400 `membership_chain_broken`. -/
theorem ValidateMemberAdd_seq_one_on_existing_vault :
    VaultsRepository.Get storeA genesisOnVaultA.VaultID.Bytes
      = .ok (some { VaultID := vaultA.Bytes, OwnerDeviceID := genesisOnVaultA.ActorDeviceID,
                    CreatedAt := "2024-01-01T00:00:00Z",
                    UpdatedAt := "2024-01-01T00:00:00Z" }) ∧
    VaultsRepository.GetMembershipHead storeA genesisOnVaultA.VaultID.Bytes
      = .ok (some { VaultID := vaultA.Bytes, MemberSeq := 1, MemberHeadHash := headHashA }) ∧
    genesisOnVaultA.MemberSeq ≠ (1 + 1) % 2 ^ 64 ∧
    VerifyDeviceID genesisOnVaultA.SubjectDeviceID genesisOnVaultA.SubjectPubkeySign
      = .ok () ∧
    VerifySignature testLib genesisOnVaultA.SubjectPubkeySign
      (bundleSignBytes devOwner keyOwner boxKey) genesisOnVaultA.SubjectBundleSig = .ok () ∧
    ValidateMemberAdd testLib storeA genesisOnVaultA
      = .error { StatusCode := 409, Code := "conflict", Message := "vault already exists" } ∧
    ValidateMemberAdd testLib storeA genesisOnVaultA ≠ .error MembershipChainBroken := by
  decide!

/-- C3, amended. If `ValidateMemberAdd` accepts an event with `member_seq`
other than 1, or `ValidateMemberRemove` accepts any event, then a membership
head exists for the vault, `member_seq = head.MemberSeq + 1` (the `uint64`
addition of the code, the plain successor whenever it does not wrap) and
`prev_hash = head.MemberHeadHash`.  A structurally valid member_remove, or a
structurally valid member_add with `member_seq` other than 1 whose subject
device id and subject bundle signature verify, whose actor is the owner of an
existing vault with a head and which breaks either equality, is rejected with
HTTP 400 and code `membership_chain_broken`. -/
theorem membership_chain (lib : CryptoLib) (s : Store) (event : MemberEvent) :
    (∀ row, (ValidateMemberAdd lib s event = .ok row ∧ event.MemberSeq ≠ 1) ∨
        ValidateMemberRemove lib s event = .ok row →
      ∃ head, VaultsRepository.GetMembershipHead s event.VaultID.Bytes = .ok (some head) ∧
        event.MemberSeq = (head.MemberSeq + 1) % 2 ^ 64 ∧
        event.PrevHash = head.MemberHeadHash ∧
        (head.MemberSeq + 1 < 2 ^ 64 → event.MemberSeq = head.MemberSeq + 1)) ∧
    (∀ vault head,
      VaultsRepository.Get s event.VaultID.Bytes = .ok (some vault) →
      event.ActorDeviceID = vault.OwnerDeviceID →
      VaultsRepository.GetMembershipHead s event.VaultID.Bytes = .ok (some head) →
      ¬ (event.MemberSeq = (head.MemberSeq + 1) % 2 ^ 64 ∧
         event.PrevHash = head.MemberHeadHash) →
      event.PrevHash.length = 32 → event.Signature.length = 64 →
      DeviceID.Validate event.ActorDeviceID = .ok () →
      DeviceID.Validate event.SubjectDeviceID = .ok () →
      (event.MsgType = "member_add" → event.MemberSeq ≠ 1 →
        event.SubjectPubkeySign.length = 32 → event.SubjectPubkeyBox.length = 32 →
        event.SubjectBundleSig.length = 64 → event.ClaimSig.length = 64 →
        VerifyDeviceID event.SubjectDeviceID event.SubjectPubkeySign = .ok () →
        (∃ subjectBytes bundleBytes,
          DeviceIDToBytes event.SubjectDeviceID = .ok subjectBytes ∧
          SignBytesDeviceBundle subjectBytes event.SubjectPubkeySign event.SubjectPubkeyBox
            = .ok bundleBytes ∧
          VerifySignature lib event.SubjectPubkeySign bundleBytes event.SubjectBundleSig
            = .ok ()) →
        ValidateMemberAdd lib s event = .error MembershipChainBroken) ∧
      (event.MsgType = "member_remove" →
        ValidateMemberRemove lib s event = .error MembershipChainBroken) ∧
      MembershipChainBroken.StatusCode = 400 ∧
      MembershipChainBroken.Code = "membership_chain_broken") := by
  constructor
  · intro row hrow
    rcases hrow with ⟨hadd, hseq⟩ | hrem
    · obtain ⟨_, _, _, _, _, _, _, _, _, _, sb, bb, vault, ab, sgb, key, _, _, _, _, hchk, _⟩ :=
        ValidateMemberAdd_ok_inv hadd
      have hne : (event.MemberSeq == 1) = false := by simpa using hseq
      simp only [hne, Bool.false_eq_true, ↓reduceIte] at hchk
      obtain ⟨v, head, _, _, _, _, _, hhead, h1, h2, _⟩ := memberAddInvitedChecks_ok hchk
      exact ⟨head, hhead, h1, h2, fun hlt => by rw [h1, Nat.mod_eq_of_lt hlt]⟩
    · obtain ⟨_, _, _, _, _, vault, head, _, _, _, _, _, _, hhead, h1, h2, _⟩ :=
        ValidateMemberRemove_ok_inv hrem
      exact ⟨head, hhead, h1, h2, fun hlt => by rw [h1, Nat.mod_eq_of_lt hlt]⟩
  · intro vault head hv hown hhead hbad hp hsig hva hvs
    refine ⟨?_, ?_, rfl, rfl⟩
    · intro hm hseq h4 h5 h6 h7 hdev hb
      obtain ⟨sb, bb, h11, h12, h13⟩ := hb
      exact ValidateMemberAdd_of_chain_error hm hp hsig h4 h5 h6 h7 hva hvs hdev h11 h12 h13 hseq
        hv hown hhead hbad
    · intro hm
      exact ValidateMemberRemove_of_chain_error hm hp hsig hva hvs hv hown hhead hbad

/-- C3 amended, on concrete inputs: the accepted admission of the joiner
(member_seq 2 on head 1) and the accepted removal; the admission with
member_seq 3 and the removal with a wrong `prev_hash` are answered
`membership_chain_broken`. -/
theorem membership_chain_witness :
    (ValidateMemberAdd testLib storeInvited memberAddEvent = .ok memberAddRow ∧
      ∃ head, VaultsRepository.GetMembershipHead storeInvited memberAddEvent.VaultID.Bytes
          = .ok (some head) ∧
        memberAddEvent.MemberSeq = (head.MemberSeq + 1) % 2 ^ 64 ∧
        memberAddEvent.PrevHash = head.MemberHeadHash ∧
        (head.MemberSeq + 1 < 2 ^ 64 → memberAddEvent.MemberSeq = head.MemberSeq + 1)) ∧
    (ValidateMemberRemove testLib storeA memberRemoveEvent = .ok memberRemoveRow ∧
      ∃ head, VaultsRepository.GetMembershipHead storeA memberRemoveEvent.VaultID.Bytes
          = .ok (some head) ∧
        memberRemoveEvent.MemberSeq = (head.MemberSeq + 1) % 2 ^ 64 ∧
        memberRemoveEvent.PrevHash = head.MemberHeadHash ∧
        (head.MemberSeq + 1 < 2 ^ 64 → memberRemoveEvent.MemberSeq = head.MemberSeq + 1)) ∧
    ValidateMemberAdd testLib storeInvited memberAddGap = .error MembershipChainBroken ∧
    ValidateMemberRemove testLib storeA memberRemoveBadPrev = .error MembershipChainBroken :=
  ⟨⟨ValidateMemberAdd_memberAddEvent,
      (membership_chain testLib storeInvited memberAddEvent).1 memberAddRow
        (Or.inl ⟨ValidateMemberAdd_memberAddEvent, by decide⟩)⟩,
    ⟨ValidateMemberRemove_memberRemoveEvent,
      (membership_chain testLib storeA memberRemoveEvent).1 memberRemoveRow
        (Or.inr ValidateMemberRemove_memberRemoveEvent)⟩,
    ((membership_chain testLib storeInvited memberAddGap).2
      { VaultID := vaultA.Bytes, OwnerDeviceID := devOwner,
        CreatedAt := "2024-01-01T00:00:00Z", UpdatedAt := "2024-01-01T00:00:00Z" }
      { VaultID := vaultA.Bytes, MemberSeq := 1, MemberHeadHash := headHashA }
      (by decide!) (by decide!) (by decide!) (by decide!) (by decide!) (by decide!)
      (by decide!) (by decide!)).1 (by decide!) (by decide!) (by decide!) (by decide!)
      (by decide!) (by decide!) (by decide!)
      ⟨bytesOf (DeviceIDToBytes devJoiner), bundleSignBytes devJoiner keyJoiner boxKey,
        by decide!, by decide!, by decide!⟩,
    ((membership_chain testLib storeA memberRemoveBadPrev).2
      { VaultID := vaultA.Bytes, OwnerDeviceID := devOwner,
        CreatedAt := "2024-01-01T00:00:00Z", UpdatedAt := "2024-01-01T00:00:00Z" }
      { VaultID := vaultA.Bytes, MemberSeq := 1, MemberHeadHash := headHashA }
      (by decide!) (by decide!) (by decide!) (by decide!) (by decide!) (by decide!)
      (by decide!) (by decide!)).2.1 (by decide!)⟩

/-- C4 (as stated) fails for a genesis row: `genesisEventWithClaimSig` is
accepted, the row stores the request's `claim_sig` (64 bytes of 1), and the
sign-bytes recomputed from the row's own stored fields do not hash to the row's
`MemberHash`. -/
theorem ValidateMemberAdd_genesis_hash_not_of_row_fields :
    ValidateMemberAdd testLib storeA genesisEventWithClaimSig = .ok genesisRowWithClaimSig ∧
    genesisRowWithClaimSig.MemberHash ≠
      SHA256Hash (bytesOf (SignBytesMemberAdd genesisRowWithClaimSig.MemberEventID
        genesisRowWithClaimSig.VaultID genesisRowWithClaimSig.MemberSeq
        genesisRowWithClaimSig.PrevHash
        (bytesOf (DeviceIDToBytes genesisRowWithClaimSig.ActorDeviceID))
        (bytesOf (DeviceIDToBytes genesisRowWithClaimSig.SubjectDeviceID))
        genesisRowWithClaimSig.InviteID genesisRowWithClaimSig.ClaimSig
        genesisRowWithClaimSig.SubjectBundleSig genesisRowWithClaimSig.SubjectPubkeySign
        genesisRowWithClaimSig.SubjectPubkeyBox)) ∧
    (SignBytesMemberAdd genesisRowWithClaimSig.MemberEventID
        genesisRowWithClaimSig.VaultID genesisRowWithClaimSig.MemberSeq
        genesisRowWithClaimSig.PrevHash
        (bytesOf (DeviceIDToBytes genesisRowWithClaimSig.ActorDeviceID))
        (bytesOf (DeviceIDToBytes genesisRowWithClaimSig.SubjectDeviceID))
        genesisRowWithClaimSig.InviteID genesisRowWithClaimSig.ClaimSig
        genesisRowWithClaimSig.SubjectBundleSig genesisRowWithClaimSig.SubjectPubkeySign
        genesisRowWithClaimSig.SubjectPubkeyBox).toOption.isSome = true :=
  ⟨ValidateMemberAdd_genesisEventWithClaimSig, by decide!, by decide!⟩

/-- C4, amended. For every member event accepted by `ValidateMemberAdd` or
`ValidateMemberRemove` the returned row satisfies `MemberHash =
SHA-256(SignBytes)`, where the sign-bytes are recomputed from the row's own
stored fields: `SignBytesMemberRemove(member_event_id, vault_id, member_seq,
prev_hash, actor, subject)` for a member_remove row, and
`SignBytesMemberAdd(member_event_id, vault_id, member_seq, prev_hash, actor,
subject, invite_id, claim_sig, subject_bundle_sig, subject_pubkey_sign,
subject_pubkey_box)` for a member_add row with `member_seq` other than 1; for a
genesis row (`member_seq = 1`) the `invite_id` and `claim_sig` arguments are 16
and 64 zero bytes, whatever the row stores in those two fields. -/
theorem member_hash_of_row (lib : CryptoLib) (s : Store) (event : MemberEvent) :
    (∀ row, ValidateMemberAdd lib s event = .ok row →
      ∃ actorBytes subjectBytes signBytes,
        DeviceIDToBytes row.ActorDeviceID = .ok actorBytes ∧
        DeviceIDToBytes row.SubjectDeviceID = .ok subjectBytes ∧
        SignBytesMemberAdd row.MemberEventID row.VaultID row.MemberSeq row.PrevHash
          actorBytes subjectBytes
          (if row.MemberSeq = 1 then zeroBytes 16 else row.InviteID)
          (if row.MemberSeq = 1 then zeroBytes 64 else row.ClaimSig)
          row.SubjectBundleSig row.SubjectPubkeySign row.SubjectPubkeyBox = .ok signBytes ∧
        row.MemberHash = SHA256Hash signBytes) ∧
    (∀ row, ValidateMemberRemove lib s event = .ok row →
      ∃ actorBytes subjectBytes signBytes,
        DeviceIDToBytes row.ActorDeviceID = .ok actorBytes ∧
        DeviceIDToBytes row.SubjectDeviceID = .ok subjectBytes ∧
        SignBytesMemberRemove row.MemberEventID row.VaultID row.MemberSeq row.PrevHash
          actorBytes subjectBytes = .ok signBytes ∧
        row.MemberHash = SHA256Hash signBytes) := by
  constructor
  · intro row hadd
    obtain ⟨_, _, _, _, _, _, _, _, _, _, sb, bb, vault, ab, sgb, key, hsb, _, _, _, _, hab,
      hsign, _, _, hrow⟩ := ValidateMemberAdd_ok_inv hadd
    subst hrow
    refine ⟨ab, sb, sgb, hab, hsb, ?_, rfl⟩
    simpa using hsign
  · intro row hrem
    obtain ⟨_, _, _, _, _, vault, head, ab, sb, sgb, actor, _, _, _, _, _, _, hab, hsb, hsign, _,
      _, _, hrow⟩ := ValidateMemberRemove_ok_inv hrem
    subst hrow
    exact ⟨ab, sb, sgb, hab, hsb, hsign, rfl⟩

/-- C4 amended, on concrete inputs: the accepted genesis with a non-zero
`claim_sig`, the accepted admission and the accepted removal. -/
theorem member_hash_of_row_witness :
    (ValidateMemberAdd testLib storeA genesisEventWithClaimSig = .ok genesisRowWithClaimSig ∧
      ∃ actorBytes subjectBytes signBytes,
        DeviceIDToBytes genesisRowWithClaimSig.ActorDeviceID = .ok actorBytes ∧
        DeviceIDToBytes genesisRowWithClaimSig.SubjectDeviceID = .ok subjectBytes ∧
        SignBytesMemberAdd genesisRowWithClaimSig.MemberEventID genesisRowWithClaimSig.VaultID
          genesisRowWithClaimSig.MemberSeq genesisRowWithClaimSig.PrevHash
          actorBytes subjectBytes
          (if genesisRowWithClaimSig.MemberSeq = 1 then zeroBytes 16
            else genesisRowWithClaimSig.InviteID)
          (if genesisRowWithClaimSig.MemberSeq = 1 then zeroBytes 64
            else genesisRowWithClaimSig.ClaimSig)
          genesisRowWithClaimSig.SubjectBundleSig genesisRowWithClaimSig.SubjectPubkeySign
          genesisRowWithClaimSig.SubjectPubkeyBox = .ok signBytes ∧
        genesisRowWithClaimSig.MemberHash = SHA256Hash signBytes) ∧
    (ValidateMemberRemove testLib storeA memberRemoveEvent = .ok memberRemoveRow ∧
      ∃ actorBytes subjectBytes signBytes,
        DeviceIDToBytes memberRemoveRow.ActorDeviceID = .ok actorBytes ∧
        DeviceIDToBytes memberRemoveRow.SubjectDeviceID = .ok subjectBytes ∧
        SignBytesMemberRemove memberRemoveRow.MemberEventID memberRemoveRow.VaultID
          memberRemoveRow.MemberSeq memberRemoveRow.PrevHash actorBytes subjectBytes
          = .ok signBytes ∧
        memberRemoveRow.MemberHash = SHA256Hash signBytes) :=
  ⟨⟨ValidateMemberAdd_genesisEventWithClaimSig,
      (member_hash_of_row testLib storeA genesisEventWithClaimSig).1 genesisRowWithClaimSig
        ValidateMemberAdd_genesisEventWithClaimSig⟩,
    ⟨ValidateMemberRemove_memberRemoveEvent,
      (member_hash_of_row testLib storeA memberRemoveEvent).2 memberRemoveRow
        ValidateMemberRemove_memberRemoveEvent⟩⟩

/-- C6. A member_add with `member_seq = 1` is accepted only if no vault row
exists for `vault_id`, `actor_device_id = subject_device_id`, `prev_hash` is 32
zero bytes, `subject_device_id = hex(SHA-256(subject_pubkey_sign))` and
`subject_bundle_sig` verifies under `subject_pubkey_sign` over
`SignBytesDeviceBundle`; when the structural, device-id and bundle checks pass
but the vault already exists, the answer is HTTP 409 with code `conflict`. -/
theorem ValidateMemberAdd_genesis (lib : CryptoLib) (s : Store) (event : MemberEvent)
    (hseq : event.MemberSeq = 1) :
    (∀ row, ValidateMemberAdd lib s event = .ok row →
      VaultsRepository.Get s event.VaultID.Bytes = .ok none ∧
      (∀ v ∈ s.vaults, v.VaultID ≠ event.VaultID.Bytes) ∧
      event.ActorDeviceID = event.SubjectDeviceID ∧
      event.PrevHash = zeroBytes 32 ∧
      event.SubjectDeviceID = hexEncode (SHA256Hash event.SubjectPubkeySign) ∧
      ∃ subjectBytes bundleBytes,
        DeviceIDToBytes event.SubjectDeviceID = .ok subjectBytes ∧
        SignBytesDeviceBundle subjectBytes event.SubjectPubkeySign event.SubjectPubkeyBox
          = .ok bundleBytes ∧
        lib.ed25519Verify event.SubjectPubkeySign bundleBytes event.SubjectBundleSig = true) ∧
    (∀ vault subjectBytes bundleBytes,
      event.MsgType = "member_add" → event.PrevHash.length = 32 →
      event.Signature.length = 64 → event.SubjectPubkeySign.length = 32 →
      event.SubjectPubkeyBox.length = 32 → event.SubjectBundleSig.length = 64 →
      event.ClaimSig.length = 64 →
      DeviceID.Validate event.ActorDeviceID = .ok () →
      DeviceID.Validate event.SubjectDeviceID = .ok () →
      VerifyDeviceID event.SubjectDeviceID event.SubjectPubkeySign = .ok () →
      DeviceIDToBytes event.SubjectDeviceID = .ok subjectBytes →
      SignBytesDeviceBundle subjectBytes event.SubjectPubkeySign event.SubjectPubkeyBox
        = .ok bundleBytes →
      VerifySignature lib event.SubjectPubkeySign bundleBytes event.SubjectBundleSig = .ok () →
      VaultsRepository.Get s event.VaultID.Bytes = .ok (some vault) →
      ValidateMemberAdd lib s event = .error (Conflict "vault already exists") ∧
      (Conflict "vault already exists").StatusCode = 409 ∧
      (Conflict "vault already exists").Code = "conflict") := by
  constructor
  · intro row hadd
    obtain ⟨_, _, _, _, _, _, _, _, _, hdev, sb, bb, vault, ab, sgb, key, hsb, hbb, hver, hget,
      hchk, _⟩ := ValidateMemberAdd_ok_inv hadd
    have hg : (event.MemberSeq == 1) = true := by simp [hseq]
    simp only [hg, ↓reduceIte] at hchk
    obtain ⟨hnone, hact, hprev⟩ := memberAddGenesisChecks_ok hchk
    subst hnone
    exact ⟨hget, VaultsRepository.Get_none hget, hact, hprev, (VerifyDeviceID_ok hdev).2,
      sb, bb, hsb, hbb, (VerifySignature_ok hver).2.2⟩
  · intro vault sb bb h1 h2 h3 h4 h5 h6 h7 h8 h9 h10 h11 h12 h13 h14
    refine ⟨?_, rfl, rfl⟩
    unfold ValidateMemberAdd
    simp [h1, h2, h3, h4, h5, h6, h7, h8, h9, h10, h11, h12, h13, h14, hseq,
      memberAddGenesisChecks, HashLength, SignatureLength, PublicKeyLength]

/-- C6 on concrete inputs: the genesis of vault B is accepted on a store that
has no vault B, and the same member_add addressed to the existing vault A is
answered `conflict`. -/
theorem ValidateMemberAdd_genesis_witness :
    (ValidateMemberAdd testLib storeA genesisEvent = .ok genesisRow ∧
      VaultsRepository.Get storeA genesisEvent.VaultID.Bytes = .ok none ∧
      genesisEvent.ActorDeviceID = genesisEvent.SubjectDeviceID ∧
      genesisEvent.PrevHash = zeroBytes 32 ∧
      genesisEvent.SubjectDeviceID = hexEncode (SHA256Hash genesisEvent.SubjectPubkeySign)) ∧
    ValidateMemberAdd testLib storeA genesisOnVaultA
      = .error (Conflict "vault already exists") :=
  have h := (ValidateMemberAdd_genesis testLib storeA genesisEvent rfl).1 genesisRow
    ValidateMemberAdd_genesisEvent
  ⟨⟨ValidateMemberAdd_genesisEvent, h.1, h.2.2.1, h.2.2.2.1, h.2.2.2.2.1⟩,
    ((ValidateMemberAdd_genesis testLib storeA genesisOnVaultA rfl).2
      { VaultID := vaultA.Bytes, OwnerDeviceID := devOwner,
        CreatedAt := "2024-01-01T00:00:00Z", UpdatedAt := "2024-01-01T00:00:00Z" }
      (bytesOf (DeviceIDToBytes devOwner)) (bundleSignBytes devOwner keyOwner boxKey)
      (by decide!) (by decide!) (by decide!) (by decide!) (by decide!) (by decide!)
      (by decide!) (by decide!) (by decide!) (by decide!) (by decide!) (by decide!)
      (by decide!) (by decide!)).1⟩

theorem InvitesRepository.Get_invite_some {s : Store} {inviteID : Bytes} {inv : InviteRow}
    (h : InvitesRepository.Get s inviteID = .ok (some inv)) :
    inv ∈ s.invites ∧ inv.InviteID = inviteID := by
  unfold InvitesRepository.Get at h
  injection h with h
  obtain ⟨h1, h2⟩ := find?_some_mem h
  exact ⟨h1, by simpa using h2⟩

theorem InvitesRepository.GetClaim_some {s : Store} {inviteID : Bytes} {deviceID : String}
    {c : InviteClaimRow} (h : InvitesRepository.GetClaim s inviteID deviceID = .ok (some c)) :
    c ∈ s.inviteClaims ∧ c.InviteID = inviteID ∧ c.DeviceID = deviceID := by
  unfold InvitesRepository.GetClaim at h
  injection h with h
  obtain ⟨h1, h2⟩ := find?_some_mem h
  simp only [Bool.and_eq_true, beq_iff_eq] at h2
  exact ⟨h1, h2.1, h2.2⟩

/-- C8. `ValidateMemberAdd` verifies the event signature with the
`subject_pubkey_sign` carried in the event exactly when `member_seq = 1`, and
otherwise with the `pubkey_sign` stored in `vault_members` for
`actor_device_id`, rejecting when the actor has no row or `is_member` is false;
`ValidateMemberRemove` always uses the actor's stored key.  So for a
non-genesis member event acceptance gives a signature that verifies under a key
stored for the vault, and that key is the same whatever the request carries
besides `vault_id` and `actor_device_id`. -/
theorem member_event_signer_key (lib : CryptoLib) (s : Store) (event : MemberEvent) :
    (∀ row, ValidateMemberAdd lib s event = .ok row →
      ∃ actorBytes subjectBytes signBytes key,
        DeviceIDToBytes event.ActorDeviceID = .ok actorBytes ∧
        DeviceIDToBytes event.SubjectDeviceID = .ok subjectBytes ∧
        SignBytesMemberAdd event.MemberEventID.Bytes event.VaultID.Bytes event.MemberSeq
          event.PrevHash actorBytes subjectBytes
          (if event.MemberSeq = 1 then zeroBytes 16 else event.InviteID.Bytes)
          (if event.MemberSeq = 1 then zeroBytes 64 else event.ClaimSig)
          event.SubjectBundleSig event.SubjectPubkeySign event.SubjectPubkeyBox
          = .ok signBytes ∧
        memberAddSignerPubkey s event event.VaultID.Bytes (event.MemberSeq == 1) = .ok key ∧
        lib.ed25519Verify key signBytes event.Signature = true ∧
        (event.MemberSeq = 1 → key = event.SubjectPubkeySign) ∧
        (event.MemberSeq ≠ 1 →
          ∃ actor, VaultsRepository.GetMember s event.VaultID.Bytes event.ActorDeviceID
              = .ok (some actor) ∧
            actor ∈ s.vaultMembers ∧ actor.VaultID = event.VaultID.Bytes ∧
            actor.DeviceID = event.ActorDeviceID ∧ actor.IsMember = true ∧
            key = actor.DevicePubkeySign)) ∧
    (∀ row, ValidateMemberRemove lib s event = .ok row →
      ∃ actorBytes subjectBytes signBytes actor,
        DeviceIDToBytes event.ActorDeviceID = .ok actorBytes ∧
        DeviceIDToBytes event.SubjectDeviceID = .ok subjectBytes ∧
        SignBytesMemberRemove event.MemberEventID.Bytes event.VaultID.Bytes event.MemberSeq
          event.PrevHash actorBytes subjectBytes = .ok signBytes ∧
        VaultsRepository.GetMember s event.VaultID.Bytes event.ActorDeviceID
          = .ok (some actor) ∧
        actor ∈ s.vaultMembers ∧ actor.VaultID = event.VaultID.Bytes ∧
        actor.DeviceID = event.ActorDeviceID ∧ actor.IsMember = true ∧
        lib.ed25519Verify actor.DevicePubkeySign signBytes event.Signature = true) ∧
    (event.MemberSeq ≠ 1 →
      (VaultsRepository.GetMember s event.VaultID.Bytes event.ActorDeviceID = .ok none ∨
        ∃ actor, VaultsRepository.GetMember s event.VaultID.Bytes event.ActorDeviceID
            = .ok (some actor) ∧ actor.IsMember = false) →
      memberAddSignerPubkey s event event.VaultID.Bytes (event.MemberSeq == 1)
        = .error MembershipRequired ∧
      ∀ row, ValidateMemberAdd lib s event ≠ .ok row) ∧
    ((VaultsRepository.GetMember s event.VaultID.Bytes event.ActorDeviceID = .ok none ∨
        ∃ actor, VaultsRepository.GetMember s event.VaultID.Bytes event.ActorDeviceID
            = .ok (some actor) ∧ actor.IsMember = false) →
      ∀ row, ValidateMemberRemove lib s event ≠ .ok row) ∧
    (∀ other : MemberEvent, other.VaultID = event.VaultID →
      other.ActorDeviceID = event.ActorDeviceID →
      memberAddSignerPubkey s other other.VaultID.Bytes false
        = memberAddSignerPubkey s event event.VaultID.Bytes false) := by
  have hadd : ∀ row, ValidateMemberAdd lib s event = .ok row →
      ∃ actorBytes subjectBytes signBytes key,
        DeviceIDToBytes event.ActorDeviceID = .ok actorBytes ∧
        DeviceIDToBytes event.SubjectDeviceID = .ok subjectBytes ∧
        SignBytesMemberAdd event.MemberEventID.Bytes event.VaultID.Bytes event.MemberSeq
          event.PrevHash actorBytes subjectBytes
          (if event.MemberSeq = 1 then zeroBytes 16 else event.InviteID.Bytes)
          (if event.MemberSeq = 1 then zeroBytes 64 else event.ClaimSig)
          event.SubjectBundleSig event.SubjectPubkeySign event.SubjectPubkeyBox
          = .ok signBytes ∧
        memberAddSignerPubkey s event event.VaultID.Bytes (event.MemberSeq == 1) = .ok key ∧
        lib.ed25519Verify key signBytes event.Signature = true ∧
        (event.MemberSeq = 1 → key = event.SubjectPubkeySign) ∧
        (event.MemberSeq ≠ 1 →
          ∃ actor, VaultsRepository.GetMember s event.VaultID.Bytes event.ActorDeviceID
              = .ok (some actor) ∧
            actor ∈ s.vaultMembers ∧ actor.VaultID = event.VaultID.Bytes ∧
            actor.DeviceID = event.ActorDeviceID ∧ actor.IsMember = true ∧
            key = actor.DevicePubkeySign) := by
    intro row h
    obtain ⟨_, _, _, _, _, _, _, _, _, _, sb, bb, vault, ab, sgb, key, hsb, _, _, _, _, hab,
      hsign, hkey, hver, _⟩ := ValidateMemberAdd_ok_inv h
    refine ⟨ab, sb, sgb, key, hab, hsb, by simpa using hsign, hkey,
      (VerifySignature_ok hver).2.2, ?_, ?_⟩
    · intro hseq
      have hg : (event.MemberSeq == 1) = true := by simp [hseq]
      rw [hg, memberAddSignerPubkey_genesis] at hkey
      injection hkey with hkey
      exact hkey.symm
    · intro hseq
      have hg : (event.MemberSeq == 1) = false := by simpa using hseq
      rw [hg] at hkey
      obtain ⟨actor, hget, hism, hk⟩ := memberAddSignerPubkey_invited hkey
      obtain ⟨m1, m2, m3⟩ := VaultsRepository.GetMember_some hget
      exact ⟨actor, hget, m1, m2, m3, hism, hk⟩
  have hrem : ∀ row, ValidateMemberRemove lib s event = .ok row →
      ∃ actorBytes subjectBytes signBytes actor,
        DeviceIDToBytes event.ActorDeviceID = .ok actorBytes ∧
        DeviceIDToBytes event.SubjectDeviceID = .ok subjectBytes ∧
        SignBytesMemberRemove event.MemberEventID.Bytes event.VaultID.Bytes event.MemberSeq
          event.PrevHash actorBytes subjectBytes = .ok signBytes ∧
        VaultsRepository.GetMember s event.VaultID.Bytes event.ActorDeviceID
          = .ok (some actor) ∧
        actor ∈ s.vaultMembers ∧ actor.VaultID = event.VaultID.Bytes ∧
        actor.DeviceID = event.ActorDeviceID ∧ actor.IsMember = true ∧
        lib.ed25519Verify actor.DevicePubkeySign signBytes event.Signature = true := by
    intro row h
    obtain ⟨_, _, _, _, _, vault, head, ab, sb, sgb, actor, _, _, _, _, _, _, hab, hsb, hsign,
      hget, hism, hver, _⟩ := ValidateMemberRemove_ok_inv h
    obtain ⟨m1, m2, m3⟩ := VaultsRepository.GetMember_some hget
    exact ⟨ab, sb, sgb, actor, hab, hsb, hsign, hget, m1, m2, m3, hism,
      (VerifySignature_ok hver).2.2⟩
  refine ⟨hadd, hrem, ?_, ?_, ?_⟩
  · intro hseq hno
    have hg : (event.MemberSeq == 1) = false := by simpa using hseq
    have hkeyErr : memberAddSignerPubkey s event event.VaultID.Bytes (event.MemberSeq == 1)
        = .error MembershipRequired := by
      rw [hg]
      unfold memberAddSignerPubkey
      rcases hno with hnone | ⟨actor, hget, hism⟩
      · simp [hnone]
      · simp [hget, hism]
    refine ⟨hkeyErr, fun row h => ?_⟩
    obtain ⟨_, _, _, key, _, _, _, hkey, _⟩ := hadd row h
    rw [hkeyErr] at hkey
    contradiction
  · intro hno row h
    obtain ⟨_, _, _, actor, _, _, _, hget, _, _, _, hism, _⟩ := hrem row h
    rcases hno with hnone | ⟨a2, hget2, hism2⟩
    · rw [hnone] at hget
      injection hget with hget
      contradiction
    · rw [hget2] at hget
      injection hget with hget
      injection hget with hget
      subst hget
      rw [hism2] at hism
      contradiction
  · intro other hv ha
    unfold memberAddSignerPubkey
    simp [hv, ha]

/-- C8 on concrete inputs: the accepted genesis (verified under the key of the
request), the accepted admission and removal (verified under the owner's
stored key), and an admission sent for a vault whose owner row is missing from
`vault_members`. -/
theorem member_event_signer_key_witness :
    (ValidateMemberAdd testLib storeA genesisEvent = .ok genesisRow ∧
      memberAddSignerPubkey storeA genesisEvent genesisEvent.VaultID.Bytes
        (genesisEvent.MemberSeq == 1) = .ok genesisEvent.SubjectPubkeySign) ∧
    (ValidateMemberAdd testLib storeInvited memberAddEvent = .ok memberAddRow ∧
      memberAddSignerPubkey storeInvited memberAddEvent memberAddEvent.VaultID.Bytes
        (memberAddEvent.MemberSeq == 1) = .ok keyOwner) ∧
    (ValidateMemberRemove testLib storeA memberRemoveEvent = .ok memberRemoveRow ∧
      ∃ actorBytes subjectBytes signBytes actor,
        DeviceIDToBytes memberRemoveEvent.ActorDeviceID = .ok actorBytes ∧
        DeviceIDToBytes memberRemoveEvent.SubjectDeviceID = .ok subjectBytes ∧
        SignBytesMemberRemove memberRemoveEvent.MemberEventID.Bytes
          memberRemoveEvent.VaultID.Bytes memberRemoveEvent.MemberSeq
          memberRemoveEvent.PrevHash actorBytes subjectBytes = .ok signBytes ∧
        VaultsRepository.GetMember storeA memberRemoveEvent.VaultID.Bytes
          memberRemoveEvent.ActorDeviceID = .ok (some actor) ∧
        actor ∈ storeA.vaultMembers ∧ actor.VaultID = memberRemoveEvent.VaultID.Bytes ∧
        actor.DeviceID = memberRemoveEvent.ActorDeviceID ∧ actor.IsMember = true ∧
        testLib.ed25519Verify actor.DevicePubkeySign signBytes memberRemoveEvent.Signature
          = true) ∧
    (∀ row, ValidateMemberAdd testLib { storeInvited with vaultMembers := [] } memberAddEvent
      ≠ .ok row) :=
  ⟨⟨ValidateMemberAdd_genesisEvent, by
      obtain ⟨_, _, _, key, _, _, _, hkey, _, hgen, _⟩ :=
        (member_event_signer_key testLib storeA genesisEvent).1 genesisRow
          ValidateMemberAdd_genesisEvent
      have hk := hgen (by decide)
      subst hk
      exact hkey⟩,
    ⟨ValidateMemberAdd_memberAddEvent, by
      obtain ⟨_, _, _, key, _, _, _, hkey, _, _, hinv⟩ :=
        (member_event_signer_key testLib storeInvited memberAddEvent).1 memberAddRow
          ValidateMemberAdd_memberAddEvent
      obtain ⟨actor, hget, _, _, _, _, hk⟩ := hinv (by decide)
      have hact : VaultsRepository.GetMember storeInvited memberAddEvent.VaultID.Bytes
          memberAddEvent.ActorDeviceID = .ok (some
            { VaultID := vaultA.Bytes, DeviceID := devOwner, DevicePubkeySign := keyOwner,
              DevicePubkeyBox := boxKey, SubjectBundleSig := Zero64, IsMember := true,
              KeyEpoch := 1 }) := by decide!
      have heq := Option.some.inj (Except.ok.inj (hget.symm.trans hact))
      subst heq
      subst hk
      exact hkey⟩,
    ⟨ValidateMemberRemove_memberRemoveEvent,
      (member_event_signer_key testLib storeA memberRemoveEvent).2.1 memberRemoveRow
        ValidateMemberRemove_memberRemoveEvent⟩,
    ((member_event_signer_key testLib { storeInvited with vaultMembers := [] }
      memberAddEvent).2.2.1 (by decide) (Or.inl (by decide!))).2⟩

/-- C9. For a member_add with `member_seq` other than 1 that
`ValidateMemberAdd` accepts: an invite with the event's `invite_id` exists, its
`vault_id` equals the event's, its `target_device_id` equals
`subject_device_id`, it is not both `single_use` and `used`, a claim row exists
for `(invite_id, subject_device_id)` whose stored `claim_sig` is byte-equal to
the event's `claim_sig`, and `claim_sig` verifies under `subject_pubkey_sign`
over `SignBytesInviteClaim(invite_id, vault_id, subject_device_id)`. -/
theorem ValidateMemberAdd_invite_claim (lib : CryptoLib) (s : Store) (event : MemberEvent)
    (row : MemberEventRow) (hseq : event.MemberSeq ≠ 1)
    (h : ValidateMemberAdd lib s event = .ok row) :
    ∃ invite claim subjectBytes claimSignBytes,
      InvitesRepository.Get s event.InviteID.Bytes = .ok (some invite) ∧
      invite ∈ s.invites ∧ invite.InviteID = event.InviteID.Bytes ∧
      invite.VaultID = event.VaultID.Bytes ∧
      invite.TargetDeviceID = event.SubjectDeviceID ∧
      ¬ (invite.SingleUse = true ∧ invite.Used = true) ∧
      InvitesRepository.GetClaim s event.InviteID.Bytes event.SubjectDeviceID
        = .ok (some claim) ∧
      claim ∈ s.inviteClaims ∧ claim.InviteID = event.InviteID.Bytes ∧
      claim.DeviceID = event.SubjectDeviceID ∧
      claim.ClaimSig = event.ClaimSig ∧
      DeviceIDToBytes event.SubjectDeviceID = .ok subjectBytes ∧
      SignBytesInviteClaim event.InviteID.Bytes event.VaultID.Bytes subjectBytes
        = .ok claimSignBytes ∧
      lib.ed25519Verify event.SubjectPubkeySign claimSignBytes event.ClaimSig = true := by
  obtain ⟨_, _, _, _, _, _, _, _, _, _, sb, bb, vault, ab, sgb, key, hsb, _, _, _, hchk, _⟩ :=
    ValidateMemberAdd_ok_inv h
  have hg : (event.MemberSeq == 1) = false := by simpa using hseq
  simp only [hg, Bool.false_eq_true, ↓reduceIte] at hchk
  obtain ⟨v, head, invite, claim, csb, _, _, _, _, _, hinv, hvault, htarget, hused, hclaim,
    hsig, hcsb, hver⟩ := memberAddInvitedChecks_ok hchk
  obtain ⟨i1, i2⟩ := InvitesRepository.Get_invite_some hinv
  rw [i2] at hclaim hcsb
  obtain ⟨c1, c2, c3⟩ := InvitesRepository.GetClaim_some hclaim
  exact ⟨invite, claim, sb, csb, hinv, i1, i2, hvault, htarget, by simpa using hused, hclaim,
    c1, c2, c3, hsig, hsb, hcsb, (VerifySignature_ok hver).2.2⟩

/-- C9 on concrete inputs: the accepted admission of the joiner through invite
X. -/
theorem ValidateMemberAdd_invite_claim_witness :
    memberAddEvent.MemberSeq ≠ 1 ∧
    ValidateMemberAdd testLib storeInvited memberAddEvent = .ok memberAddRow ∧
    ∃ invite claim subjectBytes claimSignBytes,
      InvitesRepository.Get storeInvited memberAddEvent.InviteID.Bytes = .ok (some invite) ∧
      invite ∈ storeInvited.invites ∧ invite.InviteID = memberAddEvent.InviteID.Bytes ∧
      invite.VaultID = memberAddEvent.VaultID.Bytes ∧
      invite.TargetDeviceID = memberAddEvent.SubjectDeviceID ∧
      ¬ (invite.SingleUse = true ∧ invite.Used = true) ∧
      InvitesRepository.GetClaim storeInvited memberAddEvent.InviteID.Bytes
        memberAddEvent.SubjectDeviceID = .ok (some claim) ∧
      claim ∈ storeInvited.inviteClaims ∧ claim.InviteID = memberAddEvent.InviteID.Bytes ∧
      claim.DeviceID = memberAddEvent.SubjectDeviceID ∧
      claim.ClaimSig = memberAddEvent.ClaimSig ∧
      DeviceIDToBytes memberAddEvent.SubjectDeviceID = .ok subjectBytes ∧
      SignBytesInviteClaim memberAddEvent.InviteID.Bytes memberAddEvent.VaultID.Bytes
        subjectBytes = .ok claimSignBytes ∧
      testLib.ed25519Verify memberAddEvent.SubjectPubkeySign claimSignBytes
        memberAddEvent.ClaimSig = true :=
  ⟨by decide, ValidateMemberAdd_memberAddEvent,
    ValidateMemberAdd_invite_claim testLib storeInvited memberAddEvent memberAddRow (by decide)
      ValidateMemberAdd_memberAddEvent⟩

theorem ValidateKeyUpdate_keyUpdate1 :
    ValidateKeyUpdate testLib storeA keyUpdate1 = .ok keyUpdateRow1 := by decide!
theorem ValidateSnapshot_snapshot1 :
    ValidateSnapshot testLib storeA snapshot1 = .ok snapshotRow1 := by decide!
theorem handleInviteCreate_invite1 :
    handleInviteCreate testLib "2024-01-03T00:00:00Z" storeA requestInvite1
      = (.json 201 invite1, storeAfterInvite) := by decide!
theorem handleInviteCreate_invite2 :
    handleInviteCreate testLib "2024-01-03T00:00:01Z" storeAfterInvite requestInvite2
      = (.apiError (BadRequest "nonce_reused" "nonce has already been used"),
          storeAfterInvite) := by decide!
theorem ValidateKeyUpdate_after_invite :
    ValidateKeyUpdate testLib storeAfterInvite keyUpdate1 = .ok keyUpdateRow1 := by decide!

/-- C5. `ValidateMemberRemove`, `ValidateMemberAdd` with `member_seq` other
than 1, `ValidateKeyUpdate` and `ValidateSnapshot` accept only if the signer's
device id (`actor_device_id`, respectively `created_by_device_id`) equals the
`owner_device_id` stored for the vault, and the request signature verified
against the `pubkey_sign` stored in `vault_members` for that same device, over
the sign-bytes of the request. -/
theorem owner_authority (lib : CryptoLib) (s : Store) :
    (∀ (event : MemberEvent) (row : MemberEventRow),
      ValidateMemberRemove lib s event = .ok row →
      ∃ vault owner actorBytes subjectBytes signBytes,
        VaultsRepository.Get s event.VaultID.Bytes = .ok (some vault) ∧
        vault ∈ s.vaults ∧ vault.VaultID = event.VaultID.Bytes ∧
        event.ActorDeviceID = vault.OwnerDeviceID ∧
        VaultsRepository.GetMember s event.VaultID.Bytes event.ActorDeviceID
          = .ok (some owner) ∧
        owner ∈ s.vaultMembers ∧ owner.VaultID = event.VaultID.Bytes ∧
        owner.DeviceID = event.ActorDeviceID ∧
        DeviceIDToBytes event.ActorDeviceID = .ok actorBytes ∧
        DeviceIDToBytes event.SubjectDeviceID = .ok subjectBytes ∧
        SignBytesMemberRemove event.MemberEventID.Bytes event.VaultID.Bytes event.MemberSeq
          event.PrevHash actorBytes subjectBytes = .ok signBytes ∧
        lib.ed25519Verify owner.DevicePubkeySign signBytes event.Signature = true) ∧
    (∀ (event : MemberEvent) (row : MemberEventRow), event.MemberSeq ≠ 1 →
      ValidateMemberAdd lib s event = .ok row →
      ∃ vault owner actorBytes subjectBytes signBytes,
        VaultsRepository.Get s event.VaultID.Bytes = .ok (some vault) ∧
        vault ∈ s.vaults ∧ vault.VaultID = event.VaultID.Bytes ∧
        event.ActorDeviceID = vault.OwnerDeviceID ∧
        VaultsRepository.GetMember s event.VaultID.Bytes event.ActorDeviceID
          = .ok (some owner) ∧
        owner ∈ s.vaultMembers ∧ owner.VaultID = event.VaultID.Bytes ∧
        owner.DeviceID = event.ActorDeviceID ∧
        DeviceIDToBytes event.ActorDeviceID = .ok actorBytes ∧
        DeviceIDToBytes event.SubjectDeviceID = .ok subjectBytes ∧
        SignBytesMemberAdd event.MemberEventID.Bytes event.VaultID.Bytes event.MemberSeq
          event.PrevHash actorBytes subjectBytes event.InviteID.Bytes event.ClaimSig
          event.SubjectBundleSig event.SubjectPubkeySign event.SubjectPubkeyBox
          = .ok signBytes ∧
        lib.ed25519Verify owner.DevicePubkeySign signBytes event.Signature = true) ∧
    (∀ (ku : KeyUpdate) (row : KeyUpdateRow), ValidateKeyUpdate lib s ku = .ok row →
      ∃ vault owner targetBytes creatorBytes signBytes,
        VaultsRepository.Get s ku.VaultID.Bytes = .ok (some vault) ∧
        vault ∈ s.vaults ∧ vault.VaultID = ku.VaultID.Bytes ∧
        ku.CreatedByDeviceID = vault.OwnerDeviceID ∧
        VaultsRepository.GetMember s ku.VaultID.Bytes ku.CreatedByDeviceID
          = .ok (some owner) ∧
        owner ∈ s.vaultMembers ∧ owner.VaultID = ku.VaultID.Bytes ∧
        owner.DeviceID = ku.CreatedByDeviceID ∧
        DeviceIDToBytes ku.TargetDeviceID = .ok targetBytes ∧
        DeviceIDToBytes ku.CreatedByDeviceID = .ok creatorBytes ∧
        SignBytesKeyUpdate ku.KeyUpdateID.Bytes ku.VaultID.Bytes ku.MemberSeq
          ku.MemberHeadHash targetBytes ku.KeyEpoch ku.Nonce ku.WrappedPayload creatorBytes
          = .ok signBytes ∧
        lib.ed25519Verify owner.DevicePubkeySign signBytes ku.Signature = true) ∧
    (∀ (snap : Snapshot) (row : SnapshotRow), ValidateSnapshot lib s snap = .ok row →
      ∃ vault owner creatorBytes signBytes,
        VaultsRepository.Get s snap.VaultID.Bytes = .ok (some vault) ∧
        vault ∈ s.vaults ∧ vault.VaultID = snap.VaultID.Bytes ∧
        snap.CreatedByDeviceID = vault.OwnerDeviceID ∧
        VaultsRepository.GetMember s snap.VaultID.Bytes snap.CreatedByDeviceID
          = .ok (some owner) ∧
        owner ∈ s.vaultMembers ∧ owner.VaultID = snap.VaultID.Bytes ∧
        owner.DeviceID = snap.CreatedByDeviceID ∧
        DeviceIDToBytes snap.CreatedByDeviceID = .ok creatorBytes ∧
        SignBytesSnapshot snap.SnapshotID.Bytes snap.VaultID.Bytes snap.BaseSeq snap.MemberSeq
          snap.MemberHeadHash snap.BaseCounterMap snap.HeadHashMap snap.LamportAtSnapshot
          snap.KeyEpoch snap.Nonce snap.Ciphertext creatorBytes = .ok signBytes ∧
        lib.ed25519Verify owner.DevicePubkeySign signBytes snap.Signature = true) := by
  refine ⟨?_, ?_, ?_, ?_⟩
  · intro event row h
    obtain ⟨_, _, _, _, _, vault, head, ab, sb, sgb, actor, hget, hown, _, _, _, _, hab, hsb,
      hsign, hmem, _, hver, _⟩ := ValidateMemberRemove_ok_inv h
    obtain ⟨v1, v2⟩ := VaultsRepository.Get_some hget
    obtain ⟨m1, m2, m3⟩ := VaultsRepository.GetMember_some hmem
    exact ⟨vault, actor, ab, sb, sgb, hget, v1, v2, hown, hmem, m1, m2, m3, hab, hsb, hsign,
      (VerifySignature_ok hver).2.2⟩
  · intro event row hseq h
    obtain ⟨_, _, _, _, _, _, _, _, _, _, sb, bb, vault, ab, sgb, key, hsb, _, _, hget, hchk,
      hab, hsign, hkey, hver, _⟩ := ValidateMemberAdd_ok_inv h
    have hg : (event.MemberSeq == 1) = false := by simpa using hseq
    simp only [hg, Bool.false_eq_true, ↓reduceIte] at hchk hsign
    rw [hg] at hkey
    obtain ⟨v, head, _, _, _, hv, hown, _⟩ := memberAddInvitedChecks_ok hchk
    subst hv
    obtain ⟨actor, hmem, _, hk⟩ := memberAddSignerPubkey_invited hkey
    subst hk
    obtain ⟨v1, v2⟩ := VaultsRepository.Get_some hget
    obtain ⟨m1, m2, m3⟩ := VaultsRepository.GetMember_some hmem
    exact ⟨v, actor, ab, sb, sgb, hget, v1, v2, hown, hmem, m1, m2, m3, hab, hsb, hsign,
      (VerifySignature_ok hver).2.2⟩
  · intro ku row h
    obtain ⟨_, _, _, _, _, _, _, vault, creator, head, tb, cb, sgb, hget, hown, hmem, _, _, _,
      _, _, _, _, htb, hcb, hsign, hver, _⟩ := ValidateKeyUpdate_ok_inv h
    obtain ⟨v1, v2⟩ := VaultsRepository.Get_some hget
    obtain ⟨m1, m2, m3⟩ := VaultsRepository.GetMember_some hmem
    exact ⟨vault, creator, tb, cb, sgb, hget, v1, v2, hown, hmem, m1, m2, m3, htb, hcb, hsign,
      (VerifySignature_ok hver).2.2⟩
  · intro snap row h
    obtain ⟨_, _, _, _, _, _, _, _, vault, creator, head, cb, sgb, hget, hown, hmem, _, _, _, _,
      _, hcb, hsign, hver, _⟩ := ValidateSnapshot_ok_inv h
    obtain ⟨v1, v2⟩ := VaultsRepository.Get_some hget
    obtain ⟨m1, m2, m3⟩ := VaultsRepository.GetMember_some hmem
    exact ⟨vault, creator, cb, sgb, hget, v1, v2, hown, hmem, m1, m2, m3, hcb, hsign,
      (VerifySignature_ok hver).2.2⟩

/-- C5 on concrete inputs: the removal, the admission, the key update and the
snapshot accepted above are all signed by `devOwner`, the stored owner of
vault A. -/
theorem owner_authority_witness :
    (ValidateMemberRemove testLib storeA memberRemoveEvent = .ok memberRemoveRow ∧
      ∃ vault, VaultsRepository.Get storeA memberRemoveEvent.VaultID.Bytes = .ok (some vault) ∧
        memberRemoveEvent.ActorDeviceID = vault.OwnerDeviceID) ∧
    (memberAddEvent.MemberSeq ≠ 1 ∧
      ValidateMemberAdd testLib storeInvited memberAddEvent = .ok memberAddRow ∧
      ∃ vault, VaultsRepository.Get storeInvited memberAddEvent.VaultID.Bytes
          = .ok (some vault) ∧
        memberAddEvent.ActorDeviceID = vault.OwnerDeviceID) ∧
    (ValidateKeyUpdate testLib storeA keyUpdate1 = .ok keyUpdateRow1 ∧
      ∃ vault, VaultsRepository.Get storeA keyUpdate1.VaultID.Bytes = .ok (some vault) ∧
        keyUpdate1.CreatedByDeviceID = vault.OwnerDeviceID) ∧
    (ValidateSnapshot testLib storeA snapshot1 = .ok snapshotRow1 ∧
      ∃ vault, VaultsRepository.Get storeA snapshot1.VaultID.Bytes = .ok (some vault) ∧
        snapshot1.CreatedByDeviceID = vault.OwnerDeviceID) := by
  refine ⟨⟨ValidateMemberRemove_memberRemoveEvent, ?_⟩,
    ⟨by decide, ValidateMemberAdd_memberAddEvent, ?_⟩,
    ⟨ValidateKeyUpdate_keyUpdate1, ?_⟩, ⟨ValidateSnapshot_snapshot1, ?_⟩⟩
  · obtain ⟨vault, _, _, _, _, hget, _, _, hown, _⟩ :=
      (owner_authority testLib storeA).1 memberRemoveEvent memberRemoveRow
        ValidateMemberRemove_memberRemoveEvent
    exact ⟨vault, hget, hown⟩
  · obtain ⟨vault, _, _, _, _, hget, _, _, hown, _⟩ :=
      (owner_authority testLib storeInvited).2.1 memberAddEvent memberAddRow (by decide)
        ValidateMemberAdd_memberAddEvent
    exact ⟨vault, hget, hown⟩
  · obtain ⟨vault, _, _, _, _, hget, _, _, hown, _⟩ :=
      (owner_authority testLib storeA).2.2.1 keyUpdate1 keyUpdateRow1
        ValidateKeyUpdate_keyUpdate1
    exact ⟨vault, hget, hown⟩
  · obtain ⟨vault, _, _, _, hget, _, _, hown, _⟩ :=
      (owner_authority testLib storeA).2.2.2 snapshot1 snapshotRow1 ValidateSnapshot_snapshot1
    exact ⟨vault, hget, hown⟩

/-! ## Nonce uniqueness -/

theorem any_eq_decide_filter {α : Type} (p : α → Bool) (l : List α) :
    decide (0 < (l.filter p).length) = l.any p := by
  induction l with
  | nil => simp
  | cons x xs ih =>
    by_cases hx : p x = true
    · simp [List.filter, hx]
    · simp only [Bool.not_eq_true] at hx
      simp [List.filter, hx, ih]

theorem InvitesRepository.CheckNonceUsed_eq (s : Store) (t : String) (v : Bytes) (d : String)
    (n : Bytes) : InvitesRepository.CheckNonceUsed s t v d n = .ok (s.hasNonce (t, v, d, n)) := by
  unfold InvitesRepository.CheckNonceUsed Store.hasNonce
  rw [any_eq_decide_filter]

theorem Store.hasNonce_congr {s s1 : Store} (h : s1.usedNonces = s.usedNonces) (k : NonceKey) :
    s1.hasNonce k = s.hasNonce k := by
  unfold Store.hasNonce
  rw [h]

theorem InvitesRepository.RecordNonceUsed_ok (now : String) (s : Store) (t : String)
    (v : Bytes) (d : String) (n : Bytes) :
    ∃ s1, InvitesRepository.RecordNonceUsed now s t v d n = .ok s1 ∧
      s1.hasNonce (t, v, d, n) = true ∧
      (∀ k, s.hasNonce k = true → s1.hasNonce k = true) ∧
      (∀ k, k ≠ (t, v, d, n) → s1.hasNonce k = s.hasNonce k) := by
  unfold InvitesRepository.RecordNonceUsed
  split
  · rename_i hany
    exact ⟨s, rfl, hany, fun _ h => h, fun _ _ => rfl⟩
  · refine ⟨_, rfl, ?_, ?_, ?_⟩
    · simp [Store.hasNonce]
    · intro k hk
      simp only [Store.hasNonce, List.any_append, Bool.or_eq_true] at hk ⊢
      exact Or.inl hk
    · intro k hk
      obtain ⟨k1, k2, k3, k4⟩ := k
      have : ¬ (t = k1 ∧ v = k2 ∧ d = k3 ∧ n = k4) := by
        rintro ⟨rfl, rfl, rfl, rfl⟩
        exact hk rfl
      simp only [Store.hasNonce, List.any_append, List.any_cons, List.any_nil, Bool.or_false]
      have hf : (t == k1 && v == k2 && d == k3 && n == k4) = false := by
        simpa [and_assoc] using this
      rw [hf, Bool.or_false]

theorem InvitesRepository.Create_invite_usedNonces {now : String} {s s1 : Store} {inv : InviteRow}
    (h : InvitesRepository.Create now s inv = .ok s1) : s1.usedNonces = s.usedNonces := by
  unfold InvitesRepository.Create at h
  dsimp only at h
  split at h
  · contradiction
  · injection h with h
    subst h
    rfl

theorem KeyUpdatesRepository.Create_keyUpdate_usedNonces {now : String} {s s1 : Store}
    {ku : KeyUpdateRow} (h : KeyUpdatesRepository.Create now s ku = .ok s1) :
    s1.usedNonces = s.usedNonces := by
  unfold KeyUpdatesRepository.Create at h
  dsimp only at h
  split at h
  · contradiction
  · injection h with h
    subst h
    rfl

theorem SnapshotsRepository.Create_snapshot_usedNonces {now : String} {s s1 : Store}
    {row : SnapshotRow} (h : SnapshotsRepository.Create now s row = .ok s1) :
    s1.usedNonces = s.usedNonces := by
  unfold SnapshotsRepository.Create at h
  dsimp only at h
  split at h
  · contradiction
  · injection h with h
    subst h
    rfl

theorem ValidateInvite_ok_unused {lib : CryptoLib} {s : Store} {inv : Invite} {row : InviteRow}
    (h : ValidateInvite lib s inv = .ok row) :
    s.hasNonce ("invite", inv.VaultID.Bytes, inv.CreatedByDeviceID, inv.Nonce) = false := by
  obtain ⟨_, _, _, _, _, _, _, _, _, _, _, _, hrest⟩ := ValidateInvite_ok_inv h
  obtain ⟨_, _, _, _, _, _, _, _, _, _, hnonce, _⟩ := hrest
  rw [InvitesRepository.CheckNonceUsed_eq] at hnonce
  injection hnonce

theorem ValidateKeyUpdate_ok_unused {lib : CryptoLib} {s : Store} {ku : KeyUpdate}
    {row : KeyUpdateRow} (h : ValidateKeyUpdate lib s ku = .ok row) :
    s.hasNonce ("key_update", ku.VaultID.Bytes, ku.CreatedByDeviceID, ku.Nonce) = false := by
  obtain ⟨_, _, _, _, _, _, _, _, _, _, _, _, hrest⟩ := ValidateKeyUpdate_ok_inv h
  obtain ⟨_, _, _, _, _, _, _, _, _, _, hnonce, _⟩ := hrest
  rw [InvitesRepository.CheckNonceUsed_eq] at hnonce
  injection hnonce

theorem ValidateSnapshot_ok_unused {lib : CryptoLib} {s : Store} {snap : Snapshot}
    {row : SnapshotRow} (h : ValidateSnapshot lib s snap = .ok row) :
    s.hasNonce ("snapshot", snap.VaultID.Bytes, snap.CreatedByDeviceID, snap.Nonce)
      = false := by
  obtain ⟨_, _, _, _, _, _, _, _, _, _, _, _, hrest⟩ := ValidateSnapshot_ok_inv h
  obtain ⟨_, _, _, _, _, _, _, _, hnonce, _⟩ := hrest
  rw [InvitesRepository.CheckNonceUsed_eq] at hnonce
  injection hnonce

/-- What a request to one of the three handlers does to the used-nonce set:
a request that parses carries a key `k`; the nonces already used stay used; an
accepted request leaves `k` used; a request whose `k` is already used is not
accepted; and no key other than `k` changes. -/
theorem NonceWrite.run_spec (lib : CryptoLib) (s : Store) (w : NonceWrite) :
    (∀ k, s.hasNonce k = true → (w.run lib s).2.hasNonce k = true) ∧
    ((w.run lib s).1 = true → ∃ k, w.key = some k ∧ (w.run lib s).2.hasNonce k = true) ∧
    (∀ k, w.key = some k → s.hasNonce k = true → (w.run lib s).1 = false) ∧
    (∀ k, w.key ≠ some k → (w.run lib s).2.hasNonce k = s.hasNonce k) := by
  cases w with
  | invite now r =>
    obtain ⟨path, body⟩ := r
    simp only [NonceWrite.run, NonceWrite.key, handleInviteCreate]
    cases path with
    | none => cases body <;> simp
    | some vaultID =>
      cases body with
      | error e => simp
      | ok inv =>
        simp only
        by_cases hv : vaultID.Bytes = inv.VaultID.Bytes
        · simp only [hv, bne_self_eq_false, Bool.false_eq_true, ↓reduceIte]
          cases hval : ValidateInvite lib s inv with
          | error e =>
            simp only [Bool.false_eq_true, false_implies, implies_true, and_self, and_true,
              true_and]
            exact fun _ h => h
          | ok row =>
            have hfalse := ValidateInvite_ok_unused hval
            obtain ⟨s1, hrec, h1, h2, h3⟩ := InvitesRepository.RecordNonceUsed_ok now s
              "invite" inv.VaultID.Bytes inv.CreatedByDeviceID inv.Nonce
            simp only [hrec]
            cases hcr : InvitesRepository.Create now s1 row with
            | error e =>
              simp only [Bool.false_eq_true, false_implies, true_and]
              refine ⟨h2, ?_, ?_⟩
              · intro k hk hused
                injection hk with hk
                subst hk
                rw [hfalse] at hused
                contradiction
              · intro k hk
                exact h3 k (fun h => hk (by rw [h]))
            | ok s2 =>
              have hu := InvitesRepository.Create_invite_usedNonces hcr
              simp only [beq_self_eq_true, true_implies, Store.hasNonce_congr hu]
              refine ⟨h2, ⟨_, rfl, h1⟩, ?_, ?_⟩
              · intro k hk hused
                injection hk with hk
                subst hk
                rw [hfalse] at hused
                contradiction
              · intro k hk
                exact h3 k (fun h => hk (by rw [h]))
        · have hv2 : (vaultID.Bytes != inv.VaultID.Bytes) = true := by simpa using hv
          simp only [hv2, ↓reduceIte, Bool.false_eq_true, false_implies, implies_true,
            and_self, and_true, true_and]
          exact fun _ h => h
  | keyUpdate now r =>
    obtain ⟨path, body⟩ := r
    simp only [NonceWrite.run, NonceWrite.key, handleKeyUpdateCreate]
    cases path with
    | none => cases body <;> simp
    | some vaultID =>
      cases body with
      | error e => simp
      | ok inv =>
        simp only
        by_cases hv : vaultID.Bytes = inv.VaultID.Bytes
        · simp only [hv, bne_self_eq_false, Bool.false_eq_true, ↓reduceIte]
          cases hval : ValidateKeyUpdate lib s inv with
          | error e =>
            simp only [Bool.false_eq_true, false_implies, implies_true, and_self, and_true,
              true_and]
            exact fun _ h => h
          | ok row =>
            have hfalse := ValidateKeyUpdate_ok_unused hval
            obtain ⟨s1, hrec, h1, h2, h3⟩ := InvitesRepository.RecordNonceUsed_ok now s
              "key_update" inv.VaultID.Bytes inv.CreatedByDeviceID inv.Nonce
            simp only [hrec]
            cases hcr : KeyUpdatesRepository.Create now s1 row with
            | error e =>
              simp only [Bool.false_eq_true, false_implies, true_and]
              refine ⟨h2, ?_, ?_⟩
              · intro k hk hused
                injection hk with hk
                subst hk
                rw [hfalse] at hused
                contradiction
              · intro k hk
                exact h3 k (fun h => hk (by rw [h]))
            | ok s2 =>
              have hu := KeyUpdatesRepository.Create_keyUpdate_usedNonces hcr
              simp only [beq_self_eq_true, true_implies, Store.hasNonce_congr hu]
              refine ⟨h2, ⟨_, rfl, h1⟩, ?_, ?_⟩
              · intro k hk hused
                injection hk with hk
                subst hk
                rw [hfalse] at hused
                contradiction
              · intro k hk
                exact h3 k (fun h => hk (by rw [h]))
        · have hv2 : (vaultID.Bytes != inv.VaultID.Bytes) = true := by simpa using hv
          simp only [hv2, ↓reduceIte, Bool.false_eq_true, false_implies, implies_true,
            and_self, and_true, true_and]
          exact fun _ h => h
  | snapshot now r =>
    obtain ⟨path, body⟩ := r
    simp only [NonceWrite.run, NonceWrite.key, handleSnapshotCreate]
    cases path with
    | none => cases body <;> simp
    | some vaultID =>
      cases body with
      | error e => simp
      | ok inv =>
        simp only
        by_cases hv : vaultID.Bytes = inv.VaultID.Bytes
        · simp only [hv, bne_self_eq_false, Bool.false_eq_true, ↓reduceIte]
          cases hval : ValidateSnapshot lib s inv with
          | error e =>
            simp only [Bool.false_eq_true, false_implies, implies_true, and_self, and_true,
              true_and]
            exact fun _ h => h
          | ok row =>
            have hfalse := ValidateSnapshot_ok_unused hval
            obtain ⟨s1, hrec, h1, h2, h3⟩ := InvitesRepository.RecordNonceUsed_ok now s
              "snapshot" inv.VaultID.Bytes inv.CreatedByDeviceID inv.Nonce
            simp only [hrec]
            cases hcr : SnapshotsRepository.Create now s1 row with
            | error e =>
              simp only [Bool.false_eq_true, false_implies, true_and]
              refine ⟨h2, ?_, ?_⟩
              · intro k hk hused
                injection hk with hk
                subst hk
                rw [hfalse] at hused
                contradiction
              · intro k hk
                exact h3 k (fun h => hk (by rw [h]))
            | ok s2 =>
              have hu := SnapshotsRepository.Create_snapshot_usedNonces hcr
              simp only [beq_self_eq_true, true_implies, Store.hasNonce_congr hu]
              refine ⟨h2, ⟨_, rfl, h1⟩, ?_, ?_⟩
              · intro k hk hused
                injection hk with hk
                subst hk
                rw [hfalse] at hused
                contradiction
              · intro k hk
                exact h3 k (fun h => hk (by rw [h]))
        · have hv2 : (vaultID.Bytes != inv.VaultID.Bytes) = true := by simpa using hv
          simp only [hv2, ↓reduceIte, Bool.false_eq_true, false_implies, implies_true,
            and_self, and_true, true_and]
          exact fun _ h => h

theorem ite_error_inv {α : Type} {c : Prop} [Decidable c] {e0 e : APIError}
    {rest : Except APIError α} (h : (if c then Except.error e0 else rest) = Except.error e) :
    (c ∧ e = e0) ∨ (¬ c ∧ rest = Except.error e) := by
  by_cases hc : c
  · rw [if_pos hc] at h
    injection h with h
    exact Or.inl ⟨hc, h.symm⟩
  · rw [if_neg hc] at h
    exact Or.inr ⟨hc, h⟩

theorem ValidateSnapshot_reused_inv {lib : CryptoLib} {s : Store} {snap : Snapshot}
    {e : APIError} (h : ValidateSnapshot lib s snap = .error e)
    (hc : e.Code = "nonce_reused") :
    s.hasNonce ("snapshot", snap.VaultID.Bytes, snap.CreatedByDeviceID, snap.Nonce) = true := by
  unfold ValidateSnapshot at h
  dsimp only at h
  rw [InvitesRepository.CheckNonceUsed_eq] at h
  replace h := ite_error_inv h
  rcases h with ⟨_, rfl⟩ | ⟨_, h⟩
  · exact absurd hc (by decide)
  replace h := ite_error_inv h
  rcases h with ⟨_, rfl⟩ | ⟨_, h⟩
  · exact absurd hc (by decide)
  replace h := ite_error_inv h
  rcases h with ⟨_, rfl⟩ | ⟨_, h⟩
  · exact absurd hc (by decide)
  replace h := ite_error_inv h
  rcases h with ⟨_, rfl⟩ | ⟨_, h⟩
  · exact absurd hc (by decide)
  replace h := ite_error_inv h
  rcases h with ⟨_, rfl⟩ | ⟨_, h⟩
  · exact absurd hc (by decide)
  replace h := ite_error_inv h
  rcases h with ⟨_, rfl⟩ | ⟨_, h⟩
  · exact absurd hc (by decide)
  replace h := ite_error_inv h
  rcases h with ⟨_, rfl⟩ | ⟨_, h⟩
  · exact absurd hc (by decide)
  repeat' (split at h)
  all_goals (first
    | contradiction
    | (injection h with h; subst h; exact absurd hc (by decide))
    | (injection ‹Except.ok _ = Except.ok _› with h1; subst h1; assumption)
    | (injection h with h; subst h; simp [BadRequest] at hc))

theorem ValidateKeyUpdate_reused_inv {lib : CryptoLib} {s : Store} {ku : KeyUpdate}
    {e : APIError} (h : ValidateKeyUpdate lib s ku = .error e)
    (hc : e.Code = "nonce_reused") :
    s.hasNonce ("key_update", ku.VaultID.Bytes, ku.CreatedByDeviceID, ku.Nonce) = true := by
  unfold ValidateKeyUpdate at h
  dsimp only at h
  rw [InvitesRepository.CheckNonceUsed_eq] at h
  replace h := ite_error_inv h
  rcases h with ⟨_, rfl⟩ | ⟨_, h⟩
  · exact absurd hc (by decide)
  replace h := ite_error_inv h
  rcases h with ⟨_, rfl⟩ | ⟨_, h⟩
  · exact absurd hc (by decide)
  replace h := ite_error_inv h
  rcases h with ⟨_, rfl⟩ | ⟨_, h⟩
  · exact absurd hc (by decide)
  replace h := ite_error_inv h
  rcases h with ⟨_, rfl⟩ | ⟨_, h⟩
  · exact absurd hc (by decide)
  replace h := ite_error_inv h
  rcases h with ⟨_, rfl⟩ | ⟨_, h⟩
  · exact absurd hc (by decide)
  repeat' (split at h)
  all_goals (first
    | contradiction
    | (injection h with h; subst h; exact absurd hc (by decide))
    | (injection ‹Except.ok _ = Except.ok _› with h1; subst h1; assumption)
    | (injection h with h; subst h; simp [BadRequest] at hc))

theorem ValidateInvite_reused_inv {lib : CryptoLib} {s : Store} {inv : Invite}
    {e : APIError} (h : ValidateInvite lib s inv = .error e)
    (hc : e.Code = "nonce_reused") :
    s.hasNonce ("invite", inv.VaultID.Bytes, inv.CreatedByDeviceID, inv.Nonce) = true := by
  unfold ValidateInvite at h
  dsimp only at h
  rw [InvitesRepository.CheckNonceUsed_eq] at h
  replace h := ite_error_inv h
  rcases h with ⟨_, rfl⟩ | ⟨_, h⟩
  · exact absurd hc (by decide)
  replace h := ite_error_inv h
  rcases h with ⟨_, rfl⟩ | ⟨_, h⟩
  · exact absurd hc (by decide)
  replace h := ite_error_inv h
  rcases h with ⟨_, rfl⟩ | ⟨_, h⟩
  · exact absurd hc (by decide)
  replace h := ite_error_inv h
  rcases h with ⟨_, rfl⟩ | ⟨_, h⟩
  · exact absurd hc (by decide)
  replace h := ite_error_inv h
  rcases h with ⟨_, rfl⟩ | ⟨_, h⟩
  · exact absurd hc (by decide)
  replace h := ite_error_inv h
  rcases h with ⟨_, rfl⟩ | ⟨_, h⟩
  · exact absurd hc (by decide)
  replace h := ite_error_inv h
  rcases h with ⟨_, rfl⟩ | ⟨_, h⟩
  · exact absurd hc (by decide)
  repeat' (split at h)
  all_goals (first
    | contradiction
    | (injection h with h; subst h; exact absurd hc (by decide))
    | (injection ‹Except.ok _ = Except.ok _› with h1; subst h1; assumption)
    | (injection h with h; subst h; simp [BadRequest] at hc))

/-- A structurally valid invite from a current member, with a target bundle
that verifies, is answered `nonce_reused` when its nonce scope is in the
used-nonce set: the nonce check runs before the signature check. -/
theorem ValidateInvite_nonce_reused {lib : CryptoLib} {s : Store} {inv : Invite}
    {vault : VaultRow} {creator : VaultMemberRow} {targetBytes bundleBytes : Bytes}
    (h1 : inv.MsgType = "invite") (h2 : inv.Nonce.length = NonceLength)
    (h3 : inv.Signature.length = SignatureLength)
    (h4 : inv.WrappedPayload.length ≤ MaxWrappedPayload)
    (h5 : inv.TargetDevicePubkeySign.length = PublicKeyLength)
    (h6 : inv.TargetDevicePubkeyBox.length = PublicKeyLength)
    (h7 : inv.TargetDeviceBundleSig.length = SignatureLength)
    (h8 : DeviceID.Validate inv.TargetDeviceID = .ok ())
    (h9 : DeviceID.Validate inv.CreatedByDeviceID = .ok ())
    (h10 : VaultsRepository.Get s inv.VaultID.Bytes = .ok (some vault))
    (h11 : VaultsRepository.GetMember s inv.VaultID.Bytes inv.CreatedByDeviceID
      = .ok (some creator))
    (h12 : creator.IsMember = true)
    (h13 : VerifyDeviceID inv.TargetDeviceID inv.TargetDevicePubkeySign = .ok ())
    (h14 : DeviceIDToBytes inv.TargetDeviceID = .ok targetBytes)
    (h15 : SignBytesDeviceBundle targetBytes inv.TargetDevicePubkeySign
      inv.TargetDevicePubkeyBox = .ok bundleBytes)
    (h16 : VerifySignature lib inv.TargetDevicePubkeySign bundleBytes
      inv.TargetDeviceBundleSig = .ok ())
    (hused : s.hasNonce ("invite", inv.VaultID.Bytes, inv.CreatedByDeviceID, inv.Nonce)
      = true) :
    ValidateInvite lib s inv
      = .error (BadRequest "nonce_reused" "nonce has already been used") := by
  unfold ValidateInvite
  dsimp only
  rw [InvitesRepository.CheckNonceUsed_eq]
  simp [h1, h2, h3, h4, h5, h6, h7, h8, h9, h10, h11, h12, h13, h14, h15, h16, hused]

/-- A structurally valid key update from the owner for a current member at the
current membership head, for which no key update of that epoch and target is
stored, is answered `nonce_reused` when its nonce scope is in the used-nonce
set. -/
theorem ValidateKeyUpdate_nonce_reused {lib : CryptoLib} {s : Store} {ku : KeyUpdate}
    {vault : VaultRow} {creator : VaultMemberRow} {head : VaultMembershipHead}
    (h1 : ku.MsgType = "key_update") (h2 : ku.Nonce.length = NonceLength)
    (h3 : ku.Signature.length = SignatureLength)
    (h4 : ku.MemberHeadHash.length = HashLength)
    (h5 : ku.WrappedPayload.length ≤ MaxWrappedPayload)
    (h6 : DeviceID.Validate ku.TargetDeviceID = .ok ())
    (h7 : DeviceID.Validate ku.CreatedByDeviceID = .ok ())
    (h8 : VaultsRepository.Get s ku.VaultID.Bytes = .ok (some vault))
    (h9 : ku.CreatedByDeviceID = vault.OwnerDeviceID)
    (h10 : VaultsRepository.GetMember s ku.VaultID.Bytes ku.CreatedByDeviceID
      = .ok (some creator))
    (h11 : creator.IsMember = true)
    (h12 : VaultsRepository.IsMember s ku.VaultID.Bytes ku.TargetDeviceID = .ok true)
    (h13 : VaultsRepository.GetMembershipHead s ku.VaultID.Bytes = .ok (some head))
    (h14 : ku.MemberSeq = head.MemberSeq)
    (h15 : ku.MemberHeadHash = head.MemberHeadHash)
    (h16 : KeyUpdatesRepository.CheckExists s ku.VaultID.Bytes ku.KeyEpoch ku.TargetDeviceID
      = .ok false)
    (hused : s.hasNonce ("key_update", ku.VaultID.Bytes, ku.CreatedByDeviceID, ku.Nonce)
      = true) :
    ValidateKeyUpdate lib s ku
      = .error (BadRequest "nonce_reused" "nonce has already been used") := by
  have h7b : DeviceID.Validate vault.OwnerDeviceID = .ok () := h9 ▸ h7
  have h10b := h9 ▸ h10
  have husedb := h9 ▸ hused
  have h4b : head.MemberHeadHash.length = HashLength := h15 ▸ h4
  have h5b : ¬ MaxWrappedPayload < ku.WrappedPayload.length := Nat.not_lt.mpr h5
  unfold ValidateKeyUpdate
  dsimp only
  rw [InvitesRepository.CheckNonceUsed_eq]
  simp [h1, h2, h3, h4b, h5b, h6, h7b, h8, h9, h10b, h11, h12, h13, h14, h15, h16, husedb]

/-- A structurally valid snapshot from the owner at the current membership head
is answered `nonce_reused` when its nonce scope is in the used-nonce set. -/
theorem ValidateSnapshot_nonce_reused {lib : CryptoLib} {s : Store} {snap : Snapshot}
    {vault : VaultRow} {creator : VaultMemberRow} {head : VaultMembershipHead}
    (h1 : snap.MsgType = "snapshot") (h2 : snap.Nonce.length = NonceLength)
    (h3 : snap.Signature.length = SignatureLength)
    (h4 : snap.MemberHeadHash.length = HashLength)
    (h5 : snap.Ciphertext.length ≤ MaxSnapshotCiphertext)
    (h6 : snap.BaseCounterMap.length ≤ MaxMapLength * 40)
    (h7 : snap.HeadHashMap.length ≤ MaxMapLength * 64)
    (h8 : DeviceID.Validate snap.CreatedByDeviceID = .ok ())
    (h9 : VaultsRepository.Get s snap.VaultID.Bytes = .ok (some vault))
    (h10 : snap.CreatedByDeviceID = vault.OwnerDeviceID)
    (h11 : VaultsRepository.GetMember s snap.VaultID.Bytes snap.CreatedByDeviceID
      = .ok (some creator))
    (h12 : creator.IsMember = true)
    (h13 : VaultsRepository.GetMembershipHead s snap.VaultID.Bytes = .ok (some head))
    (h14 : snap.MemberSeq = head.MemberSeq)
    (h15 : snap.MemberHeadHash = head.MemberHeadHash)
    (hused : s.hasNonce ("snapshot", snap.VaultID.Bytes, snap.CreatedByDeviceID, snap.Nonce)
      = true) :
    ValidateSnapshot lib s snap
      = .error (BadRequest "nonce_reused" "nonce has already been used") := by
  have h8b : DeviceID.Validate vault.OwnerDeviceID = .ok () := h10 ▸ h8
  have h11b := h10 ▸ h11
  have husedb := h10 ▸ hused
  have h4b : head.MemberHeadHash.length = HashLength := h15 ▸ h4
  have h5b : ¬ MaxSnapshotCiphertext < snap.Ciphertext.length := Nat.not_lt.mpr h5
  have h6b : ¬ MaxMapLength * 40 < snap.BaseCounterMap.length := Nat.not_lt.mpr h6
  have h7b : ¬ MaxMapLength * 64 < snap.HeadHashMap.length := Nat.not_lt.mpr h7
  unfold ValidateSnapshot
  dsimp only
  rw [InvitesRepository.CheckNonceUsed_eq]
  simp [h1, h2, h3, h4b, h5b, h6b, h7b, h8b, h9, h10, h11b, h12, h13, h14, h15, husedb]

theorem runWrites_append (lib : CryptoLib) (s : Store) (a b : List NonceWrite) :
    runWrites lib s (a ++ b) = runWrites lib (runWrites lib s a) b := by
  induction a generalizing s with
  | nil => rfl
  | cons w a ih => exact ih _

/-- The used-nonce set only grows along a sequence of requests. -/
theorem runWrites_hasNonce (lib : CryptoLib) (s : Store) (ws : List NonceWrite) (k : NonceKey)
    (h : s.hasNonce k = true) : (runWrites lib s ws).hasNonce k = true := by
  induction ws generalizing s with
  | nil => exact h
  | cons w ws ih => exact ih _ ((NonceWrite.run_spec lib s w).1 k h)

/-- A key that entered the used-nonce set was in it at the start or was carried
by one of the requests. -/
theorem runWrites_hasNonce_inv (lib : CryptoLib) (s : Store) (ws : List NonceWrite)
    (k : NonceKey) (h : (runWrites lib s ws).hasNonce k = true) :
    s.hasNonce k = true ∨ ∃ w ∈ ws, w.key = some k := by
  induction ws generalizing s with
  | nil => exact Or.inl h
  | cons w ws ih =>
    rcases ih _ h with h1 | ⟨v, hv, hk⟩
    · by_cases hw : w.key = some k
      · exact Or.inr ⟨w, List.mem_cons_self _ _, hw⟩
      · rw [(NonceWrite.run_spec lib s w).2.2.2 k hw] at h1
        exact Or.inl h1
    · exact Or.inr ⟨v, List.mem_cons_of_mem _ hv, hk⟩

/-- A key of the used-nonce set is not accepted again. -/
theorem not_mem_acceptedKeys (lib : CryptoLib) (s : Store) (ws : List NonceWrite)
    (k : NonceKey) (h : s.hasNonce k = true) : k ∉ acceptedKeys lib s ws := by
  induction ws generalizing s with
  | nil => simp [acceptedKeys]
  | cons w ws ih =>
    have hspec := NonceWrite.run_spec lib s w
    have ih1 := ih _ (hspec.1 k h)
    unfold acceptedKeys
    split
    · rename_i k1 hrun hkey
      intro hmem
      rcases List.mem_cons.mp hmem with heq | hmem
      · subst heq
        have := hspec.2.2.1 k hkey h
        rw [this] at hrun
        contradiction
      · exact ih1 hmem
    · exact ih1

/-- The key of an accepted record is in the used-nonce set afterwards. -/
theorem hasNonce_of_mem_acceptedKeys (lib : CryptoLib) (s : Store) (ws : List NonceWrite)
    (k : NonceKey) (h : k ∈ acceptedKeys lib s ws) :
    (runWrites lib s ws).hasNonce k = true := by
  induction ws generalizing s with
  | nil => simp [acceptedKeys] at h
  | cons w ws ih =>
    have hspec := NonceWrite.run_spec lib s w
    unfold acceptedKeys at h
    split at h
    · rename_i k1 hrun hkey
      rcases List.mem_cons.mp h with heq | hmem
      · subst heq
        obtain ⟨k2, hk2, hused⟩ := hspec.2.1 hrun
        rw [hkey] at hk2
        injection hk2 with hk2
        subst hk2
        exact runWrites_hasNonce lib _ ws _ hused
      · exact ih _ hmem
    · exact ih _ h

theorem acceptedKeys_nodup (lib : CryptoLib) (s : Store) (ws : List NonceWrite) :
    (acceptedKeys lib s ws).Nodup := by
  induction ws generalizing s with
  | nil => simp [acceptedKeys]
  | cons w ws ih =>
    have hspec := NonceWrite.run_spec lib s w
    unfold acceptedKeys
    split
    · rename_i k1 hrun hkey
      obtain ⟨k2, hk2, hused⟩ := hspec.2.1 hrun
      rw [hkey] at hk2
      injection hk2 with hk2
      subst hk2
      exact List.nodup_cons.mpr ⟨not_mem_acceptedKeys lib _ ws _ hused, ih _⟩
    · exact ih _

theorem acceptedKeys_append (lib : CryptoLib) (s : Store) (a b : List NonceWrite) :
    acceptedKeys lib s (a ++ b)
      = acceptedKeys lib s a ++ acceptedKeys lib (runWrites lib s a) b := by
  induction a generalizing s with
  | nil => rfl
  | cons w a ih =>
    simp only [List.cons_append, acceptedKeys, runWrites]
    split <;> simp [ih]

/-- A request is answered `nonce_reused` only when the nonce scope of its
record is in the used-nonce set. -/
theorem NonceWrite.rejection_reused_inv (lib : CryptoLib) (s : Store) (w : NonceWrite)
    (e : APIError) (h : w.rejection lib s = some e) (hc : e.Code = "nonce_reused") :
    ∃ k, w.key = some k ∧ s.hasNonce k = true := by
  cases w with
  | invite now r =>
    obtain ⟨path, body⟩ := r
    simp only [NonceWrite.rejection, NonceWrite.key, handleInviteCreate] at h ⊢
    cases path with
    | none =>
      simp only at h
      injection h with h
      subst h
      exact absurd hc (by decide)
    | some vaultID =>
      cases body with
      | error err =>
        simp only at h
        injection h with h
        subst h
        simp [BadRequest] at hc
      | ok rec =>
        simp only at h
        by_cases hv : (vaultID.Bytes != rec.VaultID.Bytes) = true
        · simp only [hv, ↓reduceIte] at h
          injection h with h
          subst h
          exact absurd hc (by decide)
        · simp only [hv, Bool.false_eq_true, ↓reduceIte] at h
          cases hval : ValidateInvite lib s rec with
          | error e1 =>
            simp only [hval] at h
            injection h with h
            subst h
            exact ⟨_, rfl, ValidateInvite_reused_inv hval hc⟩
          | ok row =>
            simp only [hval] at h
            cases hrec : InvitesRepository.RecordNonceUsed now s "invite" vaultID.Bytes
                rec.CreatedByDeviceID rec.Nonce with
            | error e2 =>
              simp only [hrec] at h
              injection h with h
              subst h
              exact absurd hc (by decide)
            | ok s1 =>
              simp only [hrec] at h
              cases hcr : InvitesRepository.Create now s1 row with
              | error e3 =>
                simp only [hcr] at h
                injection h with h
                subst h
                exact absurd hc (by decide)
              | ok s2 =>
                simp only [hcr] at h
                contradiction
  | keyUpdate now r =>
    obtain ⟨path, body⟩ := r
    simp only [NonceWrite.rejection, NonceWrite.key, handleKeyUpdateCreate] at h ⊢
    cases path with
    | none =>
      simp only at h
      injection h with h
      subst h
      exact absurd hc (by decide)
    | some vaultID =>
      cases body with
      | error err =>
        simp only at h
        injection h with h
        subst h
        simp [BadRequest] at hc
      | ok rec =>
        simp only at h
        by_cases hv : (vaultID.Bytes != rec.VaultID.Bytes) = true
        · simp only [hv, ↓reduceIte] at h
          injection h with h
          subst h
          exact absurd hc (by decide)
        · simp only [hv, Bool.false_eq_true, ↓reduceIte] at h
          cases hval : ValidateKeyUpdate lib s rec with
          | error e1 =>
            simp only [hval] at h
            injection h with h
            subst h
            exact ⟨_, rfl, ValidateKeyUpdate_reused_inv hval hc⟩
          | ok row =>
            simp only [hval] at h
            cases hrec : InvitesRepository.RecordNonceUsed now s "key_update" vaultID.Bytes
                rec.CreatedByDeviceID rec.Nonce with
            | error e2 =>
              simp only [hrec] at h
              injection h with h
              subst h
              exact absurd hc (by decide)
            | ok s1 =>
              simp only [hrec] at h
              cases hcr : KeyUpdatesRepository.Create now s1 row with
              | error e3 =>
                simp only [hcr] at h
                injection h with h
                subst h
                exact absurd hc (by decide)
              | ok s2 =>
                simp only [hcr] at h
                contradiction
  | snapshot now r =>
    obtain ⟨path, body⟩ := r
    simp only [NonceWrite.rejection, NonceWrite.key, handleSnapshotCreate] at h ⊢
    cases path with
    | none =>
      simp only at h
      injection h with h
      subst h
      exact absurd hc (by decide)
    | some vaultID =>
      cases body with
      | error err =>
        simp only at h
        injection h with h
        subst h
        simp [BadRequest] at hc
      | ok rec =>
        simp only at h
        by_cases hv : (vaultID.Bytes != rec.VaultID.Bytes) = true
        · simp only [hv, ↓reduceIte] at h
          injection h with h
          subst h
          exact absurd hc (by decide)
        · simp only [hv, Bool.false_eq_true, ↓reduceIte] at h
          cases hval : ValidateSnapshot lib s rec with
          | error e1 =>
            simp only [hval] at h
            injection h with h
            subst h
            exact ⟨_, rfl, ValidateSnapshot_reused_inv hval hc⟩
          | ok row =>
            simp only [hval] at h
            cases hrec : InvitesRepository.RecordNonceUsed now s "snapshot" vaultID.Bytes
                rec.CreatedByDeviceID rec.Nonce with
            | error e2 =>
              simp only [hrec] at h
              injection h with h
              subst h
              exact absurd hc (by decide)
            | ok s1 =>
              simp only [hrec] at h
              cases hcr : SnapshotsRepository.Create now s1 row with
              | error e3 =>
                simp only [hcr] at h
                injection h with h
                subst h
                exact absurd hc (by decide)
              | ok s2 =>
                simp only [hcr] at h
                contradiction

/-- C10. Along every sequence of requests to `handleInviteCreate`,
`handleKeyUpdateCreate` and `handleSnapshotCreate`, started in any store and
whether or not the inserts succeed, no two accepted (201) records share
`(nonce_type, vault_id, created_by_device_id, nonce)`.  Once a record with
scope `k` has been accepted, at every later point `s` of the sequence: `k` is
in the used-nonce set; no request carrying `k` is accepted; an invite, key
update or snapshot carrying `k` (a 24-byte nonce) that passes the checks which
precede the nonce check of its validator is answered 400 `nonce_reused`, and
the store is left as it was; and a request whose own scope was not in the
used-nonce set at the start and was carried by no earlier request is not
answered `nonce_reused`, so the same nonce under another type, vault or creator
is not rejected as reused. -/
theorem nonce_uniqueness (lib : CryptoLib) (s0 s : Store) (ws later : List NonceWrite)
    (k : NonceKey) (hk : k ∈ acceptedKeys lib s0 ws)
    (hs : s = runWrites lib s0 (ws ++ later)) :
    (acceptedKeys lib s0 (ws ++ later)).Nodup ∧
    s.hasNonce k = true ∧
    (∀ w : NonceWrite, w.key = some k → (w.run lib s).1 = false) ∧
    (∀ (now : String) (inv : Invite) (vault : VaultRow) (creator : VaultMemberRow)
        (targetBytes bundleBytes : Bytes),
      ("invite", inv.VaultID.Bytes, inv.CreatedByDeviceID, inv.Nonce) = k →
      inv.MsgType = "invite" → inv.Nonce.length = NonceLength →
      inv.Signature.length = SignatureLength →
      inv.WrappedPayload.length ≤ MaxWrappedPayload →
      inv.TargetDevicePubkeySign.length = PublicKeyLength →
      inv.TargetDevicePubkeyBox.length = PublicKeyLength →
      inv.TargetDeviceBundleSig.length = SignatureLength →
      DeviceID.Validate inv.TargetDeviceID = .ok () →
      DeviceID.Validate inv.CreatedByDeviceID = .ok () →
      VaultsRepository.Get s inv.VaultID.Bytes = .ok (some vault) →
      VaultsRepository.GetMember s inv.VaultID.Bytes inv.CreatedByDeviceID
        = .ok (some creator) →
      creator.IsMember = true →
      VerifyDeviceID inv.TargetDeviceID inv.TargetDevicePubkeySign = .ok () →
      DeviceIDToBytes inv.TargetDeviceID = .ok targetBytes →
      SignBytesDeviceBundle targetBytes inv.TargetDevicePubkeySign inv.TargetDevicePubkeyBox
        = .ok bundleBytes →
      VerifySignature lib inv.TargetDevicePubkeySign bundleBytes inv.TargetDeviceBundleSig
        = .ok () →
      handleInviteCreate lib now s { pathVaultID := some inv.VaultID, body := .ok inv }
        = (.apiError (BadRequest "nonce_reused" "nonce has already been used"), s)) ∧
    (∀ (now : String) (ku : KeyUpdate) (vault : VaultRow) (creator : VaultMemberRow)
        (head : VaultMembershipHead),
      ("key_update", ku.VaultID.Bytes, ku.CreatedByDeviceID, ku.Nonce) = k →
      ku.MsgType = "key_update" → ku.Nonce.length = NonceLength →
      ku.Signature.length = SignatureLength →
      ku.MemberHeadHash.length = HashLength →
      ku.WrappedPayload.length ≤ MaxWrappedPayload →
      DeviceID.Validate ku.TargetDeviceID = .ok () →
      DeviceID.Validate ku.CreatedByDeviceID = .ok () →
      VaultsRepository.Get s ku.VaultID.Bytes = .ok (some vault) →
      ku.CreatedByDeviceID = vault.OwnerDeviceID →
      VaultsRepository.GetMember s ku.VaultID.Bytes ku.CreatedByDeviceID
        = .ok (some creator) →
      creator.IsMember = true →
      VaultsRepository.IsMember s ku.VaultID.Bytes ku.TargetDeviceID = .ok true →
      VaultsRepository.GetMembershipHead s ku.VaultID.Bytes = .ok (some head) →
      ku.MemberSeq = head.MemberSeq →
      ku.MemberHeadHash = head.MemberHeadHash →
      KeyUpdatesRepository.CheckExists s ku.VaultID.Bytes ku.KeyEpoch ku.TargetDeviceID
        = .ok false →
      handleKeyUpdateCreate lib now s { pathVaultID := some ku.VaultID, body := .ok ku }
        = (.apiError (BadRequest "nonce_reused" "nonce has already been used"), s)) ∧
    (∀ (now : String) (snap : Snapshot) (vault : VaultRow) (creator : VaultMemberRow)
        (head : VaultMembershipHead),
      ("snapshot", snap.VaultID.Bytes, snap.CreatedByDeviceID, snap.Nonce) = k →
      snap.MsgType = "snapshot" → snap.Nonce.length = NonceLength →
      snap.Signature.length = SignatureLength →
      snap.MemberHeadHash.length = HashLength →
      snap.Ciphertext.length ≤ MaxSnapshotCiphertext →
      snap.BaseCounterMap.length ≤ MaxMapLength * 40 →
      snap.HeadHashMap.length ≤ MaxMapLength * 64 →
      DeviceID.Validate snap.CreatedByDeviceID = .ok () →
      VaultsRepository.Get s snap.VaultID.Bytes = .ok (some vault) →
      snap.CreatedByDeviceID = vault.OwnerDeviceID →
      VaultsRepository.GetMember s snap.VaultID.Bytes snap.CreatedByDeviceID
        = .ok (some creator) →
      creator.IsMember = true →
      VaultsRepository.GetMembershipHead s snap.VaultID.Bytes = .ok (some head) →
      snap.MemberSeq = head.MemberSeq →
      snap.MemberHeadHash = head.MemberHeadHash →
      handleSnapshotCreate lib now s { pathVaultID := some snap.VaultID, body := .ok snap }
        = (.apiError (BadRequest "nonce_reused" "nonce has already been used"), s)) ∧
    (BadRequest "nonce_reused" "nonce has already been used").StatusCode = 400 ∧
    (∀ (w : NonceWrite) (k1 : NonceKey), w.key = some k1 → s0.hasNonce k1 = false →
      (∀ v ∈ ws ++ later, v.key ≠ some k1) →
      ∀ e, w.rejection lib s = some e → e.Code ≠ "nonce_reused") := by
  subst hs
  have hused : (runWrites lib s0 (ws ++ later)).hasNonce k = true := by
    rw [runWrites_append]
    exact runWrites_hasNonce lib _ later k (hasNonce_of_mem_acceptedKeys lib s0 ws k hk)
  refine ⟨acceptedKeys_nodup lib s0 _, hused, ?_, ?_, ?_, ?_, rfl, ?_⟩
  · intro w hw
    exact (NonceWrite.run_spec lib _ w).2.2.1 k hw hused
  · intro now inv vault creator targetBytes bundleBytes hkey h1 h2 h3 h4 h5 h6 h7 h8 h9 h10
      h11 h12 h13 h14 h15 h16
    subst hkey
    have hval := ValidateInvite_nonce_reused h1 h2 h3 h4 h5 h6 h7 h8 h9 h10 h11 h12 h13 h14
      h15 h16 hused
    simp [handleInviteCreate, hval]
  · intro now ku vault creator head hkey h1 h2 h3 h4 h5 h6 h7 h8 h9 h10 h11 h12 h13 h14 h15 h16
    subst hkey
    have hval : ValidateKeyUpdate lib _ ku = _ :=
      ValidateKeyUpdate_nonce_reused h1 h2 h3 h4 h5 h6 h7 h8 h9 h10 h11 h12 h13 h14 h15 h16
        hused
    simp [handleKeyUpdateCreate, hval]
  · intro now snap vault creator head hkey h1 h2 h3 h4 h5 h6 h7 h8 h9 h10 h11 h12 h13 h14 h15
    subst hkey
    have hval : ValidateSnapshot lib _ snap = _ :=
      ValidateSnapshot_nonce_reused h1 h2 h3 h4 h5 h6 h7 h8 h9 h10 h11 h12 h13 h14 h15 hused
    simp [handleSnapshotCreate, hval]
  · intro w k1 hw h0 hnone e he hc
    obtain ⟨k2, hk2, hu⟩ := NonceWrite.rejection_reused_inv lib _ w e he hc
    rw [hw] at hk2
    injection hk2 with hk2
    subst hk2
    rcases runWrites_hasNonce_inv lib s0 _ _ hu with h | ⟨v, hv, hvk⟩
    · rw [h0] at h
      contradiction
    · exact hnone v hv hvk

/-- C10 on concrete inputs: invite X is accepted on `storeA`; invite Y, from
the same creator in the same vault with the same nonce, is then answered 400
`nonce_reused`; a key update of that creator in that vault carrying the same
nonce bytes is not answered `nonce_reused` (it is accepted). -/
theorem nonce_uniqueness_witness :
    ("invite", vaultA.Bytes, devOwner, nonceN)
      ∈ acceptedKeys testLib storeA
          [NonceWrite.invite "2024-01-03T00:00:00Z" requestInvite1] ∧
    storeAfterInvite
      = runWrites testLib storeA
          ([NonceWrite.invite "2024-01-03T00:00:00Z" requestInvite1] ++ []) ∧
    storeAfterInvite.hasNonce ("invite", vaultA.Bytes, devOwner, nonceN) = true ∧
    handleInviteCreate testLib "2024-01-03T00:00:01Z" storeAfterInvite requestInvite2
      = (.apiError (BadRequest "nonce_reused" "nonce has already been used"),
          storeAfterInvite) ∧
    (∀ e, (NonceWrite.keyUpdate "2024-01-03T00:00:02Z" requestKeyUpdate1).rejection testLib
        storeAfterInvite = some e → e.Code ≠ "nonce_reused") ∧
    (NonceWrite.keyUpdate "2024-01-03T00:00:02Z" requestKeyUpdate1).rejection testLib
      storeAfterInvite = none :=
  have hk : ("invite", vaultA.Bytes, devOwner, nonceN)
      ∈ acceptedKeys testLib storeA
          [NonceWrite.invite "2024-01-03T00:00:00Z" requestInvite1] := by
    decide!
  have hs : storeAfterInvite
      = runWrites testLib storeA
          ([NonceWrite.invite "2024-01-03T00:00:00Z" requestInvite1] ++ []) := by
    decide!
  have h := nonce_uniqueness testLib storeA storeAfterInvite
    [NonceWrite.invite "2024-01-03T00:00:00Z" requestInvite1] []
    ("invite", vaultA.Bytes, devOwner, nonceN) hk hs
  ⟨hk, hs, h.2.1,
    h.2.2.2.1 "2024-01-03T00:00:01Z" invite2
      { VaultID := vaultA.Bytes, OwnerDeviceID := devOwner,
        CreatedAt := "2024-01-01T00:00:00Z", UpdatedAt := "2024-01-01T00:00:00Z" }
      { VaultID := vaultA.Bytes, DeviceID := devOwner, DevicePubkeySign := keyOwner,
        DevicePubkeyBox := boxKey, SubjectBundleSig := Zero64, IsMember := true, KeyEpoch := 1 }
      (bytesOf (DeviceIDToBytes devJoiner))
      (bundleSignBytes devJoiner keyJoiner boxKey)
      rfl (by decide) (by decide) (by decide) (by decide) (by decide) (by decide) (by decide)
      (by decide!) (by decide!) (by decide!) (by decide!) (by decide!) (by decide!)
      (by decide!) (by decide!) (by decide!),
    h.2.2.2.2.2.2.2 (NonceWrite.keyUpdate "2024-01-03T00:00:02Z" requestKeyUpdate1)
      ("key_update", vaultA.Bytes, devOwner, nonceN) rfl (by decide!) (by decide!),
    by decide!⟩

/-! ## Device registration -/

theorem bytesEqual_iff (a b : Bytes) : bytesEqual a b = true ↔ a = b := by
  unfold bytesEqual
  constructor
  · intro h
    split at h
    · contradiction
    · rename_i hlen
      have hlen2 : a.length = b.length := by simpa using hlen
      clear hlen
      induction a generalizing b with
      | nil =>
        cases b with
        | nil => rfl
        | cons y ys => simp at hlen2
      | cons x xs ih =>
        cases b with
        | nil => simp at hlen2
        | cons y ys =>
          simp only [List.zip_cons_cons, List.all_cons, Bool.and_eq_true, beq_iff_eq] at h
          simp only [List.length_cons, Nat.add_right_cancel_iff] at hlen2
          rw [h.1, ih ys h.2 hlen2]
  · intro h
    subst h
    simp only [bne_self_eq_false, Bool.false_eq_true, ↓reduceIte]
    induction a with
    | nil => rfl
    | cons x xs ih => simp [ih]

theorem ValidateBundle_bundleJoiner : ValidateBundle testLib bundleJoiner = .ok () := by
  decide!

theorem ValidateBundle_bundleJoinerRekeyed :
    ValidateBundle testLib bundleJoinerRekeyed = .ok () := by decide!

theorem any_false_of_find?_none {α : Type} {p : α → Bool} {l : List α}
    (h : l.find? p = none) : l.any p = false := by
  induction l with
  | nil => rfl
  | cons x xs ih =>
    simp only [List.find?] at h
    split at h
    · contradiction
    · rename_i hx
      simp [hx, ih h]

/-- C11. For a bundle that passes `ValidateBundle`: when a `devices` row with
its `device_id` exists and the three fields `device_pubkey_sign`,
`device_pubkey_box`, `device_bundle_sig` are byte-equal to the row,
`handleDeviceRegister` answers 200 and leaves the store as it was; when a row
exists and one of the three fields differs, it answers 409 and leaves the store
as it was; when no row exists it answers 201 and the `devices` table gains
exactly one row, holding the bundle. -/
theorem handleDeviceRegister_idempotent (lib : CryptoLib) (now : String) (s : Store)
    (bundle : DeviceBundle) (hval : ValidateBundle lib bundle = .ok ()) :
    (∀ existing, DevicesRepository.Get s bundle.DeviceID = .ok (some existing) →
      ((existing.DevicePubkeySign = bundle.DevicePubkeySign ∧
          existing.DevicePubkeyBox = bundle.DevicePubkeyBox ∧
          existing.DeviceBundleSig = bundle.DeviceBundleSig) →
        handleDeviceRegister lib now s (.ok bundle) = (.json 200 bundle, s)) ∧
      (¬ (existing.DevicePubkeySign = bundle.DevicePubkeySign ∧
          existing.DevicePubkeyBox = bundle.DevicePubkeyBox ∧
          existing.DeviceBundleSig = bundle.DeviceBundleSig) →
        handleDeviceRegister lib now s (.ok bundle) = (.apiError DuplicateDevice, s) ∧
        DuplicateDevice.StatusCode = 409)) ∧
    (DevicesRepository.Get s bundle.DeviceID = .ok none →
      handleDeviceRegister lib now s (.ok bundle)
        = (.json 201 bundle,
            { s with devices := s.devices ++
              [{ DeviceID := bundle.DeviceID, DevicePubkeySign := bundle.DevicePubkeySign,
                 DevicePubkeyBox := bundle.DevicePubkeyBox,
                 DeviceBundleSig := bundle.DeviceBundleSig, CreatedAt := now }] })) := by
  refine ⟨fun existing hget => ⟨?_, ?_⟩, ?_⟩
  · rintro ⟨h1, h2, h3⟩
    have hb1 := (bytesEqual_iff _ _).mpr h1
    have hb2 := (bytesEqual_iff _ _).mpr h2
    have hb3 := (bytesEqual_iff _ _).mpr h3
    simp [handleDeviceRegister, hval, CheckImmutability, hget, hb1, hb2, hb3]
  · intro hne
    refine ⟨?_, rfl⟩
    have hb : (!bytesEqual existing.DevicePubkeySign bundle.DevicePubkeySign ||
        !bytesEqual existing.DevicePubkeyBox bundle.DevicePubkeyBox ||
        !bytesEqual existing.DeviceBundleSig bundle.DeviceBundleSig) = true := by
      by_contra hb
      apply hne
      simp only [Bool.or_eq_true, Bool.not_eq_true', not_or, Bool.not_eq_false] at hb
      exact ⟨(bytesEqual_iff _ _).mp hb.1.1, (bytesEqual_iff _ _).mp hb.1.2,
        (bytesEqual_iff _ _).mp hb.2⟩
    simp only [handleDeviceRegister, hval, CheckImmutability, hget, hb, ↓reduceIte]
  · intro hget
    have hnone : s.devices.find? (fun d => d.DeviceID == bundle.DeviceID) = none := by
      simpa [DevicesRepository.Get] using hget
    have hany := any_false_of_find?_none hnone
    simp [handleDeviceRegister, hval, CheckImmutability, hget, DevicesRepository.Create, hany]

/-- C11 on concrete inputs: the joiner registers on `storeA` (201, one row
added), registers the same bundle again (200, store unchanged), and then a
bundle with another box key (409, store unchanged). -/
theorem handleDeviceRegister_idempotent_witness :
    ValidateBundle testLib bundleJoiner = .ok () ∧
    handleDeviceRegister testLib "2024-01-01T00:00:00Z" storeA (.ok bundleJoiner)
      = (.json 201 bundleJoiner, storeRegistered) ∧
    handleDeviceRegister testLib "2024-01-01T00:00:01Z" storeRegistered (.ok bundleJoiner)
      = (.json 200 bundleJoiner, storeRegistered) ∧
    ValidateBundle testLib bundleJoinerRekeyed = .ok () ∧
    handleDeviceRegister testLib "2024-01-01T00:00:02Z" storeRegistered
        (.ok bundleJoinerRekeyed)
      = (.apiError DuplicateDevice, storeRegistered) :=
  ⟨ValidateBundle_bundleJoiner,
    (handleDeviceRegister_idempotent testLib "2024-01-01T00:00:00Z" storeA bundleJoiner
      ValidateBundle_bundleJoiner).2 (by decide!),
    ((handleDeviceRegister_idempotent testLib "2024-01-01T00:00:01Z" storeRegistered
      bundleJoiner ValidateBundle_bundleJoiner).1 deviceRowJoiner (by decide!)).1
        ⟨rfl, rfl, rfl⟩,
    ValidateBundle_bundleJoinerRekeyed,
    (((handleDeviceRegister_idempotent testLib "2024-01-01T00:00:02Z" storeRegistered
      bundleJoinerRekeyed ValidateBundle_bundleJoinerRekeyed).1 deviceRowJoiner
        (by decide!)).2 (by decide!)).1⟩

theorem VerifyDeviceID_of_eq {d : String} {pk : Bytes} (hpk : pk.length = 32)
    (hid : d = hexEncode (SHA256Hash pk)) : VerifyDeviceID d pk = .ok () := by
  subst hid
  simp [VerifyDeviceID, ComputeDeviceID, ed25519PublicKeySize, hpk, SHA256Hash]

theorem smallOrderPoints_length {p : Bytes} (h : p ∈ smallOrderPoints) : p.length = 32 := by
  simp only [smallOrderPoints, List.mem_cons, List.mem_singleton, List.not_mem_nil,
    or_false] at h
  rcases h with h | h | h | h | h | h | h <;> subst h <;> rfl

/-- C12. A bundle with a valid `device_id` equal to
`hex(SHA-256(device_pubkey_sign))`, a 32-byte `device_pubkey_sign`, a 64-byte
`device_bundle_sig` and a `device_pubkey_box` that is one of the seven points
of `smallOrderPoints` (32 zero bytes among them) is rejected by
`ValidateBundle` with HTTP 400 and code `invalid_x25519_key`, whatever the
signature bytes and whatever the ed25519 and X25519 libraries answer; and
`ValidateX25519PublicKey` rejects every key whose length is not 32. -/
theorem ValidateBundle_small_order (lib : CryptoLib) (bundle : DeviceBundle)
    (hvalid : DeviceID.Validate bundle.DeviceID = .ok ())
    (hid : bundle.DeviceID = hexEncode (SHA256Hash bundle.DevicePubkeySign))
    (hpk : bundle.DevicePubkeySign.length = 32)
    (hsig : bundle.DeviceBundleSig.length = 64)
    (hbox : bundle.DevicePubkeyBox ∈ smallOrderPoints) :
    ValidateBundle lib bundle
      = .error (BadRequest "invalid_x25519_key" "X25519 public key is a small-order point") ∧
    (BadRequest "invalid_x25519_key" "X25519 public key is a small-order point").StatusCode
      = 400 ∧
    (BadRequest "invalid_x25519_key" "X25519 public key is a small-order point").Code
      = "invalid_x25519_key" ∧
    smallOrderPoints.length = 7 ∧ zeroBytes 32 ∈ smallOrderPoints ∧
    (∀ pubkey : Bytes, pubkey.length ≠ 32 →
      ValidateX25519PublicKey lib pubkey = .error "X25519 public key must be 32 bytes") := by
  have hlen := smallOrderPoints_length hbox
  have hver := VerifyDeviceID_of_eq hpk hid
  have hany : smallOrderPoints.any (fun point => bundle.DevicePubkeyBox == point) = true := by
    rw [List.any_eq_true]
    exact ⟨_, hbox, by simp⟩
  have hx : ValidateX25519PublicKey lib bundle.DevicePubkeyBox
      = .error "X25519 public key is a small-order point" := by
    simp [ValidateX25519PublicKey, hlen, hany]
  refine ⟨?_, rfl, rfl, rfl, by decide, ?_⟩
  · simp [ValidateBundle, hvalid, hpk, hsig, hlen, hver, hx, PublicKeyLength, SignatureLength]
  · intro pubkey hne
    simp [ValidateX25519PublicKey, hne]

/-- C12 on concrete inputs: the owner's bundle with a box key of 32 zero bytes
and a signature of 64 zero bytes. -/
theorem ValidateBundle_small_order_witness :
    DeviceID.Validate bundleZeroBox.DeviceID = .ok () ∧
    bundleZeroBox.DeviceID = hexEncode (SHA256Hash bundleZeroBox.DevicePubkeySign) ∧
    bundleZeroBox.DevicePubkeyBox ∈ smallOrderPoints ∧
    ValidateBundle testLib bundleZeroBox
      = .error (BadRequest "invalid_x25519_key" "X25519 public key is a small-order point") :=
  ⟨by decide!, by decide!, by decide,
    (ValidateBundle_small_order testLib bundleZeroBox (by decide!) (by decide!) (by decide)
      (by decide) (by decide)).1⟩

/-! ## Key updates, acknowledgements and snapshots -/

/-- C13 (as stated) fails on the error code: the joiner is a current member of
vault A and not its owner; its structurally valid key update is rejected with
HTTP 403, and the code of the answer is `forbidden`, not `owner_required`. -/
theorem ValidateKeyUpdate_non_owner_code_not_owner_required :
    VaultsRepository.IsMember storeJoined keyUpdateByJoiner.VaultID.Bytes
      keyUpdateByJoiner.CreatedByDeviceID = .ok true ∧
    VaultsRepository.Get storeJoined keyUpdateByJoiner.VaultID.Bytes = .ok (some vaultRowA) ∧
    keyUpdateByJoiner.CreatedByDeviceID ≠ vaultRowA.OwnerDeviceID ∧
    ValidateKeyUpdate testLib storeJoined keyUpdateByJoiner = .error OwnerRequired ∧
    OwnerRequired.StatusCode = 403 ∧ OwnerRequired.Code = "forbidden" ∧
    OwnerRequired.Code ≠ "owner_required" := by
  decide!

/-- C13, amended. Every structurally valid key_update (msg_type, nonce,
signature and member_head_hash lengths, payload size and both device ids valid)
addressed to an existing vault whose `created_by_device_id` differs from the
vault's `owner_device_id`, a current member or not, is rejected by
`ValidateKeyUpdate` with HTTP status 403 and error code `forbidden` (message
"only the vault owner can perform this action"), whatever the request's head
binding, nonce and signature. -/
theorem ValidateKeyUpdate_non_owner (lib : CryptoLib) (s : Store) (ku : KeyUpdate)
    (vault : VaultRow)
    (h1 : ku.MsgType = "key_update") (h2 : ku.Nonce.length = NonceLength)
    (h3 : ku.Signature.length = SignatureLength)
    (h4 : ku.MemberHeadHash.length = HashLength)
    (h5 : ku.WrappedPayload.length ≤ MaxWrappedPayload)
    (h6 : DeviceID.Validate ku.TargetDeviceID = .ok ())
    (h7 : DeviceID.Validate ku.CreatedByDeviceID = .ok ())
    (h8 : VaultsRepository.Get s ku.VaultID.Bytes = .ok (some vault))
    (h9 : ku.CreatedByDeviceID ≠ vault.OwnerDeviceID) :
    ValidateKeyUpdate lib s ku = .error OwnerRequired ∧
    OwnerRequired.StatusCode = 403 ∧ OwnerRequired.Code = "forbidden" ∧
    OwnerRequired.Message = "only the vault owner can perform this action" := by
  refine ⟨?_, rfl, rfl, rfl⟩
  have h5b : ¬ MaxWrappedPayload < ku.WrappedPayload.length := Nat.not_lt.mpr h5
  unfold ValidateKeyUpdate
  simp [h1, h2, h3, h4, h5b, h6, h7, h8, h9]

/-- C13 amended, on concrete inputs: the key update of the joiner on
`storeJoined`. -/
theorem ValidateKeyUpdate_non_owner_witness :
    VaultsRepository.Get storeJoined keyUpdateByJoiner.VaultID.Bytes
      = .ok (some vaultRowA) ∧
    keyUpdateByJoiner.CreatedByDeviceID ≠ vaultRowA.OwnerDeviceID ∧
    ValidateKeyUpdate testLib storeJoined keyUpdateByJoiner = .error OwnerRequired :=
  ⟨by decide!, by decide!,
    (ValidateKeyUpdate_non_owner testLib storeJoined keyUpdateByJoiner vaultRowA
      (by decide) (by decide) (by decide!) (by decide) (by decide) (by decide!) (by decide!)
      (by decide!) (by decide!)).1⟩

/-- Everything `ValidateKeyUpdateAck` has checked when it returns a row. -/
theorem ValidateKeyUpdateAck_ok_inv {lib : CryptoLib} {s : Store} {ack : KeyUpdateAck}
    {row : KeyUpdateAckRow} (h : ValidateKeyUpdateAck lib s ack = .ok row) :
    ack.MsgType = "key_update_ack" ∧ ack.Signature.length = SignatureLength ∧
    ack.MemberHeadHash.length = HashLength ∧
    DeviceID.Validate ack.DeviceID = .ok () ∧
    ∃ member head deviceBytes signBytes,
      VaultsRepository.GetMember s ack.VaultID.Bytes ack.DeviceID = .ok (some member) ∧
      member.IsMember = true ∧
      VaultsRepository.GetMembershipHead s ack.VaultID.Bytes = .ok (some head) ∧
      ack.MemberSeq = head.MemberSeq ∧ ack.MemberHeadHash = head.MemberHeadHash ∧
      DeviceIDToBytes ack.DeviceID = .ok deviceBytes ∧
      SignBytesKeyUpdateAck ack.VaultID.Bytes deviceBytes ack.KeyEpoch ack.MemberSeq
        ack.MemberHeadHash = .ok signBytes ∧
      VerifySignature lib member.DevicePubkeySign signBytes ack.Signature = .ok () ∧
      row = { VaultID := ack.VaultID.Bytes, KeyEpoch := ack.KeyEpoch, DeviceID := ack.DeviceID,
              MemberSeq := ack.MemberSeq, MemberHeadHash := ack.MemberHeadHash,
              Signature := ack.Signature, CreatedAt := ack.CreatedAt } := by
  unfold ValidateKeyUpdateAck at h
  dsimp only at h
  replace h := ite_error_ok h
  obtain ⟨c1, h⟩ := h
  replace h := ite_error_ok h
  obtain ⟨c2, h⟩ := h
  replace h := ite_error_ok h
  obtain ⟨c3, h⟩ := h
  repeat' (split at h <;> try contradiction)
  injection h with h
  subst h
  exact ⟨by simp_all, by simp_all, by simp_all, ‹DeviceID.Validate ack.DeviceID = _›,
    _, _, _, _, ‹VaultsRepository.GetMember _ _ _ = _›, by simp_all,
    ‹VaultsRepository.GetMembershipHead _ _ = _›, by simp_all, by simp_all,
    ‹DeviceIDToBytes ack.DeviceID = _›, ‹SignBytesKeyUpdateAck _ _ _ _ _ = _›,
    ‹VerifySignature _ _ _ _ = _›, rfl⟩

/-- C14. `ValidateKeyUpdate`, `ValidateKeyUpdateAck` and `ValidateSnapshot`
accept only if a membership head exists for the vault, the request's
`member_seq` equals `head.MemberSeq` and its `member_head_hash` is byte-equal
to `head.MemberHeadHash`.  When the checks that precede the head binding pass,
a missing head is answered 400 `missing_membership_head`, a differing
`member_seq` 400 `member_seq_mismatch`, and an equal `member_seq` with a
differing hash 400 `member_head_hash_mismatch`. -/
theorem head_binding (lib : CryptoLib) (s : Store) :
    (∀ (ku : KeyUpdate) (row : KeyUpdateRow), ValidateKeyUpdate lib s ku = .ok row →
      ∃ head, VaultsRepository.GetMembershipHead s ku.VaultID.Bytes = .ok (some head) ∧
        ku.MemberSeq = head.MemberSeq ∧ ku.MemberHeadHash = head.MemberHeadHash) ∧
    (∀ (ack : KeyUpdateAck) (row : KeyUpdateAckRow), ValidateKeyUpdateAck lib s ack = .ok row →
      ∃ head, VaultsRepository.GetMembershipHead s ack.VaultID.Bytes = .ok (some head) ∧
        ack.MemberSeq = head.MemberSeq ∧ ack.MemberHeadHash = head.MemberHeadHash) ∧
    (∀ (snap : Snapshot) (row : SnapshotRow), ValidateSnapshot lib s snap = .ok row →
      ∃ head, VaultsRepository.GetMembershipHead s snap.VaultID.Bytes = .ok (some head) ∧
        snap.MemberSeq = head.MemberSeq ∧ snap.MemberHeadHash = head.MemberHeadHash) ∧
    (∀ (ku : KeyUpdate) (vault : VaultRow) (creator : VaultMemberRow),
      ku.MsgType = "key_update" → ku.Nonce.length = NonceLength →
      ku.Signature.length = SignatureLength → ku.MemberHeadHash.length = HashLength →
      ku.WrappedPayload.length ≤ MaxWrappedPayload →
      DeviceID.Validate ku.TargetDeviceID = .ok () →
      DeviceID.Validate ku.CreatedByDeviceID = .ok () →
      VaultsRepository.Get s ku.VaultID.Bytes = .ok (some vault) →
      ku.CreatedByDeviceID = vault.OwnerDeviceID →
      VaultsRepository.GetMember s ku.VaultID.Bytes ku.CreatedByDeviceID
        = .ok (some creator) →
      creator.IsMember = true →
      VaultsRepository.IsMember s ku.VaultID.Bytes ku.TargetDeviceID = .ok true →
      (VaultsRepository.GetMembershipHead s ku.VaultID.Bytes = .ok none →
        ValidateKeyUpdate lib s ku = .error
          (BadRequest "missing_membership_head" "vault membership head is missing")) ∧
      (∀ head, VaultsRepository.GetMembershipHead s ku.VaultID.Bytes = .ok (some head) →
        (ku.MemberSeq ≠ head.MemberSeq →
          ValidateKeyUpdate lib s ku = .error (BadRequest "member_seq_mismatch"
            "member_seq does not match current membership head")) ∧
        (ku.MemberSeq = head.MemberSeq → ku.MemberHeadHash ≠ head.MemberHeadHash →
          ValidateKeyUpdate lib s ku = .error (BadRequest "member_head_hash_mismatch"
            "member_head_hash does not match current membership head")))) ∧
    (∀ (ack : KeyUpdateAck) (member : VaultMemberRow),
      ack.MsgType = "key_update_ack" → ack.Signature.length = SignatureLength →
      ack.MemberHeadHash.length = HashLength →
      DeviceID.Validate ack.DeviceID = .ok () →
      VaultsRepository.GetMember s ack.VaultID.Bytes ack.DeviceID = .ok (some member) →
      member.IsMember = true →
      (VaultsRepository.GetMembershipHead s ack.VaultID.Bytes = .ok none →
        ValidateKeyUpdateAck lib s ack = .error
          (BadRequest "missing_membership_head" "vault membership head is missing")) ∧
      (∀ head, VaultsRepository.GetMembershipHead s ack.VaultID.Bytes = .ok (some head) →
        (ack.MemberSeq ≠ head.MemberSeq →
          ValidateKeyUpdateAck lib s ack = .error (BadRequest "member_seq_mismatch"
            "member_seq does not match current membership head")) ∧
        (ack.MemberSeq = head.MemberSeq → ack.MemberHeadHash ≠ head.MemberHeadHash →
          ValidateKeyUpdateAck lib s ack = .error (BadRequest "member_head_hash_mismatch"
            "member_head_hash does not match current membership head")))) ∧
    (∀ (snap : Snapshot) (vault : VaultRow) (creator : VaultMemberRow),
      snap.MsgType = "snapshot" → snap.Nonce.length = NonceLength →
      snap.Signature.length = SignatureLength → snap.MemberHeadHash.length = HashLength →
      snap.Ciphertext.length ≤ MaxSnapshotCiphertext →
      snap.BaseCounterMap.length ≤ MaxMapLength * 40 →
      snap.HeadHashMap.length ≤ MaxMapLength * 64 →
      DeviceID.Validate snap.CreatedByDeviceID = .ok () →
      VaultsRepository.Get s snap.VaultID.Bytes = .ok (some vault) →
      snap.CreatedByDeviceID = vault.OwnerDeviceID →
      VaultsRepository.GetMember s snap.VaultID.Bytes snap.CreatedByDeviceID
        = .ok (some creator) →
      creator.IsMember = true →
      (VaultsRepository.GetMembershipHead s snap.VaultID.Bytes = .ok none →
        ValidateSnapshot lib s snap = .error
          (BadRequest "missing_membership_head" "vault membership head is missing")) ∧
      (∀ head, VaultsRepository.GetMembershipHead s snap.VaultID.Bytes = .ok (some head) →
        (snap.MemberSeq ≠ head.MemberSeq →
          ValidateSnapshot lib s snap = .error (BadRequest "member_seq_mismatch"
            "member_seq does not match current membership head")) ∧
        (snap.MemberSeq = head.MemberSeq → snap.MemberHeadHash ≠ head.MemberHeadHash →
          ValidateSnapshot lib s snap = .error (BadRequest "member_head_hash_mismatch"
            "member_head_hash does not match current membership head")))) ∧
    (∀ code message : String, (BadRequest code message).StatusCode = 400 ∧
      (BadRequest code message).Code = code) := by
  refine ⟨?_, ?_, ?_, ?_, ?_, ?_, fun _ _ => ⟨rfl, rfl⟩⟩
  · intro ku row h
    obtain ⟨_, _, _, _, _, _, _, _, _, head, _, _, _, _, _, _, _, _, hh, h1, h2, _⟩ :=
      ValidateKeyUpdate_ok_inv h
    exact ⟨head, hh, h1, h2⟩
  · intro ack row h
    obtain ⟨_, _, _, _, _, head, _, _, _, _, hh, h1, h2, _⟩ := ValidateKeyUpdateAck_ok_inv h
    exact ⟨head, hh, h1, h2⟩
  · intro snap row h
    obtain ⟨_, _, _, _, _, _, _, _, _, _, head, _, _, _, _, _, _, hh, h1, h2, _⟩ :=
      ValidateSnapshot_ok_inv h
    exact ⟨head, hh, h1, h2⟩
  · intro ku vault creator h1 h2 h3 h4 h5 h6 h7 h8 h9 h10 h11 h12
    have h5b : ¬ MaxWrappedPayload < ku.WrappedPayload.length := Nat.not_lt.mpr h5
    have h7b : DeviceID.Validate vault.OwnerDeviceID = .ok () := h9 ▸ h7
    have h10b := h9 ▸ h10
    refine ⟨fun hh => ?_, fun head hh => ⟨fun hs => ?_, fun hs hm => ?_⟩⟩
    · unfold ValidateKeyUpdate
      simp [h1, h2, h3, h4, h5b, h6, h7b, h8, h9, h10b, h11, h12, hh]
    · unfold ValidateKeyUpdate
      simp [h1, h2, h3, h4, h5b, h6, h7b, h8, h9, h10b, h11, h12, hh, hs]
    · have hs2 : head.MemberSeq = ku.MemberSeq := hs.symm
      unfold ValidateKeyUpdate
      simp [h1, h2, h3, h4, h5b, h6, h7b, h8, h9, h10b, h11, h12, hh, hs2, hm]
  · intro ack member h1 h2 h3 h4 h5 h6
    refine ⟨fun hh => ?_, fun head hh => ⟨fun hs => ?_, fun hs hm => ?_⟩⟩
    · unfold ValidateKeyUpdateAck
      simp [h1, h2, h3, h4, h5, h6, hh]
    · unfold ValidateKeyUpdateAck
      simp [h1, h2, h3, h4, h5, h6, hh, hs]
    · have hs2 : head.MemberSeq = ack.MemberSeq := hs.symm
      unfold ValidateKeyUpdateAck
      simp [h1, h2, h3, h4, h5, h6, hh, hs2, hm]
  · intro snap vault creator h1 h2 h3 h4 h5 h6 h7 h8 h9 h10 h11 h12
    have h5b : ¬ MaxSnapshotCiphertext < snap.Ciphertext.length := Nat.not_lt.mpr h5
    have h6b : ¬ MaxMapLength * 40 < snap.BaseCounterMap.length := Nat.not_lt.mpr h6
    have h7b : ¬ MaxMapLength * 64 < snap.HeadHashMap.length := Nat.not_lt.mpr h7
    have h8b : DeviceID.Validate vault.OwnerDeviceID = .ok () := h10 ▸ h8
    have h11b := h10 ▸ h11
    refine ⟨fun hh => ?_, fun head hh => ⟨fun hs => ?_, fun hs hm => ?_⟩⟩
    · unfold ValidateSnapshot
      simp [h1, h2, h3, h4, h5b, h6b, h7b, h8b, h9, h10, h11b, h12, hh]
    · unfold ValidateSnapshot
      simp [h1, h2, h3, h4, h5b, h6b, h7b, h8b, h9, h10, h11b, h12, hh, hs]
    · have hs2 : head.MemberSeq = snap.MemberSeq := hs.symm
      unfold ValidateSnapshot
      simp [h1, h2, h3, h4, h5b, h6b, h7b, h8b, h9, h10, h11b, h12, hh, hs2, hm]

/-- C14 on concrete inputs: `keyUpdate1` is accepted on `storeA` and is bound
to its head; the same key update with `member_seq` 2 is answered
`member_seq_mismatch`. -/
theorem head_binding_witness :
    ValidateKeyUpdate testLib storeA keyUpdate1 = .ok keyUpdateRow1 ∧
    (∃ head, VaultsRepository.GetMembershipHead storeA keyUpdate1.VaultID.Bytes
        = .ok (some head) ∧
      keyUpdate1.MemberSeq = head.MemberSeq ∧ keyUpdate1.MemberHeadHash = head.MemberHeadHash) ∧
    VaultsRepository.GetMembershipHead storeA keyUpdateStale.VaultID.Bytes = .ok (some headA) ∧
    keyUpdateStale.MemberSeq ≠ headA.MemberSeq ∧
    ValidateKeyUpdate testLib storeA keyUpdateStale = .error (BadRequest "member_seq_mismatch"
      "member_seq does not match current membership head") :=
  ⟨ValidateKeyUpdate_keyUpdate1,
    (head_binding testLib storeA).1 keyUpdate1 keyUpdateRow1 ValidateKeyUpdate_keyUpdate1,
    by decide!, by decide,
    (((head_binding testLib storeA).2.2.2.1 keyUpdateStale vaultRowA memberRowOwner
      (by decide) (by decide) (by decide!) (by decide) (by decide) (by decide!) (by decide!)
      (by decide!) (by decide!) (by decide!) (by decide) (by decide!)).2 headA
        (by decide!)).1 (by decide)⟩

theorem find?_map_update {α : Type} (p : α → Bool) (f : α → α) (l : List α)
    (hf : ∀ x, p (f x) = p x) :
    (l.map (fun x => if p x then f x else x)).find? p = (l.find? p).map f := by
  induction l with
  | nil => rfl
  | cons x xs ih =>
    by_cases hx : p x = true
    · simp [List.find?, hx, hf]
    · simp only [Bool.not_eq_true] at hx
      simp [List.find?, hx, ih]

theorem find?_map_other {α : Type} (p q : α → Bool) (f : α → α) (l : List α)
    (hq : ∀ x, q (f x) = q x) (hdis : ∀ x, q x = true → p x = false) :
    (l.map (fun x => if p x then f x else x)).find? q = l.find? q := by
  induction l with
  | nil => rfl
  | cons x xs ih =>
    by_cases hx : q x = true
    · simp [List.find?, hx, hdis x hx]
    · simp only [Bool.not_eq_true] at hx
      by_cases hp : p x = true
      · simp [List.find?, hx, hp, hq, ih]
      · simp only [Bool.not_eq_true] at hp
        simp [List.find?, hx, hp, ih]

theorem KeyUpdatesRepository.CreateAck_ok (now : String) (s : Store) (ack : KeyUpdateAckRow) :
    ∃ s1, KeyUpdatesRepository.CreateAck now s ack = .ok s1 ∧
      s1.vaultMembers = s.vaultMembers := by
  unfold KeyUpdatesRepository.CreateAck
  dsimp only
  split
  · exact ⟨_, rfl, rfl⟩
  · exact ⟨_, rfl, rfl⟩

/-- What an accepted request to `handleKeyUpdateAck` carries and leaves. -/
theorem handleKeyUpdateAck_ok {lib : CryptoLib} {now : String} {s s2 : Store}
    {r : Request KeyUpdateAck} {ack : KeyUpdateAck} {status : Nat}
    (h : handleKeyUpdateAck lib now s r = (.json status ack, s2)) :
    status = 201 ∧ r.body = .ok ack ∧
    (∃ row, ValidateKeyUpdateAck lib s ack = .ok row) ∧
    s2.vaultMembers = s.vaultMembers.map (fun m =>
      if m.VaultID == ack.VaultID.Bytes && m.DeviceID == ack.DeviceID then
        { m with KeyEpoch := ack.KeyEpoch }
      else m) := by
  obtain ⟨path, body⟩ := r
  unfold handleKeyUpdateAck at h
  cases path with
  | none => simp at h
  | some vaultID =>
    cases body with
    | error err => simp at h
    | ok a =>
      simp only at h
      by_cases hv : (vaultID.Bytes != a.VaultID.Bytes) = true
      · simp [hv] at h
      · simp only [hv, Bool.false_eq_true, ↓reduceIte] at h
        have hvid : vaultID.Bytes = a.VaultID.Bytes := by simpa using hv
        cases hval : ValidateKeyUpdateAck lib s a with
        | error e => simp [hval] at h
        | ok row =>
          obtain ⟨s1, hc, hm⟩ := KeyUpdatesRepository.CreateAck_ok now s row
          simp only [hval, hc, VaultsRepository.UpdateMemberKeyEpoch, Prod.mk.injEq,
            Reply.json.injEq] at h
          obtain ⟨⟨hst, ha⟩, hs2⟩ := h
          subst ha
          subst hs2
          exact ⟨hst.symm, rfl, ⟨row, hval⟩, by simp [hm, hvid]⟩

/-- C15. When `handleKeyUpdateAck` accepts (201) an acknowledgement of device
`D` in vault `V` with `key_epoch = E`, the resulting store has
`vault_members[V, D].key_epoch = E` (every row of that key has it), whatever
epoch was stored before and whether or not an ack row for `(V, E, D)` already
existed; and the `vault_members` row of every other `(vault, device)` is as it
was. -/
theorem handleKeyUpdateAck_key_epoch (lib : CryptoLib) (now : String) (s s2 : Store)
    (r : Request KeyUpdateAck) (ack : KeyUpdateAck)
    (h : handleKeyUpdateAck lib now s r = (.json 201 ack, s2)) :
    (∃ before after,
      VaultsRepository.GetMember s ack.VaultID.Bytes ack.DeviceID = .ok (some before) ∧
      VaultsRepository.GetMember s2 ack.VaultID.Bytes ack.DeviceID = .ok (some after) ∧
      after = { before with KeyEpoch := ack.KeyEpoch }) ∧
    (∀ m ∈ s2.vaultMembers, m.VaultID = ack.VaultID.Bytes → m.DeviceID = ack.DeviceID →
      m.KeyEpoch = ack.KeyEpoch) ∧
    (∀ (vaultID : Bytes) (deviceID : String),
      ¬ (vaultID = ack.VaultID.Bytes ∧ deviceID = ack.DeviceID) →
      VaultsRepository.GetMember s2 vaultID deviceID
        = VaultsRepository.GetMember s vaultID deviceID) := by
  obtain ⟨_, _, ⟨row, hval⟩, hmem⟩ := handleKeyUpdateAck_ok h
  obtain ⟨_, _, _, _, member, _, _, _, hget, _⟩ := ValidateKeyUpdateAck_ok_inv hval
  refine ⟨⟨member, _, hget, ?_, rfl⟩, ?_, ?_⟩
  · simp only [VaultsRepository.GetMember, Except.ok.injEq] at hget ⊢
    rw [hmem, find?_map_update
      (fun m : VaultMemberRow => m.VaultID == ack.VaultID.Bytes && m.DeviceID == ack.DeviceID)
      (fun m => { m with KeyEpoch := ack.KeyEpoch }) s.vaultMembers (fun _ => rfl), hget]
    rfl
  · intro m hm hv hd
    rw [hmem, List.mem_map] at hm
    obtain ⟨m0, _, hm0⟩ := hm
    by_cases hk : (m0.VaultID == ack.VaultID.Bytes && m0.DeviceID == ack.DeviceID) = true
    · rw [if_pos hk] at hm0
      subst hm0
      rfl
    · rw [if_neg hk] at hm0
      subst hm0
      exact absurd (by simp [hv, hd]) hk
  · intro vaultID deviceID hne
    simp only [VaultsRepository.GetMember, Except.ok.injEq]
    rw [hmem]
    exact find?_map_other
      (fun m : VaultMemberRow => m.VaultID == ack.VaultID.Bytes && m.DeviceID == ack.DeviceID)
      (fun m : VaultMemberRow => m.VaultID == vaultID && m.DeviceID == deviceID)
      (fun m => { m with KeyEpoch := ack.KeyEpoch }) s.vaultMembers (fun _ => rfl)
      (by
        intro x hx
        simp only [Bool.and_eq_true, beq_iff_eq] at hx
        simp only [Bool.and_eq_false_imp, beq_iff_eq, beq_eq_false_iff_ne, ne_eq]
        intro hv hd
        exact hne ⟨hx.1 ▸ hv, hx.2 ▸ hd⟩)

/-- C15 on concrete inputs: the joiner, stored with `key_epoch` 1, acknowledges
epoch 5; afterwards its row has `key_epoch` 5 and the owner's row is as it was.
The same acknowledgement again, the ack row now present, is accepted with the
same result. -/
theorem handleKeyUpdateAck_key_epoch_witness :
    handleKeyUpdateAck testLib "2024-01-05T00:00:00Z" storeJoined requestAck1
      = (.json 201 ack1, storeAcked) ∧
    handleKeyUpdateAck testLib "2024-01-05T00:00:01Z" storeAcked requestAck1
      = (.json 201 ack1, storeAcked) ∧
    VaultsRepository.GetMember storeJoined vaultA.Bytes devJoiner = .ok (some memberRowJoiner) ∧
    VaultsRepository.GetMember storeAcked vaultA.Bytes devJoiner
      = .ok (some { memberRowJoiner with KeyEpoch := 5 }) ∧
    VaultsRepository.GetMember storeAcked vaultA.Bytes devOwner
      = VaultsRepository.GetMember storeJoined vaultA.Bytes devOwner :=
  have h1 : handleKeyUpdateAck testLib "2024-01-05T00:00:00Z" storeJoined requestAck1
      = (.json 201 ack1, storeAcked) := by decide!
  have h2 : handleKeyUpdateAck testLib "2024-01-05T00:00:01Z" storeAcked requestAck1
      = (.json 201 ack1, storeAcked) := by decide!
  ⟨h1, h2, by decide!, by decide!,
    (handleKeyUpdateAck_key_epoch testLib "2024-01-05T00:00:00Z" storeJoined storeAcked
      requestAck1 ack1 h1).2.2 vaultA.Bytes devOwner (by decide!)⟩

/-- A snapshot that `ValidateSnapshot` answers with status 413 or with code
`payload_too_large` exceeds one of the three size bounds. -/
theorem ValidateSnapshot_413_inv {lib : CryptoLib} {s : Store} {snap : Snapshot}
    {e : APIError} (h : ValidateSnapshot lib s snap = .error e)
    (hc : e.StatusCode = 413 ∨ e.Code = "payload_too_large") :
    snap.Ciphertext.length > MaxSnapshotCiphertext ∨
    snap.BaseCounterMap.length > MaxMapLength * 40 ∨
    snap.HeadHashMap.length > MaxMapLength * 64 := by
  unfold ValidateSnapshot at h
  dsimp only at h
  replace h := ite_error_inv h
  rcases h with ⟨_, rfl⟩ | ⟨_, h⟩
  · exact absurd hc (by decide)
  replace h := ite_error_inv h
  rcases h with ⟨_, rfl⟩ | ⟨_, h⟩
  · exact absurd hc (by decide)
  replace h := ite_error_inv h
  rcases h with ⟨_, rfl⟩ | ⟨_, h⟩
  · exact absurd hc (by decide)
  replace h := ite_error_inv h
  rcases h with ⟨_, rfl⟩ | ⟨_, h⟩
  · exact absurd hc (by decide)
  replace h := ite_error_inv h
  rcases h with ⟨c, _⟩ | ⟨_, h⟩
  · exact Or.inl c
  replace h := ite_error_inv h
  rcases h with ⟨c, _⟩ | ⟨_, h⟩
  · exact Or.inr (Or.inl c)
  replace h := ite_error_inv h
  rcases h with ⟨c, _⟩ | ⟨_, h⟩
  · exact Or.inr (Or.inr c)
  repeat' (split at h)
  all_goals (first
    | contradiction
    | (injection h with h; subst h; exact absurd hc (by decide))
    | (injection h with h; subst h; simp [BadRequest] at hc))

/-- When one of the three size bounds is exceeded, a snapshot that passes the
four checks before them is answered `payload_too_large`. -/
theorem ValidateSnapshot_too_large {lib : CryptoLib} {s : Store} {snap : Snapshot}
    (h1 : snap.MsgType = "snapshot") (h2 : snap.Nonce.length = NonceLength)
    (h3 : snap.Signature.length = SignatureLength)
    (h4 : snap.MemberHeadHash.length = HashLength)
    (h : snap.Ciphertext.length > MaxSnapshotCiphertext ∨
      snap.BaseCounterMap.length > MaxMapLength * 40 ∨
      snap.HeadHashMap.length > MaxMapLength * 64) :
    ∃ message, ValidateSnapshot lib s snap = .error (PayloadTooLarge message) := by
  unfold ValidateSnapshot
  simp only [h1, h2, h3, h4, bne_self_eq_false, Bool.false_eq_true, ↓reduceIte]
  by_cases c1 : snap.Ciphertext.length > MaxSnapshotCiphertext
  · exact ⟨_, by rw [if_pos c1]⟩
  · rw [if_neg c1]
    by_cases c2 : snap.BaseCounterMap.length > MaxMapLength * 40
    · exact ⟨_, by rw [if_pos c2]⟩
    · rw [if_neg c2]
      by_cases c3 : snap.HeadHashMap.length > MaxMapLength * 64
      · exact ⟨_, by rw [if_pos c3]⟩
      · rcases h with h | h | h
        · exact absurd h c1
        · exact absurd h c2
        · exact absurd h c3

/-- The seven checks at the head of `ValidateSnapshot` read neither the store
nor the libraries: when a size bound is exceeded the answer is the same for
every store. -/
theorem ValidateSnapshot_too_large_store_free (lib lib2 : CryptoLib) (s s2 : Store)
    (snap : Snapshot)
    (h : snap.Ciphertext.length > MaxSnapshotCiphertext ∨
      snap.BaseCounterMap.length > MaxMapLength * 40 ∨
      snap.HeadHashMap.length > MaxMapLength * 64) :
    ValidateSnapshot lib2 s2 snap = ValidateSnapshot lib s snap := by
  unfold ValidateSnapshot
  dsimp only
  by_cases c1 : (snap.MsgType != "snapshot") = true
  · rw [if_pos c1, if_pos c1]
  rw [if_neg c1, if_neg c1]
  by_cases c2 : (snap.Nonce.length != NonceLength) = true
  · rw [if_pos c2, if_pos c2]
  rw [if_neg c2, if_neg c2]
  by_cases c3 : (snap.Signature.length != SignatureLength) = true
  · rw [if_pos c3, if_pos c3]
  rw [if_neg c3, if_neg c3]
  by_cases c4 : (snap.MemberHeadHash.length != HashLength) = true
  · rw [if_pos c4, if_pos c4]
  rw [if_neg c4, if_neg c4]
  by_cases c5 : snap.Ciphertext.length > MaxSnapshotCiphertext
  · rw [if_pos c5, if_pos c5]
  rw [if_neg c5, if_neg c5]
  by_cases c6 : snap.BaseCounterMap.length > MaxMapLength * 40
  · rw [if_pos c6, if_pos c6]
  rw [if_neg c6, if_neg c6]
  by_cases c7 : snap.HeadHashMap.length > MaxMapLength * 64
  · rw [if_pos c7, if_pos c7]
  rcases h with h | h | h
  · exact absurd h c5
  · exact absurd h c6
  · exact absurd h c7

/-- C16. A snapshot with `msg_type` "snapshot", a 24-byte nonce, a 64-byte
signature and a 32-byte `member_head_hash` is rejected by `ValidateSnapshot`
with HTTP 413 and code `payload_too_large` if and only if its ciphertext is
longer than 8·1024·1024 bytes, or its `base_counter_map` longer than 40·1024,
or its `head_hash_map` longer than 64·1024 (no other answer of the validator
has that status or that code).  With the three lengths exactly at their bounds
it is not rejected for size; and the size rejection does not depend on the
store: it is the same answer in every store. -/
theorem ValidateSnapshot_size (lib : CryptoLib) (s : Store) (snap : Snapshot)
    (h1 : snap.MsgType = "snapshot") (h2 : snap.Nonce.length = 24)
    (h3 : snap.Signature.length = 64) (h4 : snap.MemberHeadHash.length = 32) :
    ((∃ e, ValidateSnapshot lib s snap = .error e ∧ e.StatusCode = 413 ∧
        e.Code = "payload_too_large") ↔
      (snap.Ciphertext.length > 8 * 1024 * 1024 ∨ snap.BaseCounterMap.length > 40 * 1024 ∨
        snap.HeadHashMap.length > 64 * 1024)) ∧
    (∀ e, ValidateSnapshot lib s snap = .error e →
      e.StatusCode = 413 ∨ e.Code = "payload_too_large" →
      (snap.Ciphertext.length > 8 * 1024 * 1024 ∨ snap.BaseCounterMap.length > 40 * 1024 ∨
        snap.HeadHashMap.length > 64 * 1024)) ∧
    (snap.Ciphertext.length = 8 * 1024 * 1024 → snap.BaseCounterMap.length = 40 * 1024 →
      snap.HeadHashMap.length = 64 * 1024 →
      ∀ e, ValidateSnapshot lib s snap = .error e →
        e.StatusCode ≠ 413 ∧ e.Code ≠ "payload_too_large") ∧
    ((snap.Ciphertext.length > 8 * 1024 * 1024 ∨ snap.BaseCounterMap.length > 40 * 1024 ∨
        snap.HeadHashMap.length > 64 * 1024) →
      ∀ (lib2 : CryptoLib) (s2 : Store),
        ValidateSnapshot lib2 s2 snap = ValidateSnapshot lib s snap) := by
  have hinv : ∀ e, ValidateSnapshot lib s snap = .error e →
      e.StatusCode = 413 ∨ e.Code = "payload_too_large" →
      (snap.Ciphertext.length > 8 * 1024 * 1024 ∨ snap.BaseCounterMap.length > 40 * 1024 ∨
        snap.HeadHashMap.length > 64 * 1024) := by
    intro e he hc
    have := ValidateSnapshot_413_inv he hc
    simpa [MaxSnapshotCiphertext, MaxMapLength] using this
  refine ⟨⟨?_, ?_⟩, hinv, ?_, ?_⟩
  · rintro ⟨e, he, hst, _⟩
    exact hinv e he (Or.inl hst)
  · intro hsz
    have hsz2 : snap.Ciphertext.length > MaxSnapshotCiphertext ∨
        snap.BaseCounterMap.length > MaxMapLength * 40 ∨
        snap.HeadHashMap.length > MaxMapLength * 64 := by
      simpa [MaxSnapshotCiphertext, MaxMapLength] using hsz
    have hlarge : ∃ message, ValidateSnapshot lib s snap = .error (PayloadTooLarge message) :=
      ValidateSnapshot_too_large h1 h2 h3 h4 hsz2
    obtain ⟨message, hm⟩ := hlarge
    exact ⟨_, hm, rfl, rfl⟩
  · intro hc hb hh e he
    constructor
    · intro hst
      have := hinv e he (Or.inl hst)
      omega
    · intro hcode
      have := hinv e he (Or.inr hcode)
      omega
  · intro hsz lib2 s2
    exact ValidateSnapshot_too_large_store_free lib lib2 s s2 snap
      (by simpa [MaxSnapshotCiphertext, MaxMapLength] using hsz)

theorem snapshotBigMap_length : snapshotBigMap.BaseCounterMap.length = 40961 := by
  rw [show snapshotBigMap.BaseCounterMap = List.replicate 40961 0 from rfl,
    List.length_replicate]

theorem snapshotAtBounds_lengths :
    snapshotAtBounds.Ciphertext.length = 8 * 1024 * 1024 ∧
    snapshotAtBounds.BaseCounterMap.length = 40 * 1024 ∧
    snapshotAtBounds.HeadHashMap.length = 64 * 1024 := by
  rw [show snapshotAtBounds.Ciphertext = List.replicate 8388608 0 from rfl,
    show snapshotAtBounds.BaseCounterMap = List.replicate 40960 0 from rfl,
    show snapshotAtBounds.HeadHashMap = List.replicate 65536 0 from rfl,
    List.length_replicate, List.length_replicate, List.length_replicate]
  exact ⟨rfl, rfl, rfl⟩

/-- C16 on concrete inputs: `snapshot1` with 40·1024 + 1 bytes of
`base_counter_map` is answered 413 `payload_too_large`; with the three fields
exactly at their bounds it is not rejected for size. -/
theorem ValidateSnapshot_size_witness :
    snapshotBigMap.BaseCounterMap.length > 40 * 1024 ∧
    (∃ e, ValidateSnapshot testLib storeA snapshotBigMap = .error e ∧ e.StatusCode = 413 ∧
      e.Code = "payload_too_large") ∧
    snapshotAtBounds.Ciphertext.length = 8 * 1024 * 1024 ∧
    (∀ e, ValidateSnapshot testLib storeA snapshotAtBounds = .error e →
      e.StatusCode ≠ 413 ∧ e.Code ≠ "payload_too_large") :=
  have hbig : snapshotBigMap.BaseCounterMap.length > 40 * 1024 := by
    rw [snapshotBigMap_length]
    decide
  ⟨hbig,
    (ValidateSnapshot_size testLib storeA snapshotBigMap (by decide) (by decide) (by decide!)
      (by decide)).1.mpr (Or.inr (Or.inl hbig)),
    snapshotAtBounds_lengths.1,
    (ValidateSnapshot_size testLib storeA snapshotAtBounds (by decide) (by decide) (by decide!)
      (by decide)).2.2.1 snapshotAtBounds_lengths.1 snapshotAtBounds_lengths.2.1
      snapshotAtBounds_lengths.2.2⟩

/-! ## Invite claims -/

theorem DevicesRepository.Get_device_some {s : Store} {deviceID : String} {d : DeviceRow}
    (h : DevicesRepository.Get s deviceID = .ok (some d)) :
    d ∈ s.devices ∧ d.DeviceID = deviceID := by
  unfold DevicesRepository.Get at h
  injection h with h
  obtain ⟨h1, h2⟩ := find?_some_mem h
  exact ⟨h1, by simpa using h2⟩

/-- Everything `ValidateInviteClaim` has checked when it returns a row. -/
theorem ValidateInviteClaim_ok_inv {lib : CryptoLib} {s : Store} {claim : InviteClaim}
    {row : InviteClaimRow} (h : ValidateInviteClaim lib s claim = .ok row) :
    claim.MsgType = "invite_claim" ∧ claim.Signature.length = SignatureLength ∧
    DeviceID.Validate claim.DeviceID = .ok () ∧
    ∃ invite device deviceBytes signBytes,
      InvitesRepository.Get s claim.InviteID.Bytes = .ok (some invite) ∧
      invite.VaultID = claim.VaultID.Bytes ∧
      invite.TargetDeviceID = claim.DeviceID ∧
      DevicesRepository.Get s claim.DeviceID = .ok (some device) ∧
      DeviceIDToBytes claim.DeviceID = .ok deviceBytes ∧
      SignBytesInviteClaim claim.InviteID.Bytes claim.VaultID.Bytes deviceBytes
        = .ok signBytes ∧
      VerifySignature lib device.DevicePubkeySign signBytes claim.Signature = .ok () ∧
      row = { InviteID := claim.InviteID.Bytes, VaultID := claim.VaultID.Bytes,
              DeviceID := claim.DeviceID, ClaimSig := claim.Signature,
              CreatedAt := claim.CreatedAt } := by
  unfold ValidateInviteClaim at h
  replace h := ite_error_ok h
  obtain ⟨c1, h⟩ := h
  replace h := ite_error_ok h
  obtain ⟨c2, h⟩ := h
  repeat' (split at h <;> try contradiction)
  injection h with h
  subst h
  exact ⟨by simp_all, by simp_all, ‹DeviceID.Validate claim.DeviceID = _›,
    _, _, _, _, ‹InvitesRepository.Get _ _ = _›, by simp_all, by simp_all,
    ‹DevicesRepository.Get _ _ = _›, ‹DeviceIDToBytes claim.DeviceID = _›,
    ‹SignBytesInviteClaim _ _ _ = _›, ‹VerifySignature _ _ _ _ = _›, rfl⟩

/-- C18. For an invite claim that `ValidateInviteClaim` accepts: an invite row
with the claim's `invite_id` exists, the claim's `vault_id` is byte-equal to the
invite's, the claim's `device_id` equals the invite's `target_device_id`, a
`devices` row exists for `device_id`, and the claim signature verifies under
that row's `device_pubkey_sign` over `SignBytesInviteClaim(invite_id,
vault_id, device_id bytes)`.  A structurally valid claim whose invite is
missing, and one whose invite matches but whose device is not registered, are
answered 404 `not_found`. -/
theorem ValidateInviteClaim_accepts (lib : CryptoLib) (s : Store) (claim : InviteClaim) :
    (∀ row, ValidateInviteClaim lib s claim = .ok row →
      ∃ invite device deviceBytes signBytes,
        InvitesRepository.Get s claim.InviteID.Bytes = .ok (some invite) ∧
        invite ∈ s.invites ∧ invite.InviteID = claim.InviteID.Bytes ∧
        claim.VaultID.Bytes = invite.VaultID ∧
        claim.DeviceID = invite.TargetDeviceID ∧
        DevicesRepository.Get s claim.DeviceID = .ok (some device) ∧
        device ∈ s.devices ∧ device.DeviceID = claim.DeviceID ∧
        DeviceIDToBytes claim.DeviceID = .ok deviceBytes ∧
        SignBytesInviteClaim claim.InviteID.Bytes claim.VaultID.Bytes deviceBytes
          = .ok signBytes ∧
        lib.ed25519Verify device.DevicePubkeySign signBytes claim.Signature = true) ∧
    (claim.MsgType = "invite_claim" → claim.Signature.length = SignatureLength →
      DeviceID.Validate claim.DeviceID = .ok () →
      (InvitesRepository.Get s claim.InviteID.Bytes = .ok none →
        ValidateInviteClaim lib s claim = .error (NotFound "invite")) ∧
      (∀ invite, InvitesRepository.Get s claim.InviteID.Bytes = .ok (some invite) →
        invite.VaultID = claim.VaultID.Bytes → invite.TargetDeviceID = claim.DeviceID →
        DevicesRepository.Get s claim.DeviceID = .ok none →
        ValidateInviteClaim lib s claim = .error (NotFound "device"))) ∧
    (∀ resource : String, (NotFound resource).StatusCode = 404 ∧
      (NotFound resource).Code = "not_found") := by
  refine ⟨?_, ?_, fun _ => ⟨rfl, rfl⟩⟩
  · intro row h
    obtain ⟨_, _, _, invite, device, db, sb, hinv, hv, ht, hdev, hdb, hsb, hver, _⟩ :=
      ValidateInviteClaim_ok_inv h
    obtain ⟨i1, i2⟩ := InvitesRepository.Get_invite_some hinv
    obtain ⟨d1, d2⟩ := DevicesRepository.Get_device_some hdev
    exact ⟨invite, device, db, sb, hinv, i1, i2, hv.symm, ht.symm, hdev, d1, d2, hdb, hsb,
      (VerifySignature_ok hver).2.2⟩
  · intro h1 h2 h3
    refine ⟨fun hinv => ?_, fun invite hinv hv ht hdev => ?_⟩
    · unfold ValidateInviteClaim
      simp [h1, h2, h3, hinv]
    · unfold ValidateInviteClaim
      simp [h1, h2, h3, hinv, hv, ht, hdev]

theorem ValidateInviteClaim_claim1 :
    ValidateInviteClaim testLib storeClaimable claim1 = .ok claimRow1 := by decide!

/-- C18 on concrete inputs: the joiner's claim for invite X is accepted on
`storeClaimable`; a claim naming an unknown invite is answered 404. -/
theorem ValidateInviteClaim_accepts_witness :
    ValidateInviteClaim testLib storeClaimable claim1 = .ok claimRow1 ∧
    (∃ invite device, InvitesRepository.Get storeClaimable claim1.InviteID.Bytes
        = .ok (some invite) ∧
      claim1.VaultID.Bytes = invite.VaultID ∧ claim1.DeviceID = invite.TargetDeviceID ∧
      DevicesRepository.Get storeClaimable claim1.DeviceID = .ok (some device)) ∧
    InvitesRepository.Get storeClaimable claimUnknownInvite.InviteID.Bytes = .ok none ∧
    ValidateInviteClaim testLib storeClaimable claimUnknownInvite
      = .error (NotFound "invite") := by
  obtain ⟨invite, device, _, _, h1, _, _, h2, h3, h4, _⟩ :=
    (ValidateInviteClaim_accepts testLib storeClaimable claim1).1 claimRow1
      ValidateInviteClaim_claim1
  exact ⟨ValidateInviteClaim_claim1, ⟨invite, device, h1, h2, h3, h4⟩, by decide!,
    ((ValidateInviteClaim_accepts testLib storeClaimable claimUnknownInvite).2.1 (by decide)
      (by decide!) (by decide!)).1 (by decide!)⟩

/-- `ValidateInviteClaim` reads the tables `invites` and `devices` only. -/
theorem ValidateInviteClaim_congr (lib : CryptoLib) {s s1 : Store} (claim : InviteClaim)
    (h1 : s1.invites = s.invites) (h2 : s1.devices = s.devices) :
    ValidateInviteClaim lib s1 claim = ValidateInviteClaim lib s claim := by
  unfold ValidateInviteClaim
  simp only [InvitesRepository.Get, DevicesRepository.Get, h1, h2]

theorem filter_eq_nil_of_any_false {α : Type} {p : α → Bool} {l : List α}
    (h : l.any p = false) : l.filter p = [] := by
  induction l with
  | nil => rfl
  | cons x xs ih =>
    simp only [List.any_cons, Bool.or_eq_false_iff] at h
    simp [List.filter, h.1, ih h.2]

/-- What `CreateClaim` does: it never fails; with a row of the same
`(invite_id, device_id)` present it changes nothing, otherwise it appends the
row, stamped with `now` when the row has no `created_at`. -/
theorem InvitesRepository.CreateClaim_spec (now : String) (s : Store) (row : InviteClaimRow) :
    ∃ s1, InvitesRepository.CreateClaim now s row = .ok s1 ∧
      s1.invites = s.invites ∧ s1.devices = s.devices ∧
      s1.inviteClaims.any (fun r => r.InviteID == row.InviteID && r.DeviceID == row.DeviceID)
        = true ∧
      (s.inviteClaims.any (fun r => r.InviteID == row.InviteID && r.DeviceID == row.DeviceID)
        = true → s1 = s) ∧
      (s.inviteClaims.any (fun r => r.InviteID == row.InviteID && r.DeviceID == row.DeviceID)
        = false →
        s1 = { s with inviteClaims := s.inviteClaims ++
          [{ row with CreatedAt := if row.CreatedAt == "" then now else row.CreatedAt }] }) := by
  unfold InvitesRepository.CreateClaim
  dsimp only
  split
  · rename_i hany
    exact ⟨s, rfl, rfl, rfl, hany, fun _ => rfl, fun hf => by rw [hf] at hany; contradiction⟩
  · rename_i hany
    refine ⟨_, rfl, rfl, rfl, ?_, fun ht => absurd ht hany, fun _ => rfl⟩
    simp

/-- What an accepted request to `handleInviteClaim` carries and leaves. -/
theorem handleInviteClaim_ok {lib : CryptoLib} {now : String} {s s1 : Store}
    {path : Option UUID} {body : Except String InviteClaim} {claim : InviteClaim}
    {status : Nat} (h : handleInviteClaim lib now s path body = (.json status claim, s1)) :
    status = 201 ∧ body = .ok claim ∧
    (∃ u, path = some u ∧ u.Bytes = claim.InviteID.Bytes) ∧
    ∃ row, ValidateInviteClaim lib s claim = .ok row ∧
      InvitesRepository.CreateClaim now s row = .ok s1 := by
  unfold handleInviteClaim at h
  cases path with
  | none => simp at h
  | some u =>
    cases body with
    | error err => simp at h
    | ok c =>
      simp only at h
      by_cases hv : (u.Bytes != c.InviteID.Bytes) = true
      · simp [hv] at h
      · simp only [hv, Bool.false_eq_true, ↓reduceIte] at h
        have hid : u.Bytes = c.InviteID.Bytes := by simpa using hv
        cases hval : ValidateInviteClaim lib s c with
        | error e => simp [hval] at h
        | ok row =>
          obtain ⟨s2, hc, _⟩ := InvitesRepository.CreateClaim_spec now s row
          simp only [hval, hc, Prod.mk.injEq, Reply.json.injEq] at h
          obtain ⟨⟨hst, ha⟩, hs2⟩ := h
          subst ha
          subst hs2
          exact ⟨hst.symm, rfl, ⟨u, rfl, hid⟩, row, hval, hc⟩

/-- C17. When `handleInviteClaim` has accepted (201) an invite claim, the
identical request submitted again is accepted again (201) and the store after
the second request equals the store before it.  A row for `(invite_id,
device_id)` is present; when the first request inserted it (no row of that key
before), the `invite_claims` table is the old table followed by that one row,
which is the only row of its key and holds the `claim_sig` of the first
submission and its `created_at` (the time of the first request when the claim
carries none); when a row of that key was already present, the first request
changed nothing either. -/
theorem handleInviteClaim_replay (lib : CryptoLib) (now now2 : String) (s s1 : Store)
    (path : Option UUID) (body : Except String InviteClaim) (claim : InviteClaim)
    (h : handleInviteClaim lib now s path body = (.json 201 claim, s1)) :
    handleInviteClaim lib now2 s1 path body = (.json 201 claim, s1) ∧
    (∃ row, InvitesRepository.GetClaim s1 claim.InviteID.Bytes claim.DeviceID
      = .ok (some row)) ∧
    (InvitesRepository.GetClaim s claim.InviteID.Bytes claim.DeviceID = .ok none →
      s1.inviteClaims = s.inviteClaims ++
        [{ InviteID := claim.InviteID.Bytes, VaultID := claim.VaultID.Bytes,
           DeviceID := claim.DeviceID, ClaimSig := claim.Signature,
           CreatedAt := if claim.CreatedAt == "" then now else claim.CreatedAt }] ∧
      (s1.inviteClaims.filter (fun r =>
        r.InviteID == claim.InviteID.Bytes && r.DeviceID == claim.DeviceID)).length = 1) ∧
    (∀ row, InvitesRepository.GetClaim s claim.InviteID.Bytes claim.DeviceID
      = .ok (some row) → s1 = s) := by
  obtain ⟨_, hbody, ⟨u, hpath, hid⟩, row, hval, hcreate⟩ := handleInviteClaim_ok h
  obtain ⟨_, _, _, _, _, _, _, _, _, _, _, _, _, _, hrow⟩ := ValidateInviteClaim_ok_inv hval
  obtain ⟨s1b, hc, hinv, hdev, hany1, hsame, hfresh⟩ :=
    InvitesRepository.CreateClaim_spec now s row
  rw [hc] at hcreate
  injection hcreate with hcreate
  subst hcreate
  have hkey : (fun r : InviteClaimRow =>
      r.InviteID == row.InviteID && r.DeviceID == row.DeviceID)
      = (fun r => r.InviteID == claim.InviteID.Bytes && r.DeviceID == claim.DeviceID) := by
    rw [hrow]
  rw [hkey] at hany1 hsame hfresh
  refine ⟨?_, ?_, ?_, ?_⟩
  · have hval2 : ValidateInviteClaim lib s1b claim = .ok row := by
      rw [ValidateInviteClaim_congr lib claim hinv hdev, hval]
    obtain ⟨s2, hc2, _, _, _, hsame2, _⟩ := InvitesRepository.CreateClaim_spec now2 s1b row
    rw [hkey] at hsame2
    have hs2 := hsame2 hany1
    subst hs2
    subst hpath
    subst hbody
    unfold handleInviteClaim
    simp [hid, hval2, hc2]
  · simp only [InvitesRepository.GetClaim, Except.ok.injEq]
    cases hf : s1b.inviteClaims.find? (fun c =>
        c.InviteID == claim.InviteID.Bytes && c.DeviceID == claim.DeviceID) with
    | none =>
      have := any_false_of_find?_none hf
      rw [this] at hany1
      contradiction
    | some r => exact ⟨r, rfl⟩
  · intro hnone
    have hf : s.inviteClaims.find? (fun c =>
        c.InviteID == claim.InviteID.Bytes && c.DeviceID == claim.DeviceID) = none := by
      simpa [InvitesRepository.GetClaim] using hnone
    have hany := any_false_of_find?_none hf
    have hs := hfresh hany
    subst hs
    subst hrow
    refine ⟨rfl, ?_⟩
    simp [List.filter_append, filter_eq_nil_of_any_false hany]
  · intro r hsome
    have hf : s.inviteClaims.find? (fun c =>
        c.InviteID == claim.InviteID.Bytes && c.DeviceID == claim.DeviceID) = some r := by
      simpa [InvitesRepository.GetClaim] using hsome
    apply hsame
    rw [List.any_eq_true]
    exact ⟨r, (find?_some_mem hf).1, (find?_some_mem hf).2⟩

/-- C17 on concrete inputs: the joiner claims invite X on `storeClaimable`
(201, one claim row stored), then submits the same claim again (201, store
unchanged, still the row of the first submission). -/
theorem handleInviteClaim_replay_witness :
    handleInviteClaim testLib "2024-01-04T00:00:00Z" storeClaimable (some inviteX) (.ok claim1)
      = (.json 201 claim1, storeClaimed) ∧
    handleInviteClaim testLib "2024-01-04T00:00:09Z" storeClaimed (some inviteX) (.ok claim1)
      = (.json 201 claim1, storeClaimed) ∧
    storeClaimed.inviteClaims = [claimRowX] :=
  have h1 : handleInviteClaim testLib "2024-01-04T00:00:00Z" storeClaimable (some inviteX)
      (.ok claim1) = (.json 201 claim1, storeClaimed) := by decide!
  ⟨h1,
    (handleInviteClaim_replay testLib "2024-01-04T00:00:00Z" "2024-01-04T00:00:09Z"
      storeClaimable storeClaimed (some inviteX) (.ok claim1) claim1 h1).1,
    rfl⟩

/-! ## Sign-bytes -/

theorem wrapField_ok {field : String} {e e1 : Encoder} {b : List Byte} {n : Nat}
    (h : wrapField field (e.WriteFixedBytes b n) = .ok e1) :
    b.length = n ∧ e1 = { buf := e.buf ++ b } := by
  unfold wrapField Encoder.WriteFixedBytes at h
  split at h
  · rename_i e2 heq
    split at heq
    · contradiction
    · rename_i hlen
      injection heq with heq
      injection h with h
      subst h
      exact ⟨by simpa using hlen, heq.symm⟩
  · contradiction

theorem wrapField_ok_iff {field : String} {e e1 : Encoder} {b : List Byte} {n : Nat} :
    wrapField field (e.WriteFixedBytes b n) = .ok e1 ↔
      b.length = n ∧ e1 = { buf := e.buf ++ b } := by
  constructor
  · exact wrapField_ok
  · rintro ⟨h1, h2⟩
    subst h2
    simp [wrapField, Encoder.WriteFixedBytes, h1]

theorem Encoder.WriteBool_buf (e : Encoder) (v : Bool) :
    (e.WriteBool v).buf = e.buf ++ [if v then 1 else 0] := by
  cases v <;> rfl

theorem goLen_SignPrefix : goLen "forgor-sync-v1" = 14 := by decide

theorem zeroBytes_append (m n : Nat) : zeroBytes m ++ zeroBytes n = zeroBytes (m + n) := by
  simp [zeroBytes, List.append_replicate_replicate]

theorem zeroBytes_length (n : Nat) : (zeroBytes n).length = n := by
  simp [zeroBytes]

theorem SignBytesMemberRemove_eq {id vault prev actor subject : Bytes} (seq : Nat)
    (h1 : id.length = 16) (h2 : vault.length = 16) (h3 : prev.length = 32)
    (h4 : actor.length = 32) (h5 : subject.length = 32) :
    SignBytesMemberRemove id vault seq prev actor subject
      = .ok (signHeader "member_remove" ++
          (id ++ vault ++ be64 seq ++ prev ++ actor ++ subject ++ zeroBytes 208)) := by
  have hz : zeroBytes 16 ++ (zeroBytes 64 ++ (zeroBytes 64 ++ (zeroBytes 32 ++ zeroBytes 32)))
      = zeroBytes 208 := by simp only [zeroBytes_append]
  simp only [SignBytesMemberRemove, bind, Except.bind, pure, Except.pure, wrapField,
    Encoder.WriteUUID, Encoder.WriteDeviceID, Encoder.WriteHash, Encoder.WriteSignature,
    Encoder.WritePublicKey, Encoder.WriteFixedBytes, Encoder.WriteU64, Encoder.WriteString,
    Encoder.WriteU32, Encoder.Bytes, NewEncoder, signHeader, goLen_SignPrefix, SignPrefix,
    h1, h2, h3, h4, h5, zeroBytes_length, bne_self_eq_false, Bool.false_eq_true, ↓reduceIte,
    List.nil_append, List.append_assoc, hz]

theorem SignBytesMemberAdd_zero_eq {id vault prev actor subject : Bytes} (seq : Nat)
    (h1 : id.length = 16) (h2 : vault.length = 16) (h3 : prev.length = 32)
    (h4 : actor.length = 32) (h5 : subject.length = 32) :
    SignBytesMemberAdd id vault seq prev actor subject (zeroBytes 16) (zeroBytes 64)
        (zeroBytes 64) (zeroBytes 32) (zeroBytes 32)
      = .ok (signHeader "member_add" ++
          (id ++ vault ++ be64 seq ++ prev ++ actor ++ subject ++ zeroBytes 208)) := by
  have hz : zeroBytes 16 ++ (zeroBytes 64 ++ (zeroBytes 64 ++ (zeroBytes 32 ++ zeroBytes 32)))
      = zeroBytes 208 := by simp only [zeroBytes_append]
  simp only [SignBytesMemberAdd, bind, Except.bind, pure, Except.pure, wrapField,
    Encoder.WriteUUID, Encoder.WriteDeviceID, Encoder.WriteHash, Encoder.WriteSignature,
    Encoder.WritePublicKey, Encoder.WriteFixedBytes, Encoder.WriteU64, Encoder.WriteString,
    Encoder.WriteU32, Encoder.Bytes, NewEncoder, signHeader, goLen_SignPrefix, SignPrefix,
    h1, h2, h3, h4, h5, zeroBytes_length, bne_self_eq_false, Bool.false_eq_true, ↓reduceIte,
    List.nil_append, List.append_assoc, hz]

theorem be64_length (v : Nat) : (be64 v).length = 8 := rfl

/-- C19. For a 16-byte event id and vault id, a 32-byte `prev_hash` and 32-byte
device ids, `SignBytesMemberRemove(id, vault, seq, prev, actor, subject)` and
`SignBytesMemberAdd(id, vault, seq, prev, actor, subject, 0^16, 0^64, 0^64,
0^32, 0^32)` both succeed, and their outputs are the length-prefixed string
"forgor-sync-v1", the length-prefixed tag (`member_remove`, respectively
`member_add`) and then one and the same body, `id ‖ vault ‖ be64(seq) ‖ prev ‖
actor ‖ subject` followed by 16 + 64 + 64 + 32 + 32 = 208 zero bytes. -/
theorem SignBytesMemberRemove_body (id vault prev actor subject : Bytes) (seq : Nat)
    (h1 : id.length = 16) (h2 : vault.length = 16) (h3 : prev.length = 32)
    (h4 : actor.length = 32) (h5 : subject.length = 32) :
    ∃ body : Bytes,
      SignBytesMemberRemove id vault seq prev actor subject
        = .ok (signHeader "member_remove" ++ body) ∧
      SignBytesMemberAdd id vault seq prev actor subject (zeroBytes 16) (zeroBytes 64)
          (zeroBytes 64) (zeroBytes 32) (zeroBytes 32)
        = .ok (signHeader "member_add" ++ body) ∧
      body = id ++ vault ++ be64 seq ++ prev ++ actor ++ subject ++ zeroBytes 208 ∧
      body.length = 136 + 208 ∧ body.drop 136 = zeroBytes 208 ∧
      16 + 64 + 64 + 32 + 32 = 208 := by
  refine ⟨_, SignBytesMemberRemove_eq seq h1 h2 h3 h4 h5,
    SignBytesMemberAdd_zero_eq seq h1 h2 h3 h4 h5, rfl, ?_, ?_, rfl⟩
  · simp [h1, h2, h3, h4, h5, be64_length, zeroBytes_length]
  · have hl : (id ++ vault ++ be64 seq ++ prev ++ actor ++ subject).length = 136 := by
      simp [h1, h2, h3, h4, h5, be64_length]
    rw [List.drop_append_of_le_length (by omega), ← hl, List.drop_length, List.nil_append]

/-- C19 on concrete inputs: the sign-bytes of the removal `memberRemoveEvent`
and of a member_add with the same leading fields and zero placeholders. -/
theorem SignBytesMemberRemove_body_witness :
    memberRemoveEvent.MemberEventID.Bytes.length = 16 ∧
    ∃ body : Bytes,
      SignBytesMemberRemove memberRemoveEvent.MemberEventID.Bytes vaultA.Bytes 2 headHashA
          (bytesOf (DeviceIDToBytes devOwner)) (bytesOf (DeviceIDToBytes devJoiner))
        = .ok (signHeader "member_remove" ++ body) ∧
      SignBytesMemberAdd memberRemoveEvent.MemberEventID.Bytes vaultA.Bytes 2 headHashA
          (bytesOf (DeviceIDToBytes devOwner)) (bytesOf (DeviceIDToBytes devJoiner))
          (zeroBytes 16) (zeroBytes 64) (zeroBytes 64) (zeroBytes 32) (zeroBytes 32)
        = .ok (signHeader "member_add" ++ body) ∧
      body.drop 136 = zeroBytes 208 := by
  obtain ⟨body, hr, ha, _, _, hd, _⟩ :=
    SignBytesMemberRemove_body memberRemoveEvent.MemberEventID.Bytes vaultA.Bytes headHashA
      (bytesOf (DeviceIDToBytes devOwner)) (bytesOf (DeviceIDToBytes devJoiner)) 2
      (by decide) (by decide) (by decide) (by decide!) (by decide!)
  exact ⟨by decide, body, hr, ha, hd⟩

theorem SignBytesDeviceBundle_header (deviceID pubkeySign pubkeyBox : Bytes) (out : Bytes)
    (h : SignBytesDeviceBundle deviceID pubkeySign pubkeyBox = .ok out) :
    signHeader "device_bundle" <+: out := by
  unfold SignBytesDeviceBundle at h
  simp only [bind, Except.bind, pure, Except.pure, Encoder.WriteUUID, Encoder.WriteDeviceID,
    Encoder.WriteHash, Encoder.WriteSignature, Encoder.WriteNonce, Encoder.WritePublicKey] at h
  repeat' (split at h <;> try contradiction)
  injection h with h
  subst h
  simp only [wrapField_ok_iff] at *
  simp_all only [signHeader, Encoder.Bytes, Encoder.WriteU64, Encoder.WriteBytes,
    Encoder.WriteU32, Encoder.WriteBool_buf, Encoder.WriteString, NewEncoder, SignPrefix,
    goLen_SignPrefix, List.nil_append, List.append_assoc, List.prefix_append_right_inj,
    List.prefix_append]

theorem SignBytesEvent_header (eventID vaultID deviceID : Bytes) (counter lamport keyEpoch : Nat)
    (prevHash nonce ciphertext : Bytes) (out : Bytes)
    (h : SignBytesEvent eventID vaultID deviceID counter lamport keyEpoch prevHash nonce ciphertext
        = .ok out) :
    signHeader "event" <+: out := by
  unfold SignBytesEvent at h
  simp only [bind, Except.bind, pure, Except.pure, Encoder.WriteUUID, Encoder.WriteDeviceID,
    Encoder.WriteHash, Encoder.WriteSignature, Encoder.WriteNonce, Encoder.WritePublicKey] at h
  repeat' (split at h <;> try contradiction)
  injection h with h
  subst h
  simp only [wrapField_ok_iff] at *
  simp_all only [signHeader, Encoder.Bytes, Encoder.WriteU64, Encoder.WriteBytes,
    Encoder.WriteU32, Encoder.WriteBool_buf, Encoder.WriteString, NewEncoder, SignPrefix,
    goLen_SignPrefix, List.nil_append, List.append_assoc, List.prefix_append_right_inj,
    List.prefix_append]

theorem SignBytesMemberAdd_header (memberEventID vaultID : Bytes) (memberSeq : Nat)
    (prevHash actor subject inviteID claimSig bundleSig pubkeySign pubkeyBox : Bytes) (out : Bytes)
    (h : SignBytesMemberAdd memberEventID vaultID memberSeq prevHash actor subject inviteID claimSig
      bundleSig pubkeySign pubkeyBox = .ok out) :
    signHeader "member_add" <+: out := by
  unfold SignBytesMemberAdd at h
  simp only [bind, Except.bind, pure, Except.pure, Encoder.WriteUUID, Encoder.WriteDeviceID,
    Encoder.WriteHash, Encoder.WriteSignature, Encoder.WriteNonce, Encoder.WritePublicKey] at h
  repeat' (split at h <;> try contradiction)
  injection h with h
  subst h
  simp only [wrapField_ok_iff] at *
  simp_all only [signHeader, Encoder.Bytes, Encoder.WriteU64, Encoder.WriteBytes,
    Encoder.WriteU32, Encoder.WriteBool_buf, Encoder.WriteString, NewEncoder, SignPrefix,
    goLen_SignPrefix, List.nil_append, List.append_assoc, List.prefix_append_right_inj,
    List.prefix_append]

theorem SignBytesMemberRemove_header (memberEventID vaultID : Bytes) (memberSeq : Nat)
    (prevHash actor subject : Bytes) (out : Bytes)
    (h : SignBytesMemberRemove memberEventID vaultID memberSeq prevHash actor subject = .ok out) :
    signHeader "member_remove" <+: out := by
  unfold SignBytesMemberRemove at h
  simp only [bind, Except.bind, pure, Except.pure, Encoder.WriteUUID, Encoder.WriteDeviceID,
    Encoder.WriteHash, Encoder.WriteSignature, Encoder.WriteNonce, Encoder.WritePublicKey] at h
  repeat' (split at h <;> try contradiction)
  injection h with h
  subst h
  simp only [wrapField_ok_iff] at *
  simp_all only [signHeader, Encoder.Bytes, Encoder.WriteU64, Encoder.WriteBytes,
    Encoder.WriteU32, Encoder.WriteBool_buf, Encoder.WriteString, NewEncoder, SignPrefix,
    goLen_SignPrefix, List.nil_append, List.append_assoc, List.prefix_append_right_inj,
    List.prefix_append]

theorem SignBytesInvite_header (inviteID vaultID targetDeviceID targetPubkeySign targetPubkeyBox
    targetBundleSig nonce wrappedPayload createdBy : Bytes) (singleUse : Bool) (out : Bytes)
    (h : SignBytesInvite inviteID vaultID targetDeviceID targetPubkeySign targetPubkeyBox
      targetBundleSig nonce wrappedPayload createdBy singleUse = .ok out) :
    signHeader "invite" <+: out := by
  unfold SignBytesInvite at h
  simp only [bind, Except.bind, pure, Except.pure, Encoder.WriteUUID, Encoder.WriteDeviceID,
    Encoder.WriteHash, Encoder.WriteSignature, Encoder.WriteNonce, Encoder.WritePublicKey] at h
  repeat' (split at h <;> try contradiction)
  injection h with h
  subst h
  simp only [wrapField_ok_iff] at *
  simp_all only [signHeader, Encoder.Bytes, Encoder.WriteU64, Encoder.WriteBytes,
    Encoder.WriteU32, Encoder.WriteBool_buf, Encoder.WriteString, NewEncoder, SignPrefix,
    goLen_SignPrefix, List.nil_append, List.append_assoc, List.prefix_append_right_inj,
    List.prefix_append]

theorem SignBytesInviteClaim_header (inviteID vaultID deviceID : Bytes) (out : Bytes)
    (h : SignBytesInviteClaim inviteID vaultID deviceID = .ok out) :
    signHeader "invite_claim" <+: out := by
  unfold SignBytesInviteClaim at h
  simp only [bind, Except.bind, pure, Except.pure, Encoder.WriteUUID, Encoder.WriteDeviceID,
    Encoder.WriteHash, Encoder.WriteSignature, Encoder.WriteNonce, Encoder.WritePublicKey] at h
  repeat' (split at h <;> try contradiction)
  injection h with h
  subst h
  simp only [wrapField_ok_iff] at *
  simp_all only [signHeader, Encoder.Bytes, Encoder.WriteU64, Encoder.WriteBytes,
    Encoder.WriteU32, Encoder.WriteBool_buf, Encoder.WriteString, NewEncoder, SignPrefix,
    goLen_SignPrefix, List.nil_append, List.append_assoc, List.prefix_append_right_inj,
    List.prefix_append]

theorem SignBytesKeyUpdate_header (keyUpdateID vaultID : Bytes) (memberSeq : Nat)
    (memberHeadHash targetDeviceID : Bytes) (keyEpoch : Nat)
    (nonce wrappedPayload createdBy : Bytes) (out : Bytes)
    (h : SignBytesKeyUpdate keyUpdateID vaultID memberSeq memberHeadHash targetDeviceID keyEpoch
        nonce
      wrappedPayload createdBy = .ok out) :
    signHeader "key_update" <+: out := by
  unfold SignBytesKeyUpdate at h
  simp only [bind, Except.bind, pure, Except.pure, Encoder.WriteUUID, Encoder.WriteDeviceID,
    Encoder.WriteHash, Encoder.WriteSignature, Encoder.WriteNonce, Encoder.WritePublicKey] at h
  repeat' (split at h <;> try contradiction)
  injection h with h
  subst h
  simp only [wrapField_ok_iff] at *
  simp_all only [signHeader, Encoder.Bytes, Encoder.WriteU64, Encoder.WriteBytes,
    Encoder.WriteU32, Encoder.WriteBool_buf, Encoder.WriteString, NewEncoder, SignPrefix,
    goLen_SignPrefix, List.nil_append, List.append_assoc, List.prefix_append_right_inj,
    List.prefix_append]

theorem SignBytesKeyUpdateAck_header (vaultID deviceID : Bytes) (keyEpoch memberSeq : Nat)
    (memberHeadHash : Bytes) (out : Bytes)
    (h : SignBytesKeyUpdateAck vaultID deviceID keyEpoch memberSeq memberHeadHash = .ok out) :
    signHeader "key_update_ack" <+: out := by
  unfold SignBytesKeyUpdateAck at h
  simp only [bind, Except.bind, pure, Except.pure, Encoder.WriteUUID, Encoder.WriteDeviceID,
    Encoder.WriteHash, Encoder.WriteSignature, Encoder.WriteNonce, Encoder.WritePublicKey] at h
  repeat' (split at h <;> try contradiction)
  injection h with h
  subst h
  simp only [wrapField_ok_iff] at *
  simp_all only [signHeader, Encoder.Bytes, Encoder.WriteU64, Encoder.WriteBytes,
    Encoder.WriteU32, Encoder.WriteBool_buf, Encoder.WriteString, NewEncoder, SignPrefix,
    goLen_SignPrefix, List.nil_append, List.append_assoc, List.prefix_append_right_inj,
    List.prefix_append]

theorem SignBytesSnapshot_header (snapshotID vaultID : Bytes) (baseSeq memberSeq : Nat)
    (memberHeadHash baseCounterMap headHashMap : Bytes) (lamport keyEpoch : Nat)
    (nonce ciphertext createdBy : Bytes) (out : Bytes)
    (h : SignBytesSnapshot snapshotID vaultID baseSeq memberSeq memberHeadHash baseCounterMap
        headHashMap
      lamport keyEpoch nonce ciphertext createdBy = .ok out) :
    signHeader "snapshot" <+: out := by
  unfold SignBytesSnapshot at h
  simp only [bind, Except.bind, pure, Except.pure, Encoder.WriteUUID, Encoder.WriteDeviceID,
    Encoder.WriteHash, Encoder.WriteSignature, Encoder.WriteNonce, Encoder.WritePublicKey] at h
  repeat' (split at h <;> try contradiction)
  injection h with h
  subst h
  simp only [wrapField_ok_iff] at *
  simp_all only [signHeader, Encoder.Bytes, Encoder.WriteU64, Encoder.WriteBytes,
    Encoder.WriteU32, Encoder.WriteBool_buf, Encoder.WriteString, NewEncoder, SignPrefix,
    goLen_SignPrefix, List.nil_append, List.append_assoc, List.prefix_append_right_inj,
    List.prefix_append]

/-- C20. Whenever one of the nine sign-bytes constructors succeeds, its output
begins with the 4-byte big-endian length 14, the 14 bytes of "forgor-sync-v1",
the 4-byte big-endian length of the constructor's own domain tag and the bytes
of that tag: `device_bundle`, `event`, `member_add`, `member_remove`, `invite`,
`invite_claim`, `key_update`, `key_update_ack`, `snapshot`. -/
theorem sign_bytes_header :
    (∀ (deviceID pubkeySign pubkeyBox : Bytes) (out : Bytes),
      SignBytesDeviceBundle deviceID pubkeySign pubkeyBox = .ok out →
      signHeader "device_bundle" <+: out) ∧
    (∀ (eventID vaultID deviceID : Bytes) (counter lamport keyEpoch : Nat)
      (prevHash nonce ciphertext : Bytes) (out : Bytes),
      SignBytesEvent eventID vaultID deviceID counter lamport keyEpoch prevHash nonce ciphertext =
          .ok out →
      signHeader "event" <+: out) ∧
    (∀ (memberEventID vaultID : Bytes) (memberSeq : Nat)
      (prevHash actor subject inviteID claimSig bundleSig pubkeySign pubkeyBox : Bytes)
      (out : Bytes),
      SignBytesMemberAdd memberEventID vaultID memberSeq prevHash actor subject inviteID claimSig
        bundleSig pubkeySign pubkeyBox = .ok out →
      signHeader "member_add" <+: out) ∧
    (∀ (memberEventID vaultID : Bytes) (memberSeq : Nat)
      (prevHash actor subject : Bytes) (out : Bytes),
      SignBytesMemberRemove memberEventID vaultID memberSeq prevHash actor subject = .ok out →
      signHeader "member_remove" <+: out) ∧
    (∀ (inviteID vaultID targetDeviceID targetPubkeySign targetPubkeyBox
      targetBundleSig nonce wrappedPayload createdBy : Bytes) (singleUse : Bool) (out : Bytes),
      SignBytesInvite inviteID vaultID targetDeviceID targetPubkeySign targetPubkeyBox
        targetBundleSig nonce wrappedPayload createdBy singleUse = .ok out →
      signHeader "invite" <+: out) ∧
    (∀ (inviteID vaultID deviceID : Bytes) (out : Bytes),
      SignBytesInviteClaim inviteID vaultID deviceID = .ok out →
      signHeader "invite_claim" <+: out) ∧
    (∀ (keyUpdateID vaultID : Bytes) (memberSeq : Nat)
      (memberHeadHash targetDeviceID : Bytes) (keyEpoch : Nat)
      (nonce wrappedPayload createdBy : Bytes) (out : Bytes),
      SignBytesKeyUpdate keyUpdateID vaultID memberSeq memberHeadHash targetDeviceID keyEpoch nonce
        wrappedPayload createdBy = .ok out →
      signHeader "key_update" <+: out) ∧
    (∀ (vaultID deviceID : Bytes) (keyEpoch memberSeq : Nat)
      (memberHeadHash : Bytes) (out : Bytes),
      SignBytesKeyUpdateAck vaultID deviceID keyEpoch memberSeq memberHeadHash = .ok out →
      signHeader "key_update_ack" <+: out) ∧
    (∀ (snapshotID vaultID : Bytes) (baseSeq memberSeq : Nat)
      (memberHeadHash baseCounterMap headHashMap : Bytes) (lamport keyEpoch : Nat)
      (nonce ciphertext createdBy : Bytes) (out : Bytes),
      SignBytesSnapshot snapshotID vaultID baseSeq memberSeq memberHeadHash baseCounterMap
          headHashMap
        lamport keyEpoch nonce ciphertext createdBy = .ok out →
      signHeader "snapshot" <+: out) ∧
    (∀ tag : String, signHeader tag
      = [0, 0, 0, 14] ++
        [0x66, 0x6f, 0x72, 0x67, 0x6f, 0x72, 0x2d, 0x73, 0x79, 0x6e, 0x63, 0x2d, 0x76, 0x31] ++
        (be32 (goLen tag) ++ stringBytes tag)) ∧
    stringBytes "forgor-sync-v1"
      = [0x66, 0x6f, 0x72, 0x67, 0x6f, 0x72, 0x2d, 0x73, 0x79, 0x6e, 0x63, 0x2d, 0x76, 0x31] ∧
    [goLen "device_bundle", goLen "event", goLen "member_add", goLen "member_remove",
      goLen "invite", goLen "invite_claim", goLen "key_update", goLen "key_update_ack",
      goLen "snapshot"] = [13, 5, 10, 13, 6, 12, 10, 14, 8] :=
  ⟨SignBytesDeviceBundle_header, SignBytesEvent_header, SignBytesMemberAdd_header,
      SignBytesMemberRemove_header,
    SignBytesInvite_header, SignBytesInviteClaim_header, SignBytesKeyUpdate_header,
        SignBytesKeyUpdateAck_header,
    SignBytesSnapshot_header, fun _ => rfl, by decide, by decide⟩

/-- C20 on concrete inputs: the sign-bytes of the event `event1Unsigned` start
with the header of the tag `event`, which is 27 bytes long. -/
theorem sign_bytes_header_witness :
    (∃ out, SignBytesEvent event1Unsigned.EventID.Bytes vaultA.Bytes
        (bytesOf (DeviceIDToBytes devOwner)) 1 1 1 Zero32 (List.replicate 24 7) [1, 2, 3]
        = .ok out ∧ signHeader "event" <+: out) ∧
    signHeader "event"
      = [0, 0, 0, 14, 0x66, 0x6f, 0x72, 0x67, 0x6f, 0x72, 0x2d, 0x73, 0x79, 0x6e, 0x63, 0x2d,
         0x76, 0x31, 0, 0, 0, 5, 0x65, 0x76, 0x65, 0x6e, 0x74] :=
  ⟨⟨eventSignBytes event1Unsigned, by decide!,
    sign_bytes_header.2.1 event1Unsigned.EventID.Bytes vaultA.Bytes
      (bytesOf (DeviceIDToBytes devOwner)) 1 1 1 Zero32 (List.replicate 24 7) [1, 2, 3]
      (eventSignBytes event1Unsigned) (by decide!)⟩,
    by decide⟩

/-! ## Byte order of map keys -/

theorem bytesCompare_swap (a b : Bytes) : bytesCompare a b = - bytesCompare b a := by
  induction a generalizing b with
  | nil => cases b <;> simp [bytesCompare]
  | cons x xs ih =>
    cases b with
    | nil => simp [bytesCompare]
    | cons y ys =>
      simp only [bytesCompare]
      by_cases h1 : x < y
      · have h2 : ¬ y < x := by rw [Fin.lt_def] at *; omega
        simp [h1, h2]
      · by_cases h2 : y < x
        · simp [h1, h2]
        · simp [h1, h2, ih ys]

theorem bytesCompare_eq_zero {a b : Bytes} (h : bytesCompare a b = 0) : a = b := by
  induction a generalizing b with
  | nil => cases b <;> simp [bytesCompare] at h ⊢
  | cons x xs ih =>
    cases b with
    | nil => simp [bytesCompare] at h
    | cons y ys =>
      simp only [bytesCompare] at h
      by_cases h1 : x < y
      · simp [h1] at h
      · by_cases h2 : y < x
        · simp [h1, h2] at h
        · simp only [h1, h2, if_false] at h
          have hxy : x = y := by
            apply Fin.ext; rw [Fin.lt_def] at h1 h2; omega
          rw [hxy, ih h]

theorem bytesCompare_self (a : Bytes) : bytesCompare a a = 0 := by
  induction a with
  | nil => rfl
  | cons x xs ih => simp [bytesCompare, ih]

theorem bytesCompare_le_trans {a b c : Bytes} (h1 : bytesCompare a b ≤ 0)
    (h2 : bytesCompare b c ≤ 0) : bytesCompare a c ≤ 0 := by
  induction a generalizing b c with
  | nil => cases c <;> simp [bytesCompare]
  | cons x xs ih =>
    cases b with
    | nil => simp [bytesCompare] at h1
    | cons y ys =>
      cases c with
      | nil => simp [bytesCompare] at h2
      | cons z zs =>
        simp only [bytesCompare] at h1 h2 ⊢
        by_cases hxy : x < y
        · by_cases hyz : y < z
          · have : x < z := lt_trans hxy hyz
            simp [this]
          · by_cases hzy : z < y
            · simp [hyz, hzy] at h2
            · have hyz' : y = z := by
                apply Fin.ext; rw [Fin.lt_def] at hyz hzy; omega
              subst hyz'
              simp [hxy]
        · by_cases hyx : y < x
          · simp [hxy, hyx] at h1
          · have hxy' : x = y := by
              apply Fin.ext; rw [Fin.lt_def] at hxy hyx; omega
            subst hxy'
            simp only [hxy, if_false] at h1
            by_cases hxz : x < z
            · simp [hxz]
            · by_cases hzx : z < x
              · simp [hxz, hzx] at h2
              · simp only [hxz, hzx, if_false] at h2 ⊢
                exact ih h1 h2

theorem writeCounterEntries_ok (e : Encoder) (l : List DeviceIDCounterEntry)
    (h : ∀ x ∈ l, x.DeviceID.length = 32) :
    writeCounterEntries e l =
      .ok { buf := e.buf ++ l.flatMap (fun x => x.DeviceID ++ be64 x.Counter) } := by
  induction l generalizing e with
  | nil => simp [writeCounterEntries]
  | cons x xs ih =>
    have hx : x.DeviceID.length = 32 := h x (List.mem_cons_self _ _)
    simp only [writeCounterEntries, Encoder.WriteDeviceID, Encoder.WriteFixedBytes, hx]
    simp only [bne_self_eq_false, Bool.false_eq_true, if_false]
    rw [ih _ (fun y hy => h y (List.mem_cons_of_mem _ hy))]
    simp [Encoder.WriteU64, List.flatMap_cons, List.append_assoc]

theorem writeHashEntries_ok (e : Encoder) (l : List DeviceIDHashEntry)
    (h : ∀ x ∈ l, x.DeviceID.length = 32 ∧ x.Hash.length = 32) :
    writeHashEntries e l =
      .ok { buf := e.buf ++ l.flatMap (fun x => x.DeviceID ++ x.Hash) } := by
  induction l generalizing e with
  | nil => simp [writeHashEntries]
  | cons x xs ih =>
    have hx := h x (List.mem_cons_self _ _)
    simp only [writeHashEntries, Encoder.WriteDeviceID, Encoder.WriteHash,
      Encoder.WriteFixedBytes, hx.1, hx.2]
    simp only [bne_self_eq_false, Bool.false_eq_true, if_false]
    rw [ih _ (fun y hy => h y (List.mem_cons_of_mem _ hy))]
    simp [List.flatMap_cons, List.append_assoc]

theorem be32_length (v : Nat) : (be32 v).length = 4 := rfl

theorem flatMap_length_const {α : Type} (l : List α) (f : α → Bytes) (k : Nat)
    (h : ∀ x ∈ l, (f x).length = k) : (l.flatMap f).length = k * l.length := by
  induction l with
  | nil => simp
  | cons x xs ih =>
    rw [List.flatMap_cons, List.length_append, h x (List.mem_cons_self _ _),
      ih (fun y hy => h y (List.mem_cons_of_mem _ hy)), List.length_cons]
    ring

/-! ## Map serialisation order (C22) -/

theorem sorted_by_key_unique {α : Type} (key : α → Bytes) (l1 l2 : List α)
    (hp : l1.Perm l2) (hn : (l2.map key).Nodup)
    (h1 : l1.Pairwise (fun a b => decide (bytesCompare (key b) (key a) < 0) = false))
    (h2 : l2.Pairwise (fun a b => decide (bytesCompare (key b) (key a) < 0) = false)) :
    l1 = l2 := by
  have hn1 : (l1.map key).Nodup := (hp.map key).nodup_iff.mpr hn
  have strict : ∀ l : List α, (l.map key).Nodup →
      l.Pairwise (fun a b => decide (bytesCompare (key b) (key a) < 0) = false) →
      l.Pairwise (fun a b => bytesCompare (key a) (key b) < 0) := by
    intro l hnd hs
    have hne : l.Pairwise (fun a b => key a ≠ key b) := by
      rw [List.Nodup, List.pairwise_map] at hnd
      exact hnd
    refine (hs.and hne).imp ?_
    intro a b ⟨hab, hne⟩
    have h0 : ¬ bytesCompare (key b) (key a) < 0 := by simpa using hab
    have h3 : bytesCompare (key b) (key a) ≠ 0 := fun h => hne (bytesCompare_eq_zero h).symm
    rw [bytesCompare_swap]
    omega
  haveI : IsAntisymm α (fun a b => bytesCompare (key a) (key b) < 0) :=
    ⟨fun a b hab hba => by rw [bytesCompare_swap] at hab; omega⟩
  exact List.eq_of_perm_of_sorted hp (strict l1 hn1 h1) (strict l2 hn h2)

theorem insertionSortSlice_sorts {α : Type} (key : α → Bytes) (x : List α) :
    (insertionSortSlice x (fun a b => decide (bytesCompare (key a) (key b) < 0))).Perm x ∧
    (insertionSortSlice x (fun a b => decide (bytesCompare (key a) (key b) < 0))).Pairwise
      (fun a b => decide (bytesCompare (key b) (key a) < 0) = false) := by
  haveI : IsTotal α (fun a b => decide (bytesCompare (key b) (key a) < 0) = false) :=
    ⟨fun a b => by
      simp only [decide_eq_false_iff_not]
      rw [bytesCompare_swap (key b) (key a)]
      omega⟩
  haveI : IsTrans α (fun a b => decide (bytesCompare (key b) (key a) < 0) = false) :=
    ⟨fun a b c hab hbc => by
      simp only [decide_eq_false_iff_not] at *
      have h1 : bytesCompare (key a) (key b) ≤ 0 := by
        rw [bytesCompare_swap]; omega
      have h2 : bytesCompare (key b) (key c) ≤ 0 := by
        rw [bytesCompare_swap]; omega
      have h3 := bytesCompare_le_trans h1 h2
      rw [bytesCompare_swap] at h3
      omega⟩
  exact ⟨List.perm_insertionSort _ _, List.sorted_insertionSort _ _⟩

/-- C22. Let `sort.Slice` return, for the closures of the two map writers, a
permutation of its input in which no entry is `less` than an entry before it.
For entries whose device ids are all 32 bytes (and, for the hash map, whose
hashes are all 32 bytes) `WriteDeviceIDCounterMap` and `WriteDeviceIDHashMap`
succeed and append `be32(n)` followed by a permutation of the entries in
ascending order of device id (`bytes.Compare ≤ 0` between any earlier and any
later entry), each entry written as its device id followed by `be64(counter)`,
respectively its hash; when the device ids are pairwise distinct, every
permutation of the input gives the same result. -/
theorem WriteDeviceIDMap_sorted
    (sortC : List DeviceIDCounterEntry →
      (DeviceIDCounterEntry → DeviceIDCounterEntry → Bool) → List DeviceIDCounterEntry)
    (sortH : List DeviceIDHashEntry →
      (DeviceIDHashEntry → DeviceIDHashEntry → Bool) → List DeviceIDHashEntry)
    (hC : ∀ x, (sortC x counterEntryLess).Perm x ∧
      (sortC x counterEntryLess).Pairwise (fun a b => counterEntryLess b a = false))
    (hH : ∀ x, (sortH x hashEntryLess).Perm x ∧
      (sortH x hashEntryLess).Pairwise (fun a b => hashEntryLess b a = false))
    (e : Encoder) :
    (∀ entries : List DeviceIDCounterEntry, (∀ x ∈ entries, x.DeviceID.length = 32) →
      ∃ sorted : List DeviceIDCounterEntry, sorted.Perm entries ∧
        sorted.Pairwise (fun a b => bytesCompare a.DeviceID b.DeviceID ≤ 0) ∧
        e.WriteDeviceIDCounterMap sortC entries =
          .ok { buf := e.buf ++ be32 entries.length ++
            sorted.flatMap (fun x => x.DeviceID ++ be64 x.Counter) } ∧
        ((entries.map (fun x => x.DeviceID)).Nodup → ∀ entries', entries'.Perm entries →
          e.WriteDeviceIDCounterMap sortC entries' =
            e.WriteDeviceIDCounterMap sortC entries)) ∧
    (∀ entries : List DeviceIDHashEntry,
      (∀ x ∈ entries, x.DeviceID.length = 32 ∧ x.Hash.length = 32) →
      ∃ sorted : List DeviceIDHashEntry, sorted.Perm entries ∧
        sorted.Pairwise (fun a b => bytesCompare a.DeviceID b.DeviceID ≤ 0) ∧
        e.WriteDeviceIDHashMap sortH entries =
          .ok { buf := e.buf ++ be32 entries.length ++
            sorted.flatMap (fun x => x.DeviceID ++ x.Hash) } ∧
        ((entries.map (fun x => x.DeviceID)).Nodup → ∀ entries', entries'.Perm entries →
          e.WriteDeviceIDHashMap sortH entries' = e.WriteDeviceIDHashMap sortH entries)) := by
  constructor
  · intro entries hlen
    obtain ⟨hp, hs⟩ := hC entries
    refine ⟨sortC entries counterEntryLess, hp, ?_, ?_, ?_⟩
    · refine hs.imp ?_
      intro a b hab
      have h0 : ¬ bytesCompare b.DeviceID a.DeviceID < 0 := by
        simpa [counterEntryLess] using hab
      rw [bytesCompare_swap]; omega
    · unfold Encoder.WriteDeviceIDCounterMap
      simp only []
      rw [writeCounterEntries_ok _ _ (fun x hx => hlen x (hp.mem_iff.mp hx)), hp.length_eq]
      simp [Encoder.WriteU32, List.append_assoc]
    · intro hnd entries' hp'
      obtain ⟨hq, hs'⟩ := hC entries'
      have heq : sortC entries' counterEntryLess = sortC entries counterEntryLess :=
        sorted_by_key_unique (fun x : DeviceIDCounterEntry => x.DeviceID) _ _
          ((hq.trans hp').trans hp.symm)
          ((hp.map (fun x : DeviceIDCounterEntry => x.DeviceID)).nodup_iff.mpr hnd) hs' hs
      unfold Encoder.WriteDeviceIDCounterMap
      simp only []
      rw [heq]
  · intro entries hlen
    obtain ⟨hp, hs⟩ := hH entries
    refine ⟨sortH entries hashEntryLess, hp, ?_, ?_, ?_⟩
    · refine hs.imp ?_
      intro a b hab
      have h0 : ¬ bytesCompare b.DeviceID a.DeviceID < 0 := by
        simpa [hashEntryLess] using hab
      rw [bytesCompare_swap]; omega
    · unfold Encoder.WriteDeviceIDHashMap
      simp only []
      rw [writeHashEntries_ok _ _ (fun x hx => hlen x (hp.mem_iff.mp hx)), hp.length_eq]
      simp [Encoder.WriteU32, List.append_assoc]
    · intro hnd entries' hp'
      obtain ⟨hq, hs'⟩ := hH entries'
      have heq : sortH entries' hashEntryLess = sortH entries hashEntryLess :=
        sorted_by_key_unique (fun x : DeviceIDHashEntry => x.DeviceID) _ _
          ((hq.trans hp').trans hp.symm)
          ((hp.map (fun x : DeviceIDHashEntry => x.DeviceID)).nodup_iff.mpr hnd) hs' hs
      unfold Encoder.WriteDeviceIDHashMap
      simp only []
      rw [heq]

/-- C22 on concrete inputs, with an insertion sort for `sort.Slice`: three
counter entries given out of order are written as the count 3 and the entries
in ascending order of device id, and two hash entries likewise. -/
theorem WriteDeviceIDMap_sorted_witness :
    (∀ x ∈ counterEntries3, x.DeviceID.length = 32) ∧
    (∃ sorted : List DeviceIDCounterEntry, sorted.Perm counterEntries3 ∧
      sorted.Pairwise (fun a b => bytesCompare a.DeviceID b.DeviceID ≤ 0) ∧
      NewEncoder.WriteDeviceIDCounterMap insertionSortSlice counterEntries3 =
        .ok { buf := NewEncoder.buf ++ be32 counterEntries3.length ++
          sorted.flatMap (fun x => x.DeviceID ++ be64 x.Counter) } ∧
      ((counterEntries3.map (fun x => x.DeviceID)).Nodup →
        ∀ entries', entries'.Perm counterEntries3 →
          NewEncoder.WriteDeviceIDCounterMap insertionSortSlice entries' =
            NewEncoder.WriteDeviceIDCounterMap insertionSortSlice counterEntries3)) ∧
    NewEncoder.WriteDeviceIDCounterMap insertionSortSlice counterEntries3 =
      .ok { buf := be32 3 ++
        (List.replicate 31 2 ++ [1] ++ be64 21) ++ (List.replicate 32 2 ++ be64 20) ++
        (List.replicate 32 7 ++ be64 70) } ∧
    NewEncoder.WriteDeviceIDHashMap insertionSortSlice hashEntries2 =
      .ok { buf := be32 2 ++
        (List.replicate 32 2 ++ List.replicate 32 0x20) ++
        (List.replicate 32 7 ++ List.replicate 32 0x70) } :=
  ⟨by decide,
   (WriteDeviceIDMap_sorted insertionSortSlice insertionSortSlice
      (fun x => insertionSortSlice_sorts (fun e : DeviceIDCounterEntry => e.DeviceID) x)
      (fun x => insertionSortSlice_sorts (fun e : DeviceIDHashEntry => e.DeviceID) x)
      NewEncoder).1 counterEntries3 (by decide),
   by decide, by decide⟩

/-! ## Map sizes (C39) -/

theorem WriteDeviceIDCounterMap_length
    (sortC : List DeviceIDCounterEntry →
      (DeviceIDCounterEntry → DeviceIDCounterEntry → Bool) → List DeviceIDCounterEntry)
    (hC : ∀ x, (sortC x counterEntryLess).Perm x) (e : Encoder)
    (entries : List DeviceIDCounterEntry) (hlen : ∀ x ∈ entries, x.DeviceID.length = 32) :
    ∃ e1, e.WriteDeviceIDCounterMap sortC entries = .ok e1 ∧
      e1.buf.length = e.buf.length + (4 + 40 * entries.length) := by
  have hp := hC entries
  unfold Encoder.WriteDeviceIDCounterMap
  simp only []
  rw [writeCounterEntries_ok _ _ (fun x hx => hlen x (hp.mem_iff.mp hx))]
  refine ⟨_, rfl, ?_⟩
  have hf := flatMap_length_const (sortC entries counterEntryLess)
    (fun x => x.DeviceID ++ be64 x.Counter) 40 (fun x hx => by
      rw [List.length_append, hlen x (hp.mem_iff.mp hx), be64_length])
  simp only [Encoder.WriteU32, List.length_append, be32_length, hf, hp.length_eq]
  omega

theorem WriteDeviceIDHashMap_length
    (sortH : List DeviceIDHashEntry →
      (DeviceIDHashEntry → DeviceIDHashEntry → Bool) → List DeviceIDHashEntry)
    (hH : ∀ x, (sortH x hashEntryLess).Perm x) (e : Encoder)
    (entries : List DeviceIDHashEntry)
    (hlen : ∀ x ∈ entries, x.DeviceID.length = 32 ∧ x.Hash.length = 32) :
    ∃ e1, e.WriteDeviceIDHashMap sortH entries = .ok e1 ∧
      e1.buf.length = e.buf.length + (4 + 64 * entries.length) := by
  have hp := hH entries
  unfold Encoder.WriteDeviceIDHashMap
  simp only []
  rw [writeHashEntries_ok _ _ (fun x hx => hlen x (hp.mem_iff.mp hx))]
  refine ⟨_, rfl, ?_⟩
  have hf := flatMap_length_const (sortH entries hashEntryLess)
    (fun x => x.DeviceID ++ x.Hash) 64 (fun x hx => by
      rw [List.length_append, (hlen x (hp.mem_iff.mp hx)).1, (hlen x (hp.mem_iff.mp hx)).2])
  simp only [Encoder.WriteU32, List.length_append, be32_length, hf, hp.length_eq]
  omega

theorem insertionSortSlice_perm_counter (x : List DeviceIDCounterEntry) :
    (insertionSortSlice x counterEntryLess).Perm x :=
  (insertionSortSlice_sorts (fun e : DeviceIDCounterEntry => e.DeviceID) x).1

theorem counterEntries1024_ids (x : DeviceIDCounterEntry) (hx : x ∈ counterEntries1024) :
    x.DeviceID.length = 32 := by
  simp only [counterEntries1024, List.mem_map] at hx
  obtain ⟨i, _, rfl⟩ := hx
  rfl

theorem counterMap1024_length : counterMap1024.length = 40964 := by
  obtain ⟨e1, h1, h2⟩ := WriteDeviceIDCounterMap_length insertionSortSlice
    insertionSortSlice_perm_counter NewEncoder counterEntries1024 counterEntries1024_ids
  unfold counterMap1024
  rw [h1]
  simp only [Except.toOption, Option.map, Option.getD, Encoder.Bytes, h2]
  simp [NewEncoder, counterEntries1024]

/-- C39 (as stated) fails at 1024 entries: the counter map of 1024 entries
with 32-byte device ids has 4 + 40·1024 = 40 964 bytes, four more than the
bound `MaxMapLength·40` = 40 960, and `ValidateSnapshot` answers
`payload_too_large` to the snapshot `snapshot1` carrying it. -/
theorem counter_map_of_1024_entries_too_large :
    counterEntries1024.length = 1024 ∧ counterEntries1024.length ≤ MaxMapLength ∧
    counterMap1024.length = 40964 ∧ MaxMapLength * 40 = 40960 ∧
    ValidateSnapshot testLib storeA snapshotMap1024 =
      .error (PayloadTooLarge "base_counter_map exceeds maximum size") := by
  have hl : counterEntries1024.length = 1024 := by simp [counterEntries1024]
  refine ⟨hl, by rw [hl]; decide, counterMap1024_length, by decide, ?_⟩
  have hb : snapshotMap1024.BaseCounterMap.length > MaxMapLength * 40 := by
    simp only [snapshotMap1024, counterMap1024_length]; decide
  have hc : ¬ (snapshotMap1024.Ciphertext.length > MaxSnapshotCiphertext) := by decide
  have h1 : ¬ ((snapshotMap1024.MsgType != "snapshot") = true) := by decide
  have h2 : ¬ ((snapshotMap1024.Nonce.length != NonceLength) = true) := by decide
  have h3 : ¬ ((snapshotMap1024.Signature.length != SignatureLength) = true) := by decide!
  have h4 : ¬ ((snapshotMap1024.MemberHeadHash.length != HashLength) = true) := by decide
  unfold ValidateSnapshot
  rw [if_neg h1, if_neg h2, if_neg h3, if_neg h4, if_neg hc, if_pos hb]

/-- C39, amended. Let `sort.Slice` return a permutation of its input.  For
`n` entries with 32-byte device ids (and 32-byte hashes)
`WriteDeviceIDCounterMap` appends exactly 4 + 40·n bytes and
`WriteDeviceIDHashMap` exactly 4 + 64·n bytes.  These sizes are within the
bounds `MaxMapLength·40` and `MaxMapLength·64` of `ValidateSnapshot` exactly
when n ≤ 1023; a snapshot whose ciphertext is within `MaxSnapshotCiphertext`
and whose two maps are such encodings of at most 1023 entries is not answered
`payload_too_large`. -/
theorem WriteDeviceIDMap_size
    (sortC : List DeviceIDCounterEntry →
      (DeviceIDCounterEntry → DeviceIDCounterEntry → Bool) → List DeviceIDCounterEntry)
    (sortH : List DeviceIDHashEntry →
      (DeviceIDHashEntry → DeviceIDHashEntry → Bool) → List DeviceIDHashEntry)
    (hC : ∀ x, (sortC x counterEntryLess).Perm x)
    (hH : ∀ x, (sortH x hashEntryLess).Perm x)
    (counters : List DeviceIDCounterEntry) (hashes : List DeviceIDHashEntry)
    (hc : ∀ x ∈ counters, x.DeviceID.length = 32)
    (hh : ∀ x ∈ hashes, x.DeviceID.length = 32 ∧ x.Hash.length = 32) :
    (∀ e : Encoder, ∃ e1, e.WriteDeviceIDCounterMap sortC counters = .ok e1 ∧
      e1.buf.length = e.buf.length + (4 + 40 * counters.length)) ∧
    (∀ e : Encoder, ∃ e1, e.WriteDeviceIDHashMap sortH hashes = .ok e1 ∧
      e1.buf.length = e.buf.length + (4 + 64 * hashes.length)) ∧
    (4 + 40 * counters.length ≤ MaxMapLength * 40 ↔ counters.length ≤ 1023) ∧
    (4 + 64 * hashes.length ≤ MaxMapLength * 64 ↔ hashes.length ≤ 1023) ∧
    (∀ (lib : CryptoLib) (s : Store) (snap : Snapshot) (e1 e2 : Encoder) (err : APIError),
      NewEncoder.WriteDeviceIDCounterMap sortC counters = .ok e1 →
      NewEncoder.WriteDeviceIDHashMap sortH hashes = .ok e2 →
      snap.BaseCounterMap = e1.Bytes → snap.HeadHashMap = e2.Bytes →
      counters.length ≤ 1023 → hashes.length ≤ 1023 →
      snap.Ciphertext.length ≤ MaxSnapshotCiphertext →
      ValidateSnapshot lib s snap = .error err →
      err.StatusCode ≠ 413 ∧ err.Code ≠ "payload_too_large") := by
  have hm : MaxMapLength = 1024 := rfl
  refine ⟨fun e => WriteDeviceIDCounterMap_length sortC hC e counters hc,
    fun e => WriteDeviceIDHashMap_length sortH hH e hashes hh,
    by rw [hm]; omega, by rw [hm]; omega, ?_⟩
  intro lib s snap e1 e2 err h1 h2 hb hhm hn1 hn2 hct hv
  obtain ⟨e1', h1', hl1⟩ := WriteDeviceIDCounterMap_length sortC hC NewEncoder counters hc
  obtain ⟨e2', h2', hl2⟩ := WriteDeviceIDHashMap_length sortH hH NewEncoder hashes hh
  rw [h1] at h1'; rw [h2] at h2'
  injection h1' with h1'; injection h2' with h2'
  subst h1'; subst h2'
  have hb1 : snap.BaseCounterMap.length = 4 + 40 * counters.length := by
    rw [hb]; simp only [Encoder.Bytes, hl1]; simp [NewEncoder]
  have hb2 : snap.HeadHashMap.length = 4 + 64 * hashes.length := by
    rw [hhm]; simp only [Encoder.Bytes, hl2]; simp [NewEncoder]
  have key : ¬ (err.StatusCode = 413 ∨ err.Code = "payload_too_large") := by
    intro hcode
    rcases ValidateSnapshot_413_inv hv hcode with h | h | h
    · omega
    · rw [hb1, hm] at h; omega
    · rw [hb2, hm] at h; omega
  exact ⟨fun h => key (Or.inl h), fun h => key (Or.inr h)⟩

/-- C39 amended, on concrete inputs, with an insertion sort for `sort.Slice`:
the counter map of three entries has 4 + 40·3 bytes and the hash map of two
entries 4 + 64·2 bytes, both within the bounds. -/
theorem WriteDeviceIDMap_size_witness :
    (∀ x ∈ counterEntries3, x.DeviceID.length = 32) ∧
    (∀ x ∈ hashEntries2, x.DeviceID.length = 32 ∧ x.Hash.length = 32) ∧
    (∃ e1, NewEncoder.WriteDeviceIDCounterMap insertionSortSlice counterEntries3 = .ok e1 ∧
      e1.buf.length = NewEncoder.buf.length + (4 + 40 * counterEntries3.length)) ∧
    (∃ e1, NewEncoder.WriteDeviceIDHashMap insertionSortSlice hashEntries2 = .ok e1 ∧
      e1.buf.length = NewEncoder.buf.length + (4 + 64 * hashEntries2.length)) ∧
    (4 + 40 * counterEntries3.length ≤ MaxMapLength * 40 ↔ counterEntries3.length ≤ 1023) :=
  have h := WriteDeviceIDMap_size insertionSortSlice insertionSortSlice
    (fun x => (insertionSortSlice_sorts (fun e : DeviceIDCounterEntry => e.DeviceID) x).1)
    (fun x => (insertionSortSlice_sorts (fun e : DeviceIDHashEntry => e.DeviceID) x).1)
    counterEntries3 hashEntries2 (by decide) (by decide)
  ⟨by decide, by decide, h.1 NewEncoder, h.2.1 NewEncoder, h.2.2.1⟩

/-! ## Request body size (C40) -/

theorem EncodeToString_length (b : Bytes) :
    (StdEncoding.EncodeToString b).length = base64EncodedLen b.length := by
  induction b using StdEncoding.EncodeToString.induct with
  | case1 => rfl
  | case2 a => simp [StdEncoding.EncodeToString, base64EncodedLen]
  | case3 a b => simp [StdEncoding.EncodeToString, base64EncodedLen]
  | case4 a b c rest ih =>
    simp only [StdEncoding.EncodeToString, List.length_cons, ih]
    unfold base64EncodedLen
    omega

/-- The encoder on the test vectors of RFC 4648 (`f`, `fo`, `foobar`) and on
two bytes that need the digits `+` and `/`. -/
theorem EncodeToString_vectors :
    StdEncoding.EncodeToString [102] = [90, 103, 61, 61] ∧
    StdEncoding.EncodeToString [102, 111] = [90, 109, 56, 61] ∧
    StdEncoding.EncodeToString [102, 111, 111, 98, 97, 114] =
      [90, 109, 57, 118, 89, 109, 70, 121] ∧
    StdEncoding.EncodeToString [0xFB, 0xFF] = [43, 47, 56, 61] := by
  refine ⟨by decide, by decide, by decide, by decide⟩

theorem MarshalJSON_length (b : Bytes) :
    (Base64Bytes.MarshalJSON b).length = base64EncodedLen b.length + 2 := by
  unfold Base64Bytes.MarshalJSON
  simp only [List.length_append, List.length_cons, List.length_nil, EncodeToString_length]
  omega

theorem MaxBytesReader_within {body : BodyReader} {n : Nat} (h : body.data.length ≤ n) :
    MaxBytesReader body n = body := by
  unfold MaxBytesReader
  rw [Int.toNat_ofNat, if_neg (Nat.not_lt.mpr h)]

theorem MaxBytesReader_over {body : BodyReader} {n : Nat} (h : n < body.data.length) :
    MaxBytesReader body n =
      { data := body.data.take n, err := some "http: request body too large" } := by
  unfold MaxBytesReader
  rw [Int.toNat_ofNat, if_pos h]

theorem MaxBytesReader_length (body : BodyReader) (n : Nat) :
    (MaxBytesReader body n).data.length ≤ n := by
  rcases Nat.lt_or_ge n body.data.length with h | h
  · rw [MaxBytesReader_over h]
    simp only [List.length_take]
    omega
  · rw [MaxBytesReader_within h]
    exact h

/-- C40 (as stated) fails for snapshots.  A ciphertext of 8 388 608 bytes is
within `MaxSnapshotCiphertext`; its base64 encoding has 11 184 812 bytes, more
than the default body limit of 10 485 760 bytes.  A request whose body carries
its JSON text does not bring it to `ValidateSnapshot`: with the length
declared the middleware answers 413; without a declared length the handler
reads a body cut at 10 485 760 bytes that ends in the error of
`http.MaxBytesReader`, the answer is 400 `invalid_json` when the decoder fails
on it, and a decoder that needs the JSON text of a ciphertext to return it
does not return this one. -/
theorem snapshot_base64_exceeds_default_body_size :
    (zeroBytes 8388608).length ≤ MaxSnapshotCiphertext ∧
    (StdEncoding.EncodeToString (zeroBytes 8388608)).length = 11184812 ∧
    DefaultMaxRequestBodySize = 10485760 ∧
    ¬ ((StdEncoding.EncodeToString (zeroBytes 8388608)).length ≤ DefaultMaxRequestBodySize) ∧
    ∀ (decode : BodyReader → Except String Snapshot) (lib : CryptoLib) (now : String)
      (vaultID : UUID) (s : Store) (r : HTTPRequest) (pre post : Bytes),
      r.Body.data = pre ++ Base64Bytes.MarshalJSON (zeroBytes 8388608) ++ post →
      (r.ContentLength = r.Body.data.length →
        ∀ allow, serveSnapshotCreate decode DefaultMaxRequestBodySize allow lib now
            (some vaultID) s r =
          (.apiError (PayloadTooLarge "request body too large"), s)) ∧
      (r.ContentLength = -1 →
        serveSnapshotCreate decode DefaultMaxRequestBodySize true lib now (some vaultID) s r =
          handleSnapshotCreate lib now s
            { pathVaultID := some vaultID,
              body := decode { data := r.Body.data.take 10485760,
                               err := some "http: request body too large" } } ∧
        (∀ e, decode { data := r.Body.data.take 10485760,
                       err := some "http: request body too large" } = .error e →
          serveSnapshotCreate decode DefaultMaxRequestBodySize true lib now (some vaultID) s r =
            (.apiError (BadRequest "invalid_json" ("failed to parse JSON: " ++ e)), s)) ∧
        ((∀ rd v, decode rd = .ok v →
            (Base64Bytes.MarshalJSON v.Ciphertext).length ≤ rd.data.length) →
          ∀ v, decode { data := r.Body.data.take 10485760,
                        err := some "http: request body too large" } = .ok v →
            v.Ciphertext ≠ zeroBytes 8388608)) := by
  have hz : (zeroBytes 8388608).length = 8388608 := List.length_replicate _ _
  have hd : DefaultMaxRequestBodySize = 10485760 := by decide
  have henc : (StdEncoding.EncodeToString (zeroBytes 8388608)).length = 11184812 := by
    rw [EncodeToString_length, hz]
    decide
  have hjson : (Base64Bytes.MarshalJSON (zeroBytes 8388608)).length = 11184814 := by
    rw [MarshalJSON_length, hz]
    decide
  refine ⟨by rw [hz]; decide, henc, hd, by rw [henc, hd]; decide, ?_⟩
  intro decode lib now vaultID s r pre post hbody
  have hlen : 10485760 < r.Body.data.length := by
    rw [hbody, List.length_append, List.length_append, hjson]
    omega
  have hcut : MaxBytesReader r.Body (DefaultMaxRequestBodySize : Nat) =
      { data := r.Body.data.take 10485760, err := some "http: request body too large" } :=
    MaxBytesReader_over (hd ▸ hlen)
  have hserve : r.ContentLength = -1 →
      serveSnapshotCreate decode DefaultMaxRequestBodySize true lib now (some vaultID) s r =
        handleSnapshotCreate lib now s
          { pathVaultID := some vaultID,
            body := decode { data := r.Body.data.take 10485760,
                             err := some "http: request body too large" } } := by
    intro hc
    unfold serveSnapshotCreate MaxBodySizeMiddleware RateLimitMiddleware
    rw [if_neg (by rw [hc, hd]; decide), hcut]
    rfl
  refine ⟨?_, ?_⟩
  · intro hc allow
    unfold serveSnapshotCreate MaxBodySizeMiddleware
    rw [if_pos (by rw [hc, hd]; exact_mod_cast hlen)]
  · intro hc
    refine ⟨hserve hc, ?_, ?_⟩
    · intro e he
      rw [hserve hc, he]
      rfl
    · intro hdec v hv hcv
      have h1 := hdec _ v hv
      rw [hcv, hjson] at h1
      simp only [List.length_take] at h1
      omega

/-- C40, amended.  The base64 encoding of an `n`-byte ciphertext has
`4·⌈n/3⌉` bytes and its JSON text two more, so a request body carrying it is
longer than that.  Under the default limit `L` = 10 485 760,
`MaxBodySizeMiddleware` answers 413 to a declared `Content-Length` above `L`;
when the rate limiter allows the request, a body of at most `L` bytes is
handed to the handler whole, and a longer body is handed on cut at `L` bytes
and ending in the error of `http.MaxBytesReader`, the answer being 400
`invalid_json` when the decoder fails on it.  The JSON text of every event
ciphertext within `MaxEventCiphertext` has at most 87 386 bytes, and an event
body carrying it with at most 10 398 374 further bytes reaches
`handleEventCreate` whole.  The JSON text of a ciphertext fits in `L` bytes
exactly when `n ≤ 7 864 317`: a body carrying a longer one exceeds `L`, and a
decoder that needs the JSON text of a ciphertext to return it hands
`ValidateSnapshot` only ciphertexts of at most 7 864 317 bytes, fewer than
`MaxSnapshotCiphertext` = 8 388 608. -/
theorem base64_body_size (decode : BodyReader → Except String Snapshot)
    (hdecode : ∀ rd v, decode rd = .ok v →
      (Base64Bytes.MarshalJSON v.Ciphertext).length ≤ rd.data.length)
    (decodeEvent : BodyReader → Except String Event) (allow : Bool)
    (lib : CryptoLib) (now : String) (pathVaultID : Option UUID) (s : Store)
    (r : HTTPRequest) (c pre post : Bytes) :
    ((StdEncoding.EncodeToString c).length = 4 * ((c.length + 2) / 3) ∧
     (Base64Bytes.MarshalJSON c).length = 4 * ((c.length + 2) / 3) + 2) ∧
    (r.ContentLength > DefaultMaxRequestBodySize →
      serveSnapshotCreate decode DefaultMaxRequestBodySize allow lib now pathVaultID s r =
        (.apiError (PayloadTooLarge "request body too large"), s) ∧
      serveEventCreate decodeEvent DefaultMaxRequestBodySize allow lib now pathVaultID s r =
        (.apiError (PayloadTooLarge "request body too large"), s)) ∧
    (r.ContentLength ≤ DefaultMaxRequestBodySize →
      r.Body.data.length ≤ DefaultMaxRequestBodySize →
      serveSnapshotCreate decode DefaultMaxRequestBodySize true lib now pathVaultID s r =
        handleSnapshotCreate lib now s { pathVaultID := pathVaultID, body := decode r.Body } ∧
      serveEventCreate decodeEvent DefaultMaxRequestBodySize true lib now pathVaultID s r =
        handleEventCreate lib now s
          { pathVaultID := pathVaultID, body := decodeEvent r.Body }) ∧
    (r.ContentLength ≤ DefaultMaxRequestBodySize →
      DefaultMaxRequestBodySize < r.Body.data.length →
      serveSnapshotCreate decode DefaultMaxRequestBodySize true lib now pathVaultID s r =
        handleSnapshotCreate lib now s
          { pathVaultID := pathVaultID,
            body := decode { data := r.Body.data.take 10485760,
                             err := some "http: request body too large" } } ∧
      ∀ vaultID e, pathVaultID = some vaultID →
        decode { data := r.Body.data.take 10485760,
                 err := some "http: request body too large" } = .error e →
        serveSnapshotCreate decode DefaultMaxRequestBodySize true lib now pathVaultID s r =
          (.apiError (BadRequest "invalid_json" ("failed to parse JSON: " ++ e)), s)) ∧
    (c.length ≤ MaxEventCiphertext →
      (Base64Bytes.MarshalJSON c).length ≤ 87386 ∧
      (r.Body.data = pre ++ Base64Bytes.MarshalJSON c ++ post →
        pre.length + post.length ≤ 10398374 →
        r.ContentLength ≤ DefaultMaxRequestBodySize →
        serveEventCreate decodeEvent DefaultMaxRequestBodySize true lib now pathVaultID s r =
          handleEventCreate lib now s
            { pathVaultID := pathVaultID, body := decodeEvent r.Body })) ∧
    ((Base64Bytes.MarshalJSON c).length ≤ DefaultMaxRequestBodySize ↔ c.length ≤ 7864317) ∧
    (r.Body.data = pre ++ Base64Bytes.MarshalJSON c ++ post → 7864317 < c.length →
      DefaultMaxRequestBodySize < r.Body.data.length) ∧
    (∀ v, decode (MaxBytesReader r.Body DefaultMaxRequestBodySize) = .ok v →
      v.Ciphertext.length ≤ 7864317 ∧ v.Ciphertext.length < MaxSnapshotCiphertext) := by
  have hd : DefaultMaxRequestBodySize = 10485760 := by decide
  have he : MaxEventCiphertext = 65536 := rfl
  have hs : MaxSnapshotCiphertext = 8388608 := rfl
  have hjson : ∀ x : Bytes,
      (Base64Bytes.MarshalJSON x).length = 4 * ((x.length + 2) / 3) + 2 := by
    intro x
    rw [MarshalJSON_length]
    unfold base64EncodedLen
    omega
  have hwhole : r.ContentLength ≤ DefaultMaxRequestBodySize →
      r.Body.data.length ≤ DefaultMaxRequestBodySize →
      serveSnapshotCreate decode DefaultMaxRequestBodySize true lib now pathVaultID s r =
        handleSnapshotCreate lib now s { pathVaultID := pathVaultID, body := decode r.Body } ∧
      serveEventCreate decodeEvent DefaultMaxRequestBodySize true lib now pathVaultID s r =
        handleEventCreate lib now s
          { pathVaultID := pathVaultID, body := decodeEvent r.Body } := by
    intro hc hb
    unfold serveSnapshotCreate serveEventCreate MaxBodySizeMiddleware RateLimitMiddleware
    rw [if_neg (Int.not_lt.mpr hc), if_neg (Int.not_lt.mpr hc), MaxBytesReader_within hb]
    exact ⟨rfl, rfl⟩
  have hcutS : r.ContentLength ≤ DefaultMaxRequestBodySize →
      DefaultMaxRequestBodySize < r.Body.data.length →
      serveSnapshotCreate decode DefaultMaxRequestBodySize true lib now pathVaultID s r =
        handleSnapshotCreate lib now s
          { pathVaultID := pathVaultID,
            body := decode { data := r.Body.data.take 10485760,
                             err := some "http: request body too large" } } := by
    intro hc hb
    unfold serveSnapshotCreate MaxBodySizeMiddleware RateLimitMiddleware
    rw [if_neg (Int.not_lt.mpr hc), MaxBytesReader_over hb]
    rfl
  refine ⟨⟨?_, hjson c⟩, ?_, hwhole, ?_, ?_, ?_, ?_, ?_⟩
  · rw [EncodeToString_length]
    unfold base64EncodedLen
    omega
  · intro hc
    unfold serveSnapshotCreate serveEventCreate MaxBodySizeMiddleware
    rw [if_pos hc, if_pos hc]
    exact ⟨rfl, rfl⟩
  · intro hc hb
    refine ⟨hcutS hc hb, ?_⟩
    intro vaultID e hp he
    rw [hcutS hc hb, he, hp]
    rfl
  · intro hn
    rw [he] at hn
    have h1 : (Base64Bytes.MarshalJSON c).length ≤ 87386 := by
      rw [hjson]
      omega
    refine ⟨h1, ?_⟩
    intro hbody hrest hc
    refine (hwhole hc ?_).2
    rw [hbody, List.length_append, List.length_append, hd]
    omega
  · rw [hjson, hd]
    omega
  · intro hbody hn
    rw [hbody, List.length_append, List.length_append, hjson, hd]
    omega
  · intro v hv
    have h1 := hdecode _ v hv
    have h2 := MaxBytesReader_length r.Body DefaultMaxRequestBodySize
    rw [hjson] at h1
    rw [hs]
    omega

/-- C40, amended, on concrete inputs: the chunked request `requestChunkedOne`,
whose body carries the ciphertext of `snapshot1`, is handed to
`handleSnapshotCreate` whole, and the decoder `decodeSnapshotOne` returns
`snapshot1` from it. -/
theorem base64_body_size_witness :
    (∀ rd v, decodeSnapshotOne rd = .ok v →
      (Base64Bytes.MarshalJSON v.Ciphertext).length ≤ rd.data.length) ∧
    requestChunkedOne.ContentLength ≤ DefaultMaxRequestBodySize ∧
    requestChunkedOne.Body.data.length ≤ DefaultMaxRequestBodySize ∧
    decodeSnapshotOne requestChunkedOne.Body = .ok snapshot1 ∧
    serveSnapshotCreate decodeSnapshotOne DefaultMaxRequestBodySize true testLib
        "2024-01-09T00:00:00Z" (some vaultA) storeA requestChunkedOne =
      handleSnapshotCreate testLib "2024-01-09T00:00:00Z" storeA
        { pathVaultID := some vaultA, body := decodeSnapshotOne requestChunkedOne.Body } ∧
    (snapshot1.Ciphertext.length ≤ MaxEventCiphertext →
      (Base64Bytes.MarshalJSON snapshot1.Ciphertext).length ≤ 87386) ∧
    (∀ v, decodeSnapshotOne (MaxBytesReader requestChunkedOne.Body DefaultMaxRequestBodySize)
        = .ok v →
      v.Ciphertext.length ≤ 7864317 ∧ v.Ciphertext.length < MaxSnapshotCiphertext) :=
  have hdec : ∀ rd v, decodeSnapshotOne rd = .ok v →
      (Base64Bytes.MarshalJSON v.Ciphertext).length ≤ rd.data.length := by
    intro rd v h
    unfold decodeSnapshotOne at h
    split at h
    · contradiction
    · split at h
      · injection h with h
        subst h
        assumption
      · contradiction
  have h := base64_body_size decodeSnapshotOne hdec (fun _ => .error "unexpected EOF") true
    testLib "2024-01-09T00:00:00Z" (some vaultA) storeA requestChunkedOne snapshot1.Ciphertext
    [0x7B] [0x7D]
  have hc : requestChunkedOne.ContentLength ≤ DefaultMaxRequestBodySize := by decide
  have hb : requestChunkedOne.Body.data.length ≤ DefaultMaxRequestBodySize := by decide
  ⟨hdec, hc, hb, rfl, (h.2.2.1 hc hb).1, fun hn => (h.2.2.2.2.1 hn).1, h.2.2.2.2.2.2.2⟩

/-! ## Hex encoding of device ids -/

theorem hexVal_hexDigit (n : Nat) (h : n < 16) : hexVal (hexDigit n) = some n := by
  interval_cases n <;> decide

theorem isLowerHex_hexDigit (n : Nat) (h : n < 16) : isLowerHex (hexDigit n) = true := by
  interval_cases n <;> decide

theorem hexVal_isSome_iff (c : Char) : (hexVal c).isSome = isHex c := by
  unfold hexVal isHex isLowerHex
  simp only []
  by_cases h1 : 48 ≤ c.toNat ∧ c.toNat ≤ 57
  · simp [h1]
  · by_cases h2 : 97 ≤ c.toNat ∧ c.toNat ≤ 102
    · simp [h1, h2]
    · by_cases h3 : 65 ≤ c.toNat ∧ c.toNat ≤ 70
      · simp [h1, h2, h3]
      · simp only [h1, h2, h3, if_false, Option.isSome_none]
        rw [not_and] at h1 h2 h3
        simp only [Bool.false_eq, Bool.or_eq_false_iff, Bool.and_eq_false_iff,
          decide_eq_false_iff_not]
        omega

theorem utf8Size_of_isHex {c : Char} (h : isHex c = true) : c.utf8Size = 1 := by
  have hlt : c.toNat ≤ 127 := by
    simp only [isHex, isLowerHex, Bool.or_eq_true, Bool.and_eq_true, decide_eq_true_eq] at h
    omega
  have h2 : c.val ≤ 127 := by
    rw [UInt32.le_def]
    exact hlt
  simp only [Char.utf8Size]
  rw [if_pos]
  exact h2

theorem utf8ByteSize_go_of_isHex (l : List Char) (h : ∀ c ∈ l, isHex c = true) :
    String.utf8ByteSize.go l = l.length := by
  induction l with
  | nil => rfl
  | cons c cs ih =>
    simp only [String.utf8ByteSize.go, List.length_cons]
    rw [ih (fun d hd => h d (List.mem_cons_of_mem _ hd)),
      utf8Size_of_isHex (h c (List.mem_cons_self _ _))]

theorem goLen_of_isHex (s : String) (h : ∀ c ∈ s.data, isHex c = true) :
    goLen s = s.data.length := by
  cases s with
  | mk l => exact utf8ByteSize_go_of_isHex l h

theorem hexDecodeChars_some {cs : List Char} {b : Bytes} (h : hexDecodeChars cs = some b) :
    cs.length = 2 * b.length ∧ ∀ c ∈ cs, isHex c = true := by
  induction cs using hexDecodeChars.induct generalizing b with
  | case1 => simp [hexDecodeChars] at h; subst h; simp
  | case2 c => simp [hexDecodeChars] at h
  | case3 p q rest x y hp hq tl htl ih =>
    simp only [hexDecodeChars, hp, hq, htl] at h
    injection h with h
    subst h
    obtain ⟨h1, h2⟩ := ih htl
    refine ⟨by simp [h1]; omega, ?_⟩
    intro c hc
    simp only [List.mem_cons] at hc
    rcases hc with rfl | rfl | hc
    · rw [← hexVal_isSome_iff]; simp [*]
    · rw [← hexVal_isSome_iff]; simp [*]
    · exact h2 c hc
  | case4 p q rest x y hp hq htl ih =>
    simp [hexDecodeChars, hp, hq, htl] at h
  | case5 p q rest hne =>
    simp only [hexDecodeChars] at h
    contradiction

theorem hexDecodeChars_of_isHex (n : Nat) (cs : List Char) (hl : cs.length = 2 * n)
    (h : ∀ c ∈ cs, isHex c = true) : ∃ b, hexDecodeChars cs = some b := by
  induction n generalizing cs with
  | zero =>
    have : cs = [] := List.length_eq_zero.mp (by omega)
    subst this
    exact ⟨[], rfl⟩
  | succ n ih =>
    match cs, hl, h with
    | [], hl, _ => simp at hl
    | [_], hl, _ => simp at hl; omega
    | p :: q :: rest, hl, h =>
      have hp : (hexVal p).isSome = true := by
        rw [hexVal_isSome_iff]; exact h p (by simp)
      have hq : (hexVal q).isSome = true := by
        rw [hexVal_isSome_iff]; exact h q (by simp)
      obtain ⟨a, ha⟩ := Option.isSome_iff_exists.mp hp
      obtain ⟨b, hb⟩ := Option.isSome_iff_exists.mp hq
      obtain ⟨tl, htl⟩ := ih rest (by simp at hl; omega)
        (fun c hc => h c (by simp [hc]))
      exact ⟨byteOf (a * 16 + b) :: tl, by simp [hexDecodeChars, ha, hb, htl]⟩

theorem hexEncode_data (b : Bytes) :
    (hexEncode b).data = b.flatMap (fun x => [hexDigit (x.val / 16), hexDigit (x.val % 16)]) :=
  rfl

theorem hexEncode_isLowerHex (b : Bytes) : ∀ c ∈ (hexEncode b).data, isLowerHex c = true := by
  intro c hc
  rw [hexEncode_data, List.mem_flatMap] at hc
  obtain ⟨x, _, hx⟩ := hc
  simp only [List.mem_cons, List.mem_singleton, List.not_mem_nil, or_false] at hx
  rcases hx with rfl | rfl
  · exact isLowerHex_hexDigit _ (by omega)
  · exact isLowerHex_hexDigit _ (by omega)

theorem hexEncode_length (b : Bytes) : (hexEncode b).data.length = 2 * b.length := by
  rw [hexEncode_data]
  induction b with
  | nil => rfl
  | cons x xs ih => simp [List.flatMap_cons, ih]; omega

theorem byteOf_hex (x : Byte) : byteOf (x.val / 16 * 16 + x.val % 16) = x := by
  apply Fin.ext
  simp only [byteOf]
  have := x.isLt
  omega

theorem hexDecodeChars_hexEncode (b : Bytes) : hexDecodeChars (hexEncode b).data = some b := by
  rw [hexEncode_data]
  induction b with
  | nil => rfl
  | cons x xs ih =>
    rw [List.flatMap_cons]
    show hexDecodeChars (hexDigit (x.val / 16) :: hexDigit (x.val % 16) ::
      xs.flatMap (fun x => [hexDigit (x.val / 16), hexDigit (x.val % 16)])) = some (x :: xs)
    simp only [hexDecodeChars]
    rw [hexVal_hexDigit _ (by have := x.isLt; omega), hexVal_hexDigit _ (by omega)]
    simp only [ih, byteOf_hex]

theorem goLen_hexEncode (b : Bytes) : goLen (hexEncode b) = 2 * b.length := by
  rw [goLen_of_isHex, hexEncode_length]
  intro c hc
  simp [isHex, hexEncode_isLowerHex b c hc]

theorem sum256_length (m : Bytes) : (Sha256.sum256 m).length = 32 := by
  simp [Sha256.sum256, Sha256.be32]

/-- A device id that passes `DeviceID.Validate` decodes, through
`DeviceIDToBytes`, to 32 bytes. -/
theorem DeviceIDToBytes_of_Validate {d : String} (h : DeviceID.Validate d = .ok ()) :
    ∃ b, DeviceIDToBytes d = .ok b ∧ b.length = 32 := by
  unfold DeviceID.Validate at h
  by_cases hl : (goLen d != 64) = true
  · rw [if_pos hl] at h; contradiction
  rw [if_neg hl] at h
  unfold DeviceIDToBytes
  rw [if_neg hl]
  unfold hexDecodeString at h ⊢
  cases hd : hexDecodeChars d.data with
  | none => rw [hd] at h; contradiction
  | some b =>
    refine ⟨b, rfl, ?_⟩
    obtain ⟨h1, h2⟩ := hexDecodeChars_some hd
    have h3 := goLen_of_isHex d h2
    simp only [bne_iff_ne, ne_eq, Decidable.not_not] at hl
    omega

theorem DeviceIDToBytes_ok_length {d : String} {b : Bytes} (h : DeviceIDToBytes d = .ok b) :
    b.length = 32 := by
  unfold DeviceIDToBytes at h
  by_cases hl : (goLen d != 64) = true
  · rw [if_pos hl] at h; contradiction
  rw [if_neg hl] at h
  unfold hexDecodeString at h
  cases hd : hexDecodeChars d.data with
  | none => rw [hd] at h; contradiction
  | some b2 =>
    rw [hd] at h
    injection h with h
    subst h
    obtain ⟨h1, h2⟩ := hexDecodeChars_some hd
    have h3 := goLen_of_isHex d h2
    simp only [bne_iff_ne, ne_eq, Decidable.not_not] at hl
    omega

/-! ## Device ids (C23, C24) -/

/-- `DeviceID.Validate` accepts exactly the strings of 64 hexadecimal digits
of either case. -/
theorem DeviceID_Validate_iff (d : String) :
    DeviceID.Validate d = .ok () ↔ d.data.length = 64 ∧ ∀ c ∈ d.data, isHex c = true := by
  unfold DeviceID.Validate hexDecodeString
  constructor
  · intro h
    by_cases hl : (goLen d != 64) = true
    · rw [if_pos hl] at h; contradiction
    rw [if_neg hl] at h
    cases hd : hexDecodeChars d.data with
    | none => rw [hd] at h; contradiction
    | some b =>
      obtain ⟨h1, h2⟩ := hexDecodeChars_some hd
      have h3 := goLen_of_isHex d h2
      simp only [bne_iff_ne, ne_eq, Decidable.not_not] at hl
      exact ⟨by omega, h2⟩
  · intro ⟨h1, h2⟩
    have h3 := goLen_of_isHex d h2
    have hl : ¬ ((goLen d != 64) = true) := by
      simp only [bne_iff_ne, ne_eq, Decidable.not_not]; omega
    rw [if_neg hl]
    obtain ⟨b, hb⟩ := hexDecodeChars_of_isHex 32 d.data h1 h2
    rw [hb]

/-- C23. `ComputeDeviceID` and `ComputeDeviceIDBytes` fail exactly when the
key is not 32 bytes.  For a 32-byte key `pk`, `ComputeDeviceID pk` is a string
of 64 characters (and 64 bytes), all lowercase hexadecimal digits, that passes
`DeviceID.Validate`; `DeviceIDToBytes` of it and `ComputeDeviceIDBytes pk` are
both the 32 bytes of SHA-256(`pk`); and `VerifyDeviceID s pk` succeeds exactly
when `s` is that string. -/
theorem ComputeDeviceID_spec (pk : Bytes) :
    ((∃ err, ComputeDeviceID pk = .error err) ↔ pk.length ≠ 32) ∧
    ((∃ err, ComputeDeviceIDBytes pk = .error err) ↔ pk.length ≠ 32) ∧
    (pk.length = 32 →
      ∃ id : String, ComputeDeviceID pk = .ok id ∧
        id.data.length = 64 ∧ goLen id = 64 ∧ (∀ c ∈ id.data, isLowerHex c = true) ∧
        DeviceID.Validate id = .ok () ∧
        DeviceIDToBytes id = .ok (Sha256.sum256 pk) ∧
        ComputeDeviceIDBytes pk = .ok (Sha256.sum256 pk) ∧
        (Sha256.sum256 pk).length = 32 ∧
        ∀ s : String, VerifyDeviceID s pk = .ok () ↔ s = id) := by
  refine ⟨?_, ?_, ?_⟩
  · unfold ComputeDeviceID
    by_cases h : pk.length = 32
    · simp [h, ed25519PublicKeySize]
    · simp [h, ed25519PublicKeySize]
  · unfold ComputeDeviceIDBytes
    by_cases h : pk.length = 32
    · simp [h, ed25519PublicKeySize]
    · simp [h, ed25519PublicKeySize]
  · intro h
    have hc : ComputeDeviceID pk = .ok (hexEncode (Sha256.sum256 pk)) := by
      simp [ComputeDeviceID, h, ed25519PublicKeySize]
    have hlen : (hexEncode (Sha256.sum256 pk)).data.length = 64 := by
      rw [hexEncode_length, sum256_length]
    have hgo : goLen (hexEncode (Sha256.sum256 pk)) = 64 := by
      rw [goLen_hexEncode, sum256_length]
    have hlow := hexEncode_isLowerHex (Sha256.sum256 pk)
    have hhex : ∀ c ∈ (hexEncode (Sha256.sum256 pk)).data, isHex c = true := by
      intro c hc'
      simp [isHex, hlow c hc']
    refine ⟨_, hc, hlen, hgo, hlow, (DeviceID_Validate_iff _).mpr ⟨hlen, hhex⟩, ?_, ?_,
      sum256_length pk, ?_⟩
    · simp [DeviceIDToBytes, hgo, hexDecodeString, hexDecodeChars_hexEncode]
    · simp [ComputeDeviceIDBytes, h, ed25519PublicKeySize]
    · intro s
      unfold VerifyDeviceID
      rw [hc]
      by_cases hs : s = hexEncode (Sha256.sum256 pk)
      · simp [hs]
      · simp [hs]

/-- C23 on concrete inputs: the 32-byte key `keyOwner` has the device id
`devOwner`, which `VerifyDeviceID` accepts for that key. -/
theorem ComputeDeviceID_spec_witness :
    keyOwner.length = 32 ∧ ComputeDeviceID keyOwner = .ok devOwner ∧
    ∃ id : String, ComputeDeviceID keyOwner = .ok id ∧
      id.data.length = 64 ∧ goLen id = 64 ∧ (∀ c ∈ id.data, isLowerHex c = true) ∧
      DeviceID.Validate id = .ok () ∧
      DeviceIDToBytes id = .ok (Sha256.sum256 keyOwner) ∧
      ComputeDeviceIDBytes keyOwner = .ok (Sha256.sum256 keyOwner) ∧
      (Sha256.sum256 keyOwner).length = 32 ∧
      ∀ s : String, VerifyDeviceID s keyOwner = .ok () ↔ s = id :=
  ⟨by decide, by decide!, (ComputeDeviceID_spec keyOwner).2.2 (by decide)⟩

/-- C24, the code at the failing input.  `devOwnerUpper` has 64 characters,
hexadecimal digits among which are uppercase letters; `DeviceID.Validate`
accepts it and `DeviceIDToBytes` decodes it to the bytes of the lowercase
`devOwner`.  No validator answers `invalid_device_id` for it: `ValidateEvent`
answers 403 `forbidden` (no member row has that id) and `ValidateBundle`
answers `device_id_mismatch`. -/
theorem DeviceID_Validate_accepts_uppercase :
    devOwnerUpper.data.length = 64 ∧
    (∀ c ∈ devOwnerUpper.data, isHex c = true) ∧
    (∃ c ∈ devOwnerUpper.data, isLowerHex c = false) ∧
    DeviceID.Validate devOwnerUpper = .ok () ∧
    DeviceIDToBytes devOwnerUpper = DeviceIDToBytes devOwner ∧
    ValidateEvent testLib storeA event1Upper = .error MembershipRequired ∧
    ValidateBundle testLib bundleOwnerUpper =
      .error (BadRequest "device_id_mismatch"
        "device_id does not match sha256(device_pubkey_sign)") ∧
    InvalidDeviceID.Message = "device_id must be 64 lowercase hex characters" := by
  refine ⟨by decide, by decide, ⟨'C', by decide, by decide⟩, by decide, by decide,
    by decide!, by decide!, rfl⟩

/-! ## Injectivity of the fixed-width encodings -/

theorem byteOf_eq_iff (a b : Nat) : byteOf a = byteOf b ↔ a % 256 = b % 256 := by
  simp [byteOf, Fin.ext_iff]

theorem be32_inj {a b : Nat} (ha : a < 2 ^ 32) (hb : b < 2 ^ 32) (h : be32 a = be32 b) :
    a = b := by
  simp only [be32, List.cons.injEq, and_true, byteOf_eq_iff, Nat.shiftRight_eq_div_pow] at h
  obtain ⟨h1, h2, h3, h4⟩ := h
  norm_num at ha hb h1 h2 h3 h4
  omega

theorem be64_inj {a b : Nat} (ha : a < 2 ^ 64) (hb : b < 2 ^ 64) (h : be64 a = be64 b) :
    a = b := by
  simp only [be64, List.cons.injEq, and_true, byteOf_eq_iff, Nat.shiftRight_eq_div_pow] at h
  obtain ⟨h1, h2, h3, h4, h5, h6, h7, h8⟩ := h
  norm_num at ha hb h1 h2 h3 h4 h5 h6 h7 h8
  omega

/-- Splitting off a first field of known length. -/
theorem fixed_append_inj {a a2 r r2 : Bytes} {n : Nat} (ha : a.length = n)
    (ha2 : a2.length = n) (h : a ++ r = a2 ++ r2) : a = a2 ∧ r = r2 :=
  List.append_inj h (ha.trans ha2.symm)

/-- Splitting off a first `be64` field. -/
theorem be64_append_inj {v v2 : Nat} {r r2 : Bytes} (hv : v < 2 ^ 64) (hv2 : v2 < 2 ^ 64)
    (h : be64 v ++ r = be64 v2 ++ r2) : v = v2 ∧ r = r2 := by
  obtain ⟨h1, h2⟩ := List.append_inj h (by rw [be64_length, be64_length])
  exact ⟨be64_inj hv hv2 h1, h2⟩

/-- Splitting off a first length-prefixed field. -/
theorem var_append_inj {a a2 r r2 : Bytes} (ha : a.length < 2 ^ 32)
    (ha2 : a2.length < 2 ^ 32)
    (h : be32 a.length ++ (a ++ r) = be32 a2.length ++ (a2 ++ r2)) : a = a2 ∧ r = r2 := by
  obtain ⟨h1, h2⟩ := List.append_inj h (by rw [be32_length, be32_length])
  exact List.append_inj h2 (be32_inj ha ha2 h1)

/-- A last length-prefixed field. -/
theorem var_last_inj {a a2 : Bytes}
    (h : be32 a.length ++ a = be32 a2.length ++ a2) : a = a2 :=
  (List.append_inj h (by rw [be32_length, be32_length])).2

theorem bool_byte_inj {v v2 : Bool}
    (h : [if v then (1 : Byte) else 0] = [if v2 then (1 : Byte) else 0]) : v = v2 := by
  cases v <;> cases v2
  · rfl
  · exact absurd h (by decide)
  · exact absurd h (by decide)
  · rfl

/-! ## Sign-bytes: exact output and injectivity -/

theorem SignBytesDeviceBundle_ok_iff {deviceID pubkeySign pubkeyBox : Bytes} {out : Bytes} :
    SignBytesDeviceBundle deviceID pubkeySign pubkeyBox = .ok out ↔
      (deviceID.length = 32 ∧ pubkeySign.length = 32 ∧ pubkeyBox.length = 32) ∧
      out = signHeader "device_bundle" ++ (deviceID ++ (pubkeySign ++ pubkeyBox)) := by
  constructor
  · intro h
    unfold SignBytesDeviceBundle at h
    simp only [bind, Except.bind, pure, Except.pure, Encoder.WriteUUID, Encoder.WriteDeviceID,
      Encoder.WriteHash, Encoder.WriteSignature, Encoder.WriteNonce,
      Encoder.WritePublicKey] at h
    repeat' (split at h <;> try contradiction)
    injection h with h
    subst h
    simp only [wrapField_ok_iff] at *
    simp_all only [signHeader, Encoder.Bytes, Encoder.WriteU64, Encoder.WriteBytes,
      Encoder.WriteU32, Encoder.WriteBool_buf, Encoder.WriteString, NewEncoder, SignPrefix,
      goLen_SignPrefix, zeroBytes_length, List.nil_append, List.append_assoc, and_self]
  · rintro ⟨⟨h1, h2, h3⟩, rfl⟩
    simp only [SignBytesDeviceBundle, bind, Except.bind, pure, Except.pure, wrapField,
      Encoder.WriteUUID, Encoder.WriteDeviceID, Encoder.WriteHash, Encoder.WriteSignature,
      Encoder.WriteNonce, Encoder.WritePublicKey, Encoder.WriteFixedBytes, Encoder.WriteU64,
      Encoder.WriteString, Encoder.WriteBytes, Encoder.WriteU32, Encoder.WriteBool_buf,
      Encoder.Bytes, NewEncoder, signHeader, goLen_SignPrefix, SignPrefix, zeroBytes_length,
      h1, h2, h3, bne_self_eq_false, Bool.false_eq_true, ↓reduceIte, List.nil_append,
      List.append_assoc]

theorem SignBytesDeviceBundle_inj {deviceID pubkeySign pubkeyBox : Bytes}
    {deviceID2 pubkeySign2 pubkeyBox2 : Bytes} {out : Bytes}
    (h : SignBytesDeviceBundle deviceID pubkeySign pubkeyBox = .ok out)
    (h2 : SignBytesDeviceBundle deviceID2 pubkeySign2 pubkeyBox2 = .ok out) :
    deviceID = deviceID2 ∧ pubkeySign = pubkeySign2 ∧ pubkeyBox = pubkeyBox2 := by
  obtain ⟨⟨l1, l2, l3⟩, e⟩ := SignBytesDeviceBundle_ok_iff.mp h
  obtain ⟨⟨m1, m2, m3⟩, e2⟩ := SignBytesDeviceBundle_ok_iff.mp h2
  rw [e] at e2
  replace e2 := List.append_cancel_left e2
  obtain ⟨q0, e2⟩ := fixed_append_inj l1 m1 e2
  obtain ⟨q1, e2⟩ := fixed_append_inj l2 m2 e2
  have q2 := e2
  exact ⟨q0, q1, q2⟩

theorem SignBytesEvent_ok_iff {eventID vaultID deviceID : Bytes}
    {counter lamport keyEpoch : Nat} {prevHash nonce ciphertext : Bytes} {out : Bytes} :
    SignBytesEvent eventID vaultID deviceID counter lamport keyEpoch prevHash nonce ciphertext
      = .ok out ↔
      (eventID.length = 16 ∧ vaultID.length = 16 ∧ deviceID.length = 32 ∧ prevHash.length = 32 ∧
        nonce.length = 24) ∧
      out = signHeader "event" ++ (eventID ++ (vaultID ++ (deviceID ++ (be64 counter ++
        (be64 lamport ++ (be64 keyEpoch ++ (prevHash ++ (nonce ++
        (be32 ciphertext.length ++ ciphertext))))))))) := by
  constructor
  · intro h
    unfold SignBytesEvent at h
    simp only [bind, Except.bind, pure, Except.pure, Encoder.WriteUUID, Encoder.WriteDeviceID,
      Encoder.WriteHash, Encoder.WriteSignature, Encoder.WriteNonce,
      Encoder.WritePublicKey] at h
    repeat' (split at h <;> try contradiction)
    injection h with h
    subst h
    simp only [wrapField_ok_iff] at *
    simp_all only [signHeader, Encoder.Bytes, Encoder.WriteU64, Encoder.WriteBytes,
      Encoder.WriteU32, Encoder.WriteBool_buf, Encoder.WriteString, NewEncoder, SignPrefix,
      goLen_SignPrefix, zeroBytes_length, List.nil_append, List.append_assoc, and_self]
  · rintro ⟨⟨h1, h2, h3, h4, h5⟩, rfl⟩
    simp only [SignBytesEvent, bind, Except.bind, pure, Except.pure, wrapField,
      Encoder.WriteUUID, Encoder.WriteDeviceID, Encoder.WriteHash, Encoder.WriteSignature,
      Encoder.WriteNonce, Encoder.WritePublicKey, Encoder.WriteFixedBytes, Encoder.WriteU64,
      Encoder.WriteString, Encoder.WriteBytes, Encoder.WriteU32, Encoder.WriteBool_buf,
      Encoder.Bytes, NewEncoder, signHeader, goLen_SignPrefix, SignPrefix, zeroBytes_length,
      h1, h2, h3, h4, h5, bne_self_eq_false, Bool.false_eq_true, ↓reduceIte, List.nil_append,
      List.append_assoc]

theorem SignBytesEvent_inj {eventID vaultID deviceID : Bytes} {counter lamport keyEpoch : Nat}
    {prevHash nonce ciphertext : Bytes} {eventID2 vaultID2 deviceID2 : Bytes}
    {counter2 lamport2 keyEpoch2 : Nat} {prevHash2 nonce2 ciphertext2 : Bytes} {out : Bytes}
    (hu_counter : counter < 2 ^ 64) (hu_counter2 : counter2 < 2 ^ 64)
    (hu_lamport : lamport < 2 ^ 64) (hu_lamport2 : lamport2 < 2 ^ 64)
    (hu_keyEpoch : keyEpoch < 2 ^ 64) (hu_keyEpoch2 : keyEpoch2 < 2 ^ 64)
    (h : SignBytesEvent eventID vaultID deviceID counter lamport keyEpoch prevHash nonce
      ciphertext = .ok out)
    (h2 : SignBytesEvent eventID2 vaultID2 deviceID2 counter2 lamport2 keyEpoch2 prevHash2
      nonce2 ciphertext2 = .ok out) :
    eventID = eventID2 ∧ vaultID = vaultID2 ∧ deviceID = deviceID2 ∧ counter = counter2 ∧
      lamport = lamport2 ∧ keyEpoch = keyEpoch2 ∧ prevHash = prevHash2 ∧ nonce = nonce2 ∧
      ciphertext = ciphertext2 := by
  obtain ⟨⟨l1, l2, l3, l4, l5⟩, e⟩ := SignBytesEvent_ok_iff.mp h
  obtain ⟨⟨m1, m2, m3, m4, m5⟩, e2⟩ := SignBytesEvent_ok_iff.mp h2
  rw [e] at e2
  replace e2 := List.append_cancel_left e2
  obtain ⟨q0, e2⟩ := fixed_append_inj l1 m1 e2
  obtain ⟨q1, e2⟩ := fixed_append_inj l2 m2 e2
  obtain ⟨q2, e2⟩ := fixed_append_inj l3 m3 e2
  obtain ⟨q3, e2⟩ := be64_append_inj hu_counter hu_counter2 e2
  obtain ⟨q4, e2⟩ := be64_append_inj hu_lamport hu_lamport2 e2
  obtain ⟨q5, e2⟩ := be64_append_inj hu_keyEpoch hu_keyEpoch2 e2
  obtain ⟨q6, e2⟩ := fixed_append_inj l4 m4 e2
  obtain ⟨q7, e2⟩ := fixed_append_inj l5 m5 e2
  have q8 := var_last_inj e2
  exact ⟨q0, q1, q2, q3, q4, q5, q6, q7, q8⟩

theorem SignBytesMemberAdd_ok_iff {memberEventID vaultID : Bytes} {memberSeq : Nat}
    {prevHash actorDeviceID subjectDeviceID inviteID claimSig : Bytes}
    {subjectBundleSig subjectPubkeySign subjectPubkeyBox : Bytes} {out : Bytes} :
    SignBytesMemberAdd memberEventID vaultID memberSeq prevHash actorDeviceID subjectDeviceID
      inviteID claimSig subjectBundleSig subjectPubkeySign subjectPubkeyBox = .ok out ↔
      (memberEventID.length = 16 ∧ vaultID.length = 16 ∧ prevHash.length = 32 ∧
        actorDeviceID.length = 32 ∧ subjectDeviceID.length = 32 ∧ inviteID.length = 16 ∧
        claimSig.length = 64 ∧ subjectBundleSig.length = 64 ∧ subjectPubkeySign.length = 32 ∧
        subjectPubkeyBox.length = 32) ∧
      out = signHeader "member_add" ++ (memberEventID ++ (vaultID ++ (be64 memberSeq ++
        (prevHash ++ (actorDeviceID ++ (subjectDeviceID ++ (inviteID ++ (claimSig ++
        (subjectBundleSig ++ (subjectPubkeySign ++ subjectPubkeyBox)))))))))) := by
  constructor
  · intro h
    unfold SignBytesMemberAdd at h
    simp only [bind, Except.bind, pure, Except.pure, Encoder.WriteUUID, Encoder.WriteDeviceID,
      Encoder.WriteHash, Encoder.WriteSignature, Encoder.WriteNonce,
      Encoder.WritePublicKey] at h
    repeat' (split at h <;> try contradiction)
    injection h with h
    subst h
    simp only [wrapField_ok_iff] at *
    simp_all only [signHeader, Encoder.Bytes, Encoder.WriteU64, Encoder.WriteBytes,
      Encoder.WriteU32, Encoder.WriteBool_buf, Encoder.WriteString, NewEncoder, SignPrefix,
      goLen_SignPrefix, zeroBytes_length, List.nil_append, List.append_assoc, and_self]
  · rintro ⟨⟨h1, h2, h3, h4, h5, h6, h7, h8, h9, h10⟩, rfl⟩
    simp only [SignBytesMemberAdd, bind, Except.bind, pure, Except.pure, wrapField,
      Encoder.WriteUUID, Encoder.WriteDeviceID, Encoder.WriteHash, Encoder.WriteSignature,
      Encoder.WriteNonce, Encoder.WritePublicKey, Encoder.WriteFixedBytes, Encoder.WriteU64,
      Encoder.WriteString, Encoder.WriteBytes, Encoder.WriteU32, Encoder.WriteBool_buf,
      Encoder.Bytes, NewEncoder, signHeader, goLen_SignPrefix, SignPrefix, zeroBytes_length,
      h1, h2, h3, h4, h5, h6, h7, h8, h9, h10, bne_self_eq_false, Bool.false_eq_true,
      ↓reduceIte, List.nil_append, List.append_assoc]

theorem SignBytesMemberAdd_inj {memberEventID vaultID : Bytes} {memberSeq : Nat}
    {prevHash actorDeviceID subjectDeviceID inviteID claimSig : Bytes}
    {subjectBundleSig subjectPubkeySign subjectPubkeyBox : Bytes}
    {memberEventID2 vaultID2 : Bytes} {memberSeq2 : Nat}
    {prevHash2 actorDeviceID2 subjectDeviceID2 inviteID2 claimSig2 : Bytes}
    {subjectBundleSig2 subjectPubkeySign2 subjectPubkeyBox2 : Bytes} {out : Bytes}
    (hu_memberSeq : memberSeq < 2 ^ 64) (hu_memberSeq2 : memberSeq2 < 2 ^ 64)
    (h : SignBytesMemberAdd memberEventID vaultID memberSeq prevHash actorDeviceID
      subjectDeviceID inviteID claimSig subjectBundleSig subjectPubkeySign subjectPubkeyBox
      = .ok out)
    (h2 : SignBytesMemberAdd memberEventID2 vaultID2 memberSeq2 prevHash2 actorDeviceID2
      subjectDeviceID2 inviteID2 claimSig2 subjectBundleSig2 subjectPubkeySign2
      subjectPubkeyBox2 = .ok out) :
    memberEventID = memberEventID2 ∧ vaultID = vaultID2 ∧ memberSeq = memberSeq2 ∧
      prevHash = prevHash2 ∧ actorDeviceID = actorDeviceID2 ∧
      subjectDeviceID = subjectDeviceID2 ∧ inviteID = inviteID2 ∧ claimSig = claimSig2 ∧
      subjectBundleSig = subjectBundleSig2 ∧ subjectPubkeySign = subjectPubkeySign2 ∧
      subjectPubkeyBox = subjectPubkeyBox2 := by
  obtain ⟨⟨l1, l2, l3, l4, l5, l6, l7, l8, l9, l10⟩, e⟩ := SignBytesMemberAdd_ok_iff.mp h
  obtain ⟨⟨m1, m2, m3, m4, m5, m6, m7, m8, m9, m10⟩, e2⟩ := SignBytesMemberAdd_ok_iff.mp h2
  rw [e] at e2
  replace e2 := List.append_cancel_left e2
  obtain ⟨q0, e2⟩ := fixed_append_inj l1 m1 e2
  obtain ⟨q1, e2⟩ := fixed_append_inj l2 m2 e2
  obtain ⟨q2, e2⟩ := be64_append_inj hu_memberSeq hu_memberSeq2 e2
  obtain ⟨q3, e2⟩ := fixed_append_inj l3 m3 e2
  obtain ⟨q4, e2⟩ := fixed_append_inj l4 m4 e2
  obtain ⟨q5, e2⟩ := fixed_append_inj l5 m5 e2
  obtain ⟨q6, e2⟩ := fixed_append_inj l6 m6 e2
  obtain ⟨q7, e2⟩ := fixed_append_inj l7 m7 e2
  obtain ⟨q8, e2⟩ := fixed_append_inj l8 m8 e2
  obtain ⟨q9, e2⟩ := fixed_append_inj l9 m9 e2
  have q10 := e2
  exact ⟨q0, q1, q2, q3, q4, q5, q6, q7, q8, q9, q10⟩

theorem SignBytesMemberRemove_ok_iff {memberEventID vaultID : Bytes} {memberSeq : Nat}
    {prevHash actorDeviceID subjectDeviceID : Bytes} {out : Bytes} :
    SignBytesMemberRemove memberEventID vaultID memberSeq prevHash actorDeviceID subjectDeviceID
      = .ok out ↔
      (memberEventID.length = 16 ∧ vaultID.length = 16 ∧ prevHash.length = 32 ∧
        actorDeviceID.length = 32 ∧ subjectDeviceID.length = 32) ∧
      out = signHeader "member_remove" ++ (memberEventID ++ (vaultID ++ (be64 memberSeq ++
        (prevHash ++ (actorDeviceID ++ (subjectDeviceID ++ (zeroBytes 16 ++ (zeroBytes 64 ++
        (zeroBytes 64 ++ (zeroBytes 32 ++ zeroBytes 32)))))))))) := by
  constructor
  · intro h
    unfold SignBytesMemberRemove at h
    simp only [bind, Except.bind, pure, Except.pure, Encoder.WriteUUID, Encoder.WriteDeviceID,
      Encoder.WriteHash, Encoder.WriteSignature, Encoder.WriteNonce,
      Encoder.WritePublicKey] at h
    repeat' (split at h <;> try contradiction)
    injection h with h
    subst h
    simp only [wrapField_ok_iff] at *
    simp_all only [signHeader, Encoder.Bytes, Encoder.WriteU64, Encoder.WriteBytes,
      Encoder.WriteU32, Encoder.WriteBool_buf, Encoder.WriteString, NewEncoder, SignPrefix,
      goLen_SignPrefix, zeroBytes_length, List.nil_append, List.append_assoc, and_self]
  · rintro ⟨⟨h1, h2, h3, h4, h5⟩, rfl⟩
    simp only [SignBytesMemberRemove, bind, Except.bind, pure, Except.pure, wrapField,
      Encoder.WriteUUID, Encoder.WriteDeviceID, Encoder.WriteHash, Encoder.WriteSignature,
      Encoder.WriteNonce, Encoder.WritePublicKey, Encoder.WriteFixedBytes, Encoder.WriteU64,
      Encoder.WriteString, Encoder.WriteBytes, Encoder.WriteU32, Encoder.WriteBool_buf,
      Encoder.Bytes, NewEncoder, signHeader, goLen_SignPrefix, SignPrefix, zeroBytes_length,
      h1, h2, h3, h4, h5, bne_self_eq_false, Bool.false_eq_true, ↓reduceIte, List.nil_append,
      List.append_assoc]

theorem SignBytesMemberRemove_inj {memberEventID vaultID : Bytes} {memberSeq : Nat}
    {prevHash actorDeviceID subjectDeviceID : Bytes} {memberEventID2 vaultID2 : Bytes}
    {memberSeq2 : Nat} {prevHash2 actorDeviceID2 subjectDeviceID2 : Bytes} {out : Bytes}
    (hu_memberSeq : memberSeq < 2 ^ 64) (hu_memberSeq2 : memberSeq2 < 2 ^ 64)
    (h : SignBytesMemberRemove memberEventID vaultID memberSeq prevHash actorDeviceID
      subjectDeviceID = .ok out)
    (h2 : SignBytesMemberRemove memberEventID2 vaultID2 memberSeq2 prevHash2 actorDeviceID2
      subjectDeviceID2 = .ok out) :
    memberEventID = memberEventID2 ∧ vaultID = vaultID2 ∧ memberSeq = memberSeq2 ∧
      prevHash = prevHash2 ∧ actorDeviceID = actorDeviceID2 ∧
      subjectDeviceID = subjectDeviceID2 := by
  obtain ⟨⟨l1, l2, l3, l4, l5⟩, e⟩ := SignBytesMemberRemove_ok_iff.mp h
  obtain ⟨⟨m1, m2, m3, m4, m5⟩, e2⟩ := SignBytesMemberRemove_ok_iff.mp h2
  rw [e] at e2
  replace e2 := List.append_cancel_left e2
  obtain ⟨q0, e2⟩ := fixed_append_inj l1 m1 e2
  obtain ⟨q1, e2⟩ := fixed_append_inj l2 m2 e2
  obtain ⟨q2, e2⟩ := be64_append_inj hu_memberSeq hu_memberSeq2 e2
  obtain ⟨q3, e2⟩ := fixed_append_inj l3 m3 e2
  obtain ⟨q4, e2⟩ := fixed_append_inj l4 m4 e2
  obtain ⟨q5, e2⟩ := fixed_append_inj l5 m5 e2
  replace e2 := List.append_cancel_left e2
  replace e2 := List.append_cancel_left e2
  replace e2 := List.append_cancel_left e2
  replace e2 := List.append_cancel_left e2
  exact ⟨q0, q1, q2, q3, q4, q5⟩

theorem SignBytesInvite_ok_iff
    {inviteID vaultID targetDeviceID targetPubkeySign targetPubkeyBox : Bytes}
    {targetBundleSig nonce wrappedPayload createdByDeviceID : Bytes} {singleUse : Bool}
    {out : Bytes} :
    SignBytesInvite inviteID vaultID targetDeviceID targetPubkeySign targetPubkeyBox
      targetBundleSig nonce wrappedPayload createdByDeviceID singleUse = .ok out ↔
      (inviteID.length = 16 ∧ vaultID.length = 16 ∧ targetDeviceID.length = 32 ∧
        targetPubkeySign.length = 32 ∧ targetPubkeyBox.length = 32 ∧
        targetBundleSig.length = 64 ∧ nonce.length = 24 ∧ createdByDeviceID.length = 32) ∧
      out = signHeader "invite" ++ (inviteID ++ (vaultID ++ (targetDeviceID ++
        (targetPubkeySign ++ (targetPubkeyBox ++ (targetBundleSig ++ (nonce ++
        (be32 wrappedPayload.length ++ (wrappedPayload ++ (createdByDeviceID ++
        [if singleUse then 1 else 0])))))))))) := by
  constructor
  · intro h
    unfold SignBytesInvite at h
    simp only [bind, Except.bind, pure, Except.pure, Encoder.WriteUUID, Encoder.WriteDeviceID,
      Encoder.WriteHash, Encoder.WriteSignature, Encoder.WriteNonce,
      Encoder.WritePublicKey] at h
    repeat' (split at h <;> try contradiction)
    injection h with h
    subst h
    simp only [wrapField_ok_iff] at *
    simp_all only [signHeader, Encoder.Bytes, Encoder.WriteU64, Encoder.WriteBytes,
      Encoder.WriteU32, Encoder.WriteBool_buf, Encoder.WriteString, NewEncoder, SignPrefix,
      goLen_SignPrefix, zeroBytes_length, List.nil_append, List.append_assoc, and_self]
  · rintro ⟨⟨h1, h2, h3, h4, h5, h6, h7, h8⟩, rfl⟩
    simp only [SignBytesInvite, bind, Except.bind, pure, Except.pure, wrapField,
      Encoder.WriteUUID, Encoder.WriteDeviceID, Encoder.WriteHash, Encoder.WriteSignature,
      Encoder.WriteNonce, Encoder.WritePublicKey, Encoder.WriteFixedBytes, Encoder.WriteU64,
      Encoder.WriteString, Encoder.WriteBytes, Encoder.WriteU32, Encoder.WriteBool_buf,
      Encoder.Bytes, NewEncoder, signHeader, goLen_SignPrefix, SignPrefix, zeroBytes_length,
      h1, h2, h3, h4, h5, h6, h7, h8, bne_self_eq_false, Bool.false_eq_true, ↓reduceIte,
      List.nil_append, List.append_assoc]

theorem SignBytesInvite_inj
    {inviteID vaultID targetDeviceID targetPubkeySign targetPubkeyBox : Bytes}
    {targetBundleSig nonce wrappedPayload createdByDeviceID : Bytes} {singleUse : Bool}
    {inviteID2 vaultID2 targetDeviceID2 targetPubkeySign2 targetPubkeyBox2 : Bytes}
    {targetBundleSig2 nonce2 wrappedPayload2 createdByDeviceID2 : Bytes} {singleUse2 : Bool}
    {out : Bytes}
    (hv_wrappedPayload : wrappedPayload.length < 2 ^ 32) (hv_wrappedPayload2 :
      wrappedPayload2.length < 2 ^ 32)
    (h : SignBytesInvite inviteID vaultID targetDeviceID targetPubkeySign targetPubkeyBox
      targetBundleSig nonce wrappedPayload createdByDeviceID singleUse = .ok out)
    (h2 : SignBytesInvite inviteID2 vaultID2 targetDeviceID2 targetPubkeySign2 targetPubkeyBox2
      targetBundleSig2 nonce2 wrappedPayload2 createdByDeviceID2 singleUse2 = .ok out) :
    inviteID = inviteID2 ∧ vaultID = vaultID2 ∧ targetDeviceID = targetDeviceID2 ∧
      targetPubkeySign = targetPubkeySign2 ∧ targetPubkeyBox = targetPubkeyBox2 ∧
      targetBundleSig = targetBundleSig2 ∧ nonce = nonce2 ∧ wrappedPayload = wrappedPayload2 ∧
      createdByDeviceID = createdByDeviceID2 ∧ singleUse = singleUse2 := by
  obtain ⟨⟨l1, l2, l3, l4, l5, l6, l7, l8⟩, e⟩ := SignBytesInvite_ok_iff.mp h
  obtain ⟨⟨m1, m2, m3, m4, m5, m6, m7, m8⟩, e2⟩ := SignBytesInvite_ok_iff.mp h2
  rw [e] at e2
  replace e2 := List.append_cancel_left e2
  obtain ⟨q0, e2⟩ := fixed_append_inj l1 m1 e2
  obtain ⟨q1, e2⟩ := fixed_append_inj l2 m2 e2
  obtain ⟨q2, e2⟩ := fixed_append_inj l3 m3 e2
  obtain ⟨q3, e2⟩ := fixed_append_inj l4 m4 e2
  obtain ⟨q4, e2⟩ := fixed_append_inj l5 m5 e2
  obtain ⟨q5, e2⟩ := fixed_append_inj l6 m6 e2
  obtain ⟨q6, e2⟩ := fixed_append_inj l7 m7 e2
  obtain ⟨q7, e2⟩ := var_append_inj hv_wrappedPayload hv_wrappedPayload2 e2
  obtain ⟨q8, e2⟩ := fixed_append_inj l8 m8 e2
  have q9 := bool_byte_inj e2
  exact ⟨q0, q1, q2, q3, q4, q5, q6, q7, q8, q9⟩

theorem SignBytesInviteClaim_ok_iff {inviteID vaultID deviceID : Bytes} {out : Bytes} :
    SignBytesInviteClaim inviteID vaultID deviceID = .ok out ↔
      (inviteID.length = 16 ∧ vaultID.length = 16 ∧ deviceID.length = 32) ∧
      out = signHeader "invite_claim" ++ (inviteID ++ (vaultID ++ deviceID)) := by
  constructor
  · intro h
    unfold SignBytesInviteClaim at h
    simp only [bind, Except.bind, pure, Except.pure, Encoder.WriteUUID, Encoder.WriteDeviceID,
      Encoder.WriteHash, Encoder.WriteSignature, Encoder.WriteNonce,
      Encoder.WritePublicKey] at h
    repeat' (split at h <;> try contradiction)
    injection h with h
    subst h
    simp only [wrapField_ok_iff] at *
    simp_all only [signHeader, Encoder.Bytes, Encoder.WriteU64, Encoder.WriteBytes,
      Encoder.WriteU32, Encoder.WriteBool_buf, Encoder.WriteString, NewEncoder, SignPrefix,
      goLen_SignPrefix, zeroBytes_length, List.nil_append, List.append_assoc, and_self]
  · rintro ⟨⟨h1, h2, h3⟩, rfl⟩
    simp only [SignBytesInviteClaim, bind, Except.bind, pure, Except.pure, wrapField,
      Encoder.WriteUUID, Encoder.WriteDeviceID, Encoder.WriteHash, Encoder.WriteSignature,
      Encoder.WriteNonce, Encoder.WritePublicKey, Encoder.WriteFixedBytes, Encoder.WriteU64,
      Encoder.WriteString, Encoder.WriteBytes, Encoder.WriteU32, Encoder.WriteBool_buf,
      Encoder.Bytes, NewEncoder, signHeader, goLen_SignPrefix, SignPrefix, zeroBytes_length,
      h1, h2, h3, bne_self_eq_false, Bool.false_eq_true, ↓reduceIte, List.nil_append,
      List.append_assoc]

theorem SignBytesInviteClaim_inj {inviteID vaultID deviceID : Bytes}
    {inviteID2 vaultID2 deviceID2 : Bytes} {out : Bytes}
    (h : SignBytesInviteClaim inviteID vaultID deviceID = .ok out)
    (h2 : SignBytesInviteClaim inviteID2 vaultID2 deviceID2 = .ok out) :
    inviteID = inviteID2 ∧ vaultID = vaultID2 ∧ deviceID = deviceID2 := by
  obtain ⟨⟨l1, l2, l3⟩, e⟩ := SignBytesInviteClaim_ok_iff.mp h
  obtain ⟨⟨m1, m2, m3⟩, e2⟩ := SignBytesInviteClaim_ok_iff.mp h2
  rw [e] at e2
  replace e2 := List.append_cancel_left e2
  obtain ⟨q0, e2⟩ := fixed_append_inj l1 m1 e2
  obtain ⟨q1, e2⟩ := fixed_append_inj l2 m2 e2
  have q2 := e2
  exact ⟨q0, q1, q2⟩

theorem SignBytesKeyUpdate_ok_iff {keyUpdateID vaultID : Bytes} {memberSeq : Nat}
    {memberHeadHash targetDeviceID : Bytes} {keyEpoch : Nat}
    {nonce wrappedPayload createdByDeviceID : Bytes} {out : Bytes} :
    SignBytesKeyUpdate keyUpdateID vaultID memberSeq memberHeadHash targetDeviceID keyEpoch
      nonce wrappedPayload createdByDeviceID = .ok out ↔
      (keyUpdateID.length = 16 ∧ vaultID.length = 16 ∧ memberHeadHash.length = 32 ∧
        targetDeviceID.length = 32 ∧ nonce.length = 24 ∧ createdByDeviceID.length = 32) ∧
      out = signHeader "key_update" ++ (keyUpdateID ++ (vaultID ++ (be64 memberSeq ++
        (memberHeadHash ++ (targetDeviceID ++ (be64 keyEpoch ++ (nonce ++
        (be32 wrappedPayload.length ++ (wrappedPayload ++ createdByDeviceID))))))))) := by
  constructor
  · intro h
    unfold SignBytesKeyUpdate at h
    simp only [bind, Except.bind, pure, Except.pure, Encoder.WriteUUID, Encoder.WriteDeviceID,
      Encoder.WriteHash, Encoder.WriteSignature, Encoder.WriteNonce,
      Encoder.WritePublicKey] at h
    repeat' (split at h <;> try contradiction)
    injection h with h
    subst h
    simp only [wrapField_ok_iff] at *
    simp_all only [signHeader, Encoder.Bytes, Encoder.WriteU64, Encoder.WriteBytes,
      Encoder.WriteU32, Encoder.WriteBool_buf, Encoder.WriteString, NewEncoder, SignPrefix,
      goLen_SignPrefix, zeroBytes_length, List.nil_append, List.append_assoc, and_self]
  · rintro ⟨⟨h1, h2, h3, h4, h5, h6⟩, rfl⟩
    simp only [SignBytesKeyUpdate, bind, Except.bind, pure, Except.pure, wrapField,
      Encoder.WriteUUID, Encoder.WriteDeviceID, Encoder.WriteHash, Encoder.WriteSignature,
      Encoder.WriteNonce, Encoder.WritePublicKey, Encoder.WriteFixedBytes, Encoder.WriteU64,
      Encoder.WriteString, Encoder.WriteBytes, Encoder.WriteU32, Encoder.WriteBool_buf,
      Encoder.Bytes, NewEncoder, signHeader, goLen_SignPrefix, SignPrefix, zeroBytes_length,
      h1, h2, h3, h4, h5, h6, bne_self_eq_false, Bool.false_eq_true, ↓reduceIte,
      List.nil_append, List.append_assoc]

theorem SignBytesKeyUpdate_inj {keyUpdateID vaultID : Bytes} {memberSeq : Nat}
    {memberHeadHash targetDeviceID : Bytes} {keyEpoch : Nat}
    {nonce wrappedPayload createdByDeviceID : Bytes} {keyUpdateID2 vaultID2 : Bytes}
    {memberSeq2 : Nat} {memberHeadHash2 targetDeviceID2 : Bytes} {keyEpoch2 : Nat}
    {nonce2 wrappedPayload2 createdByDeviceID2 : Bytes} {out : Bytes}
    (hu_memberSeq : memberSeq < 2 ^ 64) (hu_memberSeq2 : memberSeq2 < 2 ^ 64)
    (hu_keyEpoch : keyEpoch < 2 ^ 64) (hu_keyEpoch2 : keyEpoch2 < 2 ^ 64)
    (hv_wrappedPayload : wrappedPayload.length < 2 ^ 32) (hv_wrappedPayload2 :
      wrappedPayload2.length < 2 ^ 32)
    (h : SignBytesKeyUpdate keyUpdateID vaultID memberSeq memberHeadHash targetDeviceID keyEpoch
      nonce wrappedPayload createdByDeviceID = .ok out)
    (h2 : SignBytesKeyUpdate keyUpdateID2 vaultID2 memberSeq2 memberHeadHash2 targetDeviceID2
      keyEpoch2 nonce2 wrappedPayload2 createdByDeviceID2 = .ok out) :
    keyUpdateID = keyUpdateID2 ∧ vaultID = vaultID2 ∧ memberSeq = memberSeq2 ∧
      memberHeadHash = memberHeadHash2 ∧ targetDeviceID = targetDeviceID2 ∧
      keyEpoch = keyEpoch2 ∧ nonce = nonce2 ∧ wrappedPayload = wrappedPayload2 ∧
      createdByDeviceID = createdByDeviceID2 := by
  obtain ⟨⟨l1, l2, l3, l4, l5, l6⟩, e⟩ := SignBytesKeyUpdate_ok_iff.mp h
  obtain ⟨⟨m1, m2, m3, m4, m5, m6⟩, e2⟩ := SignBytesKeyUpdate_ok_iff.mp h2
  rw [e] at e2
  replace e2 := List.append_cancel_left e2
  obtain ⟨q0, e2⟩ := fixed_append_inj l1 m1 e2
  obtain ⟨q1, e2⟩ := fixed_append_inj l2 m2 e2
  obtain ⟨q2, e2⟩ := be64_append_inj hu_memberSeq hu_memberSeq2 e2
  obtain ⟨q3, e2⟩ := fixed_append_inj l3 m3 e2
  obtain ⟨q4, e2⟩ := fixed_append_inj l4 m4 e2
  obtain ⟨q5, e2⟩ := be64_append_inj hu_keyEpoch hu_keyEpoch2 e2
  obtain ⟨q6, e2⟩ := fixed_append_inj l5 m5 e2
  obtain ⟨q7, e2⟩ := var_append_inj hv_wrappedPayload hv_wrappedPayload2 e2
  have q8 := e2
  exact ⟨q0, q1, q2, q3, q4, q5, q6, q7, q8⟩

theorem SignBytesKeyUpdateAck_ok_iff {vaultID deviceID : Bytes} {keyEpoch memberSeq : Nat}
    {memberHeadHash : Bytes} {out : Bytes} :
    SignBytesKeyUpdateAck vaultID deviceID keyEpoch memberSeq memberHeadHash = .ok out ↔
      (vaultID.length = 16 ∧ deviceID.length = 32 ∧ memberHeadHash.length = 32) ∧
      out = signHeader "key_update_ack" ++ (vaultID ++ (deviceID ++ (be64 keyEpoch ++
        (be64 memberSeq ++ memberHeadHash)))) := by
  constructor
  · intro h
    unfold SignBytesKeyUpdateAck at h
    simp only [bind, Except.bind, pure, Except.pure, Encoder.WriteUUID, Encoder.WriteDeviceID,
      Encoder.WriteHash, Encoder.WriteSignature, Encoder.WriteNonce,
      Encoder.WritePublicKey] at h
    repeat' (split at h <;> try contradiction)
    injection h with h
    subst h
    simp only [wrapField_ok_iff] at *
    simp_all only [signHeader, Encoder.Bytes, Encoder.WriteU64, Encoder.WriteBytes,
      Encoder.WriteU32, Encoder.WriteBool_buf, Encoder.WriteString, NewEncoder, SignPrefix,
      goLen_SignPrefix, zeroBytes_length, List.nil_append, List.append_assoc, and_self]
  · rintro ⟨⟨h1, h2, h3⟩, rfl⟩
    simp only [SignBytesKeyUpdateAck, bind, Except.bind, pure, Except.pure, wrapField,
      Encoder.WriteUUID, Encoder.WriteDeviceID, Encoder.WriteHash, Encoder.WriteSignature,
      Encoder.WriteNonce, Encoder.WritePublicKey, Encoder.WriteFixedBytes, Encoder.WriteU64,
      Encoder.WriteString, Encoder.WriteBytes, Encoder.WriteU32, Encoder.WriteBool_buf,
      Encoder.Bytes, NewEncoder, signHeader, goLen_SignPrefix, SignPrefix, zeroBytes_length,
      h1, h2, h3, bne_self_eq_false, Bool.false_eq_true, ↓reduceIte, List.nil_append,
      List.append_assoc]

theorem SignBytesKeyUpdateAck_inj {vaultID deviceID : Bytes} {keyEpoch memberSeq : Nat}
    {memberHeadHash : Bytes} {vaultID2 deviceID2 : Bytes} {keyEpoch2 memberSeq2 : Nat}
    {memberHeadHash2 : Bytes} {out : Bytes}
    (hu_keyEpoch : keyEpoch < 2 ^ 64) (hu_keyEpoch2 : keyEpoch2 < 2 ^ 64)
    (hu_memberSeq : memberSeq < 2 ^ 64) (hu_memberSeq2 : memberSeq2 < 2 ^ 64)
    (h : SignBytesKeyUpdateAck vaultID deviceID keyEpoch memberSeq memberHeadHash = .ok out)
    (h2 : SignBytesKeyUpdateAck vaultID2 deviceID2 keyEpoch2 memberSeq2 memberHeadHash2
      = .ok out) :
    vaultID = vaultID2 ∧ deviceID = deviceID2 ∧ keyEpoch = keyEpoch2 ∧ memberSeq = memberSeq2 ∧
      memberHeadHash = memberHeadHash2 := by
  obtain ⟨⟨l1, l2, l3⟩, e⟩ := SignBytesKeyUpdateAck_ok_iff.mp h
  obtain ⟨⟨m1, m2, m3⟩, e2⟩ := SignBytesKeyUpdateAck_ok_iff.mp h2
  rw [e] at e2
  replace e2 := List.append_cancel_left e2
  obtain ⟨q0, e2⟩ := fixed_append_inj l1 m1 e2
  obtain ⟨q1, e2⟩ := fixed_append_inj l2 m2 e2
  obtain ⟨q2, e2⟩ := be64_append_inj hu_keyEpoch hu_keyEpoch2 e2
  obtain ⟨q3, e2⟩ := be64_append_inj hu_memberSeq hu_memberSeq2 e2
  have q4 := e2
  exact ⟨q0, q1, q2, q3, q4⟩

theorem SignBytesSnapshot_ok_iff {snapshotID vaultID : Bytes} {baseSeq memberSeq : Nat}
    {memberHeadHash baseCounterMap headHashMap : Bytes} {lamportAtSnapshot keyEpoch : Nat}
    {nonce ciphertext createdByDeviceID : Bytes} {out : Bytes} :
    SignBytesSnapshot snapshotID vaultID baseSeq memberSeq memberHeadHash baseCounterMap
      headHashMap lamportAtSnapshot keyEpoch nonce ciphertext createdByDeviceID = .ok out ↔
      (snapshotID.length = 16 ∧ vaultID.length = 16 ∧ memberHeadHash.length = 32 ∧
        nonce.length = 24 ∧ createdByDeviceID.length = 32) ∧
      out = signHeader "snapshot" ++ (snapshotID ++ (vaultID ++ (be64 baseSeq ++
        (be64 memberSeq ++ (memberHeadHash ++ (be32 baseCounterMap.length ++ (baseCounterMap ++
        (be32 headHashMap.length ++ (headHashMap ++ (be64 lamportAtSnapshot ++ (be64 keyEpoch ++
        (nonce ++ (be32 ciphertext.length ++ (ciphertext ++
        createdByDeviceID)))))))))))))) := by
  constructor
  · intro h
    unfold SignBytesSnapshot at h
    simp only [bind, Except.bind, pure, Except.pure, Encoder.WriteUUID, Encoder.WriteDeviceID,
      Encoder.WriteHash, Encoder.WriteSignature, Encoder.WriteNonce,
      Encoder.WritePublicKey] at h
    repeat' (split at h <;> try contradiction)
    injection h with h
    subst h
    simp only [wrapField_ok_iff] at *
    simp_all only [signHeader, Encoder.Bytes, Encoder.WriteU64, Encoder.WriteBytes,
      Encoder.WriteU32, Encoder.WriteBool_buf, Encoder.WriteString, NewEncoder, SignPrefix,
      goLen_SignPrefix, zeroBytes_length, List.nil_append, List.append_assoc, and_self]
  · rintro ⟨⟨h1, h2, h3, h4, h5⟩, rfl⟩
    simp only [SignBytesSnapshot, bind, Except.bind, pure, Except.pure, wrapField,
      Encoder.WriteUUID, Encoder.WriteDeviceID, Encoder.WriteHash, Encoder.WriteSignature,
      Encoder.WriteNonce, Encoder.WritePublicKey, Encoder.WriteFixedBytes, Encoder.WriteU64,
      Encoder.WriteString, Encoder.WriteBytes, Encoder.WriteU32, Encoder.WriteBool_buf,
      Encoder.Bytes, NewEncoder, signHeader, goLen_SignPrefix, SignPrefix, zeroBytes_length,
      h1, h2, h3, h4, h5, bne_self_eq_false, Bool.false_eq_true, ↓reduceIte, List.nil_append,
      List.append_assoc]

theorem SignBytesSnapshot_inj {snapshotID vaultID : Bytes} {baseSeq memberSeq : Nat}
    {memberHeadHash baseCounterMap headHashMap : Bytes} {lamportAtSnapshot keyEpoch : Nat}
    {nonce ciphertext createdByDeviceID : Bytes} {snapshotID2 vaultID2 : Bytes}
    {baseSeq2 memberSeq2 : Nat} {memberHeadHash2 baseCounterMap2 headHashMap2 : Bytes}
    {lamportAtSnapshot2 keyEpoch2 : Nat} {nonce2 ciphertext2 createdByDeviceID2 : Bytes}
    {out : Bytes}
    (hu_baseSeq : baseSeq < 2 ^ 64) (hu_baseSeq2 : baseSeq2 < 2 ^ 64)
    (hu_memberSeq : memberSeq < 2 ^ 64) (hu_memberSeq2 : memberSeq2 < 2 ^ 64)
    (hu_lamportAtSnapshot : lamportAtSnapshot < 2 ^ 64) (hu_lamportAtSnapshot2 :
      lamportAtSnapshot2 < 2 ^ 64)
    (hu_keyEpoch : keyEpoch < 2 ^ 64) (hu_keyEpoch2 : keyEpoch2 < 2 ^ 64)
    (hv_baseCounterMap : baseCounterMap.length < 2 ^ 32) (hv_baseCounterMap2 :
      baseCounterMap2.length < 2 ^ 32)
    (hv_headHashMap : headHashMap.length < 2 ^ 32) (hv_headHashMap2 : headHashMap2.length < 2 ^ 32)
    (hv_ciphertext : ciphertext.length < 2 ^ 32) (hv_ciphertext2 : ciphertext2.length < 2 ^ 32)
    (h : SignBytesSnapshot snapshotID vaultID baseSeq memberSeq memberHeadHash baseCounterMap
      headHashMap lamportAtSnapshot keyEpoch nonce ciphertext createdByDeviceID = .ok out)
    (h2 : SignBytesSnapshot snapshotID2 vaultID2 baseSeq2 memberSeq2 memberHeadHash2
      baseCounterMap2 headHashMap2 lamportAtSnapshot2 keyEpoch2 nonce2 ciphertext2
      createdByDeviceID2 = .ok out) :
    snapshotID = snapshotID2 ∧ vaultID = vaultID2 ∧ baseSeq = baseSeq2 ∧
      memberSeq = memberSeq2 ∧ memberHeadHash = memberHeadHash2 ∧
      baseCounterMap = baseCounterMap2 ∧ headHashMap = headHashMap2 ∧
      lamportAtSnapshot = lamportAtSnapshot2 ∧ keyEpoch = keyEpoch2 ∧ nonce = nonce2 ∧
      ciphertext = ciphertext2 ∧ createdByDeviceID = createdByDeviceID2 := by
  obtain ⟨⟨l1, l2, l3, l4, l5⟩, e⟩ := SignBytesSnapshot_ok_iff.mp h
  obtain ⟨⟨m1, m2, m3, m4, m5⟩, e2⟩ := SignBytesSnapshot_ok_iff.mp h2
  rw [e] at e2
  replace e2 := List.append_cancel_left e2
  obtain ⟨q0, e2⟩ := fixed_append_inj l1 m1 e2
  obtain ⟨q1, e2⟩ := fixed_append_inj l2 m2 e2
  obtain ⟨q2, e2⟩ := be64_append_inj hu_baseSeq hu_baseSeq2 e2
  obtain ⟨q3, e2⟩ := be64_append_inj hu_memberSeq hu_memberSeq2 e2
  obtain ⟨q4, e2⟩ := fixed_append_inj l3 m3 e2
  obtain ⟨q5, e2⟩ := var_append_inj hv_baseCounterMap hv_baseCounterMap2 e2
  obtain ⟨q6, e2⟩ := var_append_inj hv_headHashMap hv_headHashMap2 e2
  obtain ⟨q7, e2⟩ := be64_append_inj hu_lamportAtSnapshot hu_lamportAtSnapshot2 e2
  obtain ⟨q8, e2⟩ := be64_append_inj hu_keyEpoch hu_keyEpoch2 e2
  obtain ⟨q9, e2⟩ := fixed_append_inj l4 m4 e2
  obtain ⟨q10, e2⟩ := var_append_inj hv_ciphertext hv_ciphertext2 e2
  have q11 := e2
  exact ⟨q0, q1, q2, q3, q4, q5, q6, q7, q8, q9, q10, q11⟩

/-! ## Sign-bytes inputs as one type -/

theorem SignInput.signBytes_header {a : SignInput} {out : Bytes} (h : a.signBytes = .ok out) :
    signHeader a.tag <+: out := by
  cases a with
  | deviceBundle deviceID pubkeySign pubkeyBox =>
    exact SignBytesDeviceBundle_header _ _ _ out h
  | event eventID vaultID deviceID counter lamport keyEpoch prevHash nonce ciphertext =>
    exact SignBytesEvent_header _ _ _ _ _ _ _ _ _ out h
  | memberAdd memberEventID vaultID memberSeq prevHash actorDeviceID subjectDeviceID inviteID
      claimSig subjectBundleSig subjectPubkeySign subjectPubkeyBox =>
    exact SignBytesMemberAdd_header _ _ _ _ _ _ _ _ _ _ _ out h
  | memberRemove memberEventID vaultID memberSeq prevHash actorDeviceID subjectDeviceID =>
    exact SignBytesMemberRemove_header _ _ _ _ _ _ out h
  | invite inviteID vaultID targetDeviceID targetPubkeySign targetPubkeyBox targetBundleSig
      nonce wrappedPayload createdByDeviceID singleUse =>
    exact SignBytesInvite_header _ _ _ _ _ _ _ _ _ _ out h
  | inviteClaim inviteID vaultID deviceID =>
    exact SignBytesInviteClaim_header _ _ _ out h
  | keyUpdate keyUpdateID vaultID memberSeq memberHeadHash targetDeviceID keyEpoch nonce
      wrappedPayload createdByDeviceID =>
    exact SignBytesKeyUpdate_header _ _ _ _ _ _ _ _ _ out h
  | keyUpdateAck vaultID deviceID keyEpoch memberSeq memberHeadHash =>
    exact SignBytesKeyUpdateAck_header _ _ _ _ _ out h
  | snapshot snapshotID vaultID baseSeq memberSeq memberHeadHash baseCounterMap headHashMap
      lamportAtSnapshot keyEpoch nonce ciphertext createdByDeviceID =>
    exact SignBytesSnapshot_header _ _ _ _ _ _ _ _ _ _ _ _ out h

/-- The nine domain tags. -/
theorem SignInput.tag_mem (a : SignInput) :
    a.tag ∈ ["device_bundle", "event", "member_add", "member_remove", "invite",
      "invite_claim", "key_update", "key_update_ack", "snapshot"] := by
  cases a <;> simp [SignInput.tag]

theorem SignInput.tag_ne_of_kind_ne {a b : SignInput} (h : a.kind ≠ b.kind) : a.tag ≠ b.tag := by
  cases a <;> cases b <;> first
    | exact absurd rfl h
    | (simp only [SignInput.tag]; decide)

/-- No header of one domain tag is a prefix of the header of another. -/
theorem signHeader_no_common_start :
    ∀ t1 ∈ ["device_bundle", "event", "member_add", "member_remove", "invite",
      "invite_claim", "key_update", "key_update_ack", "snapshot"],
    ∀ t2 ∈ ["device_bundle", "event", "member_add", "member_remove", "invite",
      "invite_claim", "key_update", "key_update_ack", "snapshot"],
    t1 ≠ t2 → ¬ signHeader t1 <+: signHeader t2 := by
  decide!

/-! ## Sign-bytes: injectivity, domain separation, event layout (C35, C36, C21) -/

/-- C35. Each sign-bytes constructor is injective on the inputs it accepts:
two inputs of the same constructor, with integers in the `uint64` range and
variable-length fields shorter than 2^32 bytes, on which the constructor
succeeds with the same output, are equal field by field. -/
theorem signBytes_injective (a b : SignInput) (out : Bytes) (hk : a.kind = b.kind)
    (ha : a.inRange) (hb : b.inRange) (h1 : a.signBytes = .ok out)
    (h2 : b.signBytes = .ok out) : a = b := by
  cases a with
  | deviceBundle deviceID pubkeySign pubkeyBox =>
    cases b with
    | deviceBundle deviceID2 pubkeySign2 pubkeyBox2 =>
      obtain ⟨rfl, rfl, rfl⟩ :=
        SignBytesDeviceBundle_inj h1 h2
      rfl
    | _ => exact absurd hk (by simp [SignInput.kind])
  | event eventID vaultID deviceID counter lamport keyEpoch prevHash nonce ciphertext =>
    cases b with
    | event eventID2 vaultID2 deviceID2 counter2 lamport2 keyEpoch2 prevHash2 nonce2 ciphertext2
        =>
      simp only [SignInput.inRange] at ha hb
      obtain ⟨a_counter, a_lamport, a_keyEpoch, a_ciphertext⟩ := ha
      obtain ⟨b_counter, b_lamport, b_keyEpoch, b_ciphertext⟩ := hb
      obtain ⟨rfl, rfl, rfl, rfl, rfl, rfl, rfl, rfl, rfl⟩ :=
        SignBytesEvent_inj a_counter b_counter a_lamport b_lamport a_keyEpoch b_keyEpoch h1 h2
      rfl
    | _ => exact absurd hk (by simp [SignInput.kind])
  | memberAdd memberEventID vaultID memberSeq prevHash actorDeviceID subjectDeviceID inviteID
      claimSig subjectBundleSig subjectPubkeySign subjectPubkeyBox =>
    cases b with
    | memberAdd memberEventID2 vaultID2 memberSeq2 prevHash2 actorDeviceID2 subjectDeviceID2
        inviteID2 claimSig2 subjectBundleSig2 subjectPubkeySign2 subjectPubkeyBox2 =>
      simp only [SignInput.inRange] at ha hb
      have a_memberSeq := ha
      have b_memberSeq := hb
      obtain ⟨rfl, rfl, rfl, rfl, rfl, rfl, rfl, rfl, rfl, rfl, rfl⟩ :=
        SignBytesMemberAdd_inj a_memberSeq b_memberSeq h1 h2
      rfl
    | _ => exact absurd hk (by simp [SignInput.kind])
  | memberRemove memberEventID vaultID memberSeq prevHash actorDeviceID subjectDeviceID =>
    cases b with
    | memberRemove memberEventID2 vaultID2 memberSeq2 prevHash2 actorDeviceID2 subjectDeviceID2
        =>
      simp only [SignInput.inRange] at ha hb
      have a_memberSeq := ha
      have b_memberSeq := hb
      obtain ⟨rfl, rfl, rfl, rfl, rfl, rfl⟩ :=
        SignBytesMemberRemove_inj a_memberSeq b_memberSeq h1 h2
      rfl
    | _ => exact absurd hk (by simp [SignInput.kind])
  | invite inviteID vaultID targetDeviceID targetPubkeySign targetPubkeyBox targetBundleSig
      nonce wrappedPayload createdByDeviceID singleUse =>
    cases b with
    | invite inviteID2 vaultID2 targetDeviceID2 targetPubkeySign2 targetPubkeyBox2
        targetBundleSig2 nonce2 wrappedPayload2 createdByDeviceID2 singleUse2 =>
      simp only [SignInput.inRange] at ha hb
      have a_wrappedPayload := ha
      have b_wrappedPayload := hb
      obtain ⟨rfl, rfl, rfl, rfl, rfl, rfl, rfl, rfl, rfl, rfl⟩ :=
        SignBytesInvite_inj a_wrappedPayload b_wrappedPayload h1 h2
      rfl
    | _ => exact absurd hk (by simp [SignInput.kind])
  | inviteClaim inviteID vaultID deviceID =>
    cases b with
    | inviteClaim inviteID2 vaultID2 deviceID2 =>
      obtain ⟨rfl, rfl, rfl⟩ :=
        SignBytesInviteClaim_inj h1 h2
      rfl
    | _ => exact absurd hk (by simp [SignInput.kind])
  | keyUpdate keyUpdateID vaultID memberSeq memberHeadHash targetDeviceID keyEpoch nonce
      wrappedPayload createdByDeviceID =>
    cases b with
    | keyUpdate keyUpdateID2 vaultID2 memberSeq2 memberHeadHash2 targetDeviceID2 keyEpoch2
        nonce2 wrappedPayload2 createdByDeviceID2 =>
      simp only [SignInput.inRange] at ha hb
      obtain ⟨a_memberSeq, a_keyEpoch, a_wrappedPayload⟩ := ha
      obtain ⟨b_memberSeq, b_keyEpoch, b_wrappedPayload⟩ := hb
      obtain ⟨rfl, rfl, rfl, rfl, rfl, rfl, rfl, rfl, rfl⟩ :=
        SignBytesKeyUpdate_inj a_memberSeq b_memberSeq a_keyEpoch b_keyEpoch a_wrappedPayload
          b_wrappedPayload h1 h2
      rfl
    | _ => exact absurd hk (by simp [SignInput.kind])
  | keyUpdateAck vaultID deviceID keyEpoch memberSeq memberHeadHash =>
    cases b with
    | keyUpdateAck vaultID2 deviceID2 keyEpoch2 memberSeq2 memberHeadHash2 =>
      simp only [SignInput.inRange] at ha hb
      obtain ⟨a_keyEpoch, a_memberSeq⟩ := ha
      obtain ⟨b_keyEpoch, b_memberSeq⟩ := hb
      obtain ⟨rfl, rfl, rfl, rfl, rfl⟩ :=
        SignBytesKeyUpdateAck_inj a_keyEpoch b_keyEpoch a_memberSeq b_memberSeq h1 h2
      rfl
    | _ => exact absurd hk (by simp [SignInput.kind])
  | snapshot snapshotID vaultID baseSeq memberSeq memberHeadHash baseCounterMap headHashMap
      lamportAtSnapshot keyEpoch nonce ciphertext createdByDeviceID =>
    cases b with
    | snapshot snapshotID2 vaultID2 baseSeq2 memberSeq2 memberHeadHash2 baseCounterMap2
        headHashMap2 lamportAtSnapshot2 keyEpoch2 nonce2 ciphertext2 createdByDeviceID2 =>
      simp only [SignInput.inRange] at ha hb
      obtain ⟨a_baseSeq, a_memberSeq, a_lamportAtSnapshot, a_keyEpoch, a_baseCounterMap,
        a_headHashMap, a_ciphertext⟩ := ha
      obtain ⟨b_baseSeq, b_memberSeq, b_lamportAtSnapshot, b_keyEpoch, b_baseCounterMap,
        b_headHashMap, b_ciphertext⟩ := hb
      obtain ⟨rfl, rfl, rfl, rfl, rfl, rfl, rfl, rfl, rfl, rfl, rfl, rfl⟩ :=
        SignBytesSnapshot_inj a_baseSeq b_baseSeq a_memberSeq b_memberSeq a_lamportAtSnapshot
          b_lamportAtSnapshot a_keyEpoch b_keyEpoch a_baseCounterMap b_baseCounterMap
          a_headHashMap b_headHashMap a_ciphertext b_ciphertext h1 h2
      rfl
    | _ => exact absurd hk (by simp [SignInput.kind])

/-- C35 on concrete inputs: two snapshot inputs that differ only in how the
bytes 1, 2, 3 are split between `base_counter_map` and `head_hash_map` both
succeed, and with different outputs. -/
theorem signBytes_injective_witness :
    snapshotSplitA.kind = snapshotSplitB.kind ∧ snapshotSplitA.inRange ∧
    snapshotSplitB.inRange ∧
    (∃ out, snapshotSplitA.signBytes = .ok out) ∧ (∃ out, snapshotSplitB.signBytes = .ok out) ∧
    snapshotSplitA.signBytes ≠ snapshotSplitB.signBytes := by
  have ha : snapshotSplitA.inRange := by simp [snapshotSplitA, SignInput.inRange]
  have hb : snapshotSplitB.inRange := by simp [snapshotSplitB, SignInput.inRange]
  have h1 : snapshotSplitA.signBytes = .ok (bytesOf snapshotSplitA.signBytes) := by decide!
  have h2 : snapshotSplitB.signBytes = .ok (bytesOf snapshotSplitB.signBytes) := by decide!
  refine ⟨rfl, ha, hb, ⟨_, h1⟩, ⟨_, h2⟩, ?_⟩
  intro heq
  exact absurd
    (signBytes_injective snapshotSplitA snapshotSplitB (bytesOf snapshotSplitA.signBytes) rfl
      ha hb h1 (heq ▸ h1))
    (by decide)

/-- C36. Sign-bytes are domain separated: when two different constructors
among the nine succeed, their outputs are different byte strings.  Each output
starts with the header of its own domain tag (the length-prefixed prefix
followed by the length-prefixed tag), the two tags are different, and the
header of one is not a prefix of the output of the other. -/
theorem signBytes_domain_separated (a b : SignInput) (outA outB : Bytes)
    (hk : a.kind ≠ b.kind) (h1 : a.signBytes = .ok outA) (h2 : b.signBytes = .ok outB) :
    outA ≠ outB ∧ a.tag ≠ b.tag ∧
    signHeader a.tag <+: outA ∧ signHeader b.tag <+: outB ∧
    ¬ signHeader a.tag <+: outB ∧ ¬ signHeader b.tag <+: outA := by
  have hA := SignInput.signBytes_header h1
  have hB := SignInput.signBytes_header h2
  have ht := SignInput.tag_ne_of_kind_ne hk
  have key : ∀ {t1 t2 : String} {o : Bytes},
      t1 ∈ ["device_bundle", "event", "member_add", "member_remove", "invite",
        "invite_claim", "key_update", "key_update_ack", "snapshot"] →
      t2 ∈ ["device_bundle", "event", "member_add", "member_remove", "invite",
        "invite_claim", "key_update", "key_update_ack", "snapshot"] →
      t1 ≠ t2 → signHeader t2 <+: o → ¬ signHeader t1 <+: o := by
    intro t1 t2 o m1 m2 hne h2' h1'
    rcases List.prefix_or_prefix_of_prefix h1' h2' with h | h
    · exact signHeader_no_common_start t1 m1 t2 m2 hne h
    · exact signHeader_no_common_start t2 m2 t1 m1 (Ne.symm hne) h
  have nA : ¬ signHeader a.tag <+: outB := key a.tag_mem b.tag_mem ht hB
  have nB : ¬ signHeader b.tag <+: outA := key b.tag_mem a.tag_mem (Ne.symm ht) hA
  exact ⟨fun h => nA (h ▸ hA), ht, hA, hB, nA, nB⟩

/-- C36 on concrete inputs: `SignBytesMemberAdd` with zero placeholders and
`SignBytesMemberRemove` on the same leading fields give different outputs. -/
theorem signBytes_domain_separated_witness :
    memberAddInput.kind ≠ memberRemoveInput.kind ∧
    bytesOf memberAddInput.signBytes ≠ bytesOf memberRemoveInput.signBytes ∧
    memberAddInput.tag = "member_add" ∧ memberRemoveInput.tag = "member_remove" ∧
    signHeader "member_add" <+: bytesOf memberAddInput.signBytes ∧
    ¬ signHeader "member_add" <+: bytesOf memberRemoveInput.signBytes :=
  have h := signBytes_domain_separated memberAddInput memberRemoveInput
    (bytesOf memberAddInput.signBytes) (bytesOf memberRemoveInput.signBytes)
    (by decide) (by decide!) (by decide!)
  ⟨by decide, h.1, rfl, rfl, h.2.2.1, h.2.2.2.2.1⟩

theorem beValue_be32 (v : Nat) : beValue (be32 v) = v % 2 ^ 32 := by
  simp only [beValue, be32, List.foldl_cons, List.foldl_nil, byteOf, Nat.shiftRight_eq_div_pow]
  norm_num
  omega

theorem beValue_be64 (v : Nat) : beValue (be64 v) = v % 2 ^ 64 := by
  simp only [beValue, be64, List.foldl_cons, List.foldl_nil, byteOf, Nat.shiftRight_eq_div_pow]
  norm_num
  omega

theorem signHeader_event_length : (signHeader "event").length = 27 := by decide

/-- C21. `SignBytesEvent` returns an error exactly when `event_id` or
`vault_id` is not 16 bytes, `device_id` or `prev_hash` is not 32 bytes, or
`nonce` is not 24 bytes.  Otherwise it returns str("forgor-sync-v1") ‖
str("event") ‖ event_id ‖ vault_id ‖ device_id ‖ be64(counter) ‖ be64(lamport)
‖ be64(key_epoch) ‖ prev_hash ‖ nonce ‖ be32(len(ciphertext)) ‖ ciphertext,
with str(s) = be32(len(s)) ‖ s, which has 175 + len(ciphertext) bytes.  `be32`
and `be64` are 4 and 8 bytes whose big-endian value is the integer (for a
ciphertext shorter than 2^32 bytes, its length). -/
theorem SignBytesEvent_spec (eventID vaultID deviceID : Bytes) (counter lamport keyEpoch : Nat)
    (prevHash nonce ciphertext : Bytes) :
    ((∃ err, SignBytesEvent eventID vaultID deviceID counter lamport keyEpoch prevHash nonce
        ciphertext = .error err) ↔
      (eventID.length ≠ 16 ∨ vaultID.length ≠ 16 ∨ deviceID.length ≠ 32 ∨
        prevHash.length ≠ 32 ∨ nonce.length ≠ 24)) ∧
    (eventID.length = 16 → vaultID.length = 16 → deviceID.length = 32 →
      prevHash.length = 32 → nonce.length = 24 →
      ∃ out, SignBytesEvent eventID vaultID deviceID counter lamport keyEpoch prevHash nonce
          ciphertext = .ok out ∧
        out = (be32 (goLen "forgor-sync-v1") ++ stringBytes "forgor-sync-v1") ++
          (be32 (goLen "event") ++ stringBytes "event") ++ eventID ++ vaultID ++ deviceID ++
          be64 counter ++ be64 lamport ++ be64 keyEpoch ++ prevHash ++ nonce ++
          be32 ciphertext.length ++ ciphertext ∧
        out.length = 175 + ciphertext.length ∧
        (be32 ciphertext.length).length = 4 ∧ (be64 counter).length = 8 ∧
        (counter < 2 ^ 64 → beValue (be64 counter) = counter) ∧
        (lamport < 2 ^ 64 → beValue (be64 lamport) = lamport) ∧
        (keyEpoch < 2 ^ 64 → beValue (be64 keyEpoch) = keyEpoch) ∧
        (ciphertext.length < 2 ^ 32 → beValue (be32 ciphertext.length) = ciphertext.length)) := by
  constructor
  · constructor
    · rintro ⟨err, herr⟩
      by_contra hcon
      simp only [not_or, Decidable.not_not] at hcon
      have hok := (@SignBytesEvent_ok_iff eventID vaultID deviceID counter lamport keyEpoch
        prevHash nonce ciphertext _).mpr ⟨hcon, rfl⟩
      rw [herr] at hok
      contradiction
    · intro hlen
      cases hres : SignBytesEvent eventID vaultID deviceID counter lamport keyEpoch prevHash
          nonce ciphertext with
      | error err => exact ⟨err, rfl⟩
      | ok out =>
        obtain ⟨⟨h1, h2, h3, h4, h5⟩, _⟩ := SignBytesEvent_ok_iff.mp hres
        omega
  · intro h1 h2 h3 h4 h5
    refine ⟨_, SignBytesEvent_ok_iff.mpr ⟨⟨h1, h2, h3, h4, h5⟩, rfl⟩, ?_, ?_, rfl, rfl,
      ?_, ?_, ?_, ?_⟩
    · simp only [signHeader, goLen_SignPrefix, List.append_assoc]
    · simp only [List.length_append, signHeader_event_length, h1, h2, h3, h4, h5, be64_length,
        be32_length]
      omega
    · intro h; rw [beValue_be64, Nat.mod_eq_of_lt h]
    · intro h; rw [beValue_be64, Nat.mod_eq_of_lt h]
    · intro h; rw [beValue_be64, Nat.mod_eq_of_lt h]
    · intro h; rw [beValue_be32, Nat.mod_eq_of_lt h]

/-- C21 on concrete inputs: the sign-bytes of `event1Unsigned` (a ciphertext
of 3 bytes) have 178 bytes, and a 15-byte event id is an error. -/
theorem SignBytesEvent_spec_witness :
    (∃ out, SignBytesEvent event1Unsigned.EventID.Bytes vaultA.Bytes (Sha256.sum256 keyOwner)
        1 1 1 Zero32 (List.replicate 24 7) [1, 2, 3] = .ok out ∧
      out = (be32 (goLen "forgor-sync-v1") ++ stringBytes "forgor-sync-v1") ++
        (be32 (goLen "event") ++ stringBytes "event") ++ event1Unsigned.EventID.Bytes ++
        vaultA.Bytes ++ Sha256.sum256 keyOwner ++ be64 1 ++ be64 1 ++ be64 1 ++ Zero32 ++
        List.replicate 24 7 ++ be32 [1, 2, 3].length ++ [1, 2, 3] ∧
      out.length = 175 + [1, 2, 3].length ∧
      (be32 [1, 2, 3].length).length = 4 ∧ (be64 1).length = 8 ∧
      (1 < 2 ^ 64 → beValue (be64 1) = 1) ∧ (1 < 2 ^ 64 → beValue (be64 1) = 1) ∧
      (1 < 2 ^ 64 → beValue (be64 1) = 1) ∧
      ([1, 2, 3].length < 2 ^ 32 → beValue (be32 [1, 2, 3].length) = [1, 2, 3].length)) ∧
    (∃ err, SignBytesEvent (zeroBytes 15) vaultA.Bytes (Sha256.sum256 keyOwner)
        1 1 1 Zero32 (List.replicate 24 7) [1, 2, 3] = .error err) :=
  ⟨(SignBytesEvent_spec event1Unsigned.EventID.Bytes vaultA.Bytes (Sha256.sum256 keyOwner)
      1 1 1 Zero32 (List.replicate 24 7) [1, 2, 3]).2 (by decide) (by decide)
      (sum256_length keyOwner) (by decide) (by decide),
   (SignBytesEvent_spec (zeroBytes 15) vaultA.Bytes (Sha256.sum256 keyOwner)
      1 1 1 Zero32 (List.replicate 24 7) [1, 2, 3]).1.mpr (Or.inl (by decide))⟩

/-! ## Validators never answer sign_bytes_error -/

theorem not_error_of_ok {α : Type} {r : Except String α} {out : α} {err : String}
    (h : r = .ok out) (h2 : r = .error err) : False := by
  rw [h] at h2
  contradiction

theorem ite_length {c : Prop} [Decidable c] {a b : Bytes} {n : Nat} (ha : a.length = n)
    (hb : b.length = n) : (if c then a else b).length = n := by
  split
  · exact ha
  · exact hb

theorem checkEventChain_error_eq {head : Option EventHead} {counter : Nat} {prevHash : Bytes}
    {e : APIError} (h : checkEventChain head counter prevHash = .error e) :
    e = EventChainBroken := by
  unfold checkEventChain at h
  repeat' (split at h)
  all_goals (first
    | contradiction
    | (injection h with h; exact h.symm))

theorem memberAddGenesisChecks_no_sign_bytes_error {vault : Option VaultRow}
    {ev : MemberEvent} {e : APIError} (h : memberAddGenesisChecks vault ev = .error e) :
    e.Code ≠ "sign_bytes_error" := by
  intro hc
  unfold memberAddGenesisChecks at h
  repeat' (split at h)
  all_goals (first
    | contradiction
    | (injection h with h; subst h; exact absurd hc (by decide)))

theorem memberAddSignerPubkey_no_sign_bytes_error {s : Store} {ev : MemberEvent}
    {vaultID : Bytes} {g : Bool} {e : APIError}
    (h : memberAddSignerPubkey s ev vaultID g = .error e) : e.Code ≠ "sign_bytes_error" := by
  intro hc
  unfold memberAddSignerPubkey at h
  repeat' (split at h)
  all_goals (first
    | contradiction
    | (injection h with h; subst h; exact absurd hc (by decide)))

theorem memberAddInvitedChecks_no_sign_bytes_error {lib : CryptoLib} {s : Store}
    {vault : Option VaultRow} {ev : MemberEvent} {vaultID : Bytes} {memberSeq : Nat}
    {subjectBytes : Bytes} {e : APIError} (hv : vaultID.length = 16)
    (hs : subjectBytes.length = 32)
    (h : memberAddInvitedChecks lib s vault ev vaultID memberSeq subjectBytes = .error e) :
    e.Code ≠ "sign_bytes_error" := by
  intro hc
  unfold memberAddInvitedChecks at h
  repeat' (split at h)
  all_goals (first
    | contradiction
    | (injection h with h; subst h; exact absurd hc (by decide))
    | (exfalso
       have hi := (InvitesRepository.Get_invite_some
         ‹InvitesRepository.Get s _ = Except.ok (some _)›).2
       exact not_error_of_ok (SignBytesInviteClaim_ok_iff.mpr
         ⟨⟨(congrArg List.length hi).trans ev.InviteID.property, hv, hs⟩, rfl⟩)
         ‹SignBytesInviteClaim _ _ _ = Except.error _›))

theorem ValidateBundle_no_sign_bytes_error {lib : CryptoLib} {bundle : DeviceBundle}
    {e : APIError} (h : ValidateBundle lib bundle = .error e) :
    e.Code ≠ "sign_bytes_error" := by
  intro hc
  unfold ValidateBundle at h
  split at h
  · injection h with h; subst h; exact absurd hc (by decide)
  replace h := ite_error_inv h
  rcases h with ⟨_, rfl⟩ | ⟨l1, h⟩
  · exact absurd hc (by decide)
  replace h := ite_error_inv h
  rcases h with ⟨_, rfl⟩ | ⟨l2, h⟩
  · exact absurd hc (by decide)
  replace h := ite_error_inv h
  rcases h with ⟨_, rfl⟩ | ⟨_, h⟩
  · exact absurd hc (by decide)
  simp only [bne_iff_ne, ne_eq, Decidable.not_not, HashLength, NonceLength,
    SignatureLength, PublicKeyLength] at l1 l2
  repeat' (split at h)
  all_goals (first
    | contradiction
    | (injection h with h; subst h; exact absurd hc (by decide))
    | (exfalso
       exact not_error_of_ok (SignBytesDeviceBundle_ok_iff.mpr
         ⟨⟨DeviceIDToBytes_ok_length ‹DeviceIDToBytes _ = Except.ok _›, l1, l2⟩, rfl⟩)
         ‹SignBytesDeviceBundle _ _ _ = Except.error _›)
    | (injection h with h; subst h; simp [BadRequest] at hc))

theorem ValidateEvent_no_sign_bytes_error {lib : CryptoLib} {s : Store} {event : Event}
    {e : APIError} (h : ValidateEvent lib s event = .error e) :
    e.Code ≠ "sign_bytes_error" := by
  intro hc
  unfold ValidateEvent at h
  dsimp only at h
  replace h := ite_error_inv h
  rcases h with ⟨_, rfl⟩ | ⟨_, h⟩
  · exact absurd hc (by decide)
  replace h := ite_error_inv h
  rcases h with ⟨_, rfl⟩ | ⟨l1, h⟩
  · exact absurd hc (by decide)
  replace h := ite_error_inv h
  rcases h with ⟨_, rfl⟩ | ⟨l2, h⟩
  · exact absurd hc (by decide)
  replace h := ite_error_inv h
  rcases h with ⟨_, rfl⟩ | ⟨_, h⟩
  · exact absurd hc (by decide)
  replace h := ite_error_inv h
  rcases h with ⟨_, rfl⟩ | ⟨_, h⟩
  · exact absurd hc (by decide)
  simp only [bne_iff_ne, ne_eq, Decidable.not_not, HashLength, NonceLength,
    SignatureLength, PublicKeyLength] at l1 l2
  repeat' (split at h)
  all_goals (first
    | contradiction
    | (injection h with h; subst h; exact absurd hc (by decide))
    | (exfalso
       exact not_error_of_ok (SignBytesEvent_ok_iff.mpr
         ⟨⟨event.EventID.property, event.VaultID.property,
           DeviceIDToBytes_ok_length ‹DeviceIDToBytes _ = Except.ok _›, l1, l2⟩, rfl⟩)
         ‹SignBytesEvent _ _ _ _ _ _ _ _ _ = Except.error _›)
    | (injection h with h; subst h
       have := checkEventChain_error_eq ‹checkEventChain _ _ _ = Except.error _›
       subst this
       exact absurd hc (by decide)))

set_option maxHeartbeats 2000000 in
theorem ValidateMemberAdd_no_sign_bytes_error {lib : CryptoLib} {s : Store} {event : MemberEvent}
    {e : APIError} (h : ValidateMemberAdd lib s event = .error e) :
    e.Code ≠ "sign_bytes_error" := by
  intro hc
  unfold ValidateMemberAdd at h
  dsimp only at h
  replace h := ite_error_inv h
  rcases h with ⟨_, rfl⟩ | ⟨_, h⟩
  · exact absurd hc (by decide)
  replace h := ite_error_inv h
  rcases h with ⟨_, rfl⟩ | ⟨l1, h⟩
  · exact absurd hc (by decide)
  replace h := ite_error_inv h
  rcases h with ⟨_, rfl⟩ | ⟨_, h⟩
  · exact absurd hc (by decide)
  replace h := ite_error_inv h
  rcases h with ⟨_, rfl⟩ | ⟨l2, h⟩
  · exact absurd hc (by decide)
  replace h := ite_error_inv h
  rcases h with ⟨_, rfl⟩ | ⟨l3, h⟩
  · exact absurd hc (by decide)
  replace h := ite_error_inv h
  rcases h with ⟨_, rfl⟩ | ⟨l4, h⟩
  · exact absurd hc (by decide)
  replace h := ite_error_inv h
  rcases h with ⟨_, rfl⟩ | ⟨l5, h⟩
  · exact absurd hc (by decide)
  simp only [bne_iff_ne, ne_eq, Decidable.not_not, HashLength, NonceLength,
    SignatureLength, PublicKeyLength] at l1 l2 l3 l4 l5
  cases hg : (event.MemberSeq == 1) <;>
    simp only [hg, Bool.false_eq_true, ↓reduceIte] at h <;>
    (repeat' (split at h)) <;>
    (first
    | contradiction
    | (injection h with h; subst h; exact absurd hc (by decide))
    | (exfalso
       exact not_error_of_ok (SignBytesDeviceBundle_ok_iff.mpr
         ⟨⟨DeviceIDToBytes_ok_length ‹DeviceIDToBytes event.SubjectDeviceID = Except.ok _›,
           l2, l3⟩, rfl⟩)
         ‹SignBytesDeviceBundle _ _ _ = Except.error _›)
    | (exfalso
       have hsb := ‹SignBytesMemberAdd _ _ _ _ _ _ _ _ _ _ _ = Except.error _›
       exact not_error_of_ok (SignBytesMemberAdd_ok_iff.mpr
         ⟨⟨event.MemberEventID.property, event.VaultID.property, l1,
           DeviceIDToBytes_ok_length ‹DeviceIDToBytes event.ActorDeviceID = Except.ok _›,
           DeviceIDToBytes_ok_length ‹DeviceIDToBytes event.SubjectDeviceID = Except.ok _›,
           by first | exact zeroBytes_length 16 | exact event.InviteID.property,
           by first | exact zeroBytes_length 64 | exact l5, l4, l2, l3⟩, rfl⟩) hsb)
    | (injection h with h; subst h
       exact memberAddGenesisChecks_no_sign_bytes_error
         ‹memberAddGenesisChecks _ _ = Except.error _› hc)
    | (injection h with h; subst h
       exact memberAddInvitedChecks_no_sign_bytes_error event.VaultID.property
         (DeviceIDToBytes_ok_length ‹DeviceIDToBytes event.SubjectDeviceID = Except.ok _›)
         ‹memberAddInvitedChecks _ _ _ _ _ _ _ = Except.error _› hc)
    | (injection h with h; subst h
       exact memberAddSignerPubkey_no_sign_bytes_error
         ‹memberAddSignerPubkey _ _ _ _ = Except.error _› hc))

theorem ValidateMemberRemove_no_sign_bytes_error {lib : CryptoLib} {s : Store} {event : MemberEvent}
    {e : APIError} (h : ValidateMemberRemove lib s event = .error e) :
    e.Code ≠ "sign_bytes_error" := by
  intro hc
  unfold ValidateMemberRemove at h
  dsimp only at h
  replace h := ite_error_inv h
  rcases h with ⟨_, rfl⟩ | ⟨_, h⟩
  · exact absurd hc (by decide)
  replace h := ite_error_inv h
  rcases h with ⟨_, rfl⟩ | ⟨l1, h⟩
  · exact absurd hc (by decide)
  replace h := ite_error_inv h
  rcases h with ⟨_, rfl⟩ | ⟨_, h⟩
  · exact absurd hc (by decide)
  simp only [bne_iff_ne, ne_eq, Decidable.not_not, HashLength, NonceLength,
    SignatureLength, PublicKeyLength] at l1
  repeat' (split at h)
  all_goals (first
    | contradiction
    | (injection h with h; subst h; exact absurd hc (by decide))
    | (exfalso
       exact not_error_of_ok (SignBytesMemberRemove_ok_iff.mpr
         ⟨⟨event.MemberEventID.property, event.VaultID.property, l1,
           DeviceIDToBytes_ok_length ‹DeviceIDToBytes event.ActorDeviceID = Except.ok _›,
           DeviceIDToBytes_ok_length ‹DeviceIDToBytes event.SubjectDeviceID = Except.ok _›⟩,
          rfl⟩)
         ‹SignBytesMemberRemove _ _ _ _ _ _ = Except.error _›))

theorem ValidateInvite_no_sign_bytes_error {lib : CryptoLib} {s : Store} {invite : Invite}
    {e : APIError} (h : ValidateInvite lib s invite = .error e) :
    e.Code ≠ "sign_bytes_error" := by
  intro hc
  unfold ValidateInvite at h
  dsimp only at h
  replace h := ite_error_inv h
  rcases h with ⟨_, rfl⟩ | ⟨_, h⟩
  · exact absurd hc (by decide)
  replace h := ite_error_inv h
  rcases h with ⟨_, rfl⟩ | ⟨l1, h⟩
  · exact absurd hc (by decide)
  replace h := ite_error_inv h
  rcases h with ⟨_, rfl⟩ | ⟨_, h⟩
  · exact absurd hc (by decide)
  replace h := ite_error_inv h
  rcases h with ⟨_, rfl⟩ | ⟨_, h⟩
  · exact absurd hc (by decide)
  replace h := ite_error_inv h
  rcases h with ⟨_, rfl⟩ | ⟨l2, h⟩
  · exact absurd hc (by decide)
  replace h := ite_error_inv h
  rcases h with ⟨_, rfl⟩ | ⟨l3, h⟩
  · exact absurd hc (by decide)
  replace h := ite_error_inv h
  rcases h with ⟨_, rfl⟩ | ⟨l4, h⟩
  · exact absurd hc (by decide)
  simp only [bne_iff_ne, ne_eq, Decidable.not_not, HashLength, NonceLength,
    SignatureLength, PublicKeyLength] at l1 l2 l3 l4
  repeat' (split at h)
  all_goals (first
    | contradiction
    | (injection h with h; subst h; exact absurd hc (by decide))
    | (exfalso
       exact not_error_of_ok (SignBytesDeviceBundle_ok_iff.mpr
         ⟨⟨DeviceIDToBytes_ok_length ‹DeviceIDToBytes invite.TargetDeviceID = Except.ok _›,
           l2, l3⟩, rfl⟩)
         ‹SignBytesDeviceBundle _ _ _ = Except.error _›)
    | (exfalso
       exact not_error_of_ok (SignBytesInvite_ok_iff.mpr
         ⟨⟨invite.InviteID.property, invite.VaultID.property,
           DeviceIDToBytes_ok_length ‹DeviceIDToBytes invite.TargetDeviceID = Except.ok _›,
           l2, l3, l4, l1,
           DeviceIDToBytes_ok_length
             ‹DeviceIDToBytes invite.CreatedByDeviceID = Except.ok _›⟩, rfl⟩)
         ‹SignBytesInvite _ _ _ _ _ _ _ _ _ _ = Except.error _›))

theorem ValidateInviteClaim_no_sign_bytes_error {lib : CryptoLib} {s : Store} {claim : InviteClaim}
    {e : APIError} (h : ValidateInviteClaim lib s claim = .error e) :
    e.Code ≠ "sign_bytes_error" := by
  intro hc
  unfold ValidateInviteClaim at h
  replace h := ite_error_inv h
  rcases h with ⟨_, rfl⟩ | ⟨_, h⟩
  · exact absurd hc (by decide)
  replace h := ite_error_inv h
  rcases h with ⟨_, rfl⟩ | ⟨_, h⟩
  · exact absurd hc (by decide)
  repeat' (split at h)
  all_goals (first
    | contradiction
    | (injection h with h; subst h; exact absurd hc (by decide))
    | (exfalso
       exact not_error_of_ok (SignBytesInviteClaim_ok_iff.mpr
         ⟨⟨claim.InviteID.property, claim.VaultID.property,
           DeviceIDToBytes_ok_length ‹DeviceIDToBytes _ = Except.ok _›⟩, rfl⟩)
         ‹SignBytesInviteClaim _ _ _ = Except.error _›))

theorem ValidateKeyUpdate_no_sign_bytes_error {lib : CryptoLib} {s : Store} {ku : KeyUpdate}
    {e : APIError} (h : ValidateKeyUpdate lib s ku = .error e) :
    e.Code ≠ "sign_bytes_error" := by
  intro hc
  unfold ValidateKeyUpdate at h
  dsimp only at h
  replace h := ite_error_inv h
  rcases h with ⟨_, rfl⟩ | ⟨_, h⟩
  · exact absurd hc (by decide)
  replace h := ite_error_inv h
  rcases h with ⟨_, rfl⟩ | ⟨l1, h⟩
  · exact absurd hc (by decide)
  replace h := ite_error_inv h
  rcases h with ⟨_, rfl⟩ | ⟨_, h⟩
  · exact absurd hc (by decide)
  replace h := ite_error_inv h
  rcases h with ⟨_, rfl⟩ | ⟨l2, h⟩
  · exact absurd hc (by decide)
  replace h := ite_error_inv h
  rcases h with ⟨_, rfl⟩ | ⟨_, h⟩
  · exact absurd hc (by decide)
  simp only [bne_iff_ne, ne_eq, Decidable.not_not, HashLength, NonceLength,
    SignatureLength, PublicKeyLength] at l1 l2
  repeat' (split at h)
  all_goals (first
    | contradiction
    | (injection h with h; subst h; exact absurd hc (by decide))
    | (exfalso
       exact not_error_of_ok (SignBytesKeyUpdate_ok_iff.mpr
         ⟨⟨ku.KeyUpdateID.property, ku.VaultID.property, l2,
           DeviceIDToBytes_ok_length ‹DeviceIDToBytes ku.TargetDeviceID = Except.ok _›, l1,
           DeviceIDToBytes_ok_length ‹DeviceIDToBytes ku.CreatedByDeviceID = Except.ok _›⟩,
          rfl⟩)
         ‹SignBytesKeyUpdate _ _ _ _ _ _ _ _ _ = Except.error _›))

theorem ValidateKeyUpdateAck_no_sign_bytes_error {lib : CryptoLib} {s : Store} {ack : KeyUpdateAck}
    {e : APIError} (h : ValidateKeyUpdateAck lib s ack = .error e) :
    e.Code ≠ "sign_bytes_error" := by
  intro hc
  unfold ValidateKeyUpdateAck at h
  dsimp only at h
  replace h := ite_error_inv h
  rcases h with ⟨_, rfl⟩ | ⟨_, h⟩
  · exact absurd hc (by decide)
  replace h := ite_error_inv h
  rcases h with ⟨_, rfl⟩ | ⟨_, h⟩
  · exact absurd hc (by decide)
  replace h := ite_error_inv h
  rcases h with ⟨_, rfl⟩ | ⟨l1, h⟩
  · exact absurd hc (by decide)
  simp only [bne_iff_ne, ne_eq, Decidable.not_not, HashLength, NonceLength,
    SignatureLength, PublicKeyLength] at l1
  repeat' (split at h)
  all_goals (first
    | contradiction
    | (injection h with h; subst h; exact absurd hc (by decide))
    | (exfalso
       exact not_error_of_ok (SignBytesKeyUpdateAck_ok_iff.mpr
         ⟨⟨ack.VaultID.property,
           DeviceIDToBytes_ok_length ‹DeviceIDToBytes _ = Except.ok _›, l1⟩, rfl⟩)
         ‹SignBytesKeyUpdateAck _ _ _ _ _ = Except.error _›))

theorem ValidateSnapshot_no_sign_bytes_error {lib : CryptoLib} {s : Store} {snap : Snapshot}
    {e : APIError} (h : ValidateSnapshot lib s snap = .error e) :
    e.Code ≠ "sign_bytes_error" := by
  intro hc
  unfold ValidateSnapshot at h
  dsimp only at h
  replace h := ite_error_inv h
  rcases h with ⟨_, rfl⟩ | ⟨_, h⟩
  · exact absurd hc (by decide)
  replace h := ite_error_inv h
  rcases h with ⟨_, rfl⟩ | ⟨l1, h⟩
  · exact absurd hc (by decide)
  replace h := ite_error_inv h
  rcases h with ⟨_, rfl⟩ | ⟨_, h⟩
  · exact absurd hc (by decide)
  replace h := ite_error_inv h
  rcases h with ⟨_, rfl⟩ | ⟨l2, h⟩
  · exact absurd hc (by decide)
  replace h := ite_error_inv h
  rcases h with ⟨_, rfl⟩ | ⟨_, h⟩
  · exact absurd hc (by decide)
  replace h := ite_error_inv h
  rcases h with ⟨_, rfl⟩ | ⟨_, h⟩
  · exact absurd hc (by decide)
  replace h := ite_error_inv h
  rcases h with ⟨_, rfl⟩ | ⟨_, h⟩
  · exact absurd hc (by decide)
  simp only [bne_iff_ne, ne_eq, Decidable.not_not, HashLength, NonceLength,
    SignatureLength, PublicKeyLength] at l1 l2
  repeat' (split at h)
  all_goals (first
    | contradiction
    | (injection h with h; subst h; exact absurd hc (by decide))
    | (exfalso
       exact not_error_of_ok (SignBytesSnapshot_ok_iff.mpr
         ⟨⟨snap.SnapshotID.property, snap.VaultID.property, l2, l1,
           DeviceIDToBytes_ok_length ‹DeviceIDToBytes _ = Except.ok _›⟩, rfl⟩)
         ‹SignBytesSnapshot _ _ _ _ _ _ _ _ _ _ _ _ = Except.error _›))

/-! ## Sign-bytes errors are unreachable (C37) -/

/-- C37. The `sign_bytes_error` branch is unreachable in every validator: for
every request and every store state, `ValidateBundle`, `ValidateEvent`,
`ValidateMemberAdd`, `ValidateMemberRemove`, `ValidateInvite`,
`ValidateInviteClaim`, `ValidateKeyUpdate`, `ValidateKeyUpdateAck` and
`ValidateSnapshot` never return an error with code `sign_bytes_error`; and a
device id that passed `DeviceID.Validate` is decoded by `DeviceIDToBytes`
without error, to 32 bytes. -/
theorem sign_bytes_error_unreachable (lib : CryptoLib) (s : Store) :
    (∀ bundle e, ValidateBundle lib bundle = .error e → e.Code ≠ "sign_bytes_error") ∧
    (∀ event e, ValidateEvent lib s event = .error e → e.Code ≠ "sign_bytes_error") ∧
    (∀ event e, ValidateMemberAdd lib s event = .error e → e.Code ≠ "sign_bytes_error") ∧
    (∀ event e, ValidateMemberRemove lib s event = .error e → e.Code ≠ "sign_bytes_error") ∧
    (∀ invite e, ValidateInvite lib s invite = .error e → e.Code ≠ "sign_bytes_error") ∧
    (∀ claim e, ValidateInviteClaim lib s claim = .error e → e.Code ≠ "sign_bytes_error") ∧
    (∀ ku e, ValidateKeyUpdate lib s ku = .error e → e.Code ≠ "sign_bytes_error") ∧
    (∀ ack e, ValidateKeyUpdateAck lib s ack = .error e → e.Code ≠ "sign_bytes_error") ∧
    (∀ snap e, ValidateSnapshot lib s snap = .error e → e.Code ≠ "sign_bytes_error") ∧
    (∀ d : String, DeviceID.Validate d = .ok () →
      ∃ b, DeviceIDToBytes d = .ok b ∧ b.length = 32) :=
  ⟨fun _ _ h => ValidateBundle_no_sign_bytes_error h,
   fun _ _ h => ValidateEvent_no_sign_bytes_error h,
   fun _ _ h => ValidateMemberAdd_no_sign_bytes_error h,
   fun _ _ h => ValidateMemberRemove_no_sign_bytes_error h,
   fun _ _ h => ValidateInvite_no_sign_bytes_error h,
   fun _ _ h => ValidateInviteClaim_no_sign_bytes_error h,
   fun _ _ h => ValidateKeyUpdate_no_sign_bytes_error h,
   fun _ _ h => ValidateKeyUpdateAck_no_sign_bytes_error h,
   fun _ _ h => ValidateSnapshot_no_sign_bytes_error h,
   fun _ h => DeviceIDToBytes_of_Validate h⟩

/-- C37 on concrete inputs: the event `eventGap` is rejected on `storeA` with
a code other than `sign_bytes_error`, and the valid device id `devOwner`
decodes to 32 bytes. -/
theorem sign_bytes_error_unreachable_witness :
    ValidateEvent testLib storeA eventGap = .error EventChainBroken ∧
    EventChainBroken.Code ≠ "sign_bytes_error" ∧
    DeviceID.Validate devOwner = .ok () ∧
    ∃ b, DeviceIDToBytes devOwner = .ok b ∧ b.length = 32 :=
  have h1 : ValidateEvent testLib storeA eventGap = .error EventChainBroken := by decide!
  have h2 : DeviceID.Validate devOwner = .ok () := by decide
  ⟨h1, (sign_bytes_error_unreachable testLib storeA).2.1 eventGap EventChainBroken h1, h2,
   (sign_bytes_error_unreachable testLib storeA).2.2.2.2.2.2.2.2.2 devOwner h2⟩

/-! ## Tables the handlers leave alone -/

theorem Store.sameChains_refl (s : Store) : s.sameChains s := ⟨rfl, rfl, rfl, rfl, rfl⟩

theorem Store.sameChains_trans {a b c : Store} (h1 : a.sameChains b) (h2 : b.sameChains c) :
    a.sameChains c :=
  ⟨h1.1.trans h2.1, h1.2.1.trans h2.2.1, h1.2.2.1.trans h2.2.2.1,
   h1.2.2.2.1.trans h2.2.2.2.1, h1.2.2.2.2.trans h2.2.2.2.2⟩

theorem DevicesRepository.Create_device_sameChains {now : String} {s s1 : Store} {b : DeviceBundle}
    (h : DevicesRepository.Create now s b = .ok s1) : s1.sameChains s := by
  unfold DevicesRepository.Create at h
  repeat' (split at h)
  all_goals (first
    | contradiction
    | (injection h with h; subst h; exact ⟨rfl, rfl, rfl, rfl, rfl⟩))

theorem InvitesRepository.RecordNonceUsed_sameChains {now : String} {s s1 : Store}
    {t : String} {v : Bytes} {d : String} {n : Bytes}
    (h : InvitesRepository.RecordNonceUsed now s t v d n = .ok s1) : s1.sameChains s := by
  unfold InvitesRepository.RecordNonceUsed at h
  repeat' (split at h)
  all_goals (first
    | contradiction
    | (injection h with h; subst h; exact ⟨rfl, rfl, rfl, rfl, rfl⟩))

theorem InvitesRepository.Create_invite_sameChains {now : String} {s s1 : Store} {r : InviteRow}
    (h : InvitesRepository.Create now s r = .ok s1) : s1.sameChains s := by
  unfold InvitesRepository.Create at h
  dsimp only at h
  repeat' (split at h)
  all_goals (first
    | contradiction
    | (injection h with h; subst h; exact ⟨rfl, rfl, rfl, rfl, rfl⟩))

theorem InvitesRepository.CreateClaim_sameChains {now : String} {s s1 : Store}
    {r : InviteClaimRow} (h : InvitesRepository.CreateClaim now s r = .ok s1) :
    s1.sameChains s := by
  unfold InvitesRepository.CreateClaim at h
  dsimp only at h
  repeat' (split at h)
  all_goals (first
    | contradiction
    | (injection h with h; subst h; exact ⟨rfl, rfl, rfl, rfl, rfl⟩))

theorem InvitesRepository.MarkUsed_sameChains {s s1 : Store} {i : Bytes}
    (h : InvitesRepository.MarkUsed s i = .ok s1) : s1.sameChains s := by
  unfold InvitesRepository.MarkUsed at h
  injection h with h; subst h; exact ⟨rfl, rfl, rfl, rfl, rfl⟩

theorem KeyUpdatesRepository.Create_keyUpdate_sameChains {now : String} {s s1 : Store} {r : KeyUpdateRow}
    (h : KeyUpdatesRepository.Create now s r = .ok s1) : s1.sameChains s := by
  unfold KeyUpdatesRepository.Create at h
  dsimp only at h
  repeat' (split at h)
  all_goals (first
    | contradiction
    | (injection h with h; subst h; exact ⟨rfl, rfl, rfl, rfl, rfl⟩))

theorem KeyUpdatesRepository.CreateAck_sameChains {now : String} {s s1 : Store}
    {r : KeyUpdateAckRow} (h : KeyUpdatesRepository.CreateAck now s r = .ok s1) :
    s1.sameChains s := by
  unfold KeyUpdatesRepository.CreateAck at h
  dsimp only at h
  repeat' (split at h)
  all_goals (first
    | contradiction
    | (injection h with h; subst h; exact ⟨rfl, rfl, rfl, rfl, rfl⟩))

theorem SnapshotsRepository.Create_snapshot_sameChains {now : String} {s s1 : Store} {r : SnapshotRow}
    (h : SnapshotsRepository.Create now s r = .ok s1) : s1.sameChains s := by
  unfold SnapshotsRepository.Create at h
  dsimp only at h
  repeat' (split at h)
  all_goals (first
    | contradiction
    | (injection h with h; subst h; exact ⟨rfl, rfl, rfl, rfl, rfl⟩))

theorem SnapshotsRepository.PruneOld_sameChains {s s1 : Store} {v : Bytes} {k : Nat}
    (h : SnapshotsRepository.PruneOld s v k = .ok s1) : s1.sameChains s := by
  unfold SnapshotsRepository.PruneOld at h
  injection h with h; subst h; exact ⟨rfl, rfl, rfl, rfl, rfl⟩

theorem handleDeviceRegister_sameChains (lib : CryptoLib) (now : String) (s : Store)
    (body : Except String DeviceBundle) :
    (handleDeviceRegister lib now s body).2.sameChains s := by
  unfold handleDeviceRegister
  repeat' split
  all_goals (first
    | exact Store.sameChains_refl s
    | exact DevicesRepository.Create_device_sameChains ‹_›)

theorem handleInviteCreate_sameChains (lib : CryptoLib) (now : String) (s : Store)
    (r : Request Invite) : (handleInviteCreate lib now s r).2.sameChains s := by
  unfold handleInviteCreate
  repeat' split
  all_goals (first
    | exact Store.sameChains_refl s
    | exact InvitesRepository.RecordNonceUsed_sameChains ‹_›
    | exact Store.sameChains_trans (InvitesRepository.Create_invite_sameChains ‹_›)
        (InvitesRepository.RecordNonceUsed_sameChains ‹_›))

theorem handleInviteClaim_sameChains (lib : CryptoLib) (now : String) (s : Store)
    (p : Option UUID) (body : Except String InviteClaim) :
    (handleInviteClaim lib now s p body).2.sameChains s := by
  unfold handleInviteClaim
  repeat' split
  all_goals (first
    | exact Store.sameChains_refl s
    | exact InvitesRepository.CreateClaim_sameChains ‹_›)

theorem handleKeyUpdateCreate_sameChains (lib : CryptoLib) (now : String) (s : Store)
    (r : Request KeyUpdate) : (handleKeyUpdateCreate lib now s r).2.sameChains s := by
  unfold handleKeyUpdateCreate
  repeat' split
  all_goals (first
    | exact Store.sameChains_refl s
    | exact InvitesRepository.RecordNonceUsed_sameChains ‹_›
    | exact Store.sameChains_trans (KeyUpdatesRepository.Create_keyUpdate_sameChains ‹_›)
        (InvitesRepository.RecordNonceUsed_sameChains ‹_›))

theorem handleSnapshotCreate_sameChains (lib : CryptoLib) (now : String) (s : Store)
    (r : Request Snapshot) : (handleSnapshotCreate lib now s r).2.sameChains s := by
  unfold handleSnapshotCreate
  repeat' split
  all_goals (first
    | exact Store.sameChains_refl s
    | exact InvitesRepository.RecordNonceUsed_sameChains ‹_›
    | exact Store.sameChains_trans (SnapshotsRepository.Create_snapshot_sameChains ‹_›)
        (InvitesRepository.RecordNonceUsed_sameChains ‹_›))

/-! ## Writes of handleEventCreate -/

/-- What `handleEventCreate` does to the store: nothing, or, for an event
`ValidateEvent` accepted, the row is appended to `events` with the next `seq`
and the head of the author's chain is upserted. -/
theorem handleEventCreate_cases (lib : CryptoLib) (now : String) (s : Store)
    (r : Request Event) :
    (handleEventCreate lib now s r).2 = s ∨
    ∃ (vaultID : UUID) (event : Event) (row : EventRow) (seq : Nat) (s1 s2 : Store),
      r.pathVaultID = some vaultID ∧ r.body = .ok event ∧
      vaultID.Bytes = event.VaultID.Bytes ∧ ValidateEvent lib s event = .ok row ∧
      EventsRepository.Create now s row = .ok (seq, s1) ∧
      EventsRepository.UpsertEventHead s1
        { VaultID := vaultID.Bytes, DeviceID := row.DeviceID, LastCounter := row.Counter,
          LastHash := row.EventHash } = .ok s2 ∧
      handleEventCreate lib now s r = (.json 201 { Seq := seq }, s2) := by
  obtain ⟨path, body⟩ := r
  unfold handleEventCreate
  cases path with
  | none => exact Or.inl rfl
  | some vaultID =>
    cases body with
    | error err => exact Or.inl rfl
    | ok event =>
      dsimp only
      by_cases hv : (vaultID.Bytes != event.VaultID.Bytes) = true
      · rw [if_pos hv]; exact Or.inl rfl
      · rw [if_neg hv]
        have hvid : vaultID.Bytes = event.VaultID.Bytes := by simpa using hv
        cases hval : ValidateEvent lib s event with
        | error e => exact Or.inl rfl
        | ok row =>
          dsimp only
          cases hc : EventsRepository.Create now s row with
          | error e => exact Or.inl rfl
          | ok p =>
            obtain ⟨seq, s1⟩ := p
            dsimp only
            cases hu : EventsRepository.UpsertEventHead s1
                { VaultID := vaultID.Bytes, DeviceID := row.DeviceID,
                  LastCounter := row.Counter, LastHash := row.EventHash } with
            | error e =>
              exfalso
              unfold EventsRepository.UpsertEventHead at hu
              split at hu <;> contradiction
            | ok s2 =>
              dsimp only
              exact Or.inr ⟨vaultID, event, row, seq, s1, s2, rfl, rfl, hvid, hval, hc, hu, rfl⟩

theorem EventsRepository.Create_events {now : String} {s s1 : Store} {e : EventRow} {seq : Nat}
    (h : EventsRepository.Create now s e = .ok (seq, s1)) :
    s1 = { s with events := s.events ++
      [{ e with Seq := seq, CreatedAt := if e.CreatedAt == "" then now else e.CreatedAt }] } := by
  unfold EventsRepository.Create at h
  dsimp only at h
  split at h
  · contradiction
  · injection h with h
    injection h with h1 h2
    subst h2
    subst h1
    rfl

theorem EventsRepository.UpsertEventHead_frame {s s1 : Store} {h : EventHead}
    (hs : EventsRepository.UpsertEventHead s h = .ok s1) :
    ∃ heads, s1 = { s with eventHeads := heads } ∧
      ∀ v d, ¬ (v = h.VaultID ∧ d = h.DeviceID) →
        heads.find? (fun r => r.VaultID == v && r.DeviceID == d) =
          s.eventHeads.find? (fun r => r.VaultID == v && r.DeviceID == d) := by
  unfold EventsRepository.UpsertEventHead at hs
  split at hs
  · injection hs with hs
    refine ⟨_, hs.symm, ?_⟩
    intro v d hne
    apply find?_map_other
    · intro x
      by_cases hc : (x.VaultID == h.VaultID && x.DeviceID == h.DeviceID) = true <;> simp [hc]
    · intro x hx
      simp only [Bool.and_eq_true, beq_iff_eq] at hx
      simp only [Bool.and_eq_false_iff, beq_eq_false_iff_ne, ne_eq]
      by_contra hcon
      simp only [not_or, Decidable.not_not] at hcon
      exact hne ⟨hx.1.symm.trans hcon.1, hx.2.symm.trans hcon.2⟩
  · injection hs with hs
    refine ⟨_, hs.symm, ?_⟩
    intro v d hne
    rw [List.find?_append]
    have : [h].find? (fun r => r.VaultID == v && r.DeviceID == d) = none := by
      simp only [List.find?_cons, List.find?_nil]
      split
      · rename_i hx
        simp only [Bool.and_eq_true, beq_iff_eq] at hx
        exact absurd ⟨hx.1.symm, hx.2.symm⟩ hne
      · rfl
    rw [this]
    simp

/-! ## Writes of handleMemberEventCreate -/

theorem memberEventSwitch_ok {lib : CryptoLib} {s : Store} {vaultID : UUID} {msgType : String}
    {body : Except String MemberEvent} {row : MemberEventRow} {event : MemberEvent}
    (h : memberEventSwitch lib s vaultID msgType body = .ok (row, event)) :
    body = .ok event ∧ vaultID.Bytes = event.VaultID.Bytes ∧
    ((msgType = "member_add" ∧ ValidateMemberAdd lib s event = .ok row) ∨
     (msgType = "member_remove" ∧ ValidateMemberRemove lib s event = .ok row)) := by
  unfold memberEventSwitch at h
  by_cases h1 : (msgType == "member_add") = true
  · rw [if_pos h1] at h
    cases body with
    | error err => contradiction
    | ok ev =>
      dsimp only at h
      by_cases hv : (vaultID.Bytes != ev.VaultID.Bytes) = true
      · rw [if_pos hv] at h; contradiction
      · rw [if_neg hv] at h
        cases hval : ValidateMemberAdd lib s ev with
        | error e => rw [hval] at h; contradiction
        | ok row2 =>
          rw [hval] at h
          injection h with h
          injection h with h2 h3
          subst h2; subst h3
          exact ⟨rfl, by simpa using hv, Or.inl ⟨by simpa using h1, hval⟩⟩
  · rw [if_neg h1] at h
    by_cases h2 : (msgType == "member_remove") = true
    · rw [if_pos h2] at h
      cases body with
      | error err => contradiction
      | ok ev =>
        dsimp only at h
        by_cases hv : (vaultID.Bytes != ev.VaultID.Bytes) = true
        · rw [if_pos hv] at h; contradiction
        · rw [if_neg hv] at h
          cases hval : ValidateMemberRemove lib s ev with
          | error e => rw [hval] at h; contradiction
          | ok row2 =>
            rw [hval] at h
            injection h with h
            injection h with h2' h3
            subst h2'; subst h3
            exact ⟨rfl, by simpa using hv, Or.inr ⟨by simpa using h2, hval⟩⟩
    · rw [if_neg h2] at h; contradiction

/-- The member row `handleMemberEventCreate` upserts for an accepted
member_add. -/
theorem handleMemberEventCreate_cases (lib : CryptoLib) (now : String) (s : Store)
    (r : MemberEventRequest) :
    (∃ e, handleMemberEventCreate lib now s r = (.apiError e, s)) ∨
    ∃ (vaultID : UUID) (msgType : String) (row : MemberEventRow) (event : MemberEvent)
      (s1 : Store),
      r.pathVaultID = some vaultID ∧ r.msgTypeCheck = .ok msgType ∧
      memberEventSwitch lib s vaultID msgType r.event = .ok (row, event) ∧
      (if (row.MemberSeq == 1) = true then
          VaultsRepository.Create now s vaultID.Bytes row.ActorDeviceID
        else .ok s) = .ok s1 ∧
      ((∃ err, MemberEventsRepository.Create now s1 row = .error err ∧
          handleMemberEventCreate lib now s r = (.apiError InternalError, s1)) ∨
       (∃ s2 s3 s4 s5 : Store,
          MemberEventsRepository.Create now s1 row = .ok s2 ∧
          VaultsRepository.UpsertMembershipHead s2 vaultID.Bytes row.MemberSeq row.MemberHash
            = .ok s3 ∧
          (if (msgType == "member_add") = true then
              VaultsRepository.UpsertMember s3
                { VaultID := vaultID.Bytes, DeviceID := row.SubjectDeviceID,
                  DevicePubkeySign := row.SubjectPubkeySign,
                  DevicePubkeyBox := row.SubjectPubkeyBox,
                  SubjectBundleSig := row.SubjectBundleSig, IsMember := true, KeyEpoch := 1 }
            else VaultsRepository.SetMemberRemoved s3 vaultID.Bytes row.SubjectDeviceID)
            = .ok s4 ∧
          (if (msgType == "member_add") = true ∧
              (!(row.MemberSeq == 1) && row.InviteID != []) = true then
              InvitesRepository.MarkUsed s4 row.InviteID
            else .ok s4) = .ok s5 ∧
          handleMemberEventCreate lib now s r = (.json 201 event, s5))) := by
  obtain ⟨path, raw, mt, body⟩ := r
  unfold handleMemberEventCreate
  dsimp only
  cases path with
  | none => exact Or.inl ⟨_, rfl⟩
  | some vaultID =>
  cases raw with
  | error err => exact Or.inl ⟨_, rfl⟩
  | ok u =>
  cases mt with
  | error err => exact Or.inl ⟨_, rfl⟩
  | ok msgType =>
  dsimp only
  cases hsw : memberEventSwitch lib s vaultID msgType body with
  | error e => exact Or.inl ⟨_, rfl⟩
  | ok p =>
  obtain ⟨row, event⟩ := p
  dsimp only
  cases hc : (if (row.MemberSeq == 1) = true then
      VaultsRepository.Create now s vaultID.Bytes row.ActorDeviceID else .ok s) with
  | error e => exact Or.inl ⟨_, rfl⟩
  | ok s1 =>
  dsimp only
  right
  refine ⟨vaultID, msgType, row, event, s1, rfl, rfl, hsw, hc, ?_⟩
  cases hm : MemberEventsRepository.Create now s1 row with
  | error e => exact Or.inl ⟨e, rfl, rfl⟩
  | ok s2 =>
  dsimp only
  right
  have hu : VaultsRepository.UpsertMembershipHead s2 vaultID.Bytes row.MemberSeq row.MemberHash
      = .ok (match VaultsRepository.UpsertMembershipHead s2 vaultID.Bytes row.MemberSeq
          row.MemberHash with | .ok x => x | .error _ => s2) := by
    unfold VaultsRepository.UpsertMembershipHead
    split <;> rfl
  generalize (match VaultsRepository.UpsertMembershipHead s2 vaultID.Bytes row.MemberSeq
          row.MemberHash with | .ok x => x | .error _ => s2) = s3 at hu
  rw [hu]
  dsimp only
  by_cases hadd : (msgType == "member_add") = true
  · simp only [hadd, if_true, true_and]
    have hup : VaultsRepository.UpsertMember s3
        { VaultID := vaultID.Bytes, DeviceID := row.SubjectDeviceID,
          DevicePubkeySign := row.SubjectPubkeySign, DevicePubkeyBox := row.SubjectPubkeyBox,
          SubjectBundleSig := row.SubjectBundleSig, IsMember := true, KeyEpoch := 1 }
        = .ok (match VaultsRepository.UpsertMember s3
        { VaultID := vaultID.Bytes, DeviceID := row.SubjectDeviceID,
          DevicePubkeySign := row.SubjectPubkeySign, DevicePubkeyBox := row.SubjectPubkeyBox,
          SubjectBundleSig := row.SubjectBundleSig, IsMember := true, KeyEpoch := 1 } with
          | .ok x => x | .error _ => s3) := by
      unfold VaultsRepository.UpsertMember
      split <;> rfl
    generalize (match VaultsRepository.UpsertMember s3
        { VaultID := vaultID.Bytes, DeviceID := row.SubjectDeviceID,
          DevicePubkeySign := row.SubjectPubkeySign, DevicePubkeyBox := row.SubjectPubkeyBox,
          SubjectBundleSig := row.SubjectBundleSig, IsMember := true, KeyEpoch := 1 } with
          | .ok x => x | .error _ => s3) = s4 at hup
    rw [hup]
    dsimp only
    by_cases hmark : (!(row.MemberSeq == 1) && row.InviteID != []) = true
    · rw [if_pos hmark]
      refine ⟨s2, s3, s4, _, rfl, hu, hup, ?_, rfl⟩
      rw [if_pos hmark]
      rfl
    · rw [if_neg hmark]
      refine ⟨s2, s3, s4, s4, rfl, hu, hup, ?_, rfl⟩
      rw [if_neg hmark]
  · simp only [hadd, if_false, false_and, Bool.false_eq_true]
    refine ⟨s2, s3, _, _, rfl, hu, rfl, rfl, rfl⟩

theorem VaultsRepository.Create_vault_events {now : String} {s s1 : Store} {v : Bytes} {o : String}
    (h : VaultsRepository.Create now s v o = .ok s1) :
    s1.events = s.events ∧ s1.eventHeads = s.eventHeads := by
  unfold VaultsRepository.Create at h
  split at h
  · contradiction
  · injection h with h; subst h; exact ⟨rfl, rfl⟩

theorem MemberEventsRepository.Create_memberEvent_events {now : String} {s s1 : Store}
    {r : MemberEventRow} (h : MemberEventsRepository.Create now s r = .ok s1) :
    s1.events = s.events ∧ s1.eventHeads = s.eventHeads := by
  unfold MemberEventsRepository.Create at h
  dsimp only at h
  split at h
  · contradiction
  · injection h with h; subst h; exact ⟨rfl, rfl⟩

theorem VaultsRepository.UpsertMembershipHead_events {s s1 : Store} {v : Bytes} {n : Nat}
    {hh : Bytes} (h : VaultsRepository.UpsertMembershipHead s v n hh = .ok s1) :
    s1.events = s.events ∧ s1.eventHeads = s.eventHeads := by
  unfold VaultsRepository.UpsertMembershipHead at h
  split at h <;> (injection h with h; subst h; exact ⟨rfl, rfl⟩)

theorem VaultsRepository.UpsertMember_events {s s1 : Store} {m : VaultMemberRow}
    (h : VaultsRepository.UpsertMember s m = .ok s1) :
    s1.events = s.events ∧ s1.eventHeads = s.eventHeads := by
  unfold VaultsRepository.UpsertMember at h
  split at h <;> (injection h with h; subst h; exact ⟨rfl, rfl⟩)

theorem VaultsRepository.SetMemberRemoved_events {s s1 : Store} {v : Bytes} {d : String}
    (h : VaultsRepository.SetMemberRemoved s v d = .ok s1) :
    s1.events = s.events ∧ s1.eventHeads = s.eventHeads := by
  unfold VaultsRepository.SetMemberRemoved at h
  injection h with h; subst h; exact ⟨rfl, rfl⟩

/-- `handleMemberEventCreate` leaves `events` and `event_heads` as they
were. -/
theorem handleMemberEventCreate_events (lib : CryptoLib) (now : String) (s : Store)
    (r : MemberEventRequest) :
    (handleMemberEventCreate lib now s r).2.events = s.events ∧
    (handleMemberEventCreate lib now s r).2.eventHeads = s.eventHeads := by
  rcases handleMemberEventCreate_cases lib now s r with ⟨_, h⟩ |
    ⟨vaultID, msgType, row, event, s1, _, _, _, h1, h2⟩
  · rw [h]; exact ⟨rfl, rfl⟩
  · have e1 : s1.events = s.events ∧ s1.eventHeads = s.eventHeads := by
      split at h1
      · exact VaultsRepository.Create_vault_events h1
      · injection h1 with h1; subst h1; exact ⟨rfl, rfl⟩
    rcases h2 with ⟨err, _, hres⟩ | ⟨s2, s3, s4, s5, hm, hu, hw, hk, hres⟩
    · rw [hres]; exact e1
    · rw [hres]
      have e2 := MemberEventsRepository.Create_memberEvent_events hm
      have e3 := VaultsRepository.UpsertMembershipHead_events hu
      have e4 : s4.events = s3.events ∧ s4.eventHeads = s3.eventHeads := by
        split at hw
        · exact VaultsRepository.UpsertMember_events hw
        · exact VaultsRepository.SetMemberRemoved_events hw
      have e5 : s5.events = s4.events ∧ s5.eventHeads = s4.eventHeads := by
        split at hk
        · have := InvitesRepository.MarkUsed_sameChains hk
          exact ⟨this.2.2.2.1, this.2.2.2.2⟩
        · injection hk with hk; subst hk; exact ⟨rfl, rfl⟩
      exact ⟨e5.1.trans (e4.1.trans (e3.1.trans (e2.1.trans e1.1))),
        e5.2.trans (e4.2.trans (e3.2.trans (e2.2.trans e1.2)))⟩

/-! ## Independence of the two chains (C32) -/

/-- C32. The two chains are independent.  `handleEventCreate` changes only the
`events` table and the `event_heads` entry of the request's own `(vault_id,
device_id)`: every other table is unchanged, and so is the event head of every
other pair.  `handleMemberEventCreate` leaves `events` and `event_heads`
unchanged.  `ValidateKeyUpdate`, `ValidateKeyUpdateAck` and `ValidateSnapshot`
return the same result on any two stores that differ only in `events` and
`event_heads`. -/
theorem chains_independent (lib : CryptoLib) (now : String) (s : Store) :
    (∀ r : Request Event,
      (handleEventCreate lib now s r).2.devices = s.devices ∧
      (handleEventCreate lib now s r).2.vaults = s.vaults ∧
      (handleEventCreate lib now s r).2.vaultMembershipHeads = s.vaultMembershipHeads ∧
      (handleEventCreate lib now s r).2.vaultMembers = s.vaultMembers ∧
      (handleEventCreate lib now s r).2.memberEvents = s.memberEvents ∧
      (handleEventCreate lib now s r).2.invites = s.invites ∧
      (handleEventCreate lib now s r).2.inviteClaims = s.inviteClaims ∧
      (handleEventCreate lib now s r).2.usedNonces = s.usedNonces ∧
      (handleEventCreate lib now s r).2.keyUpdates = s.keyUpdates ∧
      (handleEventCreate lib now s r).2.keyUpdateAcks = s.keyUpdateAcks ∧
      (handleEventCreate lib now s r).2.snapshots = s.snapshots ∧
      ∀ (v : Bytes) (d : String),
        (∀ event, r.body = .ok event → ¬ (v = event.VaultID.Bytes ∧ d = event.DeviceID)) →
        EventsRepository.GetEventHead (handleEventCreate lib now s r).2 v d =
          EventsRepository.GetEventHead s v d) ∧
    (∀ r : MemberEventRequest,
      (handleMemberEventCreate lib now s r).2.events = s.events ∧
      (handleMemberEventCreate lib now s r).2.eventHeads = s.eventHeads) ∧
    (∀ (events : List EventRow) (eventHeads : List EventHead),
      (∀ ku, ValidateKeyUpdate lib { s with events := events, eventHeads := eventHeads } ku =
        ValidateKeyUpdate lib s ku) ∧
      (∀ ack, ValidateKeyUpdateAck lib { s with events := events, eventHeads := eventHeads } ack =
        ValidateKeyUpdateAck lib s ack) ∧
      (∀ snap, ValidateSnapshot lib { s with events := events, eventHeads := eventHeads } snap =
        ValidateSnapshot lib s snap)) := by
  refine ⟨?_, fun r => handleMemberEventCreate_events lib now s r, ?_⟩
  · intro r
    rcases handleEventCreate_cases lib now s r with h |
      ⟨vaultID, event, row, seq, s1, s2, hp, hb, hv, hval, hc, hu, hres⟩
    · rw [h]
      exact ⟨rfl, rfl, rfl, rfl, rfl, rfl, rfl, rfl, rfl, rfl, rfl, fun _ _ _ => rfl⟩
    · rw [hres]
      have e1 := EventsRepository.Create_events hc
      obtain ⟨heads, e2, hfind⟩ := EventsRepository.UpsertEventHead_frame hu
      subst e1
      subst e2
      refine ⟨rfl, rfl, rfl, rfl, rfl, rfl, rfl, rfl, rfl, rfl, rfl, ?_⟩
      intro v d hne
      have hrow : row.DeviceID = event.DeviceID := by
        obtain ⟨_, _, _, _, _, _, _, _, _, _, _, _, hrest⟩ := ValidateEvent_ok_inv hval
        obtain ⟨_, _, _, _, _, _, _, _, hr⟩ := hrest
        rw [hr]
      simp only [EventsRepository.GetEventHead]
      rw [hfind v d (by
        intro ⟨h1, h2⟩
        exact hne event hb ⟨h1.trans hv, h2.trans hrow⟩)]
  · intro events eventHeads
    exact ⟨fun _ => rfl, fun _ => rfl, fun _ => rfl⟩

/-- C32 on concrete inputs: after `handleEventCreate` has accepted `event1`
of the owner on `storeA`, the membership tables are as before and the joiner
still has no event head. -/
theorem chains_independent_witness :
    requestEvent1.body = .ok event1 ∧
    (handleEventCreate testLib "2024-01-02T00:00:00Z" storeA requestEvent1).2.vaults
      = storeA.vaults ∧
    (handleEventCreate testLib "2024-01-02T00:00:00Z" storeA requestEvent1).2.vaultMembers
      = storeA.vaultMembers ∧
    EventsRepository.GetEventHead
      (handleEventCreate testLib "2024-01-02T00:00:00Z" storeA requestEvent1).2
      vaultA.Bytes devJoiner = EventsRepository.GetEventHead storeA vaultA.Bytes devJoiner :=
  have h := (chains_independent testLib "2024-01-02T00:00:00Z" storeA).1 requestEvent1
  ⟨rfl, h.2.1, h.2.2.2.1,
   h.2.2.2.2.2.2.2.2.2.2.2 vaultA.Bytes devJoiner (by
     intro event hb
     have he : event = event1 := by
       injection hb with hb
       exact hb.symm
     subst he
     intro ⟨_, h2⟩
     exact absurd h2 (by decide))⟩

/-! ## Event chain invariant (C31) -/

theorem Store.eventChainOk_congr {s s1 : Store} (h1 : s1.events = s.events)
    (h2 : s1.eventHeads = s.eventHeads) (v : Bytes) (d : String) (h : s.eventChainOk v d) :
    s1.eventChainOk v d := by
  unfold Store.eventChainOk Store.eventChain EventsRepository.GetEventHead at *
  rw [h1, h2]
  exact h

theorem eventChainOk_empty (v : Bytes) (d : String) : Store.empty.eventChainOk v d := by
  unfold Store.eventChainOk Store.eventChain EventsRepository.GetEventHead
  simp [Store.empty]

theorem eventChain_length_le (s : Store) (v : Bytes) (d : String) :
    (s.eventChain v d).length ≤ s.events.length :=
  List.length_filter_le _ _

/-- One accepted event keeps the invariant of every chain, as long as the
counter of the author's chain does not wrap. -/
theorem handleEventCreate_eventChainOk (lib : CryptoLib) (now : String) (s : Store)
    (r : Request Event) (hinv : ∀ v d, s.eventChainOk v d)
    (hbound : s.events.length + 1 < 2 ^ 64) :
    (∀ v d, (handleEventCreate lib now s r).2.eventChainOk v d) ∧
    (handleEventCreate lib now s r).2.events.length ≤ s.events.length + 1 := by
  rcases handleEventCreate_cases lib now s r with h |
    ⟨vaultID, event, row, seq, s1, s2, hp, hb, hv, hval, hc, hu, hres⟩
  · rw [h]; exact ⟨hinv, by omega⟩
  rw [hres]
  have e1 := EventsRepository.Create_events hc
  obtain ⟨heads, e2, hfind⟩ := EventsRepository.UpsertEventHead_frame hu
  obtain ⟨_, _, hd, hd1, hd2, hd3⟩ := EventsRepository.UpsertEventHead_ok hu
  obtain ⟨_, _, _, _, _, _, vault, member, head, devBytes, signBytes, _, _, _, hhead, hchain,
    hexists, _, _, _, hrow⟩ := ValidateEvent_ok_inv hval
  have hrv : row.VaultID = event.VaultID.Bytes := by rw [hrow]
  have hrd : row.DeviceID = event.DeviceID := by rw [hrow]
  have hrc : row.Counter = event.Counter := by rw [hrow]
  have hrp : row.PrevHash = event.PrevHash := by rw [hrow]
  have hri : row.EventID = event.EventID.Bytes := by rw [hrow]
  have hev : s2.events = s.events ++
      [{ row with Seq := seq,
                  CreatedAt := if row.CreatedAt == "" then now else row.CreatedAt }] := by
    rw [e2, e1]
  refine ⟨?_, by rw [hev]; simp⟩
  intro v d
  by_cases hkey : v = event.VaultID.Bytes ∧ d = event.DeviceID
  · obtain ⟨rfl, rfl⟩ := hkey
    obtain ⟨i1, i2, i3, i4, i5, i6⟩ := hinv event.VaultID.Bytes event.DeviceID
    have hchain2 : s2.eventChain event.VaultID.Bytes event.DeviceID =
        s.eventChain event.VaultID.Bytes event.DeviceID ++
          [{ row with Seq := seq,
                      CreatedAt := if row.CreatedAt == "" then now else row.CreatedAt }] := by
      unfold Store.eventChain
      rw [hev, List.filter_append]
      simp [hrv, hrd]
    have hhead2 : EventsRepository.GetEventHead s2 event.VaultID.Bytes event.DeviceID =
        .ok (some hd) := by
      have := hd1
      simp only [hv, hrd] at this
      exact this
    have hfresh : ∀ e ∈ s.eventChain event.VaultID.Bytes event.DeviceID,
        e.EventID ≠ event.EventID.Bytes := by
      intro e he hid
      unfold Store.eventChain at he
      rw [List.mem_filter] at he
      unfold EventsRepository.CheckEventIDExists at hexists
      injection hexists with hexists
      rw [any_eq_decide_filter] at hexists
      have : s.events.any (fun e => e.VaultID == event.VaultID.Bytes &&
          e.DeviceID == event.DeviceID && e.EventID == event.EventID.Bytes) = true := by
        rw [List.any_eq_true]
        exact ⟨e, he.1, by simp [he.2, hid]⟩
      rw [this] at hexists
      contradiction
    obtain ⟨c1, c2⟩ := checkEventChain_ok hchain
    have hcounter : event.Counter =
        (s.eventChain event.VaultID.Bytes event.DeviceID).length + 1 ∧
        (∀ e, (s.eventChain event.VaultID.Bytes event.DeviceID).getLast? = some e →
          event.PrevHash = e.EventHash) ∧
        ((s.eventChain event.VaultID.Bytes event.DeviceID) = [] →
          event.PrevHash = zeroBytes 32) := by
      cases hl : (s.eventChain event.VaultID.Bytes event.DeviceID).getLast? with
      | none =>
        have hnil : s.eventChain event.VaultID.Bytes event.DeviceID = [] :=
          List.getLast?_eq_none_iff.mp hl
        have hnone := i5 hnil
        rw [hhead] at hnone
        injection hnone with hnone
        obtain ⟨a, b⟩ := c1 hnone
        exact ⟨by rw [hnil, a]; rfl, fun e he => by simp at he, fun _ => b⟩
      | some e =>
        obtain ⟨h0, hh1, hh2, hh3⟩ := i6 e hl
        rw [hhead] at hh1
        injection hh1 with hh1
        obtain ⟨a, b⟩ := c2 h0 hh1
        have hlen := eventChain_length_le s event.VaultID.Bytes event.DeviceID
        refine ⟨?_, ?_, ?_⟩
        · rw [a, hh2, Nat.mod_eq_of_lt (by omega)]
        · intro e2 he2
          injection he2 with he2
          subst he2
          rw [b, hh3]
        · intro hnil
          rw [hnil] at hl
          simp at hl
    obtain ⟨k1, k2, k3⟩ := hcounter
    unfold Store.eventChainOk
    rw [hchain2]
    refine ⟨?_, ?_, ?_, ?_, ?_, ?_⟩
    · rw [List.map_append, i1, List.length_append, List.length_singleton,
        List.range'_1_concat]
      simp [hrc, k1, Nat.add_comm]
    · intro e he
      cases hc2 : s.eventChain event.VaultID.Bytes event.DeviceID with
      | nil =>
        rw [hc2] at he
        simp only [List.nil_append, List.head?_cons, Option.some.injEq] at he
        subst he
        simp only [hrp]
        exact k3 hc2
      | cons x xs =>
        rw [hc2] at he
        simp only [List.cons_append, List.head?_cons, Option.some.injEq] at he
        subst he
        exact i2 _ (by rw [hc2]; rfl)
    · apply List.Chain'.append i3 (List.chain'_singleton _)
      intro x hx y hy
      simp only [List.head?_cons, Option.mem_def, Option.some.injEq] at hy
      subst hy
      simp only [hrp]
      exact k2 x hx
    · rw [List.map_append, List.nodup_append]
      refine ⟨i4, by simp, ?_⟩
      intro a ha1 ha2
      simp only [List.map_cons, List.map_nil, List.mem_singleton] at ha2
      rw [List.mem_map] at ha1
      obtain ⟨e, he, rfl⟩ := ha1
      exact hfresh e he (ha2.trans hri)
    · intro hnil
      simp at hnil
    · intro e he
      rw [List.getLast?_concat] at he
      injection he with he
      subst he
      refine ⟨hd, hhead2, ?_, hd3⟩
      rw [hd2, List.length_append, List.length_singleton]
      simp only [hrc, k1]
  · have hchain2 : s2.eventChain v d = s.eventChain v d := by
      unfold Store.eventChain
      rw [hev, List.filter_append]
      have : (fun e : EventRow => e.VaultID == v && e.DeviceID == d)
          { row with Seq := seq,
                     CreatedAt := if row.CreatedAt == "" then now else row.CreatedAt }
          = false := by
        simp only [hrv, hrd, Bool.and_eq_false_iff, beq_eq_false_iff_ne, ne_eq]
        by_contra hcon
        simp only [not_or, Decidable.not_not] at hcon
        exact hkey ⟨hcon.1.symm, hcon.2.symm⟩
      simp [List.filter_cons, this]
    have hhead2 : EventsRepository.GetEventHead s2 v d = EventsRepository.GetEventHead s v d := by
      simp only [EventsRepository.GetEventHead]
      rw [e2]
      simp only []
      rw [hfind v d (by
        intro ⟨h1, h2⟩
        exact hkey ⟨h1.trans hv, h2.trans hrd⟩)]
      rw [e1]
    have := hinv v d
    unfold Store.eventChainOk at this ⊢
    rw [hchain2, hhead2]
    exact this

theorem handleKeyUpdateAck_events (lib : CryptoLib) (now : String) (s : Store)
    (r : Request KeyUpdateAck) :
    (handleKeyUpdateAck lib now s r).2.events = s.events ∧
    (handleKeyUpdateAck lib now s r).2.eventHeads = s.eventHeads := by
  unfold handleKeyUpdateAck
  repeat' split
  all_goals (first
    | exact ⟨rfl, rfl⟩
    | (have h1 := KeyUpdatesRepository.CreateAck_sameChains ‹_›
       exact ⟨h1.2.2.2.1, h1.2.2.2.2⟩)
    | (have h1 := KeyUpdatesRepository.CreateAck_sameChains ‹_›
       have h2 : VaultsRepository.UpdateMemberKeyEpoch _ _ _ _ = Except.ok _ := ‹_›
       unfold VaultsRepository.UpdateMemberKeyEpoch at h2
       injection h2 with h2
       subst h2
       exact ⟨h1.2.2.2.1, h1.2.2.2.2⟩))

/-- Every step other than an accepted event leaves `events` and
`event_heads` as they were; every step keeps the chain invariant. -/
theorem HandlerCall.run_eventChainOk (lib : CryptoLib) (s : Store) (c : HandlerCall)
    (hinv : ∀ v d, s.eventChainOk v d) (hbound : s.events.length + 1 < 2 ^ 64) :
    (∀ v d, (c.run lib s).eventChainOk v d) ∧
    (c.run lib s).events.length ≤ s.events.length + 1 := by
  have same : ∀ s1 : Store, s1.events = s.events → s1.eventHeads = s.eventHeads →
      (∀ v d, s1.eventChainOk v d) ∧ s1.events.length ≤ s.events.length + 1 := by
    intro s1 h1 h2
    exact ⟨fun v d => Store.eventChainOk_congr h1 h2 v d (hinv v d), by rw [h1]; omega⟩
  cases c with
  | deviceRegister now body =>
    have h := handleDeviceRegister_sameChains lib now s body
    exact same _ h.2.2.2.1 h.2.2.2.2
  | inviteCreate now r =>
    have h := handleInviteCreate_sameChains lib now s r
    exact same _ h.2.2.2.1 h.2.2.2.2
  | inviteClaim now p body =>
    have h := handleInviteClaim_sameChains lib now s p body
    exact same _ h.2.2.2.1 h.2.2.2.2
  | memberEventCreate now r =>
    have h := handleMemberEventCreate_events lib now s r
    exact same _ h.1 h.2
  | eventCreate now r => exact handleEventCreate_eventChainOk lib now s r hinv hbound
  | keyUpdateCreate now r =>
    have h := handleKeyUpdateCreate_sameChains lib now s r
    exact same _ h.2.2.2.1 h.2.2.2.2
  | keyUpdateAck now r =>
    have h := handleKeyUpdateAck_events lib now s r
    exact same _ h.1 h.2
  | snapshotCreate now r =>
    have h := handleSnapshotCreate_sameChains lib now s r
    exact same _ h.2.2.2.1 h.2.2.2.2
  | pruneOld vaultID =>
    exact same _ rfl rfl

theorem runCalls_eventChainOk (lib : CryptoLib) (calls : List HandlerCall) (s : Store)
    (hinv : ∀ v d, s.eventChainOk v d) (hbound : s.events.length + calls.length < 2 ^ 64) :
    ∀ v d, (runCalls lib s calls).eventChainOk v d := by
  induction calls generalizing s with
  | nil => exact hinv
  | cons c cs ih =>
    simp only [List.length_cons] at hbound
    obtain ⟨h1, h2⟩ := HandlerCall.run_eventChainOk lib s c hinv (by omega)
    exact ih (c.run lib s) h1 (by omega)

/-- C31. In every store state reached from the empty store by a sequence of
fewer than 2^64 handler steps (so that no `uint64` counter wraps), for every
`(vault_id, device_id)`: the persisted events of the pair, oldest first, have
counters exactly 1, 2, ..., n; the first has `prev_hash` = 32 zero bytes and
each later one has `prev_hash` equal to the `event_hash` of its predecessor;
their event ids are pairwise distinct; and the event head of the pair is
absent when n = 0 and otherwise is `(n, event_hash of the n-th event)`. -/
theorem event_chain_invariant (lib : CryptoLib) (calls : List HandlerCall)
    (hlen : calls.length < 2 ^ 64) (v : Bytes) (d : String) (chain : List EventRow)
    (hchain : chain = (runCalls lib Store.empty calls).eventChain v d) :
    chain.map (fun e => e.Counter) = List.range' 1 chain.length ∧
    (∀ e, chain.head? = some e → e.PrevHash = zeroBytes 32) ∧
    chain.Chain' (fun a b => b.PrevHash = a.EventHash) ∧
    (chain.map (fun e => e.EventID)).Nodup ∧
    (chain = [] →
      EventsRepository.GetEventHead (runCalls lib Store.empty calls) v d = .ok none) ∧
    (∀ e, chain.getLast? = some e →
      ∃ h, EventsRepository.GetEventHead (runCalls lib Store.empty calls) v d = .ok (some h) ∧
        h.LastCounter = chain.length ∧ h.LastHash = e.EventHash) := by
  subst hchain
  exact runCalls_eventChainOk lib calls Store.empty eventChainOk_empty
    (by simpa [Store.empty] using hlen) v d

/-- C31 on concrete inputs: after the genesis of vault B and the first event
of its owner, the chain of `(vaultB, devOwner)` has one event, with counter 1
and `prev_hash` zero, and the head is `(1, its hash)`. -/
theorem event_chain_invariant_witness :
    callsGenesisThenEvent.length < 2 ^ 64 ∧
    ((runCalls testLib Store.empty callsGenesisThenEvent).eventChain
      vaultB.Bytes devOwner).length = 1 ∧
    ((runCalls testLib Store.empty callsGenesisThenEvent).eventChain
        vaultB.Bytes devOwner).map (fun e => e.Counter) =
      List.range' 1 ((runCalls testLib Store.empty callsGenesisThenEvent).eventChain
        vaultB.Bytes devOwner).length ∧
    (∀ e, ((runCalls testLib Store.empty callsGenesisThenEvent).eventChain
        vaultB.Bytes devOwner).getLast? = some e →
      ∃ h, EventsRepository.GetEventHead (runCalls testLib Store.empty callsGenesisThenEvent)
          vaultB.Bytes devOwner = .ok (some h) ∧
        h.LastCounter = ((runCalls testLib Store.empty callsGenesisThenEvent).eventChain
          vaultB.Bytes devOwner).length ∧ h.LastHash = e.EventHash) :=
  have h := event_chain_invariant testLib callsGenesisThenEvent (by decide) vaultB.Bytes
    devOwner _ rfl
  ⟨by decide, by decide!, h.1, h.2.2.2.2.2⟩

/-! ## Effects of the membership writes -/

theorem find?_map_same {α : Type} (p : α → Bool) (f : α → α) (l : List α)
    (hf : ∀ x, p (f x) = p x) : (l.map f).find? p = (l.find? p).map f := by
  induction l with
  | nil => rfl
  | cons x xs ih =>
    by_cases hx : p x = true
    · simp [List.find?, hf, hx]
    · simp only [Bool.not_eq_true] at hx
      simp [List.find?, hf, hx, ih]

theorem find?_append_singleton_other {α : Type} (p : α → Bool) (l : List α) (a : α)
    (ha : p a = false) : (l ++ [a]).find? p = l.find? p := by
  rw [List.find?_append]
  simp [List.find?, ha]

theorem find?_append_of_some {α : Type} (p : α → Bool) (l l2 : List α) (x : α)
    (h : l.find? p = some x) : (l ++ l2).find? p = some x := by
  rw [List.find?_append, h]
  rfl

/-- After `VaultsRepository.Create`: one vault row appended, the member and
head tables untouched; a vault that was found is still found, with the same
row. -/
theorem VaultsRepository.Create_vault_effect {now : String} {s s1 : Store} {v : Bytes} {o : String}
    (h : VaultsRepository.Create now s v o = .ok s1) :
    s1 = { s with vaults := s.vaults ++
      [{ VaultID := v, OwnerDeviceID := o, CreatedAt := now, UpdatedAt := now }] } ∧
    s.vaults.any (fun r => r.VaultID == v) = false := by
  unfold VaultsRepository.Create at h
  split at h
  · contradiction
  · rename_i hany
    injection h with h
    exact ⟨h.symm, by simpa using hany⟩

theorem MemberEventsRepository.Create_memberEvent_effect {now : String} {s s1 : Store}
    {r : MemberEventRow} (h : MemberEventsRepository.Create now s r = .ok s1) :
    s1 = { s with memberEvents := s.memberEvents ++
      [{ r with CreatedAt := if r.CreatedAt == "" then now else r.CreatedAt }] } := by
  unfold MemberEventsRepository.Create at h
  dsimp only at h
  split at h
  · contradiction
  · injection h with h
    exact h.symm

theorem VaultsRepository.UpsertMembershipHead_effect {s s1 : Store} {v : Bytes} {n : Nat}
    {hh : Bytes} (h : VaultsRepository.UpsertMembershipHead s v n hh = .ok s1) :
    ∃ heads, s1 = { s with vaultMembershipHeads := heads } ∧
      (∃ hd, heads.find? (fun r => r.VaultID == v) = some hd ∧ hd.VaultID = v ∧
        hd.MemberSeq = n ∧ hd.MemberHeadHash = hh) ∧
      ∀ v2, v2 ≠ v → heads.find? (fun r => r.VaultID == v2) =
        s.vaultMembershipHeads.find? (fun r => r.VaultID == v2) := by
  unfold VaultsRepository.UpsertMembershipHead at h
  split at h
  · rename_i hany
    injection h with h
    refine ⟨_, h.symm, ?_, ?_⟩
    · obtain ⟨x, _, hpx, hfind⟩ := find?_map_of_any
        (fun r : VaultMembershipHead => r.VaultID == v)
        (fun r => if r.VaultID == v then
          { r with MemberSeq := n, MemberHeadHash := hh } else r)
        s.vaultMembershipHeads (by intro x; dsimp only; split <;> simp_all) hany
      refine ⟨_, hfind, ?_, ?_, ?_⟩
      · dsimp only; rw [if_pos hpx]; simpa using hpx
      · dsimp only; rw [if_pos hpx]
      · dsimp only; rw [if_pos hpx]
    · intro v2 hne
      apply find?_map_other
      · intro x
        by_cases hc : (x.VaultID == v) = true <;> simp [hc]
      · intro x hx
        simp only [beq_iff_eq] at hx
        simp only [beq_eq_false_iff_ne, ne_eq]
        intro hcon
        exact hne (hx.symm.trans hcon)
  · rename_i hany
    injection h with h
    refine ⟨_, h.symm, ?_, ?_⟩
    · refine ⟨_, find?_append_of_any_false _ _ _ (by simpa using hany) (by simp), rfl, rfl, rfl⟩
    · intro v2 hne
      apply find?_append_singleton_other
      simp only [beq_eq_false_iff_ne, ne_eq]
      exact fun hcon => hne hcon.symm

theorem VaultsRepository.UpsertMember_effect {s s1 : Store} {m : VaultMemberRow}
    (h : VaultsRepository.UpsertMember s m = .ok s1) :
    ∃ members, s1 = { s with vaultMembers := members } ∧
      (∃ r, members.find? (fun r => r.VaultID == m.VaultID && r.DeviceID == m.DeviceID)
          = some r ∧ r.VaultID = m.VaultID ∧ r.DeviceID = m.DeviceID ∧
        r.DevicePubkeySign = m.DevicePubkeySign ∧ r.DevicePubkeyBox = m.DevicePubkeyBox ∧
        r.SubjectBundleSig = m.SubjectBundleSig ∧ r.IsMember = m.IsMember ∧
        r.KeyEpoch = m.KeyEpoch) ∧
      ∀ v d, ¬ (v = m.VaultID ∧ d = m.DeviceID) →
        members.find? (fun r => r.VaultID == v && r.DeviceID == d) =
          s.vaultMembers.find? (fun r => r.VaultID == v && r.DeviceID == d) := by
  unfold VaultsRepository.UpsertMember at h
  split at h
  · rename_i hany
    injection h with h
    refine ⟨_, h.symm, ?_, ?_⟩
    · obtain ⟨x, _, hpx, hfind⟩ := find?_map_of_any
        (fun r : VaultMemberRow => r.VaultID == m.VaultID && r.DeviceID == m.DeviceID)
        (fun r => if r.VaultID == m.VaultID && r.DeviceID == m.DeviceID then
          { r with DevicePubkeySign := m.DevicePubkeySign,
                   DevicePubkeyBox := m.DevicePubkeyBox,
                   SubjectBundleSig := m.SubjectBundleSig, IsMember := m.IsMember,
                   KeyEpoch := m.KeyEpoch } else r)
        s.vaultMembers (by intro x; dsimp only; split <;> simp_all) hany
      have hk : x.VaultID = m.VaultID ∧ x.DeviceID = m.DeviceID := by simpa using hpx
      refine ⟨_, hfind, ?_, ?_, ?_, ?_, ?_, ?_, ?_⟩ <;>
        (dsimp only; rw [if_pos hpx]) <;> first | exact hk.1 | exact hk.2
    · intro v d hne
      apply find?_map_other
      · intro x
        by_cases hc : (x.VaultID == m.VaultID && x.DeviceID == m.DeviceID) = true <;>
          simp [hc]
      · intro x hx
        simp only [Bool.and_eq_true, beq_iff_eq] at hx
        simp only [Bool.and_eq_false_iff, beq_eq_false_iff_ne, ne_eq]
        by_contra hcon
        simp only [not_or, Decidable.not_not] at hcon
        exact hne ⟨hx.1.symm.trans hcon.1, hx.2.symm.trans hcon.2⟩
  · rename_i hany
    injection h with h
    refine ⟨_, h.symm, ?_, ?_⟩
    · exact ⟨m, find?_append_of_any_false _ _ _ (by simpa using hany) (by simp),
        rfl, rfl, rfl, rfl, rfl, rfl, rfl⟩
    · intro v d hne
      apply find?_append_singleton_other
      simp only [Bool.and_eq_false_iff, beq_eq_false_iff_ne, ne_eq]
      by_contra hcon
      simp only [not_or, Decidable.not_not] at hcon
      exact hne ⟨hcon.1.symm, hcon.2.symm⟩

theorem VaultsRepository.SetMemberRemoved_effect {s s1 : Store} {v : Bytes} {d : String}
    (h : VaultsRepository.SetMemberRemoved s v d = .ok s1) :
    ∃ members, s1 = { s with vaultMembers := members } ∧
      ∀ v2 d2, members.find? (fun r => r.VaultID == v2 && r.DeviceID == d2) =
        (s.vaultMembers.find? (fun r => r.VaultID == v2 && r.DeviceID == d2)).map
          (fun m => if m.VaultID == v && m.DeviceID == d then { m with IsMember := false }
            else m) := by
  unfold VaultsRepository.SetMemberRemoved at h
  injection h with h
  refine ⟨_, h.symm, ?_⟩
  intro v2 d2
  apply find?_map_same
  intro x
  by_cases hc : (x.VaultID == v && x.DeviceID == d) = true <;> simp [hc]

theorem VaultsRepository.UpdateMemberKeyEpoch_effect {s s1 : Store} {v : Bytes} {d : String}
    {k : Nat} (h : VaultsRepository.UpdateMemberKeyEpoch s v d k = .ok s1) :
    ∃ members, s1 = { s with vaultMembers := members } ∧
      ∀ v2 d2, members.find? (fun r => r.VaultID == v2 && r.DeviceID == d2) =
        (s.vaultMembers.find? (fun r => r.VaultID == v2 && r.DeviceID == d2)).map
          (fun m => if m.VaultID == v && m.DeviceID == d then { m with KeyEpoch := k }
            else m) := by
  unfold VaultsRepository.UpdateMemberKeyEpoch at h
  injection h with h
  refine ⟨_, h.symm, ?_⟩
  intro v2 d2
  apply find?_map_same
  intro x
  by_cases hc : (x.VaultID == v && x.DeviceID == d) = true <;> simp [hc]

theorem InvitesRepository.MarkUsed_effect {s s1 : Store} {i : Bytes}
    (h : InvitesRepository.MarkUsed s i = .ok s1) :
    s1 = { s with invites := s.invites.map (fun r =>
      if r.InviteID == i then { r with Used := true } else r) } := by
  unfold InvitesRepository.MarkUsed at h
  injection h with h
  exact h.symm

/-! ## Accepted member events -/

theorem VaultsRepository.UpsertMembershipHead_ne_error (s : Store) (v : Bytes) (n : Nat)
    (hh : Bytes) (e : StorageError) :
    VaultsRepository.UpsertMembershipHead s v n hh ≠ .error e := by
  unfold VaultsRepository.UpsertMembershipHead
  split <;> exact fun h => Except.noConfusion h

theorem VaultsRepository.UpsertMember_ne_error (s : Store) (m : VaultMemberRow)
    (e : StorageError) : VaultsRepository.UpsertMember s m ≠ .error e := by
  unfold VaultsRepository.UpsertMember
  split <;> exact fun h => Except.noConfusion h

/-- The run of `handleMemberEventCreate` once the validator has accepted and
the two inserts have succeeded: the remaining writes cannot fail and the
answer is 201. -/
theorem handleMemberEventCreate_accepts {lib : CryptoLib} {now : String} {s s1 s2 : Store}
    {r : MemberEventRequest} {vaultID : UUID} {u : Unit} {msgType : String}
    {row : MemberEventRow} {event : MemberEvent}
    (hp : r.pathVaultID = some vaultID) (hraw : r.raw = .ok u)
    (hmt : r.msgTypeCheck = .ok msgType)
    (hsw : memberEventSwitch lib s vaultID msgType r.event = .ok (row, event))
    (h1 : (if (row.MemberSeq == 1) = true then
          VaultsRepository.Create now s vaultID.Bytes row.ActorDeviceID
        else .ok s) = .ok s1)
    (hme : MemberEventsRepository.Create now s1 row = .ok s2) :
    ∃ s3 s4 s5 : Store,
      VaultsRepository.UpsertMembershipHead s2 vaultID.Bytes row.MemberSeq row.MemberHash
        = .ok s3 ∧
      (if (msgType == "member_add") = true then
          VaultsRepository.UpsertMember s3
            { VaultID := vaultID.Bytes, DeviceID := row.SubjectDeviceID,
              DevicePubkeySign := row.SubjectPubkeySign,
              DevicePubkeyBox := row.SubjectPubkeyBox,
              SubjectBundleSig := row.SubjectBundleSig, IsMember := true, KeyEpoch := 1 }
        else VaultsRepository.SetMemberRemoved s3 vaultID.Bytes row.SubjectDeviceID)
        = .ok s4 ∧
      (if (msgType == "member_add") = true ∧
          (!(row.MemberSeq == 1) && row.InviteID != []) = true then
          InvitesRepository.MarkUsed s4 row.InviteID
        else .ok s4) = .ok s5 ∧
      handleMemberEventCreate lib now s r = (.json 201 event, s5) := by
  rcases handleMemberEventCreate_cases lib now s r with ⟨e, h⟩ |
    ⟨vaultID2, msgType2, row2, event2, s12, hp2, hmt2, hsw2, h12, h2⟩
  · exfalso
    obtain ⟨path, raw, mt, body⟩ := r
    simp only [] at hp hraw hmt hsw
    subst hp
    subst hraw
    subst hmt
    unfold handleMemberEventCreate at h
    simp only [hsw] at h
    rw [h1] at h
    simp only [hme] at h
    repeat' (split at h)
    all_goals first
      | (injection h with h _; contradiction)
      | exact absurd ‹_ = Except.error _›
          (VaultsRepository.UpsertMembershipHead_ne_error _ _ _ _ _)
      | exact absurd ‹_ = Except.error _› (VaultsRepository.UpsertMember_ne_error _ _ _)
  · rw [hp] at hp2
    injection hp2 with hp2
    subst hp2
    rw [hmt] at hmt2
    injection hmt2 with hmt2
    subst hmt2
    rw [hsw] at hsw2
    injection hsw2 with hsw2
    injection hsw2 with hr he
    subst hr
    subst he
    rw [h1] at h12
    injection h12 with h12
    subst h12
    rcases h2 with ⟨err, herr, _⟩ | ⟨s22, s3, s4, s5, hme2, hu, hw, hk, hres⟩
    · rw [hme] at herr
      contradiction
    · rw [hme] at hme2
      injection hme2 with hme2
      subst hme2
      exact ⟨s3, s4, s5, hu, hw, hk, hres⟩

/-! ## The message-type switch -/

theorem memberEventSwitch_of_add {lib : CryptoLib} {s : Store} {vaultID : UUID}
    {body : Except String MemberEvent} {row : MemberEventRow} {event : MemberEvent}
    (hev : body = .ok event) (hv : vaultID.Bytes = event.VaultID.Bytes)
    (hval : ValidateMemberAdd lib s event = .ok row) :
    memberEventSwitch lib s vaultID "member_add" body = .ok (row, event) := by
  subst hev
  unfold memberEventSwitch
  rw [if_pos (by decide)]
  simp only [hv, bne_self_eq_false, Bool.false_eq_true, ↓reduceIte, hval]

theorem memberEventSwitch_of_remove {lib : CryptoLib} {s : Store} {vaultID : UUID}
    {body : Except String MemberEvent} {row : MemberEventRow} {event : MemberEvent}
    (hev : body = .ok event) (hv : vaultID.Bytes = event.VaultID.Bytes)
    (hval : ValidateMemberRemove lib s event = .ok row) :
    memberEventSwitch lib s vaultID "member_remove" body = .ok (row, event) := by
  subst hev
  unfold memberEventSwitch
  rw [if_neg (by decide), if_pos (by decide)]
  simp only [hv, bne_self_eq_false, Bool.false_eq_true, ↓reduceIte, hval]

/-- The row `ValidateMemberAdd` returns carries the fields of the event. -/
theorem ValidateMemberAdd_row {lib : CryptoLib} {s : Store} {ev : MemberEvent}
    {row : MemberEventRow} (h : ValidateMemberAdd lib s ev = .ok row) :
    row.MemberEventID = ev.MemberEventID.Bytes ∧ row.VaultID = ev.VaultID.Bytes ∧
    row.MemberSeq = ev.MemberSeq ∧ row.ActorDeviceID = ev.ActorDeviceID ∧
    row.SubjectDeviceID = ev.SubjectDeviceID ∧ row.SubjectPubkeySign = ev.SubjectPubkeySign ∧
    row.SubjectPubkeyBox = ev.SubjectPubkeyBox ∧ row.SubjectBundleSig = ev.SubjectBundleSig ∧
    row.InviteID = ev.InviteID.Bytes := by
  obtain ⟨_, _, _, _, _, _, _, _, _, _, _, _, hrest⟩ := ValidateMemberAdd_ok_inv h
  obtain ⟨_, _, _, _, _, _, _, _, _, _, _, _, _, hrow⟩ := hrest
  subst hrow
  exact ⟨rfl, rfl, rfl, rfl, rfl, rfl, rfl, rfl, rfl⟩

/-- The row `ValidateMemberRemove` returns carries the fields of the event. -/
theorem ValidateMemberRemove_row {lib : CryptoLib} {s : Store} {ev : MemberEvent}
    {row : MemberEventRow} (h : ValidateMemberRemove lib s ev = .ok row) :
    row.MemberEventID = ev.MemberEventID.Bytes ∧ row.VaultID = ev.VaultID.Bytes ∧
    row.MemberSeq = ev.MemberSeq ∧ row.ActorDeviceID = ev.ActorDeviceID ∧
    row.SubjectDeviceID = ev.SubjectDeviceID ∧ row.InviteID = [] := by
  obtain ⟨_, _, _, _, _, _, _, _, _, _, _, _, hrest⟩ := ValidateMemberRemove_ok_inv h
  obtain ⟨_, _, _, _, _, _, _, _, _, _, _, hrow⟩ := hrest
  subst hrow
  exact ⟨rfl, rfl, rfl, rfl, rfl, rfl⟩

/-! ## Forward runs of the handlers -/

/-- The writes of `handleMemberEventCreate` for an accepted event with
`member_seq` other than 1 whose id is not stored yet. -/
theorem handleMemberEventCreate_later {lib : CryptoLib} {now : String} {s : Store}
    {r : MemberEventRequest} {vaultID : UUID} {u : Unit} {msgType : String}
    {row : MemberEventRow} {event : MemberEvent}
    (hp : r.pathVaultID = some vaultID) (hraw : r.raw = .ok u)
    (hmt : r.msgTypeCheck = .ok msgType)
    (hsw : memberEventSwitch lib s vaultID msgType r.event = .ok (row, event))
    (hseq : row.MemberSeq ≠ 1)
    (hfresh : s.memberEvents.any (fun e => e.MemberEventID == row.MemberEventID) = false) :
    ∃ (heads : List VaultMembershipHead) (s4 s5 : Store),
      heads.find? (fun h => h.VaultID == vaultID.Bytes) =
        some { VaultID := vaultID.Bytes, MemberSeq := row.MemberSeq,
               MemberHeadHash := row.MemberHash } ∧
      (if (msgType == "member_add") = true then
          VaultsRepository.UpsertMember
            { s with
              memberEvents := s.memberEvents ++
                [{ row with CreatedAt := if row.CreatedAt == "" then now else row.CreatedAt }]
              vaultMembershipHeads := heads }
            { VaultID := vaultID.Bytes, DeviceID := row.SubjectDeviceID,
              DevicePubkeySign := row.SubjectPubkeySign,
              DevicePubkeyBox := row.SubjectPubkeyBox,
              SubjectBundleSig := row.SubjectBundleSig, IsMember := true, KeyEpoch := 1 }
        else VaultsRepository.SetMemberRemoved
            { s with
              memberEvents := s.memberEvents ++
                [{ row with CreatedAt := if row.CreatedAt == "" then now else row.CreatedAt }]
              vaultMembershipHeads := heads }
            vaultID.Bytes row.SubjectDeviceID)
        = .ok s4 ∧
      (if (msgType == "member_add") = true ∧ (row.InviteID != []) = true then
          InvitesRepository.MarkUsed s4 row.InviteID
        else .ok s4) = .ok s5 ∧
      handleMemberEventCreate lib now s r = (.json 201 event, s5) := by
  have hgen : (row.MemberSeq == 1) = false := by simpa using hseq
  have h1 : (if (row.MemberSeq == 1) = true then
        VaultsRepository.Create now s vaultID.Bytes row.ActorDeviceID
      else .ok s) = .ok s := by
    rw [if_neg (by simp [hgen])]
  have hme : MemberEventsRepository.Create now s row
      = .ok { s with memberEvents := s.memberEvents ++
          [{ row with CreatedAt := if row.CreatedAt == "" then now else row.CreatedAt }] } := by
    unfold MemberEventsRepository.Create
    dsimp only
    rw [if_neg (by simp only [hfresh]; decide)]
  obtain ⟨s3, s4, s5, hu, hw, hk, hres⟩ :=
    handleMemberEventCreate_accepts hp hraw hmt hsw h1 hme
  obtain ⟨heads, e3, ⟨hd, hhd, hd1, hd2, hd3⟩, _⟩ :=
    VaultsRepository.UpsertMembershipHead_effect hu
  subst e3
  refine ⟨heads, s4, s5, ?_, hw, ?_, hres⟩
  · rw [hhd]
    obtain ⟨a, b, c⟩ := hd
    simp only [] at hd1 hd2 hd3
    subst hd1
    subst hd2
    subst hd3
    rfl
  · simp only [hgen, Bool.not_false, Bool.true_and] at hk
    exact hk

theorem HandlerCall.run_memberEventCreate (lib : CryptoLib) (s : Store) (now : String)
    (r : MemberEventRequest) :
    (HandlerCall.memberEventCreate now r).run lib s = (handleMemberEventCreate lib now s r).2 :=
  rfl

theorem prod_eq_of_fst {α β : Type} {p : α × β} {a : α} (h : p.1 = a) : p = (a, p.2) := by
  cases p
  cases h
  rfl

/-- `ValidateMemberAdd` reads the tables `vaults`, `vault_membership_heads`,
`invites` and `invite_claims`, and of `vault_members` the row of the actor. -/
theorem ValidateMemberAdd_congr (lib : CryptoLib) {s s1 : Store} (ev : MemberEvent)
    (h1 : s1.vaults = s.vaults) (h2 : s1.vaultMembershipHeads = s.vaultMembershipHeads)
    (h3 : s1.invites = s.invites) (h4 : s1.inviteClaims = s.inviteClaims)
    (h5 : s1.vaultMembers.find?
        (fun m => m.VaultID == ev.VaultID.Bytes && m.DeviceID == ev.ActorDeviceID) =
      s.vaultMembers.find?
        (fun m => m.VaultID == ev.VaultID.Bytes && m.DeviceID == ev.ActorDeviceID)) :
    ValidateMemberAdd lib s1 ev = ValidateMemberAdd lib s ev := by
  unfold ValidateMemberAdd memberAddInvitedChecks memberAddSignerPubkey
  simp only [VaultsRepository.Get, VaultsRepository.GetMembershipHead, InvitesRepository.Get,
    InvitesRepository.GetClaim, VaultsRepository.GetMember, h1, h2, h3, h4, h5]

/-- An answer 201 of `handleMemberEventCreate` to a member_add: the validator
accepted, and the subject's `vault_members` row carries the keys and bundle
signature of the event, `is_member` = true and `key_epoch` = 1. -/
theorem handleMemberEventCreate_ok_add {lib : CryptoLib} {now : String} {s s5 : Store}
    {r : MemberEventRequest} {event : MemberEvent}
    (hres : handleMemberEventCreate lib now s r = (.json 201 event, s5))
    (hmsg : event.MsgType = "member_add") :
    ∃ row, ValidateMemberAdd lib s event = .ok row ∧
      VaultsRepository.GetMember s5 event.VaultID.Bytes event.SubjectDeviceID =
        .ok (some { VaultID := event.VaultID.Bytes, DeviceID := event.SubjectDeviceID,
                    DevicePubkeySign := event.SubjectPubkeySign,
                    DevicePubkeyBox := event.SubjectPubkeyBox,
                    SubjectBundleSig := event.SubjectBundleSig,
                    IsMember := true, KeyEpoch := 1 }) := by
  rcases handleMemberEventCreate_cases lib now s r with ⟨e, h⟩ |
    ⟨vaultID, msgType, row, event2, s1, _, _, hsw, h1, h2⟩
  · rw [h] at hres
    injection hres with hres _
    contradiction
  rcases h2 with ⟨err, _, h⟩ | ⟨s2, s3, s4, s6, hme, hu, hw, hk, h⟩
  · rw [h] at hres
    injection hres with hres _
    contradiction
  rw [h] at hres
  injection hres with hres hs
  injection hres with _ hev
  subst hev
  subst hs
  obtain ⟨_, hvid, hval⟩ := memberEventSwitch_ok hsw
  rcases hval with ⟨hmt, hval⟩ | ⟨_, hval⟩
  · subst hmt
    refine ⟨row, hval, ?_⟩
    obtain ⟨_, _, _, _, hrsub, hrks, hrkb, hrsig, _⟩ := ValidateMemberAdd_row hval
    rw [if_pos (by decide)] at hw
    obtain ⟨members, e4, ⟨m, hm, hm0, hm00, hm1, hm2, hm3, hm4, hm5⟩, _⟩ :=
      VaultsRepository.UpsertMember_effect hw
    have e5 : s6.vaultMembers = s4.vaultMembers := by
      split at hk
      · exact (InvitesRepository.MarkUsed_sameChains hk).2.2.1
      · injection hk with hk; subst hk; rfl
    subst e4
    unfold VaultsRepository.GetMember
    rw [e5]
    simp only [] at hm hm0 hm00 hm1 hm2 hm3 hm4 hm5 ⊢
    rw [← hvid, ← hrsub, hm]
    obtain ⟨a, b, c, d, e, f, g⟩ := m
    simp only [] at hm0 hm00 hm1 hm2 hm3 hm4 hm5
    subst hm0
    subst hm00
    subst hm1
    subst hm2
    subst hm3
    subst hm4
    subst hm5
    rw [hrks, hrkb, hrsig]
  · have := (ValidateMemberRemove_ok_inv hval).1
    rw [hmsg] at this
    exact absurd this (by decide)

/-- The run of `handleMemberEventCreate` when the validator has accepted and
the insert of the member event fails: the answer is 500 and the writes made
before stay. -/
theorem handleMemberEventCreate_insert_error {lib : CryptoLib} {now : String} {s s1 : Store}
    {r : MemberEventRequest} {vaultID : UUID} {u : Unit} {msgType : String}
    {row : MemberEventRow} {event : MemberEvent} {err : StorageError}
    (hp : r.pathVaultID = some vaultID) (hraw : r.raw = .ok u)
    (hmt : r.msgTypeCheck = .ok msgType)
    (hsw : memberEventSwitch lib s vaultID msgType r.event = .ok (row, event))
    (h1 : (if (row.MemberSeq == 1) = true then
          VaultsRepository.Create now s vaultID.Bytes row.ActorDeviceID
        else .ok s) = .ok s1)
    (hme : MemberEventsRepository.Create now s1 row = .error err) :
    handleMemberEventCreate lib now s r = (.apiError InternalError, s1) := by
  obtain ⟨path, raw, mt, body⟩ := r
  simp only [] at hp hraw hmt hsw
  subst hp
  subst hraw
  subst hmt
  unfold handleMemberEventCreate
  simp only [hsw]
  rw [h1]
  simp only [hme]

/-- The run of `handleMemberEventCreate` for an accepted genesis member_add
whose id is not stored yet: the answer is 201. -/
theorem handleMemberEventCreate_first {lib : CryptoLib} {now : String} {s : Store}
    {r : MemberEventRequest} {vaultID : UUID} {u : Unit} {event : MemberEvent}
    {row : MemberEventRow}
    (hp : r.pathVaultID = some vaultID) (hraw : r.raw = .ok u)
    (hmt : r.msgTypeCheck = .ok "member_add") (hev : r.event = .ok event)
    (hv : vaultID.Bytes = event.VaultID.Bytes) (hseq : event.MemberSeq = 1)
    (hval : ValidateMemberAdd lib s event = .ok row)
    (hfresh : s.memberEvents.any (fun e => e.MemberEventID == event.MemberEventID.Bytes)
      = false) :
    ∃ s5, handleMemberEventCreate lib now s r = (.json 201 event, s5) := by
  obtain ⟨hid, _, hrseq, _⟩ := ValidateMemberAdd_row hval
  obtain ⟨_, _, _, _, _, _, _, _, _, _, _, _, vault0, _, _, _, _, _, _, hget, hchk, _⟩ :=
    ValidateMemberAdd_ok_inv hval
  rw [if_pos (by simp [hseq])] at hchk
  obtain ⟨hnone, _, _⟩ := memberAddGenesisChecks_ok hchk
  subst hnone
  have hgen : (row.MemberSeq == 1) = true := by simp [hrseq, hseq]
  have hany : s.vaults.any (fun x => x.VaultID == vaultID.Bytes) = false := by
    unfold VaultsRepository.Get at hget
    injection hget with hget
    rw [hv]
    exact any_false_of_find?_none hget
  have h1 : (if (row.MemberSeq == 1) = true then
        VaultsRepository.Create now s vaultID.Bytes row.ActorDeviceID
      else .ok s) = .ok { s with vaults := s.vaults ++
        [{ VaultID := vaultID.Bytes, OwnerDeviceID := row.ActorDeviceID, CreatedAt := now,
           UpdatedAt := now }] } := by
    rw [if_pos hgen]
    unfold VaultsRepository.Create
    rw [if_neg (by simp only [hany]; decide)]
  have hme : MemberEventsRepository.Create now { s with vaults := s.vaults ++
        [{ VaultID := vaultID.Bytes, OwnerDeviceID := row.ActorDeviceID, CreatedAt := now,
           UpdatedAt := now }] } row
      = .ok { s with
          vaults := s.vaults ++
            [{ VaultID := vaultID.Bytes, OwnerDeviceID := row.ActorDeviceID, CreatedAt := now,
               UpdatedAt := now }]
          memberEvents := s.memberEvents ++
            [{ row with CreatedAt := if row.CreatedAt == "" then now else row.CreatedAt }] } := by
    unfold MemberEventsRepository.Create
    dsimp only
    rw [hid, if_neg (by simp only [hfresh]; decide)]
  obtain ⟨s3, s4, s5, _, _, _, hres⟩ := handleMemberEventCreate_accepts hp hraw hmt
    (memberEventSwitch_of_add hev hv hval) h1 hme
  exact ⟨s5, hres⟩

theorem handleInviteCreate_insert_error {lib : CryptoLib} {now : String} {s s1 : Store}
    {r : Request Invite} {vaultID : UUID} {invite : Invite} {row : InviteRow}
    {err : StorageError}
    (hp : r.pathVaultID = some vaultID) (hb : r.body = .ok invite)
    (hv : vaultID.Bytes = invite.VaultID.Bytes)
    (hval : ValidateInvite lib s invite = .ok row)
    (hs1 : InvitesRepository.RecordNonceUsed now s "invite" invite.VaultID.Bytes
      invite.CreatedByDeviceID invite.Nonce = .ok s1)
    (hc : InvitesRepository.Create now s1 row = .error err) :
    handleInviteCreate lib now s r = (.apiError InternalError, s1) := by
  obtain ⟨path, body⟩ := r
  simp only [] at hp hb
  subst hp
  subst hb
  unfold handleInviteCreate
  simp only [hv, bne_self_eq_false, Bool.false_eq_true, ↓reduceIte, hval, hs1, hc]

theorem handleInviteCreate_insert_ok {lib : CryptoLib} {now : String} {s s1 s2 : Store}
    {r : Request Invite} {vaultID : UUID} {invite : Invite} {row : InviteRow}
    (hp : r.pathVaultID = some vaultID) (hb : r.body = .ok invite)
    (hv : vaultID.Bytes = invite.VaultID.Bytes)
    (hval : ValidateInvite lib s invite = .ok row)
    (hs1 : InvitesRepository.RecordNonceUsed now s "invite" invite.VaultID.Bytes
      invite.CreatedByDeviceID invite.Nonce = .ok s1)
    (hc : InvitesRepository.Create now s1 row = .ok s2) :
    handleInviteCreate lib now s r = (.json 201 invite, s2) := by
  obtain ⟨path, body⟩ := r
  simp only [] at hp hb
  subst hp
  subst hb
  unfold handleInviteCreate
  simp only [hv, bne_self_eq_false, Bool.false_eq_true, ↓reduceIte, hval, hs1, hc]

/-! ## Box keys of member_add (C34) -/

theorem handleMemberEventCreate_genesisZeroBox :
    (handleMemberEventCreate testLib "2024-01-01T00:00:00Z" Store.empty
      requestGenesisZeroBox).1 = .json 201 genesisZeroBox := by decide!

/-- C34, the code at the failing input.  The genesis member_add
`genesisZeroBox` carries `subject_pubkey_box` = 32 zero bytes, the first of the
small-order points, which `ValidateX25519PublicKey` rejects and for which
`ValidateBundle` answers `invalid_x25519_key`.  `ValidateMemberAdd` accepts the
event on the empty store, and `handleMemberEventCreate` answers 201 and stores
the member of vault B with that box key. -/
theorem ValidateMemberAdd_accepts_small_order_box_key :
    genesisZeroBox.SubjectPubkeyBox = zeroBytes 32 ∧
    zeroBytes 32 ∈ smallOrderPoints ∧
    ValidateX25519PublicKey testLib genesisZeroBox.SubjectPubkeyBox =
      .error "X25519 public key is a small-order point" ∧
    ValidateBundle testLib bundleZeroBox =
      .error (BadRequest "invalid_x25519_key" "X25519 public key is a small-order point") ∧
    (∃ row, ValidateMemberAdd testLib Store.empty genesisZeroBox = .ok row ∧
      row.SubjectPubkeyBox = zeroBytes 32) ∧
    (handleMemberEventCreate testLib "2024-01-01T00:00:00Z" Store.empty
      requestGenesisZeroBox).1 = .json 201 genesisZeroBox ∧
    VaultsRepository.GetMember
      (handleMemberEventCreate testLib "2024-01-01T00:00:00Z" Store.empty
        requestGenesisZeroBox).2 vaultB.Bytes devOwner =
      .ok (some { VaultID := vaultB.Bytes, DeviceID := devOwner, DevicePubkeySign := keyOwner,
                  DevicePubkeyBox := zeroBytes 32,
                  SubjectBundleSig := genesisZeroBox.SubjectBundleSig,
                  IsMember := true, KeyEpoch := 1 }) := by
  obtain ⟨row, hval, hmember⟩ := handleMemberEventCreate_ok_add
    (prod_eq_of_fst handleMemberEventCreate_genesisZeroBox) rfl
  exact ⟨rfl, by decide, by decide, by decide!,
    ⟨row, hval, (ValidateMemberAdd_row hval).2.2.2.2.2.2.1⟩,
    handleMemberEventCreate_genesisZeroBox, hmember⟩

/-! ## Vaults whose owner was removed -/

theorem Store.ownerRemoved_congr {s s1 : Store} {v : Bytes} (h1 : s1.vaults = s.vaults)
    (h2 : s1.vaultMembers = s.vaultMembers) (h : s.ownerRemoved v) : s1.ownerRemoved v := by
  unfold Store.ownerRemoved VaultsRepository.Get VaultsRepository.GetMember at *
  rw [h1, h2]
  exact h

theorem ValidateMemberAdd_ownerRemoved (lib : CryptoLib) {s : Store} {ev : MemberEvent}
    (hf : s.ownerRemoved ev.VaultID.Bytes) : ∃ e, ValidateMemberAdd lib s ev = .error e := by
  cases hres : ValidateMemberAdd lib s ev with
  | error e => exact ⟨e, rfl⟩
  | ok row =>
    exfalso
    obtain ⟨vault, hv, hm⟩ := hf
    obtain ⟨_, _, _, _, _, _, _, _, _, _, sb, bb, vault2, ab, sgb, key, _, _, _, hget, hchk, _, _,
      hkey, _, _⟩ := ValidateMemberAdd_ok_inv hres
    rw [hv] at hget
    injection hget with hget
    subst hget
    cases hg : (ev.MemberSeq == 1) with
    | true =>
      rw [hg] at hchk
      simp only [if_true] at hchk
      have := (memberAddGenesisChecks_ok hchk).1
      contradiction
    | false =>
      rw [hg] at hchk hkey
      simp only [Bool.false_eq_true, if_false] at hchk
      obtain ⟨v, _, _, _, _, hvv, hown, _⟩ := memberAddInvitedChecks_ok hchk
      injection hvv with hvv
      subst hvv
      obtain ⟨actor, hact, hmem, _⟩ := memberAddSignerPubkey_invited hkey
      rw [hown] at hact
      have := hm actor hact
      rw [this] at hmem
      contradiction

theorem ValidateMemberRemove_ownerRemoved (lib : CryptoLib) {s : Store} {ev : MemberEvent}
    (hf : s.ownerRemoved ev.VaultID.Bytes) :
    ∃ e, ValidateMemberRemove lib s ev = .error e := by
  cases hres : ValidateMemberRemove lib s ev with
  | error e => exact ⟨e, rfl⟩
  | ok row =>
    exfalso
    obtain ⟨vault, hv, hm⟩ := hf
    obtain ⟨_, _, _, _, _, vault2, _, _, _, _, actor, hget, hown, _, _, _, _, _, _, _, hact,
      hmem, _⟩ := ValidateMemberRemove_ok_inv hres
    rw [hv] at hget
    injection hget with hget
    injection hget with hget
    subst hget
    rw [hown] at hact
    have := hm actor hact
    rw [this] at hmem
    contradiction

theorem ValidateKeyUpdate_ownerRemoved (lib : CryptoLib) {s : Store} {ku : KeyUpdate}
    (hf : s.ownerRemoved ku.VaultID.Bytes) : ∃ e, ValidateKeyUpdate lib s ku = .error e := by
  cases hres : ValidateKeyUpdate lib s ku with
  | error e => exact ⟨e, rfl⟩
  | ok row =>
    exfalso
    obtain ⟨vault, hv, hm⟩ := hf
    obtain ⟨_, _, _, _, _, _, _, vault2, creator, _, _, _, _, hget, hown, hact, hmem, _⟩ :=
      ValidateKeyUpdate_ok_inv hres
    rw [hv] at hget
    injection hget with hget
    injection hget with hget
    subst hget
    rw [hown] at hact
    have := hm creator hact
    rw [this] at hmem
    contradiction

theorem ValidateSnapshot_ownerRemoved (lib : CryptoLib) {s : Store} {snap : Snapshot}
    (hf : s.ownerRemoved snap.VaultID.Bytes) : ∃ e, ValidateSnapshot lib s snap = .error e := by
  cases hres : ValidateSnapshot lib s snap with
  | error e => exact ⟨e, rfl⟩
  | ok row =>
    exfalso
    obtain ⟨vault, hv, hm⟩ := hf
    obtain ⟨_, _, _, _, _, _, _, _, vault2, creator, _, _, _, hget, hown, hact, hmem, _⟩ :=
      ValidateSnapshot_ok_inv hres
    rw [hv] at hget
    injection hget with hget
    injection hget with hget
    subst hget
    rw [hown] at hact
    have := hm creator hact
    rw [this] at hmem
    contradiction

theorem handleKeyUpdateAck_cases (lib : CryptoLib) (now : String) (s : Store)
    (r : Request KeyUpdateAck) :
    (handleKeyUpdateAck lib now s r).2 = s ∨
    ∃ (vaultID : UUID) (ack : KeyUpdateAck) (row : KeyUpdateAckRow) (s1 s2 : Store),
      r.pathVaultID = some vaultID ∧ r.body = .ok ack ∧
      vaultID.Bytes = ack.VaultID.Bytes ∧ ValidateKeyUpdateAck lib s ack = .ok row ∧
      KeyUpdatesRepository.CreateAck now s row = .ok s1 ∧
      VaultsRepository.UpdateMemberKeyEpoch s1 vaultID.Bytes ack.DeviceID ack.KeyEpoch
        = .ok s2 ∧
      handleKeyUpdateAck lib now s r = (.json 201 ack, s2) := by
  obtain ⟨path, body⟩ := r
  unfold handleKeyUpdateAck
  cases path with
  | none => exact Or.inl rfl
  | some vaultID =>
    cases body with
    | error err => exact Or.inl rfl
    | ok ack =>
      dsimp only
      by_cases hv : (vaultID.Bytes != ack.VaultID.Bytes) = true
      · rw [if_pos hv]; exact Or.inl rfl
      · rw [if_neg hv]
        have hvid : vaultID.Bytes = ack.VaultID.Bytes := by simpa using hv
        cases hval : ValidateKeyUpdateAck lib s ack with
        | error e => exact Or.inl rfl
        | ok row =>
          dsimp only
          obtain ⟨s1, hc, _⟩ := KeyUpdatesRepository.CreateAck_ok now s row
          rw [hc]
          dsimp only
          exact Or.inr ⟨vaultID, ack, row, s1, _, rfl, rfl, hvid, hval, hc, rfl, rfl⟩

theorem handleEventCreate_membership (lib : CryptoLib) (now : String) (s : Store)
    (r : Request Event) :
    (handleEventCreate lib now s r).2.vaults = s.vaults ∧
    (handleEventCreate lib now s r).2.vaultMembershipHeads = s.vaultMembershipHeads ∧
    (handleEventCreate lib now s r).2.vaultMembers = s.vaultMembers := by
  rcases handleEventCreate_cases lib now s r with h |
    ⟨vaultID, event, row, seq, s1, s2, hp, hb, hv, hval, hc, hu, hres⟩
  · rw [h]; exact ⟨rfl, rfl, rfl⟩
  · rw [hres]
    have e1 := EventsRepository.Create_events hc
    obtain ⟨heads, e2, _⟩ := EventsRepository.UpsertEventHead_frame hu
    subst e1
    subst e2
    exact ⟨rfl, rfl, rfl⟩

/-- What a step does to the membership tables as seen from one vault `v` in
which the owner is no longer a member: the vault row, the membership head and
the owner's non-membership stay. -/
theorem HandlerCall.run_ownerRemoved (lib : CryptoLib) (s : Store) (c : HandlerCall)
    (v : UUID) (hf : s.ownerRemoved v.Bytes) :
    (c.run lib s).ownerRemoved v.Bytes ∧
    VaultsRepository.GetMembershipHead (c.run lib s) v.Bytes =
      VaultsRepository.GetMembershipHead s v.Bytes := by
  have same : ∀ s1 : Store, s1.vaults = s.vaults →
      s1.vaultMembershipHeads = s.vaultMembershipHeads → s1.vaultMembers = s.vaultMembers →
      s1.ownerRemoved v.Bytes ∧
      VaultsRepository.GetMembershipHead s1 v.Bytes =
        VaultsRepository.GetMembershipHead s v.Bytes := by
    intro s1 h1 h2 h3
    exact ⟨Store.ownerRemoved_congr h1 h3 hf, by
      unfold VaultsRepository.GetMembershipHead; rw [h2]⟩
  cases c with
  | deviceRegister now body =>
    have h := handleDeviceRegister_sameChains lib now s body
    exact same _ h.1 h.2.1 h.2.2.1
  | inviteCreate now r =>
    have h := handleInviteCreate_sameChains lib now s r
    exact same _ h.1 h.2.1 h.2.2.1
  | inviteClaim now p body =>
    have h := handleInviteClaim_sameChains lib now s p body
    exact same _ h.1 h.2.1 h.2.2.1
  | keyUpdateCreate now r =>
    have h := handleKeyUpdateCreate_sameChains lib now s r
    exact same _ h.1 h.2.1 h.2.2.1
  | snapshotCreate now r =>
    have h := handleSnapshotCreate_sameChains lib now s r
    exact same _ h.1 h.2.1 h.2.2.1
  | pruneOld vaultID => exact same _ rfl rfl rfl
  | eventCreate now r =>
    have h := handleEventCreate_membership lib now s r
    exact same _ h.1 h.2.1 h.2.2
  | keyUpdateAck now r =>
    show (handleKeyUpdateAck lib now s r).2.ownerRemoved v.Bytes ∧ _
    rcases handleKeyUpdateAck_cases lib now s r with h |
      ⟨vaultID, ack, row, s1, s2, _, _, _, _, hc, hu, hres⟩
    · show (handleKeyUpdateAck lib now s r).2.ownerRemoved v.Bytes ∧
        VaultsRepository.GetMembershipHead (handleKeyUpdateAck lib now s r).2 v.Bytes = _
      rw [h]; exact ⟨hf, rfl⟩
    · show (handleKeyUpdateAck lib now s r).2.ownerRemoved v.Bytes ∧
        VaultsRepository.GetMembershipHead (handleKeyUpdateAck lib now s r).2 v.Bytes = _
      rw [hres]
      have hs1 := KeyUpdatesRepository.CreateAck_sameChains hc
      obtain ⟨members, e2, hfind⟩ := VaultsRepository.UpdateMemberKeyEpoch_effect hu
      subst e2
      obtain ⟨vault, hv, hm⟩ := hf
      refine ⟨⟨vault, ?_, ?_⟩, ?_⟩
      · unfold VaultsRepository.Get at hv ⊢
        simp only [hs1.1]
        exact hv
      · intro m hm2
        unfold VaultsRepository.GetMember at hm2 hm
        simp only [] at hm2
        rw [hfind, hs1.2.2.1] at hm2
        injection hm2 with hm2
        cases hfo : s.vaultMembers.find?
            (fun r => r.VaultID == v.Bytes && r.DeviceID == vault.OwnerDeviceID) with
        | none => rw [hfo] at hm2; simp at hm2
        | some m0 =>
          rw [hfo] at hm2
          simp only [Option.map_some', Option.some.injEq] at hm2
          have h0 := hm m0 (by rw [hfo])
          rw [← hm2]
          split <;> exact h0
      · unfold VaultsRepository.GetMembershipHead
        simp only [hs1.2.1]
  | memberEventCreate now r =>
    show (handleMemberEventCreate lib now s r).2.ownerRemoved v.Bytes ∧
      VaultsRepository.GetMembershipHead (handleMemberEventCreate lib now s r).2 v.Bytes = _
    rcases handleMemberEventCreate_cases lib now s r with ⟨_, h⟩ |
      ⟨vaultID, msgType, row, event, s1, _, _, hsw, h1, h2⟩
    · rw [h]; exact ⟨hf, rfl⟩
    obtain ⟨_, hvid, hval⟩ := memberEventSwitch_ok hsw
    have hne : vaultID.Bytes ≠ v.Bytes := by
      intro heq
      have hf2 : s.ownerRemoved event.VaultID.Bytes := by rw [← hvid, heq]; exact hf
      rcases hval with ⟨_, hval⟩ | ⟨_, hval⟩
      · obtain ⟨e, he⟩ := ValidateMemberAdd_ownerRemoved lib hf2
        rw [he] at hval; contradiction
      · obtain ⟨e, he⟩ := ValidateMemberRemove_ownerRemoved lib hf2
        rw [he] at hval; contradiction
    obtain ⟨vault, hv, hm⟩ := hf
    -- the vault row is still found after a possible insert of another vault
    have hs1 : VaultsRepository.Get s1 v.Bytes = .ok (some vault) ∧
        s1.vaultMembers = s.vaultMembers ∧
        s1.vaultMembershipHeads = s.vaultMembershipHeads := by
      split at h1
      · obtain ⟨e1, _⟩ := VaultsRepository.Create_vault_effect h1
        subst e1
        refine ⟨?_, rfl, rfl⟩
        unfold VaultsRepository.Get at hv ⊢
        injection hv with hv
        simp only []
        rw [find?_append_of_some _ _ _ _ hv]
      · injection h1 with h1; subst h1; exact ⟨hv, rfl, rfl⟩
    have base : s1.ownerRemoved v.Bytes ∧
        VaultsRepository.GetMembershipHead s1 v.Bytes =
          VaultsRepository.GetMembershipHead s v.Bytes := by
      refine ⟨⟨vault, hs1.1, ?_⟩, ?_⟩
      · intro m hm2
        unfold VaultsRepository.GetMember at hm2 hm
        rw [hs1.2.1] at hm2
        exact hm m hm2
      · unfold VaultsRepository.GetMembershipHead
        rw [hs1.2.2]
    rcases h2 with ⟨err, _, hres⟩ | ⟨s2, s3, s4, s5, hme, hu, hw, hk, hres⟩
    · rw [hres]; exact base
    rw [hres]
    have e2 := MemberEventsRepository.Create_memberEvent_effect hme
    obtain ⟨heads, e3, _, hheads⟩ := VaultsRepository.UpsertMembershipHead_effect hu
    have e5 : s5.vaults = s4.vaults ∧ s5.vaultMembers = s4.vaultMembers ∧
        s5.vaultMembershipHeads = s4.vaultMembershipHeads := by
      split at hk
      · have := InvitesRepository.MarkUsed_sameChains hk
        exact ⟨this.1, this.2.2.1, this.2.1⟩
      · injection hk with hk; subst hk; exact ⟨rfl, rfl, rfl⟩
    have e4 : s4.vaults = s3.vaults ∧ s4.vaultMembershipHeads = s3.vaultMembershipHeads ∧
        ∀ m, s4.vaultMembers.find?
            (fun r => r.VaultID == v.Bytes && r.DeviceID == vault.OwnerDeviceID) = some m →
          ∃ m0, s3.vaultMembers.find?
            (fun r => r.VaultID == v.Bytes && r.DeviceID == vault.OwnerDeviceID) = some m0 ∧
            (m0.IsMember = false → m.IsMember = false) := by
      split at hw
      · obtain ⟨members, e, _, hother⟩ := VaultsRepository.UpsertMember_effect hw
        subst e
        refine ⟨rfl, rfl, ?_⟩
        intro m hm2
        simp only [] at hm2
        rw [hother v.Bytes vault.OwnerDeviceID (by
          intro ⟨h1, _⟩
          exact hne h1.symm)] at hm2
        exact ⟨m, hm2, fun h => h⟩
      · obtain ⟨members, e, hfind⟩ := VaultsRepository.SetMemberRemoved_effect hw
        subst e
        refine ⟨rfl, rfl, ?_⟩
        intro m hm2
        simp only [] at hm2
        rw [hfind] at hm2
        cases hfo : s3.vaultMembers.find?
            (fun r => r.VaultID == v.Bytes && r.DeviceID == vault.OwnerDeviceID) with
        | none => rw [hfo] at hm2; simp at hm2
        | some m0 =>
          rw [hfo] at hm2
          simp only [Option.map_some', Option.some.injEq] at hm2
          refine ⟨m0, rfl, ?_⟩
          intro h0
          rw [← hm2]
          split
          · rfl
          · exact h0
    subst e2
    subst e3
    refine ⟨⟨vault, ?_, ?_⟩, ?_⟩
    · unfold VaultsRepository.Get at *
      rw [e5.1, e4.1]
      exact hs1.1
    · intro m hm2
      unfold VaultsRepository.GetMember at hm2
      rw [e5.2.1] at hm2
      injection hm2 with hm2
      obtain ⟨m0, hm0, himp⟩ := e4.2.2 m hm2
      apply himp
      have hb := base.1
      obtain ⟨vault2, hv2, hm3⟩ := hb
      rw [hs1.1] at hv2
      injection hv2 with hv2
      injection hv2 with hv2
      subst hv2
      exact hm3 m0 (by unfold VaultsRepository.GetMember; rw [← hm0])
    · unfold VaultsRepository.GetMembershipHead at *
      rw [e5.2.2, e4.2.1]
      simp only []
      rw [hheads v.Bytes (Ne.symm hne)]
      exact base.2

/-! ## Owner removal (C38) -/

theorem runCalls_ownerRemoved (lib : CryptoLib) (calls : List HandlerCall) (s : Store)
    (v : UUID) (hf : s.ownerRemoved v.Bytes) :
    (runCalls lib s calls).ownerRemoved v.Bytes ∧
    VaultsRepository.GetMembershipHead (runCalls lib s calls) v.Bytes =
      VaultsRepository.GetMembershipHead s v.Bytes := by
  induction calls generalizing s with
  | nil => exact ⟨hf, rfl⟩
  | cons c cs ih =>
    obtain ⟨h1, h2⟩ := HandlerCall.run_ownerRemoved lib s c v hf
    obtain ⟨h3, h4⟩ := ih (c.run lib s) h1
    exact ⟨h3, h4.trans h2⟩

/-- An accepted member_remove whose subject is the owner of the vault leaves
the vault row in place and the owner's row, if any, with `is_member =
false`. -/
theorem handleMemberEventCreate_remove_owner {lib : CryptoLib} {now : String} {s s5 : Store}
    {r : MemberEventRequest} {event : MemberEvent} {vault : VaultRow}
    (hres : handleMemberEventCreate lib now s r = (.json 201 event, s5))
    (hmsg : event.MsgType = "member_remove")
    (hvault : VaultsRepository.Get s event.VaultID.Bytes = .ok (some vault))
    (hsubject : event.SubjectDeviceID = vault.OwnerDeviceID) :
    s5.ownerRemoved event.VaultID.Bytes := by
  rcases handleMemberEventCreate_cases lib now s r with ⟨e, h⟩ |
    ⟨vaultID, msgType, row, event2, s1, _, _, hsw, h1, h2⟩
  · rw [h] at hres
    injection hres with hres _
    contradiction
  rcases h2 with ⟨err, _, h⟩ | ⟨s2, s3, s4, s6, hme, hu, hw, hk, h⟩
  · rw [h] at hres
    injection hres with hres _
    contradiction
  rw [h] at hres
  injection hres with hres hs
  injection hres with _ hev
  subst hev
  subst hs
  obtain ⟨_, hvid, hval⟩ := memberEventSwitch_ok hsw
  rcases hval with ⟨_, hval⟩ | ⟨hmt, hval⟩
  · have := (ValidateMemberAdd_ok_inv hval).1
    rw [hmsg] at this
    exact absurd this (by decide)
  subst hmt
  obtain ⟨_, _, _, _, _, _, _, _, _, _, _, _, hrest⟩ := ValidateMemberRemove_ok_inv hval
  obtain ⟨_, _, _, _, _, _, _, _, _, _, _, hrow⟩ := hrest
  have hsub : row.SubjectDeviceID = event2.SubjectDeviceID := by rw [hrow]
  have hs1 : s1.vaults.find? (fun v => v.VaultID == event2.VaultID.Bytes) = some vault ∧
      True := by
    unfold VaultsRepository.Get at hvault
    injection hvault with hvault
    split at h1
    · obtain ⟨e1, _⟩ := VaultsRepository.Create_vault_effect h1
      subst e1
      exact ⟨find?_append_of_some _ _ _ _ hvault, trivial⟩
    · injection h1 with h1; subst h1; exact ⟨hvault, trivial⟩
  have e2 := MemberEventsRepository.Create_memberEvent_effect hme
  obtain ⟨heads, e3, _, _⟩ := VaultsRepository.UpsertMembershipHead_effect hu
  rw [if_neg (by decide)] at hw
  rw [if_neg (by simp)] at hk
  injection hk with hk
  subst hk
  obtain ⟨members, e4, hfind⟩ := VaultsRepository.SetMemberRemoved_effect hw
  subst e2
  subst e3
  subst e4
  refine ⟨vault, ?_, ?_⟩
  · unfold VaultsRepository.Get
    exact congrArg _ hs1.1
  · intro m hm
    unfold VaultsRepository.GetMember at hm
    injection hm with hm
    simp only [] at hm
    rw [hfind] at hm
    cases hfo : s1.vaultMembers.find?
        (fun r => r.VaultID == event2.VaultID.Bytes && r.DeviceID == vault.OwnerDeviceID) with
    | none => rw [hfo] at hm; simp at hm
    | some m0 =>
      rw [hfo] at hm
      simp only [Option.map_some', Option.some.injEq] at hm
      have hp := List.find?_some hfo
      rw [hsub, hsubject, hvid, hp] at hm
      rw [← hm]
      rfl

theorem ValidateMemberRemove_accepts {lib : CryptoLib} {s : Store} {event : MemberEvent}
    {vault : VaultRow} {head : VaultMembershipHead} {actor : VaultMemberRow}
    {actorBytes subjectBytes signBytes : Bytes}
    (hmsg : event.MsgType = "member_remove")
    (hprev : event.PrevHash.length = HashLength)
    (hsig : event.Signature.length = SignatureLength)
    (hdev : DeviceID.Validate event.ActorDeviceID = .ok ())
    (hdev2 : DeviceID.Validate event.SubjectDeviceID = .ok ())
    (hvault : VaultsRepository.Get s event.VaultID.Bytes = .ok (some vault))
    (hactor : event.ActorDeviceID = vault.OwnerDeviceID)
    (hhead : VaultsRepository.GetMembershipHead s event.VaultID.Bytes = .ok (some head))
    (hseq : event.MemberSeq = (head.MemberSeq + 1) % 2 ^ 64)
    (hchain : event.PrevHash = head.MemberHeadHash)
    (hsubj : VaultsRepository.IsMember s event.VaultID.Bytes event.SubjectDeviceID = .ok true)
    (hb1 : DeviceIDToBytes event.ActorDeviceID = .ok actorBytes)
    (hb2 : DeviceIDToBytes event.SubjectDeviceID = .ok subjectBytes)
    (hsb : SignBytesMemberRemove event.MemberEventID.Bytes event.VaultID.Bytes event.MemberSeq
      event.PrevHash actorBytes subjectBytes = .ok signBytes)
    (hmember : VaultsRepository.GetMember s event.VaultID.Bytes event.ActorDeviceID
      = .ok (some actor))
    (hism : actor.IsMember = true)
    (hver : VerifySignature lib actor.DevicePubkeySign signBytes event.Signature = .ok ()) :
    ∃ row, ValidateMemberRemove lib s event = .ok row := by
  unfold ValidateMemberRemove
  rw [if_neg (by simp [hmsg]), if_neg (by simp [hprev]), if_neg (by simp [hsig])]
  simp only [hdev, hdev2, hvault]
  rw [if_neg (by simp [hactor])]
  simp only [hhead]
  rw [if_neg (by simp [hseq]), if_neg (by simp [hchain])]
  simp only [hsubj, Bool.not_true, Bool.false_eq_true, ↓reduceIte, hb1, hb2, hsb, hmember,
    hism, hver]
  exact ⟨_, rfl⟩

/-- C38. A member_remove sent by the vault owner with the owner itself as
subject, correctly chained on the membership head and signed under the owner's
stored key, is accepted by `ValidateMemberRemove`; and once
`handleMemberEventCreate` has answered 201 for it, in every store state
reached by any sequence of handler steps `ValidateMemberAdd`,
`ValidateMemberRemove`, `ValidateKeyUpdate` and `ValidateSnapshot` answer an
error for every request naming that vault, and the membership head of the
vault is the one that step left. -/
theorem owner_removal_freezes_vault (lib : CryptoLib) (s : Store) (event : MemberEvent)
    (vault : VaultRow) (head : VaultMembershipHead) (owner : VaultMemberRow)
    (ownerBytes signBytes : Bytes)
    (hmsg : event.MsgType = "member_remove")
    (hprev : event.PrevHash.length = HashLength)
    (hsig : event.Signature.length = SignatureLength)
    (hdev : DeviceID.Validate vault.OwnerDeviceID = .ok ())
    (hvault : VaultsRepository.Get s event.VaultID.Bytes = .ok (some vault))
    (hactor : event.ActorDeviceID = vault.OwnerDeviceID)
    (hsubject : event.SubjectDeviceID = vault.OwnerDeviceID)
    (hhead : VaultsRepository.GetMembershipHead s event.VaultID.Bytes = .ok (some head))
    (hseq : event.MemberSeq = (head.MemberSeq + 1) % 2 ^ 64)
    (hchain : event.PrevHash = head.MemberHeadHash)
    (hmember : VaultsRepository.GetMember s event.VaultID.Bytes vault.OwnerDeviceID
      = .ok (some owner))
    (hism : owner.IsMember = true)
    (hbytes : DeviceIDToBytes vault.OwnerDeviceID = .ok ownerBytes)
    (hsb : SignBytesMemberRemove event.MemberEventID.Bytes event.VaultID.Bytes event.MemberSeq
      event.PrevHash ownerBytes ownerBytes = .ok signBytes)
    (hver : VerifySignature lib owner.DevicePubkeySign signBytes event.Signature = .ok ()) :
    (∃ row, ValidateMemberRemove lib s event = .ok row) ∧
    ∀ (now : String) (r : MemberEventRequest) (s1 : Store),
      handleMemberEventCreate lib now s r = (.json 201 event, s1) →
      ∀ calls : List HandlerCall,
        (∀ ev : MemberEvent, ev.VaultID.Bytes = event.VaultID.Bytes →
          (∃ e, ValidateMemberAdd lib (runCalls lib s1 calls) ev = .error e) ∧
          (∃ e, ValidateMemberRemove lib (runCalls lib s1 calls) ev = .error e)) ∧
        (∀ ku : KeyUpdate, ku.VaultID.Bytes = event.VaultID.Bytes →
          ∃ e, ValidateKeyUpdate lib (runCalls lib s1 calls) ku = .error e) ∧
        (∀ snap : Snapshot, snap.VaultID.Bytes = event.VaultID.Bytes →
          ∃ e, ValidateSnapshot lib (runCalls lib s1 calls) snap = .error e) ∧
        VaultsRepository.GetMembershipHead (runCalls lib s1 calls) event.VaultID.Bytes =
          VaultsRepository.GetMembershipHead s1 event.VaultID.Bytes := by
  constructor
  · refine ValidateMemberRemove_accepts hmsg hprev hsig (hactor ▸ hdev) (hsubject ▸ hdev) hvault
      hactor hhead hseq hchain ?_ (hactor ▸ hbytes) (hsubject ▸ hbytes) hsb
      (hactor ▸ hmember) hism hver
    unfold VaultsRepository.IsMember
    unfold VaultsRepository.GetMember at hmember
    injection hmember with hmember
    rw [hsubject, hmember]
    exact congrArg Except.ok hism
  · intro now r s1 hres calls
    have h0 := handleMemberEventCreate_remove_owner hres hmsg hvault hsubject
    obtain ⟨hf, hh⟩ := runCalls_ownerRemoved lib calls s1 event.VaultID h0
    refine ⟨?_, ?_, ?_, hh⟩
    · intro ev hev
      have hf2 : (runCalls lib s1 calls).ownerRemoved ev.VaultID.Bytes := by rw [hev]; exact hf
      exact ⟨ValidateMemberAdd_ownerRemoved lib hf2, ValidateMemberRemove_ownerRemoved lib hf2⟩
    · intro ku hku
      exact ValidateKeyUpdate_ownerRemoved lib (by rw [hku]; exact hf)
    · intro snap hsnap
      exact ValidateSnapshot_ownerRemoved lib (by rw [hsnap]; exact hf)

/-- C38 on concrete inputs: on `storeA` the owner of vault A removes itself
with `memberRemoveEvent`; the validator accepts, the handler answers 201, and
afterwards the four validators answer an error for vault A after any sequence
of handler steps, the membership head staying as that step left it. -/
theorem owner_removal_freezes_vault_witness :
    ValidateMemberRemove testLib storeA memberRemoveEvent = .ok memberRemoveRow ∧
    memberRemoveEvent.SubjectDeviceID = vaultRowA.OwnerDeviceID ∧
    VaultsRepository.Get storeA memberRemoveEvent.VaultID.Bytes = .ok (some vaultRowA) ∧
    (∃ s1, handleMemberEventCreate testLib "2024-01-03T00:00:00Z" storeA requestMemberRemove
      = (.json 201 memberRemoveEvent, s1)) ∧
    ((∃ row, ValidateMemberRemove testLib storeA memberRemoveEvent = .ok row) ∧
    ∀ (now : String) (r : MemberEventRequest) (s1 : Store),
      handleMemberEventCreate testLib now storeA r = (.json 201 memberRemoveEvent, s1) →
      ∀ calls : List HandlerCall,
        (∀ ev : MemberEvent, ev.VaultID.Bytes = memberRemoveEvent.VaultID.Bytes →
          (∃ e, ValidateMemberAdd testLib (runCalls testLib s1 calls) ev = .error e) ∧
          (∃ e, ValidateMemberRemove testLib (runCalls testLib s1 calls) ev = .error e)) ∧
        (∀ ku : KeyUpdate, ku.VaultID.Bytes = memberRemoveEvent.VaultID.Bytes →
          ∃ e, ValidateKeyUpdate testLib (runCalls testLib s1 calls) ku = .error e) ∧
        (∀ snap : Snapshot, snap.VaultID.Bytes = memberRemoveEvent.VaultID.Bytes →
          ∃ e, ValidateSnapshot testLib (runCalls testLib s1 calls) snap = .error e) ∧
        VaultsRepository.GetMembershipHead (runCalls testLib s1 calls)
            memberRemoveEvent.VaultID.Bytes =
          VaultsRepository.GetMembershipHead s1 memberRemoveEvent.VaultID.Bytes) := by
  obtain ⟨_, hprev, hsig, hdev, _, vault, head, actorBytes, subjectBytes, signBytes, actor,
    hvault, hactor, hhead, hseq, hchain, _, hb1, hb2, hsb, hmember, hism, hver, _⟩ :=
    ValidateMemberRemove_ok_inv ValidateMemberRemove_memberRemoveEvent
  have hsame : memberRemoveEvent.SubjectDeviceID = memberRemoveEvent.ActorDeviceID := rfl
  rw [hsame] at hb2
  have hbb : subjectBytes = actorBytes := by
    rw [hb1] at hb2
    injection hb2 with hb2
    exact hb2.symm
  subst hbb
  have hrun : ∃ (heads : List VaultMembershipHead) (s4 s5 : Store), _ ∧ _ ∧ _ ∧
      handleMemberEventCreate testLib "2024-01-03T00:00:00Z" storeA requestMemberRemove
        = (.json 201 memberRemoveEvent, s5) :=
    handleMemberEventCreate_later (rfl : requestMemberRemove.pathVaultID = some vaultA)
      (rfl : requestMemberRemove.raw = .ok ()) (rfl : requestMemberRemove.msgTypeCheck = .ok _)
      (memberEventSwitch_of_remove rfl rfl ValidateMemberRemove_memberRemoveEvent) (by decide)
      rfl
  obtain ⟨_, _, s5, _, _, _, hres⟩ := hrun
  exact ⟨ValidateMemberRemove_memberRemoveEvent, rfl, by decide, ⟨s5, hres⟩,
    owner_removal_freezes_vault testLib storeA memberRemoveEvent vault head actor subjectBytes
      signBytes rfl hprev hsig (hactor ▸ hdev) hvault hactor (hsame.trans hactor) hhead hseq
      hchain (hactor ▸ hmember) hism (hactor ▸ hb1) hsb hver⟩

/-! ## Key epochs (C33) -/

/-- What one handler step does to the `vault_members` row of `(v, d)`: the
row is kept with its `key_epoch`, or the step is an accepted key_update_ack of
`d` for `v` and the row gets the acknowledged epoch, or the step is an accepted
member_add with subject `d` in `v` and the row has `key_epoch` 1. -/
theorem HandlerCall.run_member (lib : CryptoLib) (s : Store) (c : HandlerCall) (v : Bytes)
    (d : String) :
    (∃ g : VaultMemberRow → VaultMemberRow, (∀ m, (g m).KeyEpoch = m.KeyEpoch) ∧
      (c.run lib s).vaultMembers.find? (fun r => r.VaultID == v && r.DeviceID == d) =
        (s.vaultMembers.find? (fun r => r.VaultID == v && r.DeviceID == d)).map g) ∨
    (∃ now r ack row, c = .keyUpdateAck now r ∧
      handleKeyUpdateAck lib now s r = (.json 201 ack, c.run lib s) ∧
      ValidateKeyUpdateAck lib s ack = .ok row ∧
      ack.VaultID.Bytes = v ∧ ack.DeviceID = d ∧
      (c.run lib s).vaultMembers.find? (fun r => r.VaultID == v && r.DeviceID == d) =
        (s.vaultMembers.find? (fun r => r.VaultID == v && r.DeviceID == d)).map
          (fun m => { m with KeyEpoch := ack.KeyEpoch })) ∨
    (∃ now r event row m2, c = .memberEventCreate now r ∧
      handleMemberEventCreate lib now s r = (.json 201 event, c.run lib s) ∧
      ValidateMemberAdd lib s event = .ok row ∧
      event.VaultID.Bytes = v ∧ event.SubjectDeviceID = d ∧
      (c.run lib s).vaultMembers.find? (fun r => r.VaultID == v && r.DeviceID == d) = some m2 ∧
      m2.KeyEpoch = 1) := by
  have same : ∀ s1 : Store, s1.vaultMembers = s.vaultMembers →
      ∃ g : VaultMemberRow → VaultMemberRow, (∀ m, (g m).KeyEpoch = m.KeyEpoch) ∧
      s1.vaultMembers.find? (fun r => r.VaultID == v && r.DeviceID == d) =
        (s.vaultMembers.find? (fun r => r.VaultID == v && r.DeviceID == d)).map g := by
    intro s1 h
    exact ⟨id, fun _ => rfl, by rw [h, Option.map_id]; rfl⟩
  cases c with
  | deviceRegister now body =>
    exact Or.inl (same _ (handleDeviceRegister_sameChains lib now s body).2.2.1)
  | inviteCreate now r =>
    exact Or.inl (same _ (handleInviteCreate_sameChains lib now s r).2.2.1)
  | inviteClaim now p body =>
    exact Or.inl (same _ (handleInviteClaim_sameChains lib now s p body).2.2.1)
  | keyUpdateCreate now r =>
    exact Or.inl (same _ (handleKeyUpdateCreate_sameChains lib now s r).2.2.1)
  | snapshotCreate now r =>
    exact Or.inl (same _ (handleSnapshotCreate_sameChains lib now s r).2.2.1)
  | pruneOld vaultID => exact Or.inl (same _ rfl)
  | eventCreate now r =>
    exact Or.inl (same _ (handleEventCreate_membership lib now s r).2.2)
  | keyUpdateAck now r =>
    rcases handleKeyUpdateAck_cases lib now s r with h |
      ⟨vaultID, ack, row, s1, s2, _, _, hvid, hval, hc, hu, hres⟩
    · exact Or.inl (same _ (congrArg Store.vaultMembers h))
    · have hrun : HandlerCall.run lib s (.keyUpdateAck now r) = s2 := by
        show (handleKeyUpdateAck lib now s r).2 = s2
        rw [hres]
      rw [hrun]
      have hs1 := KeyUpdatesRepository.CreateAck_sameChains hc
      obtain ⟨members, e2, hfind⟩ := VaultsRepository.UpdateMemberKeyEpoch_effect hu
      subst e2
      simp only []
      rw [hfind, hs1.2.2.1]
      by_cases hvd : ack.VaultID.Bytes = v ∧ ack.DeviceID = d
      · right; left
        refine ⟨now, r, ack, row, rfl, hres, hval, hvd.1, hvd.2, ?_⟩
        cases hfo : s.vaultMembers.find? (fun r => r.VaultID == v && r.DeviceID == d) with
        | none => rfl
        | some m0 =>
          have hp := List.find?_some hfo
          simp only [Option.map_some', Option.some.injEq]
          rw [hvid, hvd.1, hvd.2, hp]
          rfl
      · left
        refine ⟨id, fun _ => rfl, ?_⟩
        cases hfo : s.vaultMembers.find? (fun r => r.VaultID == v && r.DeviceID == d) with
        | none => rfl
        | some m0 =>
          have hp := List.find?_some hfo
          simp only [Bool.and_eq_true, beq_iff_eq] at hp
          simp only [Option.map_some', Option.some.injEq, id]
          rw [if_neg]
          rw [hvid, hp.1, hp.2]
          simp only [Bool.and_eq_true, beq_iff_eq]
          exact fun h => hvd ⟨h.1.symm, h.2.symm⟩
  | memberEventCreate now r =>
    rcases handleMemberEventCreate_cases lib now s r with ⟨_, h⟩ |
      ⟨vaultID, msgType, row, event, s1, _, _, hsw, h1, h2⟩
    · exact Or.inl (same _ (by
        show (handleMemberEventCreate lib now s r).2.vaultMembers = _
        rw [h]))
    obtain ⟨_, hvid, hval⟩ := memberEventSwitch_ok hsw
    have hs1 : s1.vaultMembers = s.vaultMembers := by
      split at h1
      · obtain ⟨e1, _⟩ := VaultsRepository.Create_vault_effect h1
        subst e1; rfl
      · injection h1 with h1; subst h1; rfl
    rcases h2 with ⟨err, _, hres⟩ | ⟨s2, s3, s4, s5, hme, hu, hw, hk, hres⟩
    · exact Or.inl (same _ (by
        show (handleMemberEventCreate lib now s r).2.vaultMembers = _
        rw [hres]; exact hs1))
    have hrun : HandlerCall.run lib s (.memberEventCreate now r) = s5 := by
      show (handleMemberEventCreate lib now s r).2 = s5
      rw [hres]
    rw [hrun]
    have e2 := MemberEventsRepository.Create_memberEvent_effect hme
    obtain ⟨heads, e3, _, _⟩ := VaultsRepository.UpsertMembershipHead_effect hu
    have e5 : s5.vaultMembers = s4.vaultMembers := by
      split at hk
      · exact (InvitesRepository.MarkUsed_sameChains hk).2.2.1
      · injection hk with hk; subst hk; rfl
    have e3m : s3.vaultMembers = s.vaultMembers := by
      subst e2
      subst e3
      exact hs1
    rw [e5]
    rcases hval with ⟨hmt, hval⟩ | ⟨hmt, hval⟩
    · subst hmt
      rw [if_pos (by decide)] at hw
      obtain ⟨members, e4, ⟨m2, hm2, _, _, _, _, _, _, hk2⟩, hother⟩ :=
        VaultsRepository.UpsertMember_effect hw
      have hsub : row.SubjectDeviceID = event.SubjectDeviceID := by
        obtain ⟨_, _, _, _, _, _, _, _, _, _, _, _, hrest⟩ := ValidateMemberAdd_ok_inv hval
        obtain ⟨_, _, _, _, _, _, _, _, _, _, _, _, _, hrow⟩ := hrest
        rw [hrow]
      subst e4
      simp only [] at hm2 hother ⊢
      by_cases hvd : v = vaultID.Bytes ∧ d = row.SubjectDeviceID
      · right; right
        refine ⟨now, r, event, row, m2, rfl, hres, hval, ?_, ?_, ?_, hk2⟩
        · rw [hvd.1, hvid]
        · rw [hvd.2, hsub]
        · rw [hvd.1, hvd.2]; exact hm2
      · left
        refine ⟨id, fun _ => rfl, ?_⟩
        rw [hother v d hvd, e3m, Option.map_id]
        rfl
    · subst hmt
      rw [if_neg (by decide)] at hw
      obtain ⟨members, e4, hfind⟩ := VaultsRepository.SetMemberRemoved_effect hw
      subst e4
      left
      refine ⟨_, ?_, by simp only []; rw [hfind, e3m]⟩
      intro m
      split <;> rfl

theorem ValidateMemberAdd_storeReinvited :
    ValidateMemberAdd testLib storeReinvited memberAddEvent = .ok memberAddRow :=
  (@ValidateMemberAdd_congr testLib storeInvited storeReinvited memberAddEvent rfl rfl rfl rfl
    (by decide!)).trans ValidateMemberAdd_memberAddEvent

/-- C33 (as stated) fails: in `storeReinvited` the joiner is a member of vault
A with `key_epoch` 5.  The owner posts the member_add `memberAddEvent` naming
the joiner as subject; `handleMemberEventCreate` answers 201, and the joiner's
row then has `key_epoch` 1: a request that is not a key_update_ack, sent by
another device, has changed it. -/
theorem member_add_resets_key_epoch :
    VaultsRepository.GetMember storeReinvited vaultA.Bytes devJoiner
      = .ok (some { memberRowJoiner with KeyEpoch := 5 }) ∧
    memberAddEvent.ActorDeviceID = devOwner ∧ memberAddEvent.SubjectDeviceID = devJoiner ∧
    (handleMemberEventCreate testLib "2024-01-06T00:00:00Z" storeReinvited requestMemberAdd).1
      = .json 201 memberAddEvent ∧
    VaultsRepository.GetMember
        (handleMemberEventCreate testLib "2024-01-06T00:00:00Z" storeReinvited
          requestMemberAdd).2 vaultA.Bytes devJoiner
      = .ok (some { VaultID := vaultA.Bytes, DeviceID := devJoiner,
                    DevicePubkeySign := keyJoiner, DevicePubkeyBox := boxKey,
                    SubjectBundleSig := memberAddEvent.SubjectBundleSig,
                    IsMember := true, KeyEpoch := 1 }) := by
  have hrun : ∃ (heads : List VaultMembershipHead) (s4 s5 : Store), _ ∧ _ ∧ _ ∧
      handleMemberEventCreate testLib "2024-01-06T00:00:00Z" storeReinvited requestMemberAdd
        = (.json 201 memberAddEvent, s5) :=
    handleMemberEventCreate_later (rfl : requestMemberAdd.pathVaultID = some vaultA)
      (rfl : requestMemberAdd.raw = .ok ()) (rfl : requestMemberAdd.msgTypeCheck = .ok _)
      (memberEventSwitch_of_add rfl rfl ValidateMemberAdd_storeReinvited) (by decide) rfl
  obtain ⟨_, _, s5, _, _, _, hres⟩ := hrun
  obtain ⟨_, _, hmember⟩ := handleMemberEventCreate_ok_add hres rfl
  rw [hres]
  exact ⟨by decide, rfl, rfl, rfl, hmember⟩

/-- C33, amended.  For every store, every handler step and every pair `(v,
d)`: if `vault_members[v, d]` exists before the step it exists after it, and
its `key_epoch` is the same unless the step is an accepted key_update_ack for
`v` with `device_id = d`, signed under the stored key of `d` (the new value is
the acknowledged `key_epoch`), or an accepted member_add for `v` with subject
`d` (the new value is 1).  If the row does not exist before the step and exists
after it, its `key_epoch` is 1. -/
theorem key_epoch_changes (lib : CryptoLib) (s : Store) (c : HandlerCall) (v : Bytes)
    (d : String) :
    (∀ m, VaultsRepository.GetMember s v d = .ok (some m) →
      ∃ m2, VaultsRepository.GetMember (c.run lib s) v d = .ok (some m2) ∧
        (m2.KeyEpoch = m.KeyEpoch ∨
         (∃ now r ack deviceBytes signBytes, c = .keyUpdateAck now r ∧
            handleKeyUpdateAck lib now s r = (.json 201 ack, c.run lib s) ∧
            ack.VaultID.Bytes = v ∧ ack.DeviceID = d ∧ m.IsMember = true ∧
            DeviceIDToBytes d = .ok deviceBytes ∧
            SignBytesKeyUpdateAck v deviceBytes ack.KeyEpoch ack.MemberSeq ack.MemberHeadHash
              = .ok signBytes ∧
            VerifySignature lib m.DevicePubkeySign signBytes ack.Signature = .ok () ∧
            m2.KeyEpoch = ack.KeyEpoch) ∨
         (∃ now r event, c = .memberEventCreate now r ∧
            handleMemberEventCreate lib now s r = (.json 201 event, c.run lib s) ∧
            event.MsgType = "member_add" ∧ event.VaultID.Bytes = v ∧
            event.SubjectDeviceID = d ∧ m2.KeyEpoch = 1))) ∧
    (VaultsRepository.GetMember s v d = .ok none →
      ∀ m2, VaultsRepository.GetMember (c.run lib s) v d = .ok (some m2) → m2.KeyEpoch = 1) := by
  unfold VaultsRepository.GetMember
  constructor
  · intro m hm
    injection hm with hm
    rcases HandlerCall.run_member lib s c v d with ⟨g, hg, h⟩ |
      ⟨now, r, ack, row, hc, hres, hval, hv, hd, h⟩ |
      ⟨now, r, event, row, m2, hc, hres, hval, hv, hd, h, hk⟩
    · rw [hm] at h
      exact ⟨g m, congrArg _ h, Or.inl (hg m)⟩
    · rw [hm] at h
      refine ⟨_, congrArg _ h, Or.inr (Or.inl ?_)⟩
      obtain ⟨_, _, _, _, member, head, deviceBytes, signBytes, hget, hism, _, _, _, hb, hsb,
        hver, _⟩ := ValidateKeyUpdateAck_ok_inv hval
      unfold VaultsRepository.GetMember at hget
      rw [hv, hd, hm] at hget
      injection hget with hget
      injection hget with hget
      subst hget
      rw [hv] at hsb
      rw [hd] at hb
      exact ⟨now, r, ack, deviceBytes, signBytes, hc, hres, hv, hd, hism, hb, hsb, hver, rfl⟩
    · exact ⟨m2, congrArg _ h, Or.inr (Or.inr
        ⟨now, r, event, hc, hres, (ValidateMemberAdd_ok_inv hval).1, hv, hd, hk⟩)⟩
  · intro hn m2 hm2
    injection hn with hn
    injection hm2 with hm2
    rcases HandlerCall.run_member lib s c v d with ⟨g, hg, h⟩ |
      ⟨now, r, ack, row, hc, hres, hval, hv, hd, h⟩ |
      ⟨now, r, event, row, m3, hc, hres, hval, hv, hd, h, hk⟩
    · rw [hn, hm2] at h
      contradiction
    · rw [hn, hm2] at h
      contradiction
    · rw [hm2] at h
      injection h with h
      rw [h]
      exact hk

theorem genesis_on_storeA_member (s5 : Store)
    (hres : handleMemberEventCreate testLib "2024-01-01T00:00:00Z" storeA requestGenesis
      = (.json 201 genesisEvent, s5)) :
    VaultsRepository.GetMember s5 vaultB.Bytes devOwner
      = .ok (some { VaultID := vaultB.Bytes, DeviceID := devOwner, DevicePubkeySign := keyOwner,
                    DevicePubkeyBox := boxKey,
                    SubjectBundleSig := genesisEvent.SubjectBundleSig,
                    IsMember := true, KeyEpoch := 1 }) :=
  (handleMemberEventCreate_ok_add hres rfl).choose_spec.2

/-- C33, amended, on concrete inputs: the member_add of the counterexample is
the third case, and the genesis of vault B on `storeA` creates the owner's row
with `key_epoch` 1. -/
theorem key_epoch_changes_witness :
    (VaultsRepository.GetMember storeReinvited vaultA.Bytes devJoiner
      = .ok (some { memberRowJoiner with KeyEpoch := 5 }) ∧
    ∃ m2, VaultsRepository.GetMember
        ((HandlerCall.memberEventCreate "2024-01-06T00:00:00Z" requestMemberAdd).run testLib
          storeReinvited) vaultA.Bytes devJoiner = .ok (some m2) ∧
      (m2.KeyEpoch = 5 ∨
       (∃ now r ack deviceBytes signBytes,
          HandlerCall.memberEventCreate "2024-01-06T00:00:00Z" requestMemberAdd
            = .keyUpdateAck now r ∧
          handleKeyUpdateAck testLib now storeReinvited r = (.json 201 ack,
            (HandlerCall.memberEventCreate "2024-01-06T00:00:00Z" requestMemberAdd).run testLib
              storeReinvited) ∧
          ack.VaultID.Bytes = vaultA.Bytes ∧ ack.DeviceID = devJoiner ∧ true = true ∧
          DeviceIDToBytes devJoiner = .ok deviceBytes ∧
          SignBytesKeyUpdateAck vaultA.Bytes deviceBytes ack.KeyEpoch ack.MemberSeq
            ack.MemberHeadHash = .ok signBytes ∧
          VerifySignature testLib keyJoiner signBytes ack.Signature = .ok () ∧
          m2.KeyEpoch = ack.KeyEpoch) ∨
       (∃ now r event,
          HandlerCall.memberEventCreate "2024-01-06T00:00:00Z" requestMemberAdd
            = .memberEventCreate now r ∧
          handleMemberEventCreate testLib now storeReinvited r = (.json 201 event,
            (HandlerCall.memberEventCreate "2024-01-06T00:00:00Z" requestMemberAdd).run testLib
              storeReinvited) ∧
          event.MsgType = "member_add" ∧ event.VaultID.Bytes = vaultA.Bytes ∧
          event.SubjectDeviceID = devJoiner ∧ m2.KeyEpoch = 1))) ∧
    (VaultsRepository.GetMember storeA vaultB.Bytes devOwner = .ok none ∧
     VaultsRepository.GetMember
        ((HandlerCall.memberEventCreate "2024-01-01T00:00:00Z" requestGenesis).run testLib
          storeA) vaultB.Bytes devOwner
      = .ok (some { VaultID := vaultB.Bytes, DeviceID := devOwner, DevicePubkeySign := keyOwner,
                    DevicePubkeyBox := boxKey,
                    SubjectBundleSig := genesisEvent.SubjectBundleSig,
                    IsMember := true, KeyEpoch := 1 }) ∧
     (1 : Nat) = 1) := by
  have hA := (key_epoch_changes testLib storeReinvited
    (.memberEventCreate "2024-01-06T00:00:00Z" requestMemberAdd) vaultA.Bytes devJoiner).1
    { memberRowJoiner with KeyEpoch := 5 } (by decide)
  have hfirst : ∃ s5, handleMemberEventCreate testLib "2024-01-01T00:00:00Z" storeA
      requestGenesis = (.json 201 genesisEvent, s5) :=
    handleMemberEventCreate_first (rfl : requestGenesis.pathVaultID = some vaultB)
      (rfl : requestGenesis.raw = .ok ()) rfl rfl rfl rfl ValidateMemberAdd_genesisEvent rfl
  obtain ⟨s5, hres⟩ := hfirst
  have hmember := genesis_on_storeA_member s5 hres
  have hrun : (HandlerCall.memberEventCreate "2024-01-01T00:00:00Z" requestGenesis).run
      testLib storeA = s5 := by
    rw [HandlerCall.run_memberEventCreate, hres]
  have hnone : VaultsRepository.GetMember storeA vaultB.Bytes devOwner = .ok none := by
    decide
  rw [← hrun] at hmember
  exact ⟨⟨by decide, hA⟩, ⟨hnone, hmember, (key_epoch_changes testLib storeA
    (.memberEventCreate "2024-01-01T00:00:00Z" requestGenesis) vaultB.Bytes devOwner).2 hnone
    _ hmember⟩⟩

/-! ## Genesis (C25) -/

/-- C25. A genesis member_add (`member_seq` = 1) that `ValidateMemberAdd`
accepts with row `row` is for a vault without a row and has actor = subject.
When no member event with its id is stored (so that the inserts succeed),
`handleMemberEventCreate` answers 201 and leaves a store in which the vault row
exists with the subject as owner, the membership head of the vault is `(1,
row.MemberHash)`, the member event row is stored, and the subject's
`vault_members` row has `is_member` = true, `key_epoch` = 1 and the signing
key, box key and bundle signature of the event. -/
theorem genesis_creates_vault (lib : CryptoLib) (now : String) (s : Store)
    (r : MemberEventRequest) (vaultID : UUID) (u : Unit) (event : MemberEvent)
    (row : MemberEventRow)
    (hp : r.pathVaultID = some vaultID) (hraw : r.raw = .ok u)
    (hmt : r.msgTypeCheck = .ok "member_add") (hev : r.event = .ok event)
    (hv : vaultID.Bytes = event.VaultID.Bytes) (hseq : event.MemberSeq = 1)
    (hval : ValidateMemberAdd lib s event = .ok row)
    (hfresh : s.memberEvents.any (fun e => e.MemberEventID == event.MemberEventID.Bytes)
      = false) :
    VaultsRepository.Get s event.VaultID.Bytes = .ok none ∧
    event.ActorDeviceID = event.SubjectDeviceID ∧
    ∃ (s5 : Store) (vault : VaultRow) (member : VaultMemberRow),
      handleMemberEventCreate lib now s r = (.json 201 event, s5) ∧
      VaultsRepository.Get s5 event.VaultID.Bytes = .ok (some vault) ∧
      vault.OwnerDeviceID = event.SubjectDeviceID ∧
      VaultsRepository.GetMembershipHead s5 event.VaultID.Bytes =
        .ok (some { VaultID := event.VaultID.Bytes, MemberSeq := 1,
                    MemberHeadHash := row.MemberHash }) ∧
      { row with CreatedAt := if row.CreatedAt == "" then now else row.CreatedAt }
        ∈ s5.memberEvents ∧
      VaultsRepository.GetMember s5 event.VaultID.Bytes event.SubjectDeviceID
        = .ok (some member) ∧
      member.IsMember = true ∧ member.KeyEpoch = 1 ∧
      member.DevicePubkeySign = event.SubjectPubkeySign ∧
      member.DevicePubkeyBox = event.SubjectPubkeyBox ∧
      member.SubjectBundleSig = event.SubjectBundleSig := by
  obtain ⟨hid, _, hrseq, hract, hrsub, hrks, hrkb, hrsig, _⟩ := ValidateMemberAdd_row hval
  obtain ⟨_, _, _, _, _, _, _, _, _, _, _, _, vault0, _, _, _, _, _, _, hget, hchk, _⟩ :=
    ValidateMemberAdd_ok_inv hval
  rw [if_pos (by simp [hseq])] at hchk
  obtain ⟨hnone, hactor, _⟩ := memberAddGenesisChecks_ok hchk
  subst hnone
  refine ⟨hget, hactor, ?_⟩
  have hgen : (row.MemberSeq == 1) = true := by simp [hrseq, hseq]
  have hany : s.vaults.any (fun x => x.VaultID == vaultID.Bytes) = false := by
    unfold VaultsRepository.Get at hget
    injection hget with hget
    rw [hv]
    exact any_false_of_find?_none hget
  have h1 : (if (row.MemberSeq == 1) = true then
        VaultsRepository.Create now s vaultID.Bytes row.ActorDeviceID
      else .ok s) = .ok { s with vaults := s.vaults ++
        [{ VaultID := vaultID.Bytes, OwnerDeviceID := row.ActorDeviceID, CreatedAt := now,
           UpdatedAt := now }] } := by
    rw [if_pos hgen]
    unfold VaultsRepository.Create
    rw [if_neg (by simp only [hany]; decide)]
  have hme : MemberEventsRepository.Create now { s with vaults := s.vaults ++
        [{ VaultID := vaultID.Bytes, OwnerDeviceID := row.ActorDeviceID, CreatedAt := now,
           UpdatedAt := now }] } row
      = .ok { s with
          vaults := s.vaults ++
            [{ VaultID := vaultID.Bytes, OwnerDeviceID := row.ActorDeviceID, CreatedAt := now,
               UpdatedAt := now }]
          memberEvents := s.memberEvents ++
            [{ row with CreatedAt := if row.CreatedAt == "" then now else row.CreatedAt }] } := by
    unfold MemberEventsRepository.Create
    dsimp only
    rw [hid, if_neg (by simp only [hfresh]; decide)]
  obtain ⟨s3, s4, s5, hu, hw, hk, hres⟩ := handleMemberEventCreate_accepts hp hraw hmt
    (memberEventSwitch_of_add hev hv hval) h1 hme
  rw [if_pos (by decide)] at hw
  rw [if_neg (by simp [hgen])] at hk
  injection hk with hk
  subst hk
  obtain ⟨heads, e3, ⟨hd, hhd, hd1, hd2, hd3⟩, _⟩ :=
    VaultsRepository.UpsertMembershipHead_effect hu
  obtain ⟨members, e4, ⟨m, hm, _, _, hm1, hm2, hm3, hm4, hm5⟩, _⟩ :=
    VaultsRepository.UpsertMember_effect hw
  subst e3
  subst e4
  refine ⟨_, ⟨vaultID.Bytes, row.ActorDeviceID, now, now⟩, m, hres, ?_, ?_, ?_, ?_, ?_, hm4,
    hm5, hm1.trans hrks, hm2.trans hrkb, hm3.trans hrsig⟩
  · unfold VaultsRepository.Get
    simp only []
    rw [← hv, find?_append_of_any_false _ _ _ hany (by simp)]
  · exact hract.trans hactor
  · unfold VaultsRepository.GetMembershipHead
    simp only []
    rw [← hv, hhd]
    obtain ⟨a, b, c⟩ := hd
    simp only [] at hd1 hd2 hd3
    subst hd1
    subst hd2
    subst hd3
    rw [hrseq, hseq]
  · simp only []
    exact List.mem_append_right _ (List.mem_singleton.mpr rfl)
  · unfold VaultsRepository.GetMember
    simp only [] at hm ⊢
    rw [← hv, ← hrsub, hm]

/-- C25 on concrete inputs: the genesis of vault B posted to `storeA`, which holds vault A only. -/
theorem genesis_creates_vault_witness :
    ValidateMemberAdd testLib storeA genesisEvent = .ok genesisRow ∧
    VaultsRepository.Get storeA genesisEvent.VaultID.Bytes = .ok none ∧
    genesisEvent.ActorDeviceID = genesisEvent.SubjectDeviceID ∧
    ∃ (s5 : Store) (vault : VaultRow) (member : VaultMemberRow),
      handleMemberEventCreate testLib "2024-01-01T00:00:00Z" storeA requestGenesis
        = (.json 201 genesisEvent, s5) ∧
      VaultsRepository.Get s5 genesisEvent.VaultID.Bytes = .ok (some vault) ∧
      vault.OwnerDeviceID = genesisEvent.SubjectDeviceID ∧
      VaultsRepository.GetMembershipHead s5 genesisEvent.VaultID.Bytes =
        .ok (some { VaultID := genesisEvent.VaultID.Bytes, MemberSeq := 1,
                    MemberHeadHash := genesisRow.MemberHash }) ∧
      { genesisRow with
          CreatedAt := if genesisRow.CreatedAt == "" then "2024-01-01T00:00:00Z"
            else genesisRow.CreatedAt } ∈ s5.memberEvents ∧
      VaultsRepository.GetMember s5 genesisEvent.VaultID.Bytes genesisEvent.SubjectDeviceID
        = .ok (some member) ∧
      member.IsMember = true ∧ member.KeyEpoch = 1 ∧
      member.DevicePubkeySign = genesisEvent.SubjectPubkeySign ∧
      member.DevicePubkeyBox = genesisEvent.SubjectPubkeyBox ∧
      member.SubjectBundleSig = genesisEvent.SubjectBundleSig :=
  ⟨ValidateMemberAdd_genesisEvent,
   genesis_creates_vault testLib "2024-01-01T00:00:00Z" storeA requestGenesis vaultB ()
     genesisEvent genesisRow rfl rfl rfl rfl rfl rfl ValidateMemberAdd_genesisEvent rfl⟩

/-! ## Later member events (C26) -/

/-- C26. For every store and every member event with `member_seq` other than
1 that its validator accepts with row `row`, when no member event with its id
is stored (so that the insert succeeds), `handleMemberEventCreate` answers 201
and leaves a store in which the membership head of the vault is `(member_seq,
row.MemberHash)` and the vault row is the one found before.  For a member_add
the subject's `vault_members` row has `is_member` = true and the invite named
by `invite_id` has `used` = true; for a member_remove the subject's row has
`is_member` = false. -/
theorem member_event_applied (lib : CryptoLib) (now : String) (s : Store)
    (r : MemberEventRequest) (vaultID : UUID) (u : Unit) (event : MemberEvent)
    (row : MemberEventRow)
    (hp : r.pathVaultID = some vaultID) (hraw : r.raw = .ok u) (hev : r.event = .ok event)
    (hv : vaultID.Bytes = event.VaultID.Bytes) (hseq : event.MemberSeq ≠ 1)
    (hfresh : s.memberEvents.any (fun e => e.MemberEventID == event.MemberEventID.Bytes)
      = false) :
    (r.msgTypeCheck = .ok "member_add" → ValidateMemberAdd lib s event = .ok row →
      ∃ (s5 : Store) (vault : VaultRow) (member : VaultMemberRow) (invite : InviteRow),
        handleMemberEventCreate lib now s r = (.json 201 event, s5) ∧
        VaultsRepository.GetMembershipHead s5 event.VaultID.Bytes =
          .ok (some { VaultID := event.VaultID.Bytes, MemberSeq := event.MemberSeq,
                      MemberHeadHash := row.MemberHash }) ∧
        VaultsRepository.Get s event.VaultID.Bytes = .ok (some vault) ∧
        VaultsRepository.Get s5 event.VaultID.Bytes = .ok (some vault) ∧
        VaultsRepository.GetMember s5 event.VaultID.Bytes event.SubjectDeviceID
          = .ok (some member) ∧ member.IsMember = true ∧
        InvitesRepository.Get s5 event.InviteID.Bytes = .ok (some invite) ∧
        invite.Used = true) ∧
    (r.msgTypeCheck = .ok "member_remove" → ValidateMemberRemove lib s event = .ok row →
      ∃ (s5 : Store) (vault : VaultRow) (member : VaultMemberRow),
        handleMemberEventCreate lib now s r = (.json 201 event, s5) ∧
        VaultsRepository.GetMembershipHead s5 event.VaultID.Bytes =
          .ok (some { VaultID := event.VaultID.Bytes, MemberSeq := event.MemberSeq,
                      MemberHeadHash := row.MemberHash }) ∧
        VaultsRepository.Get s event.VaultID.Bytes = .ok (some vault) ∧
        VaultsRepository.Get s5 event.VaultID.Bytes = .ok (some vault) ∧
        VaultsRepository.GetMember s5 event.VaultID.Bytes event.SubjectDeviceID
          = .ok (some member) ∧ member.IsMember = false) := by
  constructor
  · intro hmt hval
    obtain ⟨hid, _, hrseq, _, hrsub, _, _, _, hrinv⟩ := ValidateMemberAdd_row hval
    obtain ⟨_, _, _, _, _, _, _, _, _, _, _, _, vault0, _, _, _, _, _, _, hget, hchk, _⟩ :=
      ValidateMemberAdd_ok_inv hval
    rw [if_neg (by simpa using hseq)] at hchk
    obtain ⟨vault, head, invite, claim, csb, hvault, _, _, _, _, hinv, _⟩ :=
      memberAddInvitedChecks_ok hchk
    subst hvault
    obtain ⟨heads, s4, s5, hhd, hw, hk, hres⟩ := handleMemberEventCreate_later hp hraw hmt
      (memberEventSwitch_of_add hev hv hval) (by rw [hrseq]; exact hseq)
      (by rw [hid]; exact hfresh)
    rw [if_pos (by decide)] at hw
    have hne : (row.InviteID != []) = true := by
      rw [hrinv]
      have hl : event.InviteID.Bytes.length = 16 := event.InviteID.property
      cases hb : event.InviteID.Bytes with
      | nil => rw [hb] at hl; exact absurd hl (by decide)
      | cons a t => rfl
    rw [if_pos ⟨by decide, hne⟩] at hk
    obtain ⟨members, e4, ⟨m, hm, _, _, _, _, _, hm4, _⟩, _⟩ :=
      VaultsRepository.UpsertMember_effect hw
    have e5 := InvitesRepository.MarkUsed_effect hk
    subst e4
    subst e5
    unfold InvitesRepository.Get at hinv
    injection hinv with hinv
    refine ⟨_, vault, m, { invite with Used := true }, hres, ?_, hget, ?_, ?_, hm4, ?_, rfl⟩
    · unfold VaultsRepository.GetMembershipHead
      simp only []
      rw [← hv, hhd, hrseq]
    · exact hget
    · unfold VaultsRepository.GetMember
      simp only [] at hm ⊢
      rw [← hv, ← hrsub, hm]
    · unfold InvitesRepository.Get
      simp only []
      rw [hrinv, find?_map_same _ _ _ (by intro x; split <;> rfl), hinv]
      have hp2 := List.find?_some hinv
      simp only [Option.map_some']
      rw [if_pos hp2]
  · intro hmt hval
    obtain ⟨hid, _, hrseq, _, hrsub, _⟩ := ValidateMemberRemove_row hval
    obtain ⟨_, _, _, _, _, vault, _, _, _, _, _, hget, _, _, _, _, hism, _⟩ :=
      ValidateMemberRemove_ok_inv hval
    obtain ⟨heads, s4, s5, hhd, hw, hk, hres⟩ := handleMemberEventCreate_later hp hraw hmt
      (memberEventSwitch_of_remove hev hv hval) (by rw [hrseq]; exact hseq)
      (by rw [hid]; exact hfresh)
    rw [if_neg (by decide)] at hw
    rw [if_neg (by simp)] at hk
    injection hk with hk
    subst hk
    obtain ⟨members, e4, hfind⟩ := VaultsRepository.SetMemberRemoved_effect hw
    subst e4
    unfold VaultsRepository.IsMember at hism
    cases hfo : s.vaultMembers.find?
        (fun m => m.VaultID == event.VaultID.Bytes && m.DeviceID == event.SubjectDeviceID) with
    | none => rw [hfo] at hism; simp at hism
    | some m0 =>
      have hp2 := List.find?_some hfo
      refine ⟨_, vault, { m0 with IsMember := false }, hres, ?_, hget, hget, ?_, rfl⟩
      · unfold VaultsRepository.GetMembershipHead
        simp only []
        rw [← hv, hhd, hrseq]
      · unfold VaultsRepository.GetMember
        simp only []
        rw [hfind, hfo]
        simp only [Option.map_some']
        rw [hv, hrsub, if_pos hp2]

/-- C26 on concrete inputs: the owner of vault A admits the joiner on
`storeInvited` and removes a member on `storeA`. -/
theorem member_event_applied_witness :
    (∃ (s5 : Store) (vault : VaultRow) (member : VaultMemberRow) (invite : InviteRow),
      handleMemberEventCreate testLib "2024-01-06T00:00:00Z" storeInvited requestMemberAdd
        = (.json 201 memberAddEvent, s5) ∧
      VaultsRepository.GetMembershipHead s5 memberAddEvent.VaultID.Bytes =
        .ok (some { VaultID := memberAddEvent.VaultID.Bytes,
                    MemberSeq := memberAddEvent.MemberSeq,
                    MemberHeadHash := memberAddRow.MemberHash }) ∧
      VaultsRepository.Get storeInvited memberAddEvent.VaultID.Bytes = .ok (some vault) ∧
      VaultsRepository.Get s5 memberAddEvent.VaultID.Bytes = .ok (some vault) ∧
      VaultsRepository.GetMember s5 memberAddEvent.VaultID.Bytes
          memberAddEvent.SubjectDeviceID = .ok (some member) ∧ member.IsMember = true ∧
      InvitesRepository.Get s5 memberAddEvent.InviteID.Bytes = .ok (some invite) ∧
      invite.Used = true) ∧
    (∃ (s5 : Store) (vault : VaultRow) (member : VaultMemberRow),
      handleMemberEventCreate testLib "2024-01-06T00:00:00Z" storeA requestMemberRemove
        = (.json 201 memberRemoveEvent, s5) ∧
      VaultsRepository.GetMembershipHead s5 memberRemoveEvent.VaultID.Bytes =
        .ok (some { VaultID := memberRemoveEvent.VaultID.Bytes,
                    MemberSeq := memberRemoveEvent.MemberSeq,
                    MemberHeadHash := memberRemoveRow.MemberHash }) ∧
      VaultsRepository.Get storeA memberRemoveEvent.VaultID.Bytes = .ok (some vault) ∧
      VaultsRepository.Get s5 memberRemoveEvent.VaultID.Bytes = .ok (some vault) ∧
      VaultsRepository.GetMember s5 memberRemoveEvent.VaultID.Bytes
          memberRemoveEvent.SubjectDeviceID = .ok (some member) ∧ member.IsMember = false) :=
  ⟨(member_event_applied testLib "2024-01-06T00:00:00Z" storeInvited requestMemberAdd vaultA ()
      memberAddEvent memberAddRow rfl rfl rfl rfl (by decide) rfl).1 rfl
      ValidateMemberAdd_memberAddEvent,
   (member_event_applied testLib "2024-01-06T00:00:00Z" storeA requestMemberRemove vaultA ()
      memberRemoveEvent memberRemoveRow rfl rfl rfl rfl (by decide) rfl).2 rfl
      ValidateMemberRemove_memberRemoveEvent⟩

/-! ## Failed inserts of member events (C27) -/

theorem ValidateMemberAdd_storeGenesisStored :
    ValidateMemberAdd testLib storeGenesisStored genesisEvent = .ok genesisRow :=
  (@ValidateMemberAdd_congr testLib storeA storeGenesisStored genesisEvent rfl rfl rfl rfl
    rfl).trans ValidateMemberAdd_genesisEvent

theorem handleMemberEventCreate_storeGenesisStored :
    handleMemberEventCreate testLib "2024-01-07T00:00:00Z" storeGenesisStored requestGenesis
      = (.apiError InternalError, storeGenesisFailed) :=
  handleMemberEventCreate_insert_error (rfl : requestGenesis.pathVaultID = some vaultB)
    (rfl : requestGenesis.raw = .ok ()) (rfl : requestGenesis.msgTypeCheck = .ok "member_add")
    (memberEventSwitch_of_add rfl rfl ValidateMemberAdd_storeGenesisStored)
    (rfl : (if (genesisRow.MemberSeq == 1) = true then
        VaultsRepository.Create "2024-01-07T00:00:00Z" storeGenesisStored vaultB.Bytes
          genesisRow.ActorDeviceID
      else .ok storeGenesisStored) = .ok storeGenesisFailed)
    (by decide! : MemberEventsRepository.Create "2024-01-07T00:00:00Z" storeGenesisFailed
      genesisRow = .error .uniqueViolation)

/-- C27 (as stated) fails: no transaction joins the vault insert and the
member-event insert.  On `storeGenesisStored` the genesis member_add of vault B
is accepted by the validator, the vault row of B is inserted, and the insert
of the member event fails on its `member_event_id`, which is stored already.
The handler answers 500 `internal_error` and the store it leaves is not the
initial one: vault B has a row, and neither a membership head nor a member
event. -/
theorem genesis_insert_failure_keeps_vault_row :
    ValidateMemberAdd testLib storeGenesisStored genesisEvent = .ok genesisRow ∧
    handleMemberEventCreate testLib "2024-01-07T00:00:00Z" storeGenesisStored requestGenesis
      = (.apiError InternalError, storeGenesisFailed) ∧
    storeGenesisFailed ≠ storeGenesisStored ∧
    VaultsRepository.Get storeGenesisStored vaultB.Bytes = .ok none ∧
    VaultsRepository.Get storeGenesisFailed vaultB.Bytes
      = .ok (some { VaultID := vaultB.Bytes, OwnerDeviceID := devOwner,
                    CreatedAt := "2024-01-07T00:00:00Z",
                    UpdatedAt := "2024-01-07T00:00:00Z" }) ∧
    VaultsRepository.GetMembershipHead storeGenesisFailed vaultB.Bytes = .ok none ∧
    storeGenesisFailed.memberEvents.any (fun e => e.VaultID == vaultB.Bytes) = false :=
  ⟨ValidateMemberAdd_storeGenesisStored, handleMemberEventCreate_storeGenesisStored,
   fun h => absurd (congrArg (fun s : Store => s.vaults.length) h) (by decide),
   by decide!, by decide!, by decide!, by decide!⟩

/-- C27, amended.  For every store and every request: if
`handleMemberEventCreate` answers with an error, the store it leaves is the
initial store, except when the request is a genesis member_add (`member_seq`
= 1) that `ValidateMemberAdd` accepted, the vault insert succeeded and the
member-event insert failed; then the answer is 500 `internal_error` and the
store is the initial one with the new vault row added: the membership head and
the member events are as before. -/
theorem member_event_error_store (lib : CryptoLib) (now : String) (s s1 : Store)
    (r : MemberEventRequest) (e : APIError)
    (hres : handleMemberEventCreate lib now s r = (.apiError e, s1)) :
    s1 = s ∨
    ∃ (vaultID : UUID) (event : MemberEvent) (row : MemberEventRow) (err : StorageError),
      r.pathVaultID = some vaultID ∧ r.event = .ok event ∧
      vaultID.Bytes = event.VaultID.Bytes ∧ event.MemberSeq = 1 ∧
      ValidateMemberAdd lib s event = .ok row ∧
      VaultsRepository.Get s vaultID.Bytes = .ok none ∧
      s1 = { s with vaults := s.vaults ++
        [{ VaultID := vaultID.Bytes, OwnerDeviceID := event.ActorDeviceID, CreatedAt := now,
           UpdatedAt := now }] } ∧
      MemberEventsRepository.Create now s1 row = .error err ∧
      e = InternalError := by
  rcases handleMemberEventCreate_cases lib now s r with ⟨e2, h⟩ |
    ⟨vaultID, msgType, row, event, s2, hp, _, hsw, h1, h2⟩
  · rw [h] at hres
    injection hres with _ hs
    exact Or.inl hs.symm
  rcases h2 with ⟨err, herr, h⟩ | ⟨_, _, _, s5, _, _, _, _, h⟩
  · rw [h] at hres
    injection hres with he hs
    injection he with he
    subst hs
    subst he
    by_cases hgen : (row.MemberSeq == 1) = true
    · rw [if_pos hgen] at h1
      obtain ⟨e1, hany⟩ := VaultsRepository.Create_vault_effect h1
      obtain ⟨hev, hvid, hval⟩ := memberEventSwitch_ok hsw
      have hnone : VaultsRepository.Get s vaultID.Bytes = .ok none := by
        unfold VaultsRepository.Get
        cases hf : s.vaults.find? (fun v => v.VaultID == vaultID.Bytes) with
        | none => rfl
        | some x =>
          obtain ⟨hmem, hpx⟩ := find?_some_mem hf
          rw [List.any_eq_false] at hany
          exact absurd hpx (hany x hmem)
      rcases hval with ⟨_, hval⟩ | ⟨_, hval⟩
      · right
        obtain ⟨_, _, hrseq, hract, _⟩ := ValidateMemberAdd_row hval
        refine ⟨vaultID, event, row, err, hp, hev, hvid, ?_, hval, hnone, ?_, herr, rfl⟩
        · rw [← hrseq]; simpa using hgen
        · rw [← hract]; exact e1
      · exfalso
        obtain ⟨_, _, _, _, _, vault, _, _, _, _, _, hget, _⟩ := ValidateMemberRemove_ok_inv hval
        rw [← hvid, hnone] at hget
        injection hget with hget
        contradiction
    · rw [if_neg hgen] at h1
      injection h1 with h1
      exact Or.inl h1.symm
  · rw [h] at hres
    injection hres with he _
    contradiction

/-- C27, amended, on concrete inputs: the request of the counterexample is the
second case. -/
theorem member_event_error_store_witness :
    handleMemberEventCreate testLib "2024-01-07T00:00:00Z" storeGenesisStored requestGenesis
      = (.apiError InternalError, storeGenesisFailed) ∧
    (storeGenesisFailed = storeGenesisStored ∨
    ∃ (vaultID : UUID) (event : MemberEvent) (row : MemberEventRow) (err : StorageError),
      requestGenesis.pathVaultID = some vaultID ∧ requestGenesis.event = .ok event ∧
      vaultID.Bytes = event.VaultID.Bytes ∧ event.MemberSeq = 1 ∧
      ValidateMemberAdd testLib storeGenesisStored event = .ok row ∧
      VaultsRepository.Get storeGenesisStored vaultID.Bytes = .ok none ∧
      storeGenesisFailed = { storeGenesisStored with vaults := storeGenesisStored.vaults ++
          [{ VaultID := vaultID.Bytes, OwnerDeviceID := event.ActorDeviceID,
             CreatedAt := "2024-01-07T00:00:00Z", UpdatedAt := "2024-01-07T00:00:00Z" }] } ∧
      MemberEventsRepository.Create "2024-01-07T00:00:00Z" storeGenesisFailed row
        = .error err ∧
      InternalError = InternalError) :=
  ⟨handleMemberEventCreate_storeGenesisStored,
   member_event_error_store testLib "2024-01-07T00:00:00Z" storeGenesisStored
     storeGenesisFailed requestGenesis InternalError
     handleMemberEventCreate_storeGenesisStored⟩

/-! ## Writes of handleInviteCreate (C28) -/

theorem ValidateInvite_inviteSameID :
    ValidateInvite testLib storeAfterInvite inviteSameID = .ok inviteRowSameID := by decide!

theorem handleInviteCreate_inviteSameID :
    handleInviteCreate testLib "2024-01-08T00:00:00Z" storeAfterInvite requestInviteSameID
      = (.apiError InternalError, storeNonceLeft) :=
  handleInviteCreate_insert_error (rfl : requestInviteSameID.pathVaultID = some vaultA)
    (rfl : requestInviteSameID.body = .ok inviteSameID) rfl ValidateInvite_inviteSameID
    (rfl : InvitesRepository.RecordNonceUsed "2024-01-08T00:00:00Z" storeAfterInvite "invite"
      inviteSameID.VaultID.Bytes inviteSameID.CreatedByDeviceID inviteSameID.Nonce
      = .ok storeNonceLeft)
    (by decide! : InvitesRepository.Create "2024-01-08T00:00:00Z" storeNonceLeft
      inviteRowSameID = .error .uniqueViolation)

/-- C28 (as stated) fails: no transaction joins the two writes.  On
`storeAfterInvite`, which holds invite X, the owner posts `inviteSameID`: the
validator accepts it (its nonce is fresh), the nonce is recorded, and the
insert of the invite row fails on the `invite_id`, which is stored already.
The handler answers 500 `internal_error` and the store it leaves is not the
initial one: the nonce is left recorded. -/
theorem invite_insert_failure_keeps_nonce :
    (ValidateInvite testLib storeAfterInvite inviteSameID).toOption.isSome = true ∧
    InvitesRepository.CheckNonceUsed storeAfterInvite "invite" vaultA.Bytes devOwner nonceM
      = .ok false ∧
    handleInviteCreate testLib "2024-01-08T00:00:00Z" storeAfterInvite requestInviteSameID
      = (.apiError InternalError, storeNonceLeft) ∧
    storeNonceLeft ≠ storeAfterInvite ∧
    storeNonceLeft.invites = storeAfterInvite.invites ∧
    InvitesRepository.CheckNonceUsed storeNonceLeft "invite" vaultA.Bytes devOwner nonceM
      = .ok true :=
  ⟨by rw [ValidateInvite_inviteSameID]; rfl, by decide!, handleInviteCreate_inviteSameID,
   fun h => absurd (congrArg (fun s : Store => s.usedNonces.length) h) (by decide), rfl,
   by decide!⟩

/-- C28, amended.  For every store and every invite that `ValidateInvite`
accepts, `handleInviteCreate` first records the nonce, which was not recorded
before, and then inserts the invite row, outside any transaction.  If the
insert fails, the answer is 500 `internal_error` and the store left is the
initial one with the nonce recorded; if it succeeds, the answer is 201 and both
the nonce and the invite row are present. -/
theorem invite_create_writes (lib : CryptoLib) (now : String) (s s1 : Store)
    (r : Request Invite) (vaultID : UUID) (invite : Invite) (row : InviteRow)
    (hp : r.pathVaultID = some vaultID) (hb : r.body = .ok invite)
    (hv : vaultID.Bytes = invite.VaultID.Bytes)
    (hval : ValidateInvite lib s invite = .ok row)
    (hs1 : InvitesRepository.RecordNonceUsed now s "invite" invite.VaultID.Bytes
      invite.CreatedByDeviceID invite.Nonce = .ok s1) :
    InvitesRepository.CheckNonceUsed s "invite" invite.VaultID.Bytes invite.CreatedByDeviceID
      invite.Nonce = .ok false ∧
    s1 = { s with usedNonces := s.usedNonces ++
      [{ NonceType := "invite", VaultID := invite.VaultID.Bytes,
         DeviceID := invite.CreatedByDeviceID, Nonce := invite.Nonce, CreatedAt := now }] } ∧
    InvitesRepository.CheckNonceUsed s1 "invite" invite.VaultID.Bytes
      invite.CreatedByDeviceID invite.Nonce = .ok true ∧
    (∀ err, InvitesRepository.Create now s1 row = .error err →
      handleInviteCreate lib now s r = (.apiError InternalError, s1)) ∧
    (∀ s2, InvitesRepository.Create now s1 row = .ok s2 →
      handleInviteCreate lib now s r = (.json 201 invite, s2) ∧
      InvitesRepository.CheckNonceUsed s2 "invite" invite.VaultID.Bytes
        invite.CreatedByDeviceID invite.Nonce = .ok true ∧
      InvitesRepository.Get s2 invite.InviteID.Bytes =
        .ok (some { row with CreatedAt := if row.CreatedAt == "" then now
          else row.CreatedAt })) := by
  obtain ⟨_, _, _, _, _, _, _, _, _, _, _, _, hrest⟩ := ValidateInvite_ok_inv hval
  obtain ⟨_, _, _, _, _, _, _, _, _, _, hnonce, _, _, _, hrow⟩ := hrest
  have hid : row.InviteID = invite.InviteID.Bytes := by rw [hrow]
  refine ⟨hnonce, ?_⟩
  rw [InvitesRepository.CheckNonceUsed_eq] at hnonce
  injection hnonce with hnonce
  have hrec : InvitesRepository.RecordNonceUsed now s "invite" invite.VaultID.Bytes
      invite.CreatedByDeviceID invite.Nonce
      = .ok { s with usedNonces := s.usedNonces ++
        [{ NonceType := "invite", VaultID := invite.VaultID.Bytes,
           DeviceID := invite.CreatedByDeviceID, Nonce := invite.Nonce, CreatedAt := now }] } := by
    unfold InvitesRepository.RecordNonceUsed
    unfold Store.hasNonce at hnonce
    simp only [] at hnonce
    rw [if_neg (by rw [hnonce]; decide)]
  have hused : InvitesRepository.CheckNonceUsed
      { s with usedNonces := s.usedNonces ++
        [{ NonceType := "invite", VaultID := invite.VaultID.Bytes,
           DeviceID := invite.CreatedByDeviceID, Nonce := invite.Nonce, CreatedAt := now }] }
      "invite" invite.VaultID.Bytes invite.CreatedByDeviceID invite.Nonce = .ok true := by
    rw [InvitesRepository.CheckNonceUsed_eq]
    simp [Store.hasNonce]
  obtain ⟨path, body⟩ := r
  simp only [] at hp hb
  subst hp
  subst hb
  rw [hrec] at hs1
  injection hs1 with hs1
  subst hs1
  refine ⟨rfl, hused, ?_, ?_⟩
  · intro err herr
    unfold handleInviteCreate
    simp only [hv, bne_self_eq_false, Bool.false_eq_true, ↓reduceIte, hval, hrec, herr]
  · intro s2 hs2
    refine ⟨?_, ?_, ?_⟩
    · unfold handleInviteCreate
      simp only [hv, bne_self_eq_false, Bool.false_eq_true, ↓reduceIte, hval, hrec, hs2]
    · have hn := InvitesRepository.Create_invite_usedNonces hs2
      rw [InvitesRepository.CheckNonceUsed_eq, Store.hasNonce_congr hn,
        ← InvitesRepository.CheckNonceUsed_eq]
      exact hused
    · unfold InvitesRepository.Create at hs2
      dsimp only at hs2
      split at hs2
      · contradiction
      · rename_i hany
        injection hs2 with hs2
        subst hs2
        unfold InvitesRepository.Get
        simp only []
        rw [← hid, find?_append_of_any_false _ _ _ (by simpa using hany) (by simp)]

/-- C28, amended, on concrete inputs: `inviteSameID` posted to `storeAfterInvite`.
Its nonce is not recorded before and is recorded after, the insert of the row
fails, and the handler answers 500 leaving `storeNonceLeft`. -/
theorem invite_create_writes_witness :
    InvitesRepository.CheckNonceUsed storeAfterInvite "invite" inviteSameID.VaultID.Bytes
      inviteSameID.CreatedByDeviceID inviteSameID.Nonce = .ok false ∧
    InvitesRepository.CheckNonceUsed storeNonceLeft "invite" inviteSameID.VaultID.Bytes
      inviteSameID.CreatedByDeviceID inviteSameID.Nonce = .ok true ∧
    handleInviteCreate testLib "2024-01-08T00:00:00Z" storeAfterInvite requestInviteSameID
      = (.apiError InternalError, storeNonceLeft) :=
  have h := invite_create_writes testLib "2024-01-08T00:00:00Z" storeAfterInvite storeNonceLeft
    requestInviteSameID vaultA inviteSameID inviteRowSameID rfl rfl rfl
    ValidateInvite_inviteSameID rfl
  ⟨h.1, h.2.2.1, h.2.2.2.1 .uniqueViolation (by decide!)⟩

/-! ## Error codes (C29) -/

/-- C29 (as stated) fails: `MembershipRequired` and `OwnerRequired` are built
by `Forbidden` and both carry the code `forbidden`, not `membership_required`
and `owner_required`; `DuplicateDevice` and `InviteAlreadyUsed` are built by
`Conflict` and both carry the code `conflict`.  The code alone does not tell
the two apart. -/
theorem semantic_errors_share_codes :
    MembershipRequired.Code = "forbidden" ∧ OwnerRequired.Code = "forbidden" ∧
    MembershipRequired.Code ≠ "membership_required" ∧
    OwnerRequired.Code ≠ "owner_required" ∧
    MembershipRequired.Code = OwnerRequired.Code ∧
    DuplicateDevice.Code = "conflict" ∧ InviteAlreadyUsed.Code = "conflict" ∧
    DuplicateDevice.Code ≠ "duplicate_device" ∧
    InviteAlreadyUsed.Code ≠ "invite_already_used" ∧
    DuplicateDevice.Code = InviteAlreadyUsed.Code :=
  ⟨rfl, rfl, by decide, by decide, rfl, rfl, rfl, by decide, by decide, rfl⟩

/-- C29, amended.  The errors built by `MembershipRequired` and
`OwnerRequired` carry the code `forbidden` and the HTTP status 403; those built
by `DuplicateDevice`, `InviteAlreadyUsed` and `Conflict` carry the code
`conflict` and the status 409.  The code tells the two groups apart; inside a
group the errors differ in their message only (`Conflict m` from the two named
ones exactly when `m` is not their message). -/
theorem semantic_error_codes (m : String) :
    (MembershipRequired.Code = "forbidden" ∧ MembershipRequired.StatusCode = 403) ∧
    (OwnerRequired.Code = "forbidden" ∧ OwnerRequired.StatusCode = 403) ∧
    (DuplicateDevice.Code = "conflict" ∧ DuplicateDevice.StatusCode = 409) ∧
    (InviteAlreadyUsed.Code = "conflict" ∧ InviteAlreadyUsed.StatusCode = 409) ∧
    ((Conflict m).Code = "conflict" ∧ (Conflict m).StatusCode = 409) ∧
    MembershipRequired.Code ≠ (Conflict m).Code ∧
    MembershipRequired.Message ≠ OwnerRequired.Message ∧
    DuplicateDevice.Message ≠ InviteAlreadyUsed.Message ∧
    (Conflict m = DuplicateDevice ↔ m = "device already registered with different keys") ∧
    (Conflict m = InviteAlreadyUsed ↔ m = "invite has already been used") := by
  have hne : MembershipRequired.Code ≠ "conflict" := by decide
  refine ⟨⟨rfl, rfl⟩, ⟨rfl, rfl⟩, ⟨rfl, rfl⟩, ⟨rfl, rfl⟩, ⟨rfl, rfl⟩, hne, by decide,
    by decide, ?_, ?_⟩
  · constructor
    · intro h
      exact congrArg APIError.Message h
    · intro h
      subst h
      rfl
  · constructor
    · intro h
      exact congrArg APIError.Message h
    · intro h
      subst h
      rfl

/-- C29, amended, on concrete inputs: the conflict error of the genesis branch
of `ValidateMemberAdd`, `Conflict "vault already exists"`, has the code and the
status of `DuplicateDevice` and `InviteAlreadyUsed` and is neither of them. -/
theorem semantic_error_codes_witness :
    (Conflict "vault already exists").Code = DuplicateDevice.Code ∧
    (Conflict "vault already exists").StatusCode = 409 ∧
    Conflict "vault already exists" ≠ DuplicateDevice ∧
    Conflict "vault already exists" ≠ InviteAlreadyUsed :=
  have h := semantic_error_codes "vault already exists"
  ⟨h.2.2.2.2.1.1.trans h.2.2.1.1.symm, h.2.2.2.2.1.2,
   fun e => absurd (h.2.2.2.2.2.2.2.2.1.mp e) (by decide),
   fun e => absurd (h.2.2.2.2.2.2.2.2.2.mp e) (by decide)⟩

/-! ## Snapshot pruning (C30) -/

theorem snapshotsToKeep_perm (l : List SnapshotRow) (k : Nat)
    (hnd : (l.map (fun r => r.SnapshotID)).Nodup) :
    (l.filter (fun r =>
        (((l.insertionSort (fun a b => b.BaseSeq ≤ a.BaseSeq)).take k).map
          (fun r => r.SnapshotID)).contains r.SnapshotID)).Perm
      ((l.insertionSort (fun a b => b.BaseSeq ≤ a.BaseSeq)).take k) := by
  have hperm := List.perm_insertionSort (fun a b : SnapshotRow => b.BaseSeq ≤ a.BaseSeq) l
  have hl : l.Nodup := List.Nodup.of_map _ hnd
  have hinj : ∀ a ∈ l, ∀ b ∈ l, a.SnapshotID = b.SnapshotID → a = b :=
    fun a ha b hb h => List.inj_on_of_nodup_map hnd ha hb h
  have hts : ∀ x, x ∈ (l.insertionSort (fun a b => b.BaseSeq ≤ a.BaseSeq)).take k → x ∈ l :=
    fun x hx => hperm.subset (List.take_subset _ _ hx)
  apply (List.perm_ext_iff_of_nodup (hl.filter _)
    ((hperm.nodup_iff.mpr hl).sublist (List.take_sublist _ _))).mpr
  intro x
  simp only [List.mem_filter, List.contains_eq_any_beq, List.any_eq_true, beq_iff_eq,
    List.mem_map, exists_exists_and_eq_and]
  constructor
  · rintro ⟨hx, y, hy, hxy⟩
    rw [← hinj y (hts y hy) x hx hxy.symm]
    exact hy
  · intro hx
    exact ⟨hts x hx, x, hx, rfl⟩

theorem handleSnapshotCreate_ok {lib : CryptoLib} {now : String} {s s2 : Store}
    {r : Request Snapshot} {snapshot : Snapshot} {status : Nat}
    (h : handleSnapshotCreate lib now s r = (.json status snapshot, s2)) :
    ∃ row, ValidateSnapshot lib s snapshot = .ok row ∧
      s.snapshots.any (fun x => x.SnapshotID == row.SnapshotID) = false ∧
      s2.snapshots = s.snapshots ++
        [{ row with CreatedAt := if row.CreatedAt == "" then now else row.CreatedAt }] := by
  obtain ⟨path, body⟩ := r
  unfold handleSnapshotCreate at h
  cases path with
  | none => simp at h
  | some vaultID =>
    cases body with
    | error err => simp at h
    | ok a =>
      simp only at h
      by_cases hv : (vaultID.Bytes != a.VaultID.Bytes) = true
      · simp [hv] at h
      · simp only [hv, Bool.false_eq_true, ↓reduceIte] at h
        cases hval : ValidateSnapshot lib s a with
        | error e => simp [hval] at h
        | ok row =>
          simp only [hval] at h
          cases hrec : InvitesRepository.RecordNonceUsed now s "snapshot" vaultID.Bytes
              a.CreatedByDeviceID a.Nonce with
          | error e => simp [hrec] at h
          | ok s1 =>
            simp only [hrec] at h
            have hs1 : s1.snapshots = s.snapshots := by
              unfold InvitesRepository.RecordNonceUsed at hrec
              split at hrec <;> (injection hrec with hrec; subst hrec; rfl)
            cases hc : SnapshotsRepository.Create now s1 row with
            | error e => simp [hc] at h
            | ok s3 =>
              simp only [hc] at h
              injection h with h1 h2
              injection h1 with _ h1
              subst h1
              subst h2
              unfold SnapshotsRepository.Create at hc
              dsimp only at hc
              split at hc
              · contradiction
              · rename_i hany
                injection hc with hc
                subst hc
                rw [hs1] at hany
                exact ⟨row, hval, by simpa using hany, by simp only [hs1]⟩

/-- What `PruneOld` leaves when the snapshot ids of the store are pairwise
distinct: of the vault's snapshots the `k` with the highest `base_seq` (all of
them when there are at most `k`), every other vault's snapshots untouched. -/
theorem SnapshotsRepository.PruneOld_spec {t t3 : Store} {v : Bytes} {k : Nat}
    (hnd : (t.snapshots.map (fun r => r.SnapshotID)).Nodup)
    (h : SnapshotsRepository.PruneOld t v k = .ok t3) :
    (t3.snapshots.filter (fun r => r.VaultID == v)).length =
      min k (t.snapshots.filter (fun r => r.VaultID == v)).length ∧
    ((t.snapshots.filter (fun r => r.VaultID == v)).length ≤ k →
      t3.snapshots = t.snapshots) ∧
    (∀ kept ∈ t3.snapshots, kept.VaultID = v → ∀ dropped ∈ t.snapshots,
      dropped.VaultID = v → dropped ∉ t3.snapshots → dropped.BaseSeq ≤ kept.BaseSeq) ∧
    t3.snapshots.Sublist t.snapshots ∧
    t3.snapshots.filter (fun r => r.VaultID != v) =
      t.snapshots.filter (fun r => r.VaultID != v) := by
  unfold SnapshotsRepository.PruneOld snapshotsToKeep at h
  injection h with h
  subst h
  simp only []
  have hndL : ((t.snapshots.filter (fun r => r.VaultID == v)).map
      (fun r => r.SnapshotID)).Nodup :=
    hnd.sublist ((List.filter_sublist _).map _)
  have hperm := snapshotsToKeep_perm (t.snapshots.filter (fun r => r.VaultID == v)) k hndL
  have hps := List.perm_insertionSort (fun a b : SnapshotRow => b.BaseSeq ≤ a.BaseSeq)
    (t.snapshots.filter (fun r => r.VaultID == v))
  generalize hS : (t.snapshots.filter (fun r => r.VaultID == v)).insertionSort
    (fun a b => b.BaseSeq ≤ a.BaseSeq) = S at hperm hps
  have hsorted : S.Pairwise (fun a b => b.BaseSeq ≤ a.BaseSeq) := by
    haveI : IsTotal SnapshotRow (fun a b => b.BaseSeq ≤ a.BaseSeq) :=
      ⟨fun a b => Nat.le_total _ _⟩
    haveI : IsTrans SnapshotRow (fun a b => b.BaseSeq ≤ a.BaseSeq) :=
      ⟨fun a b c hab hbc => Nat.le_trans hbc hab⟩
    rw [← hS]
    exact List.sorted_insertionSort _ _
  have hff : (t.snapshots.filter (fun r =>
        !(r.VaultID == v && !((S.take k).map (fun r => r.SnapshotID)).contains r.SnapshotID))
      ).filter (fun r => r.VaultID == v) =
      (t.snapshots.filter (fun r => r.VaultID == v)).filter (fun r =>
        ((S.take k).map (fun r => r.SnapshotID)).contains r.SnapshotID) := by
    rw [List.filter_filter, List.filter_filter]
    apply List.filter_congr
    intro x _
    cases (x.VaultID == v) <;> simp
  have hkeptmem : ∀ x, x ∈ t.snapshots → x.VaultID = v →
      (x ∈ S.take k ↔
        ((S.take k).map (fun r => r.SnapshotID)).contains x.SnapshotID = true) := by
    intro x hx hxv
    rw [← hperm.mem_iff, List.mem_filter, List.mem_filter]
    simp [hx, hxv]
  refine ⟨?_, ?_, ?_, List.filter_sublist _, ?_⟩
  · rw [hff, hperm.length_eq, List.length_take, ← hps.length_eq]
  · intro hle
    apply List.filter_eq_self.mpr
    intro x hx
    by_cases hxv : x.VaultID = v
    · have hxS : x ∈ S.take k := by
        rw [List.take_of_length_le (by rw [hps.length_eq]; exact hle)]
        exact hps.symm.subset (List.mem_filter.mpr ⟨hx, by simp [hxv]⟩)
      rw [(hkeptmem x hx hxv).mp hxS]
      simp
    · simp [hxv]
  · intro kept hkept hkv dropped hdropped hdv hgone
    have hk1 := List.mem_filter.mp hkept
    have hkS : kept ∈ S.take k := by
      rw [hkeptmem kept hk1.1 hkv]
      have := hk1.2
      simpa [hkv] using this
    have hdS : dropped ∉ S.take k := by
      intro hd
      apply hgone
      rw [List.mem_filter]
      refine ⟨hdropped, ?_⟩
      rw [(hkeptmem dropped hdropped hdv).mp hd]
      simp
    have hdS2 : dropped ∈ S.drop k := by
      have hd : dropped ∈ S :=
        hps.symm.subset (List.mem_filter.mpr ⟨hdropped, by simp [hdv]⟩)
      rw [← List.take_append_drop k S, List.mem_append] at hd
      exact hd.resolve_left hdS
    rw [← List.take_append_drop k S, List.pairwise_append] at hsorted
    exact hsorted.2.2 kept hkS dropped hdS2
  · rw [List.filter_filter]
    apply List.filter_congr
    intro x _
    by_cases hxv : x.VaultID = v <;> simp [hxv]

/-- `ValidateSnapshot` reads the tables `vaults`, `vault_membership_heads`,
`vault_members` and `used_nonces`. -/
theorem ValidateSnapshot_congr (lib : CryptoLib) {s s1 : Store} (snap : Snapshot)
    (h1 : s1.vaults = s.vaults) (h2 : s1.vaultMembershipHeads = s.vaultMembershipHeads)
    (h3 : s1.vaultMembers = s.vaultMembers) (h4 : s1.usedNonces = s.usedNonces) :
    ValidateSnapshot lib s1 snap = ValidateSnapshot lib s snap := by
  unfold ValidateSnapshot
  simp only [VaultsRepository.Get, VaultsRepository.GetMembershipHead,
    VaultsRepository.GetMember, InvitesRepository.CheckNonceUsed, h1, h2, h3, h4]

/-- The run of `handleSnapshotCreate` when the validator has accepted and both
writes succeed: the answer is 201. -/
theorem handleSnapshotCreate_insert_ok {lib : CryptoLib} {now : String} {s s1 s2 : Store}
    {r : Request Snapshot} {vaultID : UUID} {snapshot : Snapshot} {row : SnapshotRow}
    (hp : r.pathVaultID = some vaultID) (hb : r.body = .ok snapshot)
    (hv : vaultID.Bytes = snapshot.VaultID.Bytes)
    (hval : ValidateSnapshot lib s snapshot = .ok row)
    (hs1 : InvitesRepository.RecordNonceUsed now s "snapshot" snapshot.VaultID.Bytes
      snapshot.CreatedByDeviceID snapshot.Nonce = .ok s1)
    (hc : SnapshotsRepository.Create now s1 row = .ok s2) :
    handleSnapshotCreate lib now s r = (.json 201 snapshot, s2) := by
  obtain ⟨path, body⟩ := r
  simp only [] at hp hb
  subst hp
  subst hb
  unfold handleSnapshotCreate
  simp only [hv, bne_self_eq_false, Bool.false_eq_true, ↓reduceIte, hval, hs1, hc]

theorem handleSnapshotCreate_storeThreeSnapshots :
    handleSnapshotCreate testLib "2024-01-09T00:00:00Z" storeThreeSnapshots requestSnapshotOne
      = (.json 201 snapshot1, storeFourSnapshots) :=
  handleSnapshotCreate_insert_ok (rfl : requestSnapshotOne.pathVaultID = some vaultA)
    (rfl : requestSnapshotOne.body = .ok snapshot1) rfl
    ((@ValidateSnapshot_congr testLib storeA storeThreeSnapshots snapshot1 rfl rfl rfl rfl).trans
      ValidateSnapshot_snapshot1)
    (rfl : InvitesRepository.RecordNonceUsed "2024-01-09T00:00:00Z" storeThreeSnapshots
      "snapshot" snapshot1.VaultID.Bytes snapshot1.CreatedByDeviceID snapshot1.Nonce
      = .ok { storeThreeSnapshots with usedNonces :=
          [{ NonceType := "snapshot", VaultID := vaultA.Bytes, DeviceID := devOwner,
             Nonce := nonceN, CreatedAt := "2024-01-09T00:00:00Z" }] })
    (rfl : SnapshotsRepository.Create "2024-01-09T00:00:00Z"
      { storeThreeSnapshots with usedNonces :=
          [{ NonceType := "snapshot", VaultID := vaultA.Bytes, DeviceID := devOwner,
             Nonce := nonceN, CreatedAt := "2024-01-09T00:00:00Z" }] } snapshotRow1
      = .ok storeFourSnapshots)

theorem PruneOld_storeFourSnapshots :
    SnapshotsRepository.PruneOld storeFourSnapshots snapshot1.VaultID.Bytes 3
      = .ok storePruned := by decide!

/-- C30 (as stated) fails: `PruneOld` keeps the three snapshots with the
highest `base_seq`, not the three inserted last.  Vault A holds snapshots with
`base_seq` 10, 20 and 30; `handleSnapshotCreate` accepts and inserts
`snapshot1`, whose `base_seq` is 1; `PruneOld(A, 3)` then deletes the snapshot
just inserted and keeps the three older ones. -/
theorem prune_drops_inserted_snapshot :
    handleSnapshotCreate testLib "2024-01-09T00:00:00Z" storeThreeSnapshots requestSnapshotOne
      = (.json 201 snapshot1, storeFourSnapshots) ∧
    storeFourSnapshots.snapshots.map (fun r => (r.SnapshotID, r.VaultID, r.BaseSeq)) =
      [(List.replicate 16 0x51, vaultA.Bytes, 10), (List.replicate 16 0x52, vaultA.Bytes, 20),
       (List.replicate 16 0x53, vaultA.Bytes, 30),
       (snapshot1.SnapshotID.Bytes, vaultA.Bytes, 1)] ∧
    SnapshotsRepository.PruneOld storeFourSnapshots vaultA.Bytes 3 = .ok storePruned ∧
    storePruned.snapshots.map (fun r => (r.SnapshotID, r.VaultID, r.BaseSeq)) =
      [(List.replicate 16 0x51, vaultA.Bytes, 10), (List.replicate 16 0x52, vaultA.Bytes, 20),
       (List.replicate 16 0x53, vaultA.Bytes, 30)] ∧
    storePruned.snapshots.any (fun r => r.SnapshotID == snapshot1.SnapshotID.Bytes) = false :=
  ⟨handleSnapshotCreate_storeThreeSnapshots, by decide!, PruneOld_storeFourSnapshots,
   by decide!, by decide!⟩

/-- C30, amended.  For every store whose snapshot ids are pairwise distinct,
after `handleSnapshotCreate` has accepted and inserted a snapshot for vault V
and `PruneOld(V, 3)` has run: V retains min(3, n) of its n snapshots, all of
them when n is at most 3; every snapshot of V that was deleted has a `base_seq`
not above that of any snapshot of V that was kept (the three with the highest
`base_seq` are retained, which need not include the one just inserted);
nothing is added; and the snapshots of every other vault are those of the
initial store. -/
theorem prune_keeps_highest_base_seq (lib : CryptoLib) (now : String) (s s2 s3 : Store)
    (r : Request Snapshot) (snapshot : Snapshot)
    (hnd : (s.snapshots.map (fun x => x.SnapshotID)).Nodup)
    (hres : handleSnapshotCreate lib now s r = (.json 201 snapshot, s2))
    (hprune : SnapshotsRepository.PruneOld s2 snapshot.VaultID.Bytes 3 = .ok s3) :
    (∃ row, ValidateSnapshot lib s snapshot = .ok row ∧
      s2.snapshots = s.snapshots ++
        [{ row with CreatedAt := if row.CreatedAt == "" then now else row.CreatedAt }]) ∧
    (s3.snapshots.filter (fun x => x.VaultID == snapshot.VaultID.Bytes)).length =
      min 3 (s2.snapshots.filter (fun x => x.VaultID == snapshot.VaultID.Bytes)).length ∧
    ((s2.snapshots.filter (fun x => x.VaultID == snapshot.VaultID.Bytes)).length ≤ 3 →
      s3.snapshots = s2.snapshots) ∧
    (∀ kept ∈ s3.snapshots, kept.VaultID = snapshot.VaultID.Bytes → ∀ dropped ∈ s2.snapshots,
      dropped.VaultID = snapshot.VaultID.Bytes → dropped ∉ s3.snapshots →
      dropped.BaseSeq ≤ kept.BaseSeq) ∧
    s3.snapshots.Sublist s2.snapshots ∧
    s3.snapshots.filter (fun x => x.VaultID != snapshot.VaultID.Bytes) =
      s.snapshots.filter (fun x => x.VaultID != snapshot.VaultID.Bytes) := by
  obtain ⟨row, hval, hfresh, hs2⟩ := handleSnapshotCreate_ok hres
  have hrow : row.VaultID = snapshot.VaultID.Bytes := by
    obtain ⟨_, _, _, _, _, _, _, _, _, _, _, _, hrest⟩ := ValidateSnapshot_ok_inv hval
    obtain ⟨_, _, _, _, _, _, _, _, _, _, _, _, hrow⟩ := hrest
    rw [hrow]
  have hnd2 : (s2.snapshots.map (fun x => x.SnapshotID)).Nodup := by
    rw [hs2, List.map_append, List.map_singleton]
    apply List.Nodup.append hnd (List.nodup_singleton _)
    rw [List.disjoint_singleton]
    intro hmem
    obtain ⟨x, hx, hxid⟩ := List.mem_map.mp hmem
    rw [List.any_eq_false] at hfresh
    exact hfresh x hx (by simpa using hxid)
  obtain ⟨h1, h2, h3, h4, h5⟩ := SnapshotsRepository.PruneOld_spec hnd2 hprune
  refine ⟨⟨row, hval, hs2⟩, h1, h2, h3, h4, ?_⟩
  rw [h5, hs2, List.filter_append]
  simp [hrow]

/-- C30, amended, on concrete inputs: the stores of the counterexample. -/
theorem prune_keeps_highest_base_seq_witness :
    (storeThreeSnapshots.snapshots.map (fun x => x.SnapshotID)).Nodup ∧
    (storePruned.snapshots.filter (fun x => x.VaultID == snapshot1.VaultID.Bytes)).length =
      min 3 (storeFourSnapshots.snapshots.filter
        (fun x => x.VaultID == snapshot1.VaultID.Bytes)).length ∧
    (∀ kept ∈ storePruned.snapshots, kept.VaultID = snapshot1.VaultID.Bytes →
      ∀ dropped ∈ storeFourSnapshots.snapshots, dropped.VaultID = snapshot1.VaultID.Bytes →
      dropped ∉ storePruned.snapshots → dropped.BaseSeq ≤ kept.BaseSeq) ∧
    storePruned.snapshots.filter (fun x => x.VaultID != snapshot1.VaultID.Bytes) =
      storeThreeSnapshots.snapshots.filter (fun x => x.VaultID != snapshot1.VaultID.Bytes) :=
  have hnd : (storeThreeSnapshots.snapshots.map (fun x => x.SnapshotID)).Nodup := by decide!
  have h := prune_keeps_highest_base_seq testLib "2024-01-09T00:00:00Z" storeThreeSnapshots
    storeFourSnapshots storePruned requestSnapshotOne snapshot1 hnd
    handleSnapshotCreate_storeThreeSnapshots PruneOld_storeFourSnapshots
  ⟨hnd, h.2.1, h.2.2.2.1, h.2.2.2.2.2⟩

end Forgor
